import Mathlib

/-!
# Foreign-key constraint engine, field definitions and index definitions

A shallow embedding of the code generator in `src/box/sql/fkey.c`, of the
field types and the field-definition decoder in `src/box/field_def.c` and of
the index definitions in `src/box/index_def.c`.  The generator appends
VDBE instructions to the program under construction; the embedding keeps the
instruction list, the label table and the parser counters as explicit state.
Parts of the repository that `fkey.c` calls but that live in other files
(the VDBE instruction set, the label table, the register allocator, the
expression constructors) are modelled next to it and marked as such.
-/

namespace Tarantool

/-! ## Field types (`field_def.c`) -/

/-- Mirrors `enum field_type`, in the order of `field_type_strs`. -/
inductive field_type
  | FIELD_TYPE_ANY
  | FIELD_TYPE_UNSIGNED
  | FIELD_TYPE_STRING
  | FIELD_TYPE_NUMBER
  | FIELD_TYPE_INTEGER
  | FIELD_TYPE_BOOLEAN
  | FIELD_TYPE_SCALAR
  | FIELD_TYPE_ARRAY
  | FIELD_TYPE_MAP
deriving DecidableEq, Repr

/-- The enumerator `field_type_MAX`: the number of field types. -/
def field_type_MAX : Nat := 9

/-- The numeric value of a field type. -/
def field_type.toNat : field_type → Nat
  | FIELD_TYPE_ANY => 0
  | FIELD_TYPE_UNSIGNED => 1
  | FIELD_TYPE_STRING => 2
  | FIELD_TYPE_NUMBER => 3
  | FIELD_TYPE_INTEGER => 4
  | FIELD_TYPE_BOOLEAN => 5
  | FIELD_TYPE_SCALAR => 6
  | FIELD_TYPE_ARRAY => 7
  | FIELD_TYPE_MAP => 8

/-- The array `field_type_compatibility`, row by row. -/
def field_type_compatibility : List Bool :=
  [ true, false, false, false, false, false, false, false, false,
    true, true, false, true, true, false, true, false, false,
    true, false, true, false, false, false, true, false, false,
    true, false, false, true, false, false, true, false, false,
    true, false, false, true, true, false, true, false, false,
    true, false, false, false, false, true, true, false, false,
    true, false, false, false, false, false, true, false, false,
    true, false, false, false, false, false, false, true, false,
    true, false, false, false, false, false, false, false, true ]

/-- Embeds `field_type1_contains_type2`. -/
def field_type1_contains_type2 (type1 type2 : field_type) : Bool :=
  let idx := type2.toNat * field_type_MAX + type1.toNat
  field_type_compatibility.getD idx false

/-! ## Data model -/

/-- Mirrors `struct field_link`: one pair of linked columns of a foreign key. -/
structure field_link where
  parent_field : Nat
  child_field : Nat
deriving DecidableEq, Repr

/-- Mirrors `enum fkey_action`. -/
inductive fkey_action
  | FKEY_NO_ACTION
  | FKEY_ACTION_SET_NULL
  | FKEY_ACTION_SET_DEFAULT
  | FKEY_ACTION_CASCADE
  | FKEY_ACTION_RESTRICT
deriving DecidableEq, Repr

/-- Mirrors `struct fkey_def`.  The C field `field_count` is the length of the
flexible array `links`; see `fkey_def.field_count`. -/
structure fkey_def where
  child_id : Nat
  parent_id : Nat
  links : List field_link
  is_deferred : Bool
  on_delete : fkey_action
  on_update : fkey_action
deriving DecidableEq, Repr

/-- Number of links of the constraint (`fk_def->field_count`). -/
def fkey_def.field_count (d : fkey_def) : Nat := d.links.length

/-- The two bits of `session->sql_flags` that `fkey.c` tests, one field per bit
(`SQLITE_ForeignKeys`, `SQLITE_DeferFKs`); their numeric values are defined
outside the excerpt and never used as numbers. -/
structure session where
  SQLITE_ForeignKeys : Bool
  SQLITE_DeferFKs : Bool
deriving DecidableEq, Repr

/-- `AFFINITY_UNDEFINED`, the affinity of a column that declares none. -/
def AFFINITY_UNDEFINED : Nat := 0

/-- `COLL_NONE`, the collation id of a column without collation
(`UINT32_MAX`). -/
def COLL_NONE : Nat := 2 ^ 32 - 1

/-- `ON_CONFLICT_ACTION_NONE`, first entry of `on_conflict_action_strs`. -/
def ON_CONFLICT_ACTION_NONE : Nat := 0

/-- `ON_CONFLICT_ACTION_DEFAULT`, last entry of `on_conflict_action_strs`. -/
def ON_CONFLICT_ACTION_DEFAULT : Nat := 6

/-- The enumerator `on_conflict_action_MAX`: the number of actions. -/
def on_conflict_action_MAX : Nat := 7

/-- Mirrors `struct field_def`, one column of a space definition.  The two
enumerations are kept by their numeric values, so that the sentinels
`field_type_MAX` and `on_conflict_action_MAX` can be stored as the C code
stores them; a NULL string is `none`.  The default expression is kept by its
source text. -/
structure field_def where
  type : Nat
  affinity : Nat
  name : Option String
  is_nullable : Bool
  nullable_action : Nat
  coll_id : Nat
  default_value : Option String
  default_value_expr : Option String
deriving DecidableEq, Repr

/-- The constant `field_def_default`. -/
def field_def_default : field_def :=
  { type := field_type.FIELD_TYPE_ANY.toNat,
    affinity := AFFINITY_UNDEFINED,
    name := none,
    is_nullable := false,
    nullable_action := ON_CONFLICT_ACTION_DEFAULT,
    coll_id := COLL_NONE,
    default_value := none,
    default_value_expr := none }

/-- Mirrors `struct space_def`, as far as `fkey.c` reads it. -/
structure space_def where
  id : Nat
  name : String
  fields : List field_def
deriving DecidableEq, Repr

/-! ## Expressions built by the generator -/

/-- `AFFINITY_INTEGER`, the affinity `exprTableRegister` gives the key register. -/
def AFFINITY_INTEGER : Nat := 68

/-- Expression trees, one constructor per token kind that `fkey.c` builds. -/
inductive Expr
  | TK_REGISTER (iTable : Nat) (affinity : Nat)
  | TK_COLLATE (e : Expr) (coll : String)
  | TK_COLUMN (space_id : Nat) (iTable : Nat) (iColumn : Nat)
  | TK_ID (zToken : String)
  | TK_NULL
  | TK_INTEGER (v : Int)
  | TK_RAISE (zToken : String) (affinity : Int)
  | TK_DEFAULT (zExpr : String)
  | TK_EQ (l r : Expr)
  | TK_AND (l r : Expr)
  | TK_DOT (l r : Expr)
  | TK_NOT (e : Expr)
deriving DecidableEq, Repr

/-- Modelled from the spec: `sqlite3ExprAnd` (expr.c) joins two optional
conjuncts; a missing side yields the other side, otherwise a `TK_AND` node.
The always-false folding of the original applies only to integer literals,
which `fkey.c` never passes. -/
def sqlite3ExprAnd (pLeft pRight : Option Expr) : Option Expr :=
  match pLeft, pRight with
  | none, r => r
  | some l, none => some l
  | some l, some r => some (Expr.TK_AND l r)

/-- Mirrors `struct SrcList_item` for the single entry `fkey.c` creates. -/
structure SrcList_item where
  zName : String
  iCursor : Nat
deriving DecidableEq, Repr

/-! ## The VDBE program under construction -/

/-- The token codes `fkActionTrigger` stores in `trigger->op` and in
`pStep->op`; their numeric values (parse.h) are never used as numbers. -/
inductive trigger_op
  | TK_SELECT
  | TK_DELETE
  | TK_UPDATE
deriving DecidableEq, Repr

/-- Mirrors `struct sql_trigger` for the one-step programs of `fkActionTrigger`:
the trigger operation `op`, and of its single `TriggerStep` the target space
`zTarget`, the step operation `step_op`, the WHERE clause, the named assignment
list, the RAISE select (result list, source space, WHERE clause); `pWhen` is
the WHEN clause of the trigger. -/
structure sql_trigger where
  op : trigger_op
  zTarget : String
  step_op : trigger_op
  pWhere : Option Expr
  pExprList : List (String × Expr)
  pSelect : Option (List Expr × String × Option Expr)
  pWhen : Option Expr
deriving DecidableEq, Repr

/-- The VDBE opcodes `fkey.c` emits.  `OP_WhereBegin` and `OP_WhereEnd` are
place-holders for the loop head and loop tail that `sqlite3WhereBegin` and
`sqlite3WhereEnd` (where.c) generate around the instructions emitted between
the two calls; `OP_Program` stands for the call of a trigger program that
`vdbe_code_row_trigger_direct` (trigger.c) generates. -/
inductive Opcode
  | OP_FkIfZero
  | OP_IsNull
  | OP_OpenWrite
  | OP_Copy
  | OP_Ne
  | OP_Goto
  | OP_MakeRecord
  | OP_Found
  | OP_Halt
  | OP_FkCounter
  | OP_Close
  | OP_WhereBegin
  | OP_WhereEnd
  | OP_Program
deriving DecidableEq, Repr

/-- The fourth operand of an instruction. -/
inductive P4
  | P4_NOTUSED
  | P4_STATIC (z : Option String)
  | P4_DYNAMIC (space_id : Nat) (index_id : Nat)
  | P4_INT32 (i : Int)
  | P4_WHERE (pSrc : SrcList_item) (pWhere : Option Expr)
  | P4_SUBPROGRAM (pTrigger : sql_trigger)
deriving DecidableEq, Repr

/-- Mirrors `struct VdbeOp`. -/
structure VdbeOp where
  opcode : Opcode
  p1 : Int
  p2 : Int
  p3 : Int
  p4 : P4
  p5 : Nat
deriving DecidableEq, Repr

/-- The program under construction: the instruction array `aOp` (so that
`nOp = aOp.length`) and the label table `aLabel`, whose entry is `none` until
the label is resolved. -/
structure Vdbe where
  aOp : List VdbeOp
  aLabel : List (Option Nat)
deriving DecidableEq, Repr

/-- Mirrors `struct fkey`: the definition, the referenced index and the two
memoized action triggers. -/
structure fkey where
  def_ : fkey_def
  index_id : Nat
  on_delete_trigger : Option sql_trigger
  on_update_trigger : Option sql_trigger
deriving DecidableEq, Repr

/-- Mirrors `struct space` as far as `fkey.c` reads it: the definition and the
two constraint lists (`child_fkey` chained by `fkey_child_next`, `parent_fkey`
chained by `fkey_parent_next`). -/
structure space where
  def_ : space_def
  child_fkey : List fkey
  parent_fkey : List fkey
deriving DecidableEq, Repr

/-- Mirrors `struct Table` as far as `fkey.c` reads it. -/
structure Table where
  def_ : space_def
  iPKey : Int
deriving DecidableEq, Repr

/-- Mirrors `struct Parse` as far as `fkey.c` reads or writes it.  `pToplevel`
is true when the C pointer is non-NULL (the parse is nested in a trigger
program); `mayAbort` is the flag of the top-level parse, which is where
`sqlite3MayAbort` writes; `pTriggerPrg` is the trigger of the top-level
parse's `pTriggerPrg`, when there is one. -/
structure Parse where
  pVdbe : Vdbe
  nTab : Nat
  nMem : Nat
  pToplevel : Bool
  isMultiWrite : Bool
  mayAbort : Bool
  pTriggerPrg : Option sql_trigger
deriving DecidableEq, Repr

/-- Modelled from the spec: `sqlite3VdbeAddOp4` and the fixed-arity wrappers
(vdbeaux.c) append one instruction at address `nOp`; `p5` starts at 0. -/
def sqlite3VdbeAddOp4 (v : Vdbe) (op : Opcode) (p1 p2 p3 : Int) (p4 : P4) : Vdbe :=
  { v with aOp := v.aOp ++ [{ opcode := op, p1 := p1, p2 := p2, p3 := p3, p4 := p4, p5 := 0 }] }

/-- Three-operand form of `sqlite3VdbeAddOp4`. -/
def sqlite3VdbeAddOp3 (v : Vdbe) (op : Opcode) (p1 p2 p3 : Int) : Vdbe :=
  sqlite3VdbeAddOp4 v op p1 p2 p3 P4.P4_NOTUSED

/-- Two-operand form of `sqlite3VdbeAddOp4`. -/
def sqlite3VdbeAddOp2 (v : Vdbe) (op : Opcode) (p1 p2 : Int) : Vdbe :=
  sqlite3VdbeAddOp3 v op p1 p2 0

/-- One-operand form of `sqlite3VdbeAddOp4`. -/
def sqlite3VdbeAddOp1 (v : Vdbe) (op : Opcode) (p1 : Int) : Vdbe :=
  sqlite3VdbeAddOp3 v op p1 0 0

/-- Form of `sqlite3VdbeAddOp4` whose fourth operand is an integer. -/
def sqlite3VdbeAddOp4Int (v : Vdbe) (op : Opcode) (p1 p2 p3 : Int) (p4 : Int) : Vdbe :=
  sqlite3VdbeAddOp4 v op p1 p2 p3 (P4.P4_INT32 p4)

/-- Address of the next instruction to be emitted (`v->nOp`). -/
def sqlite3VdbeCurrentAddr (v : Vdbe) : Nat := v.aOp.length

/-- Modelled from the spec: `sqlite3VdbeGoto` emits an unconditional jump. -/
def sqlite3VdbeGoto (v : Vdbe) (iDest : Int) : Vdbe :=
  sqlite3VdbeAddOp3 v Opcode.OP_Goto 0 iDest 0

/-- Modelled from the spec: `sqlite3VdbeChangeP5` sets `p5` of the instruction
emitted last. -/
def sqlite3VdbeChangeP5 (v : Vdbe) (p5 : Nat) : Vdbe :=
  match v.aOp.getLast? with
  | none => v
  | some op => { v with aOp := v.aOp.dropLast ++ [{ op with p5 := p5 }] }

/-- Modelled from the spec: `sqlite3VdbeMakeLabel` allocates the next label.
Label number `i` is handed out as the negative operand `-1 - i`, so that it
cannot be confused with an instruction address. -/
def sqlite3VdbeMakeLabel (v : Vdbe) : Int × Vdbe :=
  (-1 - (v.aLabel.length : Int), { v with aLabel := v.aLabel ++ [none] })

/-- Modelled from the spec: `sqlite3VdbeResolveLabel` binds label `x` to the
address of the next instruction to be emitted. -/
def sqlite3VdbeResolveLabel (v : Vdbe) (x : Int) : Vdbe :=
  { v with aLabel := v.aLabel.set (-1 - x).toNat (some v.aOp.length) }

/-- Modelled from the spec: the operand-resolution pass of the VDBE
(`resolveP2Values`): a non-negative `p2` is an address, a negative one names a
label and stands for the address the label was bound to. -/
def resolveP2 (v : Vdbe) (p2 : Int) : Option Nat :=
  if 0 ≤ p2 then some p2.toNat else (v.aLabel.getD (-1 - p2).toNat none)

/-- Modelled from the spec: `sqlite3GetTempRange` hands out `nReg` consecutive
registers above every register allocated so far. -/
def sqlite3GetTempRange (pParse : Parse) (nReg : Nat) : Nat × Parse :=
  (pParse.nMem + 1, { pParse with nMem := pParse.nMem + nReg })

/-- Modelled from the spec: `sqlite3GetTempReg` hands out one register above
every register allocated so far. -/
def sqlite3GetTempReg (pParse : Parse) : Nat × Parse :=
  (pParse.nMem + 1, { pParse with nMem := pParse.nMem + 1 })

/-- Modelled from the spec: `sqlite3MayAbort` marks the statement as one that
may abort after changing the database. -/
def sqlite3MayAbort (pParse : Parse) : Parse :=
  { pParse with mayAbort := true }

/-- `SQLITE_CONSTRAINT_FOREIGNKEY`, i.e. `SQLITE_CONSTRAINT | (3 << 8)`. -/
def SQLITE_CONSTRAINT_FOREIGNKEY : Int := 787

/-- `ON_CONFLICT_ACTION_ABORT`, third entry of `on_conflict_action_strs`. -/
def ON_CONFLICT_ACTION_ABORT : Int := 2

/-- `P5_ConstraintFK`, the error-message selector of `OP_Halt`. -/
def P5_ConstraintFK : Nat := 4

/-- `SQLITE_JUMPIFNULL`, the `p5` bit of a comparison that makes it jump when
an operand is NULL. -/
def SQLITE_JUMPIFNULL : Nat := 16

/-- Modelled from the spec: `sqlite3HaltConstraint` (build.c) emits the
`OP_Halt` that raises a constraint violation with the given error code and
conflict action, marking the statement may-abort for the ABORT action. -/
def sqlite3HaltConstraint (pParse : Parse) (errCode onError : Int) (p4 : P4)
    (p5Errmsg : Nat) : Parse :=
  let pParse := if onError = ON_CONFLICT_ACTION_ABORT then sqlite3MayAbort pParse else pParse
  let v := sqlite3VdbeAddOp4 pParse.pVdbe Opcode.OP_Halt errCode onError 0 p4
  { pParse with pVdbe := sqlite3VdbeChangeP5 v p5Errmsg }

/-- Modelled from the spec: `SQLITE_PAGENO_FROM_SPACEID_AND_INDEXID` packs a
space id and an index id into the number a cursor is opened on. -/
def SQLITE_PAGENO_FROM_SPACEID_AND_INDEXID (space_id index_id : Nat) : Nat :=
  (space_id <<< 10) ||| index_id

/-- Modelled from the spec: `vdbe_emit_open_cursor` emits the instruction that
opens cursor `cursor` on the index numbered `index_id`. -/
def vdbe_emit_open_cursor (pParse : Parse) (cursor : Nat) (index_id : Nat) : Parse :=
  { pParse with pVdbe := sqlite3VdbeAddOp2 pParse.pVdbe Opcode.OP_OpenWrite cursor index_id }

/-! ## `fkey_lookup_parent` -/

/-- Embeds `fkey_lookup_parent`: code for the child-side check of one
constraint on the row image stored at `reg_data`.  The C assertion
`incr_count == 1` in the immediate branch is not modelled: the halt is emitted
for any `incr_count`, as in a build without assertions.  The calls that hand
the temporary registers back (`sqlite3ReleaseTempReg`, `sqlite3ReleaseTempRange`)
emit nothing and are left out, the model of the allocator keeping no pool. -/
def fkey_lookup_parent (user_session : session) (parse_context : Parse) (parent : space)
    (fk_def : fkey_def) (referenced_idx : Nat) (reg_data : Nat) (incr_count : Int)
    (is_ignore : Bool) : Parse :=
  let cursor := parse_context.nTab - 1
  let (ok_label, v) := sqlite3VdbeMakeLabel parse_context.pVdbe
  let v := if incr_count < 0 then
      sqlite3VdbeAddOp2 v Opcode.OP_FkIfZero (if fk_def.is_deferred then 1 else 0) ok_label
    else v
  let v := fk_def.links.foldl
    (fun v l => sqlite3VdbeAddOp2 v Opcode.OP_IsNull (l.child_field + reg_data + 1 : Nat) ok_label) v
  let p : Parse := { parse_context with pVdbe := v }
  let p :=
    if is_ignore = false then
      let field_count := fk_def.field_count
      let (temp_regs, p) := sqlite3GetTempRange p field_count
      let (rec_reg, p) := sqlite3GetTempReg p
      let id := SQLITE_PAGENO_FROM_SPACEID_AND_INDEXID fk_def.parent_id referenced_idx
      let p := vdbe_emit_open_cursor p cursor id
      let v := fk_def.links.enum.foldl
        (fun v il => sqlite3VdbeAddOp2 v Opcode.OP_Copy
          (il.2.child_field + 1 + reg_data : Nat) (temp_regs + il.1 : Nat)) p.pVdbe
      let v :=
        if parent.def_.id = fk_def.child_id ∧ incr_count = 1 then
          let jump := sqlite3VdbeCurrentAddr v + field_count + 1
          let v := fk_def.links.foldl
            (fun v l =>
              sqlite3VdbeChangeP5
                (sqlite3VdbeAddOp3 v Opcode.OP_Ne (l.child_field + 1 + reg_data : Nat) jump
                  (l.parent_field + 1 + reg_data : Nat))
                SQLITE_JUMPIFNULL) v
          sqlite3VdbeGoto v ok_label
        else v
      let v := sqlite3VdbeAddOp4 v Opcode.OP_MakeRecord temp_regs field_count rec_reg
        (P4.P4_DYNAMIC parent.def_.id referenced_idx)
      let v := sqlite3VdbeAddOp4Int v Opcode.OP_Found cursor ok_label rec_reg 0
      { p with pVdbe := v }
    else p
  let p :=
    if fk_def.is_deferred = false ∧ user_session.SQLITE_DeferFKs = false ∧
        parse_context.pToplevel = false ∧ parse_context.isMultiWrite = false then
      sqlite3HaltConstraint p SQLITE_CONSTRAINT_FOREIGNKEY ON_CONFLICT_ACTION_ABORT
        (P4.P4_STATIC none) P5_ConstraintFK
    else
      let p := if incr_count > 0 ∧ fk_def.is_deferred = false then sqlite3MayAbort p else p
      let v := sqlite3VdbeAddOp2 p.pVdbe Opcode.OP_FkCounter
        (if fk_def.is_deferred then 1 else 0) incr_count
      { p with pVdbe := v }
  let v := sqlite3VdbeResolveLabel p.pVdbe ok_label
  { p with pVdbe := sqlite3VdbeAddOp1 v Opcode.OP_Close cursor }

/-! ## `fkScanChildren` and `sqlite3FkCheck` -/

/-- Embeds `exprTableRegister`: the register of column `iCol` of the row image
at `regBase`, with the column's affinity and the binary collation; the register
`regBase` itself for a negative column or the integer primary key. -/
def exprTableRegister (pTab : Table) (regBase : Nat) (iCol : Int) : Expr :=
  if 0 ≤ iCol ∧ iCol ≠ pTab.iPKey then
    Expr.TK_COLLATE
      (Expr.TK_REGISTER (regBase + iCol.toNat + 1)
        ((pTab.def_.fields[iCol.toNat]?.map field_def.affinity).getD 0))
      "binary"
  else Expr.TK_REGISTER regBase AFFINITY_INTEGER

/-- Embeds `exprTableColumn`: column `column` of the space read through `cursor`. -/
def exprTableColumn (def_ : space_def) (cursor : Nat) (column : Nat) : Expr :=
  Expr.TK_COLUMN def_.id cursor column

/-- Modelled from the spec: `sqlite3PExpr` (expr.c) for the unary `TK_NOT`; a
missing operand is kept as the NULL literal. -/
def sqlite3PExprNot (pLeft : Option Expr) : Expr :=
  Expr.TK_NOT (pLeft.getD Expr.TK_NULL)

/-- Modelled from the spec: `sqlite3VdbeJumpHere` makes the jump at address
`addr` land on the next instruction to be emitted. -/
def sqlite3VdbeJumpHere (v : Vdbe) (addr : Nat) : Vdbe :=
  match v.aOp[addr]? with
  | none => v
  | some op => { v with aOp := v.aOp.set addr { op with p2 := (v.aOp.length : Nat) } }

/-- Modelled from the spec: `sqlite3WhereBegin` (where.c) opens the loop over
the rows of `pSrc` that satisfy `pWhere`; the loop head is kept as one
place-holder instruction carrying the scanned table and the predicate. -/
def sqlite3WhereBegin (v : Vdbe) (pSrc : SrcList_item) (pWhere : Option Expr) : Vdbe :=
  sqlite3VdbeAddOp4 v Opcode.OP_WhereBegin 0 0 0 (P4.P4_WHERE pSrc pWhere)

/-- Modelled from the spec: `sqlite3WhereEnd` (where.c) closes the loop opened
by `sqlite3WhereBegin`; kept as one place-holder instruction. -/
def sqlite3WhereEnd (v : Vdbe) : Vdbe :=
  sqlite3VdbeAddOp4 v Opcode.OP_WhereEnd 0 0 0 P4.P4_NOTUSED

/-- The WHERE clause `fkScanChildren` builds in its first loop: for each link,
`<parent value register> = <child column name>`. -/
def fkScanChildren_pWhere (child_space : space) (pTab : Table) (fkey : fkey_def)
    (regData : Nat) : Option Expr :=
  fkey.links.foldl
    (fun pWhere l =>
      let pLeft := exprTableRegister pTab regData l.parent_field
      let zCol := (child_space.def_.fields[l.child_field]?.bind field_def.name).getD ""
      let pRight := Expr.TK_ID zCol
      let pEq := Expr.TK_EQ pLeft pRight
      sqlite3ExprAnd pWhere (some pEq))
    none

/-- The conjunction `fkScanChildren` builds in its second loop: for each link,
`<parent value register> = <parent column of the scanned row>`. -/
def fkScanChildren_pAll (pSrc : SrcList_item) (pTab : Table) (fkey : fkey_def)
    (regData : Nat) : Option Expr :=
  fkey.links.foldl
    (fun pAll l =>
      let pLeft := exprTableRegister pTab regData l.parent_field
      let pRight := exprTableColumn pTab.def_ pSrc.iCursor l.parent_field
      let pEq := Expr.TK_EQ pLeft pRight
      sqlite3ExprAnd pAll (some pEq))
    none

/-- Embeds `fkScanChildren`: code for the scan of the child space for rows
that reference the parent row image at `regData`.  Name resolution of the
WHERE clause (`sqlite3ResolveExprNames`) is outside the excerpt; the clause is
kept as built. -/
def fkScanChildren (space_by_id : Nat → space) (pParse : Parse) (pSrc : SrcList_item)
    (pTab : Table) (fkey : fkey_def) (regData : Nat) (nIncr : Int) : Parse :=
  let v := pParse.pVdbe
  let iFkIfZero := if nIncr < 0 then sqlite3VdbeCurrentAddr v else 0
  let v := if nIncr < 0 then
      sqlite3VdbeAddOp2 v Opcode.OP_FkIfZero (if fkey.is_deferred then 1 else 0) 0
    else v
  let child_space := space_by_id fkey.child_id
  let pWhere := fkScanChildren_pWhere child_space pTab fkey regData
  let pWhere :=
    if pTab.def_.id = fkey.child_id ∧ nIncr > 0 then
      let pAll := fkScanChildren_pAll pSrc pTab fkey regData
      let pNe := sqlite3PExprNot pAll
      sqlite3ExprAnd pWhere (some pNe)
    else pWhere
  let v := sqlite3WhereBegin v pSrc pWhere
  let v := sqlite3VdbeAddOp2 v Opcode.OP_FkCounter (if fkey.is_deferred then 1 else 0) nIncr
  let v := sqlite3WhereEnd v
  let v := if iFkIfZero ≠ 0 then sqlite3VdbeJumpHere v iFkIfZero else v
  { pParse with pVdbe := v }

/-- Embeds `fkey_child_is_modified`: some child link column is updated. -/
def fkey_child_is_modified (fkey : fkey_def) (changes : Nat → Int) : Bool :=
  fkey.links.any fun l => decide (changes l.child_field ≥ 0)

/-- Embeds `fkey_parent_is_modified`: some parent link column is updated. -/
def fkey_parent_is_modified (fkey : fkey_def) (changes : Nat → Int) : Bool :=
  fkey.links.any fun l => decide (changes l.parent_field ≥ 0)

/-- Embeds `fkey_action_is_set_null`: the program being compiled is the
SET NULL action trigger of this very constraint. -/
def fkey_action_is_set_null (parse_context : Parse) (fkey : fkey) : Bool :=
  match parse_context.pTriggerPrg with
  | some trigger =>
    (fkey.on_delete_trigger = some trigger ∧
        fkey.def_.on_delete = fkey_action.FKEY_ACTION_SET_NULL) ∨
      (fkey.on_update_trigger = some trigger ∧
        fkey.def_.on_update = fkey_action.FKEY_ACTION_SET_NULL)
  | none => false

/-- Body of the first loop of `sqlite3FkCheck`: one constraint in which the
space is the child. -/
def sqlite3FkCheck_child (user_session : session) (space_by_id : Nat → space) (space : space)
    (regOld regNew : Nat) (aChange : Option (Nat → Int)) (pParse : Parse) (fk : fkey) :
    Parse :=
  let fk_def := fk.def_
  let bIgnore := false
  if (match aChange with
      | some changes =>
        decide (space.def_.id ≠ fk_def.parent_id) && !fkey_child_is_modified fk_def changes
      | none => false) then pParse
  else
    let pParse := { pParse with nTab := pParse.nTab + 1 }
    let parent := space_by_id fk_def.parent_id
    let pParse :=
      if regOld ≠ 0 then
        fkey_lookup_parent user_session pParse parent fk_def fk.index_id regOld (-1) bIgnore
      else pParse
    if regNew ≠ 0 ∧ fkey_action_is_set_null pParse fk = false then
      fkey_lookup_parent user_session pParse parent fk_def fk.index_id regNew 1 bIgnore
    else pParse

/-- Body of the second loop of `sqlite3FkCheck`: one constraint that refers to
the space. -/
def sqlite3FkCheck_parent (user_session : session) (space_by_id : Nat → space) (pTab : Table)
    (regOld regNew : Nat) (aChange : Option (Nat → Int)) (pParse : Parse) (fk : fkey) :
    Parse :=
  let fk_def := fk.def_
  if (match aChange with
      | some changes => !fkey_parent_is_modified fk_def changes
      | none => false) then pParse
  else if fk_def.is_deferred = false ∧ user_session.SQLITE_DeferFKs = false ∧
      pParse.pToplevel = false ∧ pParse.isMultiWrite = false then pParse
  else
    let child := space_by_id fk.def_.child_id
    let pSrc : SrcList_item := { zName := child.def_.name, iCursor := pParse.nTab }
    let pParse := { pParse with nTab := pParse.nTab + 1 }
    let pParse :=
      if regNew ≠ 0 then fkScanChildren space_by_id pParse pSrc pTab fk.def_ regNew (-1)
      else pParse
    if regOld ≠ 0 then
      let action := fk_def.on_update
      let pParse := fkScanChildren space_by_id pParse pSrc pTab fk.def_ regOld 1
      if fk_def.is_deferred = false ∧ action ≠ fkey_action.FKEY_ACTION_CASCADE ∧
          action ≠ fkey_action.FKEY_ACTION_SET_NULL then
        sqlite3MayAbort pParse
      else pParse
    else pParse

/-- Embeds `sqlite3FkCheck`: foreign-key processing for a row of `pTab` that is
deleted (`regOld`), inserted (`regNew`) or updated.  Exactly one of the two
registers is non-zero (the C assertion). -/
def sqlite3FkCheck (user_session : session) (space_by_id : Nat → space) (pParse : Parse)
    (pTab : Table) (regOld regNew : Nat) (aChange : Option (Nat → Int)) : Parse :=
  if user_session.SQLITE_ForeignKeys = false then pParse
  else
    let space := space_by_id pTab.def_.id
    let pParse := space.child_fkey.foldl
      (sqlite3FkCheck_child user_session space_by_id space regOld regNew aChange) pParse
    space.parent_fkey.foldl
      (sqlite3FkCheck_parent user_session space_by_id pTab regOld regNew aChange) pParse

/-! ## Running the generated code -/

/-- A column value held by a register. -/
inductive Value
  | Null
  | Int (i : Int)
  | Str (z : String)
deriving DecidableEq, Repr

/-- Contents of a VDBE register: a column value, or the record that
`OP_MakeRecord` packs from a run of registers. -/
inductive Mem
  | val (x : Value)
  | record (fields : List Value)
deriving DecidableEq, Repr

/-- How a run of the program stands: still running, halted by `OP_Halt` with
its error code, conflict action and message selector, or stopped on an
instruction or operand outside the modelled fragment. -/
inductive VdbeStatus
  | running
  | halted (rc : Int) (errorAction : Int) (p5 : Nat)
  | fault
deriving DecidableEq, Repr

/-- The run-time state of the virtual machine: program counter, registers,
open cursors (each on the index number it was opened on), the immediate
(statement) and deferred (transaction) constraint counters, the status, and
the number of index probes done by `OP_Found` (`sqlite3_found_count`). -/
structure VdbeState where
  pc : Nat
  aMem : Nat → Mem
  apCsr : Nat → Option Nat
  nFkConstraint : Int
  nDeferredCons : Int
  status : VdbeStatus
  sqlite3_found_count : Nat

/-- The contents of the indexes: for each index number, the keys present. -/
abbrev Database := Nat → List (List Value)

/-- Transfers control to the address operand `p2` stands for. -/
def jumpToP2 (v : Vdbe) (s : VdbeState) (p2 : Int) : VdbeState :=
  match resolveP2 v p2 with
  | some a => { s with pc := a }
  | none => { s with status := VdbeStatus.fault }

/-- Reads `n` column values from the registers starting at `start`; fails when
one of them holds a record. -/
def readValues (aMem : Nat → Mem) (start : Nat) : Nat → Option (List Value)
  | 0 => some []
  | n + 1 =>
    match aMem start, readValues aMem (start + 1) n with
    | Mem.val x, some xs => some (x :: xs)
    | _, _ => none

/-- Modelled from the spec: one instruction of the virtual machine (vdbe.c),
for the opcodes `fkey_lookup_parent` emits.
* `OP_FkIfZero p1 p2` jumps to `p2` when the counter chosen by `p1` (deferred
  when non-zero, immediate when zero) is zero.
* `OP_FkCounter p1 p2` adds `p2` to the counter chosen by `p1`.
* `OP_IsNull p1 p2` jumps to `p2` when register `p1` holds NULL.
* `OP_OpenWrite p1 p2` opens cursor `p1` on index number `p2`; `OP_Close p1`
  closes it.
* `OP_Copy p1 p2` copies register `p1` to register `p2`.
* `OP_Ne p1 p2 p3` jumps to `p2` when registers `p1` and `p3` differ; when one
  of them is NULL it jumps exactly if `SQLITE_JUMPIFNULL` is set in `p5`.
* `OP_Goto p2` jumps to `p2`.
* `OP_MakeRecord p1 p2 p3` packs registers `p1 .. p1+p2-1` into register `p3`.
* `OP_Found p1 p2 p3` probes the index of cursor `p1` for the record in
  register `p3` and jumps to `p2` when a row with that key exists.
* `OP_Halt p1 p2` stops the program with error code `p1`, action `p2`.
A state that is not running, or whose program counter is past the last
instruction, is left as it is. -/
def sqlite3VdbeStep (v : Vdbe) (db : Database) (s : VdbeState) : VdbeState :=
  match s.status with
  | VdbeStatus.running =>
    match v.aOp[s.pc]? with
    | none => s
    | some op =>
      match op.opcode with
      | Opcode.OP_FkIfZero =>
        if (if op.p1 ≠ 0 then s.nDeferredCons else s.nFkConstraint) = 0 then jumpToP2 v s op.p2
        else { s with pc := s.pc + 1 }
      | Opcode.OP_FkCounter =>
        if op.p1 ≠ 0 then { s with pc := s.pc + 1, nDeferredCons := s.nDeferredCons + op.p2 }
        else { s with pc := s.pc + 1, nFkConstraint := s.nFkConstraint + op.p2 }
      | Opcode.OP_IsNull =>
        if s.aMem op.p1.toNat = Mem.val Value.Null then jumpToP2 v s op.p2
        else { s with pc := s.pc + 1 }
      | Opcode.OP_OpenWrite =>
        { s with pc := s.pc + 1, apCsr := Function.update s.apCsr op.p1.toNat (some op.p2.toNat) }
      | Opcode.OP_Close =>
        { s with pc := s.pc + 1, apCsr := Function.update s.apCsr op.p1.toNat none }
      | Opcode.OP_Copy =>
        { s with pc := s.pc + 1, aMem := Function.update s.aMem op.p2.toNat (s.aMem op.p1.toNat) }
      | Opcode.OP_Ne =>
        if s.aMem op.p1.toNat = Mem.val Value.Null ∨ s.aMem op.p3.toNat = Mem.val Value.Null then
          if op.p5 &&& SQLITE_JUMPIFNULL ≠ 0 then jumpToP2 v s op.p2
          else { s with pc := s.pc + 1 }
        else if s.aMem op.p3.toNat ≠ s.aMem op.p1.toNat then jumpToP2 v s op.p2
        else { s with pc := s.pc + 1 }
      | Opcode.OP_Goto => jumpToP2 v s op.p2
      | Opcode.OP_MakeRecord =>
        match readValues s.aMem op.p1.toNat op.p2.toNat with
        | some key =>
          { s with pc := s.pc + 1, aMem := Function.update s.aMem op.p3.toNat (Mem.record key) }
        | none => { s with status := VdbeStatus.fault }
      | Opcode.OP_Found =>
        match s.apCsr op.p1.toNat, s.aMem op.p3.toNat with
        | some pgno, Mem.record key =>
          if key ∈ db pgno then
            jumpToP2 v { s with sqlite3_found_count := s.sqlite3_found_count + 1 } op.p2
          else { s with pc := s.pc + 1, sqlite3_found_count := s.sqlite3_found_count + 1 }
        | _, _ => { s with status := VdbeStatus.fault }
      | Opcode.OP_Halt => { s with status := VdbeStatus.halted op.p1 op.p2 op.p5 }
      | Opcode.OP_WhereBegin => { s with status := VdbeStatus.fault }
      | Opcode.OP_WhereEnd => { s with status := VdbeStatus.fault }
      | Opcode.OP_Program => { s with status := VdbeStatus.fault }
  | _ => s

/-- Runs the machine for at most `fuel` instructions. -/
def sqlite3VdbeExec (v : Vdbe) (db : Database) : Nat → VdbeState → VdbeState
  | 0, s => s
  | fuel + 1, s => sqlite3VdbeExec v db fuel (sqlite3VdbeStep v db s)

/-! ## The instruction sequence of `fkey_lookup_parent`, block by block -/

/-- The operand `sqlite3VdbeMakeLabel` returns on program `v`. -/
def okLabel (v : Vdbe) : Int := -1 - (v.aLabel.length : Int)

/-- The counter test emitted for a decrement request. -/
def codeFkIfZero (fk_def : fkey_def) (incr_count : Int) (ok : Int) : List VdbeOp :=
  if incr_count < 0 then
    [{ opcode := Opcode.OP_FkIfZero, p1 := if fk_def.is_deferred then 1 else 0, p2 := ok, p3 := 0,
       p4 := P4.P4_NOTUSED, p5 := 0 }]
  else []

/-- The NULL tests on the child-side link registers. -/
def codeIsNull (links : List field_link) (reg_data : Nat) (ok : Int) : List VdbeOp :=
  links.map fun l =>
    { opcode := Opcode.OP_IsNull, p1 := (l.child_field + reg_data + 1 : Nat), p2 := ok, p3 := 0,
      p4 := P4.P4_NOTUSED, p5 := 0 }

/-- The copies of the child-side link registers to the temporary range, the
first one going to register `temp_regs + j`. -/
def codeCopy (links : List field_link) (reg_data temp_regs j : Nat) : List VdbeOp :=
  (links.enumFrom j).map fun il =>
    { opcode := Opcode.OP_Copy, p1 := (il.2.child_field + 1 + reg_data : Nat),
      p2 := (temp_regs + il.1 : Nat), p3 := 0, p4 := P4.P4_NOTUSED, p5 := 0 }

/-- The comparisons of the self-reference test. -/
def codeNe (links : List field_link) (reg_data jump : Nat) : List VdbeOp :=
  links.map fun l =>
    { opcode := Opcode.OP_Ne, p1 := (l.child_field + 1 + reg_data : Nat), p2 := (jump : Nat),
      p3 := (l.parent_field + 1 + reg_data : Nat), p4 := P4.P4_NOTUSED, p5 := SQLITE_JUMPIFNULL }

/-- The self-reference test: the comparisons and the jump to the exit. -/
def codeSelf (parent : space) (fk_def : fkey_def) (reg_data : Nat) (incr_count : Int)
    (ok : Int) (jump : Nat) : List VdbeOp :=
  if parent.def_.id = fk_def.child_id ∧ incr_count = 1 then
    codeNe fk_def.links reg_data jump ++
      [{ opcode := Opcode.OP_Goto, p1 := 0, p2 := ok, p3 := 0, p4 := P4.P4_NOTUSED, p5 := 0 }]
  else []

/-- The record construction and the index probe. -/
def codeFound (parent : space) (fk_def : fkey_def) (referenced_idx cursor temp_regs : Nat)
    (ok : Int) : List VdbeOp :=
  [{ opcode := Opcode.OP_MakeRecord, p1 := (temp_regs : Nat), p2 := (fk_def.field_count : Nat),
     p3 := (temp_regs + fk_def.field_count : Nat),
     p4 := P4.P4_DYNAMIC parent.def_.id referenced_idx, p5 := 0 },
   { opcode := Opcode.OP_Found, p1 := (cursor : Nat), p2 := ok,
     p3 := (temp_regs + fk_def.field_count : Nat), p4 := P4.P4_INT32 0, p5 := 0 }]

/-- The instructions emitted when `is_ignore` is false: open the cursor, copy
the key, test for self-reference, build the record, probe.  `a` is the address
of the first of them. -/
def codeProbe (parent : space) (fk_def : fkey_def) (referenced_idx reg_data : Nat)
    (incr_count : Int) (cursor temp_regs : Nat) (ok : Int) (a : Nat) : List VdbeOp :=
  [{ opcode := Opcode.OP_OpenWrite, p1 := (cursor : Nat),
     p2 := (SQLITE_PAGENO_FROM_SPACEID_AND_INDEXID fk_def.parent_id referenced_idx : Nat),
     p3 := 0, p4 := P4.P4_NOTUSED, p5 := 0 }] ++
  (codeCopy fk_def.links reg_data temp_regs 0 ++
  (codeSelf parent fk_def reg_data incr_count ok
      (a + 1 + fk_def.field_count + fk_def.field_count + 1) ++
  codeFound parent fk_def referenced_idx cursor temp_regs ok))

/-- The condition under which a violation is raised at once: the constraint
is not deferred, the session does not defer foreign keys, and the statement is
top-level and not multi-write. -/
def fkey_is_immediate (user_session : session) (parse_context : Parse) (fk_def : fkey_def) :
    Prop :=
  fk_def.is_deferred = false ∧ user_session.SQLITE_DeferFKs = false ∧
    parse_context.pToplevel = false ∧ parse_context.isMultiWrite = false

instance (user_session : session) (parse_context : Parse) (fk_def : fkey_def) :
    Decidable (fkey_is_immediate user_session parse_context fk_def) := by
  unfold fkey_is_immediate; infer_instance

/-- The instruction reached on a probe miss: the halt or the counter update. -/
def codeTail (user_session : session) (parse_context : Parse) (fk_def : fkey_def)
    (incr_count : Int) : List VdbeOp :=
  if fkey_is_immediate user_session parse_context fk_def then
    [{ opcode := Opcode.OP_Halt, p1 := SQLITE_CONSTRAINT_FOREIGNKEY,
       p2 := ON_CONFLICT_ACTION_ABORT, p3 := 0, p4 := P4.P4_STATIC none, p5 := P5_ConstraintFK }]
  else
    [{ opcode := Opcode.OP_FkCounter, p1 := if fk_def.is_deferred then 1 else 0,
       p2 := incr_count, p3 := 0, p4 := P4.P4_NOTUSED, p5 := 0 }]

/-- Everything `fkey_lookup_parent` emits before the exit label. -/
def codeBody (user_session : session) (parse_context : Parse) (parent : space)
    (fk_def : fkey_def) (referenced_idx reg_data : Nat) (incr_count : Int) (is_ignore : Bool) :
    List VdbeOp :=
  let ok := okLabel parse_context.pVdbe
  let A := codeFkIfZero fk_def incr_count ok
  let B := codeIsNull fk_def.links reg_data ok
  let C := if is_ignore = false then
      codeProbe parent fk_def referenced_idx reg_data incr_count (parse_context.nTab - 1)
        (parse_context.nMem + 1) ok (parse_context.pVdbe.aOp.length + A.length + B.length)
    else []
  A ++ (B ++ (C ++ codeTail user_session parse_context fk_def incr_count))

/-- The instruction at the exit label. -/
def codeClose (parse_context : Parse) : VdbeOp :=
  { opcode := Opcode.OP_Close, p1 := (parse_context.nTab - 1 : Nat), p2 := 0, p3 := 0,
    p4 := P4.P4_NOTUSED, p5 := 0 }

/-- The instructions `code` sit in program `v` from address `a` on. -/
def CodeAt (v : Vdbe) (a : Nat) (code : List VdbeOp) : Prop :=
  ∀ i, i < code.length → v.aOp[a + i]? = code[i]?

/-- The register file after the key copies: link number `j`, `j + 1`, ... of
`links` copied to `temp_regs + j`, `temp_regs + j + 1`, ... in turn. -/
def copiedMem (aMem : Nat → Mem) (reg_data temp_regs : Nat) :
    Nat → List field_link → (Nat → Mem)
  | _, [] => aMem
  | j, l :: ls =>
    copiedMem (Function.update aMem (temp_regs + j) (aMem (l.child_field + 1 + reg_data)))
      reg_data temp_regs (j + 1) ls

/-- What a run of the check shows to the rest of the statement: the status,
the immediate counter, the deferred counter and the number of index probes. -/
def VdbeState.obs (s : VdbeState) : VdbeStatus × Int × Int × Nat :=
  (s.status, s.nFkConstraint, s.nDeferredCons, s.sqlite3_found_count)

/-- The registers `reg_data + 1 ..  reg_data + nCol` hold the row image `row`. -/
def HoldsRow (s : VdbeState) (reg_data : Nat) (row : Nat → Value) (nCol : Nat) : Prop :=
  ∀ c, c < nCol → s.aMem (reg_data + 1 + c) = Mem.val (row c)

instance (s : VdbeState) (reg_data : Nat) (row : Nat → Value) (nCol : Nat) :
    Decidable (HoldsRow s reg_data row nCol) := by
  unfold HoldsRow; infer_instance

/-- The child-side key of a row image: the values of the child link fields. -/
def childKey (fk_def : fkey_def) (row : Nat → Value) : List Value :=
  fk_def.links.map fun l => row l.child_field

/-- The row matches itself: the space is its own parent, the request is an
insert, and every child-side link value equals the parent-side value of the
same row. -/
def selfMatch (parent : space) (fk_def : fkey_def) (incr_count : Int) (row : Nat → Value) :
    Prop :=
  (parent.def_.id = fk_def.child_id ∧ incr_count = 1) ∧
    ∀ l ∈ fk_def.links, row l.child_field = row l.parent_field

instance (parent : space) (fk_def : fkey_def) (incr_count : Int) (row : Nat → Value) :
    Decidable (selfMatch parent fk_def incr_count row) := by
  unfold selfMatch; infer_instance

/-- The outcome of the instruction reached on a probe miss. -/
def tailOutcome (user_session : session) (parse_context : Parse) (fk_def : fkey_def)
    (incr_count : Int) (nFk nDef : Int) (found : Nat) : VdbeStatus × Int × Int × Nat :=
  if fkey_is_immediate user_session parse_context fk_def then
    (VdbeStatus.halted SQLITE_CONSTRAINT_FOREIGNKEY ON_CONFLICT_ACTION_ABORT P5_ConstraintFK,
      nFk, nDef, found)
  else if fk_def.is_deferred then (VdbeStatus.running, nFk, nDef + incr_count, found)
  else (VdbeStatus.running, nFk + incr_count, nDef, found)

/-- The outcome of the whole check on row image `row`, read off the control
flow of the generated code: used to state what a run of the code yields. -/
def lookupOutcome (user_session : session) (parse_context : Parse) (parent : space)
    (fk_def : fkey_def) (referenced_idx : Nat) (incr_count : Int) (is_ignore : Bool)
    (row : Nat → Value) (db : Database) (s : VdbeState) : VdbeStatus × Int × Int × Nat :=
  if incr_count < 0 ∧ (if fk_def.is_deferred then s.nDeferredCons else s.nFkConstraint) = 0 then
    s.obs
  else if ∃ l ∈ fk_def.links, row l.child_field = Value.Null then s.obs
  else if is_ignore then
    tailOutcome user_session parse_context fk_def incr_count s.nFkConstraint s.nDeferredCons
      s.sqlite3_found_count
  else if selfMatch parent fk_def incr_count row then s.obs
  else if childKey fk_def row ∈
      db (SQLITE_PAGENO_FROM_SPACEID_AND_INDEXID fk_def.parent_id referenced_idx) then
    (s.status, s.nFkConstraint, s.nDeferredCons, s.sqlite3_found_count + 1)
  else
    tailOutcome user_session parse_context fk_def incr_count s.nFkConstraint s.nDeferredCons
      (s.sqlite3_found_count + 1)

/-! ## Sequences of child-side checks -/

/-- One child-side check together with the situation it runs in: the arguments
of `fkey_lookup_parent`, the database contents, the registers and cursors, the
immediate counter of the statement, and the row image its registers hold. -/
structure ChildCheck where
  parse_context : Parse
  parent : space
  fk_def : fkey_def
  referenced_idx : Nat
  reg_data : Nat
  incr_count : Int
  is_ignore : Bool
  db : Database
  aMem : Nat → Mem
  apCsr : Nat → Option Nat
  nFkConstraint : Int
  row : Nat → Value
  nCol : Nat

/-- The machine state in which the code of the check is entered, the deferred
counter of the transaction being `nDef`. -/
def ChildCheck.entry (c : ChildCheck) (nDef : Int) : VdbeState :=
  { pc := c.parse_context.pVdbe.aOp.length, aMem := c.aMem, apCsr := c.apCsr,
    nFkConstraint := c.nFkConstraint, nDeferredCons := nDef, status := VdbeStatus.running,
    sqlite3_found_count := 0 }

/-- The program `fkey_lookup_parent` generates for the check. -/
def ChildCheck.program (user_session : session) (c : ChildCheck) : Vdbe :=
  (fkey_lookup_parent user_session c.parse_context c.parent c.fk_def c.referenced_idx
    c.reg_data c.incr_count c.is_ignore).pVdbe

/-- The state the check ends in, entered with deferred counter `nDef` and run
for as many steps as its program has instructions. -/
def ChildCheck.run (user_session : session) (c : ChildCheck) (nDef : Int) : VdbeState :=
  sqlite3VdbeExec (c.program user_session) c.db (c.program user_session).aOp.length
    (c.entry nDef)

/-- The check is an insert (`+1`) or a delete (`-1`) check whose registers
`reg_data + 1 ..` hold its row image and were allocated before the call. -/
def ChildCheck.wellFormed (c : ChildCheck) : Prop :=
  (c.incr_count = 1 ∨ c.incr_count = -1) ∧
  (∀ col, col < c.nCol → c.aMem (c.reg_data + 1 + col) = Mem.val (c.row col)) ∧
  (∀ l ∈ c.fk_def.links, l.child_field < c.nCol ∧
    (c.parent.def_.id = c.fk_def.child_id → l.parent_field < c.nCol)) ∧
  c.reg_data + c.nCol ≤ c.parse_context.nMem

instance (c : ChildCheck) : Decidable c.wellFormed := by
  unfold ChildCheck.wellFormed; infer_instance

/-- The deferred counter after a sequence of checks run one after the other,
each starting from the deferred counter the previous one left. -/
def runChildChecks (user_session : session) : List ChildCheck → Int → Int
  | [], nDef => nDef
  | c :: cs, nDef => runChildChecks user_session cs (c.run user_session nDef).nDeferredCons

/-! ## The predicate of the parent-side scan -/

/-- The conjunction of a list of terms, nested to the left; nothing for the
empty list. -/
def exprConj : List Expr → Option Expr
  | [] => none
  | e :: es => some (es.foldl Expr.TK_AND e)

/-- The link equality of the parent-side scan, in the claim's words:
`child.field = parent value`, the parent value being read from the row image
at `regData` and the child column being named. -/
def scanLinkEq (child_space : space) (pTab : Table) (regData : Nat) (l : field_link) : Expr :=
  Expr.TK_EQ (exprTableRegister pTab regData l.parent_field)
    (Expr.TK_ID ((child_space.def_.fields[l.child_field]?.bind field_def.name).getD ""))

/-- The equality of the self-reference exclusion, in the claim's words:
`current-row parent_field value = scanned row's parent_field column`. -/
def scanSelfEq (pSrc : SrcList_item) (pTab : Table) (regData : Nat) (l : field_link) : Expr :=
  Expr.TK_EQ (exprTableRegister pTab regData l.parent_field)
    (Expr.TK_COLUMN pTab.def_.id pSrc.iCursor l.parent_field)

/-- The predicate of the parent-side scan without the self-reference
exclusion: the conjunction of the link equalities. -/
def scanPlain (child_space : space) (pTab : Table) (fkey : fkey_def) (regData : Nat) :
    Option Expr :=
  exprConj (fkey.links.map (scanLinkEq child_space pTab regData))

/-- The predicate of the parent-side scan with the self-reference exclusion:
the link equalities and the negated conjunction of the self equalities. -/
def scanExcluding (child_space : space) (pSrc : SrcList_item) (pTab : Table) (fkey : fkey_def)
    (regData : Nat) : Option Expr :=
  sqlite3ExprAnd (scanPlain child_space pTab fkey regData)
    (some (Expr.TK_NOT ((exprConj (fkey.links.map (scanSelfEq pSrc pTab regData))).getD
      Expr.TK_NULL)))

/-- The scans of a program: the scanned table and the predicate of each
`sqlite3WhereBegin` place-holder, in program order. -/
def whereClauses (ops : List VdbeOp) : List (SrcList_item × Option Expr) :=
  ops.filterMap fun op =>
    match op.p4 with
    | P4.P4_WHERE pSrc pWhere => some (pSrc, pWhere)
    | _ => none

/-! ## Action triggers: `fkActionTrigger` and `sqlite3FkActions` -/

/-- What the link loop of `fkActionTrigger` has built so far: the WHERE clause
of the trigger step, the WHEN clause of the trigger and the assignment list
(each entry with the name `sqlite3ExprListSetName` gives it). -/
structure ActionTerms where
  pWhere : Option Expr
  pWhen : Option Expr
  pList : List (String × Expr)
deriving DecidableEq, Repr

/-- Modelled from the spec: `space_column_default_expr` returns the compiled
default expression of a column, or NULL when the column has none; the
expression is kept by its source text. -/
def space_column_default_expr (space_by_id : Nat → space) (space_id fieldno : Nat) :
    Option Expr :=
  ((space_by_id space_id).def_.fields[fieldno]?.bind field_def.default_value_expr).map
    Expr.TK_DEFAULT

/-- One turn of the link loop of `fkActionTrigger`. -/
def fkActionTrigger_link (space_by_id : Nat → space) (pTab : Table) (fk_def : fkey_def)
    (action : fkey_action) (pChanges : Option (List (String × Expr))) (acc : ActionTerms)
    (l : field_link) : ActionTerms :=
  let child_space := space_by_id fk_def.child_id
  let tOld := "old"
  let tNew := "new"
  let iFromCol := l.child_field
  let tToCol := (pTab.def_.fields[l.parent_field]?.bind field_def.name).getD ""
  let tFromCol := (child_space.def_.fields[iFromCol]?.bind field_def.name).getD ""
  let pEq := Expr.TK_EQ (Expr.TK_DOT (Expr.TK_ID tOld) (Expr.TK_ID tToCol)) (Expr.TK_ID tFromCol)
  let pWhere := sqlite3ExprAnd acc.pWhere (some pEq)
  let pWhen :=
    if pChanges.isSome then
      let pEq := Expr.TK_EQ (Expr.TK_DOT (Expr.TK_ID tOld) (Expr.TK_ID tToCol))
        (Expr.TK_DOT (Expr.TK_ID tNew) (Expr.TK_ID tToCol))
      sqlite3ExprAnd acc.pWhen (some pEq)
    else acc.pWhen
  let pList :=
    if action ≠ fkey_action.FKEY_ACTION_RESTRICT ∧
        (action ≠ fkey_action.FKEY_ACTION_CASCADE ∨ pChanges.isSome) then
      let pNew :=
        if action = fkey_action.FKEY_ACTION_CASCADE then
          Expr.TK_DOT (Expr.TK_ID tNew) (Expr.TK_ID tToCol)
        else if action = fkey_action.FKEY_ACTION_SET_DEFAULT then
          match space_column_default_expr space_by_id fk_def.child_id iFromCol with
          | some pDflt => pDflt
          | none => Expr.TK_NULL
        else Expr.TK_NULL
      acc.pList ++ [(tFromCol, pNew)]
    else acc.pList
  { pWhere := pWhere, pWhen := pWhen, pList := pList }

/-- Embeds `fkActionTrigger`: the trigger program of the ON DELETE (`pChanges`
NULL) or ON UPDATE action of `fkey`, together with the constraint object as
the call leaves it (the two memo slots are the only fields written).
`mallocFailed` is `db->mallocFailed` as tested after the build: when an
allocation failed the half-built trigger is dropped and NULL is returned. -/
def fkActionTrigger (user_session : session) (space_by_id : Nat → space)
    (mallocFailed : Bool) (pTab : Table) (fkey : fkey)
    (pChanges : Option (List (String × Expr))) : Option sql_trigger × Tarantool.fkey :=
  let is_update := pChanges.isSome
  let fk_def := fkey.def_
  let action := if is_update then fk_def.on_update else fk_def.on_delete
  if action = fkey_action.FKEY_ACTION_RESTRICT ∧ user_session.SQLITE_DeferFKs = true then
    (none, fkey)
  else
    let trigger := if is_update then fkey.on_update_trigger else fkey.on_delete_trigger
    if action ≠ fkey_action.FKEY_NO_ACTION ∧ trigger = none then
      let child_space := space_by_id fk_def.child_id
      let terms := fk_def.links.foldl
        (fkActionTrigger_link space_by_id pTab fk_def action pChanges)
        { pWhere := none, pWhen := none, pList := [] }
      let zFrom := child_space.def_.name
      let pSelect :=
        if action = fkey_action.FKEY_ACTION_RESTRICT then
          let pRaise := Expr.TK_RAISE "FOREIGN KEY constraint failed" ON_CONFLICT_ACTION_ABORT
          some ([pRaise], zFrom, terms.pWhere)
        else none
      let pWhere := if action = fkey_action.FKEY_ACTION_RESTRICT then none else terms.pWhere
      let pWhen := terms.pWhen.map Expr.TK_NOT
      if mallocFailed then (none, fkey)
      else
        let step_op :=
          match action with
          | fkey_action.FKEY_ACTION_RESTRICT => trigger_op.TK_SELECT
          | fkey_action.FKEY_ACTION_CASCADE =>
            if pChanges.isNone then trigger_op.TK_DELETE else trigger_op.TK_UPDATE
          | _ => trigger_op.TK_UPDATE
        let trigger : sql_trigger :=
          { op := if pChanges.isSome then trigger_op.TK_UPDATE else trigger_op.TK_DELETE,
            zTarget := zFrom, step_op := step_op, pWhere := pWhere,
            pExprList := terms.pList, pSelect := pSelect, pWhen := pWhen }
        let fkey :=
          if is_update then { fkey with on_update_trigger := some trigger }
          else { fkey with on_delete_trigger := some trigger }
        (some trigger, fkey)
    else (trigger, fkey)

/-- Modelled from the spec: `vdbe_code_row_trigger_direct` (trigger.c) emits
the call of the trigger program for the row image at `reg`; the call is kept
as one place-holder instruction carrying the program, with the row register
and the conflict action as operands. -/
def vdbe_code_row_trigger_direct (pParse : Parse) (p : sql_trigger) (reg : Nat)
    (orconf : Int) (ignoreJump : Int) : Parse :=
  { pParse with
    pVdbe := sqlite3VdbeAddOp4 pParse.pVdbe Opcode.OP_Program reg ignoreJump orconf
      (P4.P4_SUBPROGRAM p) }

/-- Body of the loop of `sqlite3FkActions`: one constraint that refers to the
table.  The state is the parse context and the constraints already visited, as
the calls of `fkActionTrigger` left them. -/
def sqlite3FkActions_fkey (user_session : session) (space_by_id : Nat → space)
    (mallocFailed : Bool) (pTab : Table) (pChanges : Option (List (String × Expr)))
    (regOld : Nat) (aChange : Option (Nat → Int)) (st : Parse × List fkey) (fkey : fkey) :
    Parse × List Tarantool.fkey :=
  if (match aChange with
      | none => true
      | some changes => fkey_parent_is_modified fkey.def_ changes) then
    match fkActionTrigger user_session space_by_id mallocFailed pTab fkey pChanges with
    | (none, fkey) => (st.1, st.2 ++ [fkey])
    | (some pAct, fkey) =>
      (vdbe_code_row_trigger_direct st.1 pAct regOld ON_CONFLICT_ACTION_ABORT 0,
        st.2 ++ [fkey])
  else (st.1, st.2 ++ [fkey])

/-- Embeds `sqlite3FkActions`: the calls of the action triggers of the
constraints that refer to `pTab`, for a delete or an update of the row image at
`regOld`.  Returns the parse context and the list `parent_fkey` of the table as
the call leaves it. -/
def sqlite3FkActions (user_session : session) (space_by_id : Nat → space)
    (mallocFailed : Bool) (pParse : Parse) (pTab : Table)
    (pChanges : Option (List (String × Expr))) (regOld : Nat) (aChange : Option (Nat → Int)) :
    Parse × List fkey :=
  let space := space_by_id pTab.def_.id
  if user_session.SQLITE_ForeignKeys then
    space.parent_fkey.foldl
      (sqlite3FkActions_fkey user_session space_by_id mallocFailed pTab pChanges regOld aChange)
      (pParse, [])
  else (pParse, space.parent_fkey)

/-! ## Column masks and the need for foreign-key processing -/

/-- Embeds the macro `COLUMN_MASK`, on 32-bit unsigned values. -/
def COLUMN_MASK (x : Nat) : Nat :=
  if x > 31 then 0xffffffff else (1 <<< x) % 2 ^ 32

/-- Embeds `fkey_old_mask`: the columns of the old row image that the
foreign-key code of the space may read. -/
def fkey_old_mask (user_session : session) (space_by_id : Nat → space) (space_id : Nat) : Nat :=
  let mask := 0
  if user_session.SQLITE_ForeignKeys then
    let space := space_by_id space_id
    let mask := space.child_fkey.foldl
      (fun mask fk => fk.def_.links.foldl (fun mask l => mask ||| COLUMN_MASK l.child_field) mask)
      mask
    space.parent_fkey.foldl
      (fun mask fk => fk.def_.links.foldl (fun mask l => mask ||| COLUMN_MASK l.parent_field) mask)
      mask
  else mask

/-- Embeds `fkey_is_required`: whether a delete (`changes` NULL) or an update
of the space needs foreign-key processing. -/
def fkey_is_required (user_session : session) (space_by_id : Nat → space) (space_id : Nat)
    (changes : Option (Nat → Int)) : Bool :=
  if user_session.SQLITE_ForeignKeys then
    let space := space_by_id space_id
    match changes with
    | none => !space.parent_fkey.isEmpty || !space.child_fkey.isEmpty
    | some changes =>
      if space.child_fkey.any fun p => fkey_child_is_modified p.def_ changes then true
      else if space.parent_fkey.any fun p => fkey_parent_is_modified p.def_ changes then true
      else false
  else false

/-! ## Field type names (`field_def.c`) -/

/-- The array `field_type_strs`. -/
def field_type_strs : List String :=
  ["any", "unsigned", "string", "number", "integer", "boolean", "scalar", "array", "map"]

/-- The array `on_conflict_action_strs`. -/
def on_conflict_action_strs : List String :=
  ["none", "rollback", "abort", "fail", "ignore", "replace", "default"]

/-- The bytes of a string, without a terminating NUL. -/
def cstr (s : String) : List Nat := s.toList.map Char.toNat

/-- Modelled from the C library: `tolower` in the C locale. -/
def tolower (c : Nat) : Nat := if 65 ≤ c ∧ c ≤ 90 then c + 32 else c

/-- Modelled from the C library: `strncasecmp (s1, s2, n)` compares at most `n`
bytes without regard to letter case and stops after a NUL; a byte past the end
of a list reads as the terminating NUL.  The result is 0 exactly when no
difference was found. -/
def strncasecmp : List Nat → List Nat → Nat → Int
  | _, _, 0 => 0
  | s1, s2, n + 1 =>
    let c1 := tolower (s1.headD 0)
    let c2 := tolower (s2.headD 0)
    if c1 ≠ c2 then (c1 : Int) - (c2 : Int)
    else if c1 = 0 then 0
    else strncasecmp s1.tail s2.tail n

/-- The loop of `strnindex`, from entry number `index` on. -/
def strnindex_from (needle : List Nat) (hmax : Nat) : List String → Nat → Nat
  | [], _ => hmax
  | entry :: haystack, index =>
    if index = hmax then hmax
    else if cstr entry = needle then index
    else strnindex_from needle hmax haystack (index + 1)

/-- Modelled from the spec: `strnindex` (util.c) returns the index of the entry
of `haystack` that matches the `len` bytes at `needle` exactly and
case-sensitively, or `hmax` when no entry does. -/
def strnindex (haystack : List String) (needle : List Nat) (hmax : Nat) : Nat :=
  strnindex_from needle hmax haystack 0

/-- Embeds `field_type_by_name`; `name` holds the `len` bytes of the name, and
the result is the numeric value of the type or `field_type_MAX`.  The byte 42
is the character `*`. -/
def field_type_by_name (name : List Nat) : Nat :=
  let len := name.length
  let field_type := strnindex field_type_strs name field_type_MAX
  if field_type ≠ field_type_MAX then field_type
  else if strncasecmp name (cstr "num") len = 0 then
    Tarantool.field_type.FIELD_TYPE_UNSIGNED.toNat
  else if strncasecmp name (cstr "str") len = 0 then
    Tarantool.field_type.FIELD_TYPE_STRING.toNat
  else if len = 1 ∧ name.headD 0 = 42 then Tarantool.field_type.FIELD_TYPE_ANY.toNat
  else field_type_MAX

/-- Embeds `field_type_by_name_wrapper`. -/
def field_type_by_name_wrapper (str : List Nat) : Nat := field_type_by_name str

/-! ## Diagnostics and MsgPack values -/

/-- The error codes of `enum box_error_code` that the embedded code names; a
caller may pass any other code. -/
inductive box_error_code
  | ER_MODIFY_INDEX
  | ER_WRONG_SPACE_FORMAT
  | ER_WRONG_INDEX_OPTIONS
  | ER_CODE (code : Nat)
deriving DecidableEq, Repr

/-- What `diag_set(ClientError, code, ...)` records: the error code and the
arguments of the message format, in order. -/
structure ClientError where
  code : box_error_code
  args : List String
deriving DecidableEq, Repr

/-- A value of the C type `double` as a comparison sees it: a finite value,
kept as the rational number it denotes, an infinity, or a NaN. -/
inductive double
  | finite (q : Rat)
  | inf (negative : Bool)
  | nan
deriving DecidableEq, Repr

/-- The C comparison `a <= b` on doubles; it is false when an operand is a
NaN. -/
def double.le : double → double → Bool
  | double.finite p, double.finite q => decide (p ≤ q)
  | double.finite _, double.inf negative => !negative
  | double.inf negative, double.finite _ => negative
  | double.inf n1, double.inf n2 => n1 || !n2
  | _, _ => false

/-- The C comparison `a < b` on doubles; it is false when an operand is a
NaN.  `a > b` is `b < a`. -/
def double.lt : double → double → Bool
  | double.finite p, double.finite q => decide (p < q)
  | double.finite _, double.inf negative => !negative
  | double.inf negative, double.finite _ => negative
  | double.inf n1, double.inf n2 => n1 && !n2
  | _, _ => false

/-- A double holds the integer of magnitude `n` exactly: `n` has at most 53
significant bits. -/
def double_holds (n : Nat) : Bool :=
  n < 2 ^ 53 || n % 2 ^ (Nat.log2 n - 52) == 0

/-- Mirrors `enum mp_type`. -/
inductive mp_type
  | MP_NIL
  | MP_UINT
  | MP_INT
  | MP_STR
  | MP_BIN
  | MP_ARRAY
  | MP_MAP
  | MP_BOOL
  | MP_FLOAT
  | MP_DOUBLE
  | MP_EXT
deriving DecidableEq, Repr

/-- A decoded MsgPack value; a map keeps its key-value pairs in wire order.
The payload of the types that no embedded decoder reads is left out; a
single-precision number is kept by the double it converts to. -/
inductive mp_value
  | nil
  | uint (n : Nat)
  | int (i : Int)
  | str (s : String)
  | bin
  | array (items : List mp_value)
  | map (pairs : List (mp_value × mp_value))
  | bool (b : Bool)
  | float (f : Tarantool.double)
  | double (d : Tarantool.double)
  | ext

/-- Modelled from the spec: `mp_typeof` (msgpuck) gives the type of the value
at the read position. -/
def mp_typeof : mp_value → mp_type
  | mp_value.nil => mp_type.MP_NIL
  | mp_value.uint _ => mp_type.MP_UINT
  | mp_value.int _ => mp_type.MP_INT
  | mp_value.str _ => mp_type.MP_STR
  | mp_value.bin => mp_type.MP_BIN
  | mp_value.array _ => mp_type.MP_ARRAY
  | mp_value.map _ => mp_type.MP_MAP
  | mp_value.bool _ => mp_type.MP_BOOL
  | mp_value.float _ => mp_type.MP_FLOAT
  | mp_value.double _ => mp_type.MP_DOUBLE
  | mp_value.ext => mp_type.MP_EXT

/-! ## Option tables -/

/-- One entry of an option table (`struct opt_def`): the key, the kind of
value and where the value is stored; the offset of the C entry is kept as the
function that stores into the structure. -/
inductive opt_def (α : Type)
  | OPT_BOOL (name : String) (store : α → Bool → α)
  | OPT_UINT32 (name : String) (store : α → Nat → α)
  | OPT_INT64 (name : String) (store : α → Int → α)
  | OPT_FLOAT (name : String) (store : α → double → α)
  | OPT_STRPTR (name : String) (store : α → Option String → α)
  | OPT_ENUM (name : String) (enum_strs : List String) (enum_max : Nat)
      (to_enum : Option (List Nat → Nat)) (store : α → Nat → α)

/-- The key of an option. -/
def opt_def.name {α : Type} : opt_def α → String
  | OPT_BOOL name _ => name
  | OPT_UINT32 name _ => name
  | OPT_INT64 name _ => name
  | OPT_FLOAT name _ => name
  | OPT_STRPTR name _ => name
  | OPT_ENUM name _ _ _ _ => name

/-- The name of the kind of value an option takes, as the type-mismatch
message spells it. -/
def opt_def.type_str {α : Type} : opt_def α → String
  | OPT_BOOL _ _ => "boolean"
  | OPT_UINT32 _ _ => "integer"
  | OPT_INT64 _ _ => "integer"
  | OPT_FLOAT _ _ => "float"
  | OPT_STRPTR _ _ => "string"
  | OPT_ENUM _ _ _ _ _ => "enum"

/-- Modelled from the spec: `opt_set` (opt_def.c) stores the value of one
option after checking its MsgPack type: a boolean for `OPT_BOOL`, an unsigned
integer that fits 32 bits for `OPT_UINT32`, an integer that fits 64 signed bits
for `OPT_INT64`, a floating-point number or an integer that a double holds
exactly for `OPT_FLOAT`, a string for
`OPT_STRPTR`, and for
`OPT_ENUM` a string that is converted by the entry's own function, or by
`strnindex` over the entry's names when it has none.  A value of another type
is an error with the given code, reported with the field number.  Allocation
failures are not modelled. -/
def opt_set {α : Type} (opts : α) (def_ : opt_def α) (val : mp_value)
    (errcode : box_error_code) (field_no : Nat) : Except ClientError α :=
  let type_mismatch_err : ClientError :=
    { code := errcode,
      args := [toString field_no, "'" ++ def_.name ++ "' must be " ++ def_.type_str] }
  match def_, val with
  | opt_def.OPT_BOOL _ store, mp_value.bool b => Except.ok (store opts b)
  | opt_def.OPT_UINT32 _ store, mp_value.uint uval =>
    if uval > 2 ^ 32 - 1 then Except.error type_mismatch_err else Except.ok (store opts uval)
  | opt_def.OPT_INT64 _ store, mp_value.uint uval =>
    if uval > 2 ^ 63 - 1 then Except.error type_mismatch_err
    else Except.ok (store opts (uval : Int))
  | opt_def.OPT_INT64 _ store, mp_value.int ival =>
    if ival < -(2 ^ 63) ∨ ival > 2 ^ 63 - 1 then Except.error type_mismatch_err
    else Except.ok (store opts ival)
  | opt_def.OPT_FLOAT _ store, mp_value.float f => Except.ok (store opts f)
  | opt_def.OPT_FLOAT _ store, mp_value.double d => Except.ok (store opts d)
  | opt_def.OPT_FLOAT _ store, mp_value.uint uval =>
    if double_holds uval then Except.ok (store opts (double.finite (uval : Rat)))
    else Except.error type_mismatch_err
  | opt_def.OPT_FLOAT _ store, mp_value.int ival =>
    if double_holds ival.natAbs then Except.ok (store opts (double.finite (ival : Rat)))
    else Except.error type_mismatch_err
  | opt_def.OPT_STRPTR _ store, mp_value.str s => Except.ok (store opts (some s))
  | opt_def.OPT_ENUM _ enum_strs enum_max to_enum store, mp_value.str s =>
    let ival :=
      match to_enum with
      | none => strnindex enum_strs (cstr s) enum_max
      | some f => f (cstr s)
    Except.ok (store opts ival)
  | _, _ => Except.error type_mismatch_err

/-- Modelled from the spec: `opts_parse_key` (opt_def.c) looks the key up in
the table and stores the value with `opt_set`; a key that is not in the table
is skipped when `skip_unknown_options` is set and an error otherwise. -/
def opts_parse_key {α : Type} (opts : α) (reg : List (opt_def α)) (key : String)
    (val : mp_value) (errcode : box_error_code) (field_no : Nat)
    (skip_unknown_options : Bool) : Except ClientError α :=
  match reg.find? fun def_ => def_.name == key with
  | some def_ => opt_set opts def_ val errcode field_no
  | none =>
    if skip_unknown_options then Except.ok opts
    else Except.error
      { code := errcode, args := [toString field_no, "unexpected option '" ++ key ++ "'"] }

/-! ## The field-definition decoder (`field_def.c`) -/

/-- The table `field_def_reg`. -/
def field_def_reg : List (opt_def field_def) :=
  [opt_def.OPT_ENUM "type" field_type_strs field_type_MAX (some field_type_by_name_wrapper)
      (fun field v => { field with type := v }),
    opt_def.OPT_STRPTR "name" (fun field v => { field with name := v }),
    opt_def.OPT_BOOL "is_nullable" (fun field v => { field with is_nullable := v }),
    opt_def.OPT_ENUM "nullable_action" on_conflict_action_strs on_conflict_action_MAX none
      (fun field v => { field with nullable_action := v }),
    opt_def.OPT_UINT32 "collation" (fun field v => { field with coll_id := v }),
    opt_def.OPT_STRPTR "default" (fun field v => { field with default_value := v }),
    opt_def.OPT_UINT32 "affinity" (fun field v => { field with affinity := v })]

/-- `TUPLE_INDEX_BASE`: field positions are reported 1-based. -/
def TUPLE_INDEX_BASE : Nat := 1

/-- `BOX_NAME_MAX`, the longest name of a schema object. -/
def BOX_NAME_MAX : Nat := 65000

/-- The value `printf` shows for a 32-bit unsigned argument of a `%d`
conversion: the argument read as a signed 32-bit integer. -/
def printf_d (x : Nat) : Int :=
  if x % 2 ^ 32 < 2 ^ 31 then ((x % 2 ^ 32 : Nat) : Int) else ((x % 2 ^ 32 : Nat) : Int) - 2 ^ 32

/-- The diagnostics `field_def_decode` sets itself whose message starts with
the field position: `tt_sprintf("field %d<rest>", fieldno + TUPLE_INDEX_BASE)`
under the caller's error code, with the space name. -/
def field_def_error (errcode : box_error_code) (space_name : String) (fieldno : Nat)
    (rest : String) : ClientError :=
  { code := errcode,
    args := [space_name, "field " ++ toString (printf_d (fieldno + TUPLE_INDEX_BASE)) ++ rest] }

/-- The loop of `field_def_decode` over the key-value pairs of the map; the
state is the definition filled so far and `is_action_missing`. -/
def field_def_decode_loop (space_name : String) (errcode : box_error_code) (fieldno : Nat) :
    List (mp_value × mp_value) → field_def × Bool → Except ClientError (field_def × Bool)
  | [], st => Except.ok st
  | (mp_value.str key, val) :: data, (field, is_action_missing) =>
    match opts_parse_key field field_def_reg key val box_error_code.ER_WRONG_SPACE_FORMAT
        ((fieldno + TUPLE_INDEX_BASE) % 2 ^ 32) true with
    | Except.error e => Except.error e
    | Except.ok field =>
      let is_action_missing :=
        if is_action_missing ∧ key = "nullable_action" then false else is_action_missing
      field_def_decode_loop space_name errcode fieldno data (field, is_action_missing)
  | _ :: _, _ =>
    Except.error
      (field_def_error errcode space_name fieldno " format is not map with string keys")

/-- The checks of `field_def_decode` after the loop.  `identifier_check`
(identifier.c) is a parameter: it gives the diagnostic it sets for a name it
rejects, and nothing for a valid name. -/
def field_def_decode_check (identifier_check : String → Option ClientError)
    (space_name : String) (errcode : box_error_code) (fieldno : Nat) (field : field_def) :
    Except ClientError field_def :=
  match field.name with
  | none => Except.error (field_def_error errcode space_name fieldno " name is not specified")
  | some name =>
    let field_name_len := name.length
    if field_name_len > BOX_NAME_MAX then
      Except.error (field_def_error errcode space_name fieldno " name is too long")
    else
      match identifier_check name with
      | some e => Except.error e
      | none =>
        if field.type = field_type_MAX then
          Except.error (field_def_error errcode space_name fieldno " has unknown field type")
        else if field.nullable_action = on_conflict_action_MAX then
          Except.error (field_def_error errcode space_name fieldno
            " has unknown field on conflict nullable action")
        else if ¬ ((field.is_nullable = true ∧
              field.nullable_action = ON_CONFLICT_ACTION_NONE) ∨
            (field.is_nullable = false ∧ field.nullable_action ≠ ON_CONFLICT_ACTION_NONE)) then
          Except.error (field_def_error errcode space_name fieldno
            " has conflicting nullability and nullable action properties")
        else if field.coll_id ≠ COLL_NONE ∧
            field.type ≠ field_type.FIELD_TYPE_STRING.toNat ∧
            field.type ≠ field_type.FIELD_TYPE_SCALAR.toNat ∧
            field.type ≠ field_type.FIELD_TYPE_ANY.toNat then
          Except.error
            { code := errcode,
              args := [space_name,
                "collation is reasonable only for string, scalar and any fields"] }
        else Except.ok field

/-- The inference of `field_def_decode` between the loop and the checks: an
action that the input does not give follows `is_nullable`. -/
def field_def_decode_infer (st : field_def × Bool) : field_def :=
  if st.2 then
    { st.1 with
      nullable_action :=
        if st.1.is_nullable then ON_CONFLICT_ACTION_NONE else ON_CONFLICT_ACTION_DEFAULT }
  else st.1

/-- Embeds `field_def_decode`: the definition decoded from the MsgPack value
`data`, or the diagnostic of the failure. -/
def field_def_decode (identifier_check : String → Option ClientError) (data : mp_value)
    (space_name : String) (errcode : box_error_code) (fieldno : Nat) :
    Except ClientError field_def :=
  match data with
  | mp_value.map pairs =>
    match field_def_decode_loop space_name errcode fieldno pairs (field_def_default, true) with
    | Except.error e => Except.error e
    | Except.ok st =>
      field_def_decode_check identifier_check space_name errcode fieldno
        (field_def_decode_infer st)
  | _ => Except.error (field_def_error errcode space_name fieldno " is not map")

/-- The conditions under which a decoded field definition is rejected, in the
specification's words: the name is missing, too long or not a valid
identifier; the type or the action is the sentinel of its enumeration; the
field is nullable with an action other than NONE, or not nullable with NONE;
a collation is set on a type other than STRING, SCALAR and ANY. -/
def field_def_rejected (identifier_check : String → Option ClientError) (field : field_def) :
    Prop :=
  field.name = none ∨
    (∃ name, field.name = some name ∧ name.length > BOX_NAME_MAX) ∨
    (∃ name, field.name = some name ∧ (identifier_check name).isSome = true) ∨
    field.type = field_type_MAX ∨
    field.nullable_action = on_conflict_action_MAX ∨
    (field.is_nullable = true ∧ field.nullable_action ≠ ON_CONFLICT_ACTION_NONE) ∨
    (field.is_nullable = false ∧ field.nullable_action = ON_CONFLICT_ACTION_NONE) ∨
    (field.coll_id ≠ COLL_NONE ∧ field.type ≠ field_type.FIELD_TYPE_STRING.toNat ∧
      field.type ≠ field_type.FIELD_TYPE_SCALAR.toNat ∧
      field.type ≠ field_type.FIELD_TYPE_ANY.toNat)

/-- The messages of `field_def_decode` that start with the field position,
without that start. -/
def field_def_messages : List String :=
  [" is not map", " format is not map with string keys", " name is not specified",
    " name is too long", " has unknown field type",
    " has unknown field on conflict nullable action",
    " has conflicting nullability and nullable action properties"]

/-! ## Index definitions (`index_def.c`) -/

/-- `BOX_INDEX_MAX`, the bound of index ids. -/
def BOX_INDEX_MAX : Nat := 128

/-- `BOX_INDEX_PART_MAX`, the largest number of parts of a key. -/
def BOX_INDEX_PART_MAX : Nat := 255

/-- `BOX_INDEX_FIELD_MAX`, the largest field number of a key part
(`INT32_MAX`). -/
def BOX_INDEX_FIELD_MAX : Nat := 2 ^ 31 - 1

/-- Mirrors `struct key_part` as far as `index_def.c` reads it. -/
structure key_part where
  fieldno : Nat
  type : Nat
deriving DecidableEq, Repr

/-- Mirrors `struct key_def`; `part_count` is the length of `parts`. -/
structure key_def where
  parts : List key_part
  unique_part_count : Nat
deriving DecidableEq, Repr

/-- Number of parts of a key (`key_def->part_count`). -/
def key_def.part_count (def_ : key_def) : Nat := def_.parts.length

/-- Modelled from the spec: `key_def_dup` (key_def.c) returns a copy of the
key.  Allocation failures are not modelled. -/
def key_def_dup (src : key_def) : key_def := src

/-- Modelled from the spec: `key_def_merge` (key_def.c) returns the parts of
the first key followed by the parts of the second key.  Allocation failures
are not modelled. -/
def key_def_merge (first second : key_def) : key_def :=
  { parts := first.parts ++ second.parts,
    unique_part_count := first.parts.length + second.parts.length }

/-- Mirrors `enum index_type`, in the order of `index_type_strs`. -/
inductive index_type
  | HASH
  | TREE
  | BITSET
  | RTREE
deriving DecidableEq, Repr

/-- Mirrors `enum rtree_index_distance_type`, in the order of
`rtree_index_distance_type_strs`, with the sentinel that closes the
enumeration. -/
inductive rtree_index_distance_type
  | RTREE_INDEX_DISTANCE_TYPE_EUCLID
  | RTREE_INDEX_DISTANCE_TYPE_MANHATTAN
  | rtree_index_distance_type_MAX
deriving DecidableEq, Repr

/-- The array `rtree_index_distance_type_strs`. -/
def rtree_index_distance_type_strs : List String := ["EUCLID", "MANHATTAN"]

/-- The value of an enumerator of `enum rtree_index_distance_type`. -/
def rtree_index_distance_type.toNat : rtree_index_distance_type → Nat
  | RTREE_INDEX_DISTANCE_TYPE_EUCLID => 0
  | RTREE_INDEX_DISTANCE_TYPE_MANHATTAN => 1
  | rtree_index_distance_type_MAX => 2

/-- The enumerator with the given value; a value past the names is the
sentinel. -/
def rtree_index_distance_type.ofIndex : Nat → rtree_index_distance_type
  | 0 => RTREE_INDEX_DISTANCE_TYPE_EUCLID
  | 1 => RTREE_INDEX_DISTANCE_TYPE_MANHATTAN
  | _ => rtree_index_distance_type_MAX

/-- Mirrors `struct index_opts` without the statistics. -/
structure index_opts where
  is_unique : Bool
  dimension : Int
  distance : rtree_index_distance_type
  range_size : Int
  page_size : Int
  run_count_per_level : Int
  run_size_ratio : double
  bloom_fpr : double
  lsn : Int
  sql : Option String
deriving DecidableEq, Repr

/-- The constant `index_opts_default`. -/
def index_opts_default : index_opts :=
  { is_unique := true,
    dimension := 2,
    distance := rtree_index_distance_type.RTREE_INDEX_DISTANCE_TYPE_EUCLID,
    range_size := 1073741824,
    page_size := 8192,
    run_count_per_level := 2,
    run_size_ratio := double.finite 3.5,
    bloom_fpr := double.finite 0.05,
    lsn := 0,
    sql := none }

/-- The table `index_opts_reg`. -/
def index_opts_reg : List (opt_def index_opts) :=
  [opt_def.OPT_BOOL "unique" (fun opts v => { opts with is_unique := v }),
    opt_def.OPT_INT64 "dimension" (fun opts v => { opts with dimension := v }),
    opt_def.OPT_ENUM "distance" rtree_index_distance_type_strs 2 none
      (fun opts v => { opts with distance := rtree_index_distance_type.ofIndex v }),
    opt_def.OPT_INT64 "range_size" (fun opts v => { opts with range_size := v }),
    opt_def.OPT_INT64 "page_size" (fun opts v => { opts with page_size := v }),
    opt_def.OPT_INT64 "run_count_per_level"
      (fun opts v => { opts with run_count_per_level := v }),
    opt_def.OPT_FLOAT "run_size_ratio" (fun opts v => { opts with run_size_ratio := v }),
    opt_def.OPT_FLOAT "bloom_fpr" (fun opts v => { opts with bloom_fpr := v }),
    opt_def.OPT_INT64 "lsn" (fun opts v => { opts with lsn := v }),
    opt_def.OPT_STRPTR "sql" (fun opts v => { opts with sql := v })]

/-- `BOX_INDEX_FIELD_OPTS`, the position of the options in a tuple of the
index catalogue (schema_def.h). -/
def BOX_INDEX_FIELD_OPTS : Nat := 4

/-- Modelled from the spec: `index_opts_create` (index_def.h) starts the
options from `index_opts_default`. -/
def index_opts_create : index_opts := index_opts_default

/-- Modelled from the spec: `opts_decode` (opt_def.c) reads the pairs of the
option map in wire order; a key must be a string, and every pair is handled
by `opts_parse_key`, which rejects a key that is not in the table. -/
def opts_decode {α : Type} (reg : List (opt_def α)) (errcode : box_error_code)
    (field_no : Nat) : List (mp_value × mp_value) → α → Except ClientError α
  | [], opts => Except.ok opts
  | (mp_value.str key, val) :: map, opts =>
    match opts_parse_key opts reg key val errcode field_no false with
    | Except.error e => Except.error e
    | Except.ok opts => opts_decode reg errcode field_no map opts
  | _ :: _, _ =>
    Except.error { code := errcode, args := [toString field_no, "key must be a string"] }

/-- The diagnostics of `index_opts_decode`:
`diag_set(ClientError, ER_WRONG_INDEX_OPTIONS, BOX_INDEX_FIELD_OPTS, reason)`. -/
def index_opts_error (reason : String) : ClientError :=
  { code := box_error_code.ER_WRONG_INDEX_OPTIONS,
    args := [toString BOX_INDEX_FIELD_OPTS, reason] }

/-- The part of `index_opts_decode` after the call of `opts_decode`: the
range checks on the options as decoded, in source order.  The copy of the SQL
text (`strdup`) keeps the text; its allocation failure is not modelled. -/
def index_opts_decode_check (opts : index_opts) : Except ClientError index_opts :=
  if opts.distance = rtree_index_distance_type.rtree_index_distance_type_MAX then
    Except.error (index_opts_error "distance must be either 'euclid' or 'manhattan'")
  else
    let opts := { opts with sql := opts.sql }
    if opts.range_size ≤ 0 then
      Except.error (index_opts_error "range_size must be greater than 0")
    else if opts.page_size ≤ 0 ∨ opts.page_size > opts.range_size then
      Except.error (index_opts_error
        "page_size must be greater than 0 and less than or equal to range_size")
    else if opts.run_count_per_level ≤ 0 then
      Except.error (index_opts_error "run_count_per_level must be greater than 0")
    else if double.le opts.run_size_ratio (double.finite 1) then
      Except.error (index_opts_error "run_size_ratio must be greater than 1")
    else if double.le opts.bloom_fpr (double.finite 0) ∨
        double.lt (double.finite 1) opts.bloom_fpr then
      Except.error (index_opts_error
        "bloom_fpr must be greater than 0 and less than or equal to 1")
    else Except.ok opts

/-- Embeds `index_opts_decode`; `map` holds the pairs of the option map. -/
def index_opts_decode (map : List (mp_value × mp_value)) : Except ClientError index_opts :=
  let opts := index_opts_create
  match opts_decode index_opts_reg box_error_code.ER_WRONG_INDEX_OPTIONS BOX_INDEX_FIELD_OPTS
      map opts with
  | Except.error e => Except.error e
  | Except.ok opts => index_opts_decode_check opts

/-- Mirrors `struct index_def`. -/
structure index_def where
  iid : Nat
  space_id : Nat
  name : String
  type : index_type
  opts : index_opts
  key_def : Tarantool.key_def
  cmp_def : Tarantool.key_def
deriving DecidableEq, Repr

/-- Embeds `index_def_new`; `name` holds the `name_len` bytes of the name.
`identifier_check` (identifier.c) is a parameter, as in `field_def_decode`.
Allocation failures are not modelled, so the only failure is a rejected
name. -/
def index_def_new (identifier_check : String → Option ClientError) (space_id iid : Nat)
    (name : String) (type : index_type) (opts : index_opts)
    (key_def pk_def : Tarantool.key_def) :
    Option index_def :=
  if (identifier_check name).isSome then none
  else
    let def_key_def := key_def_dup key_def
    let def_cmp_def :=
      if iid ≠ 0 then
        let cmp_def := key_def_merge key_def pk_def
        if ¬ opts.is_unique then { cmp_def with unique_part_count := cmp_def.part_count }
        else { cmp_def with unique_part_count := def_key_def.part_count }
      else key_def_dup key_def
    some
      { iid := iid, space_id := space_id, name := name, type := type, opts := opts,
        key_def := def_key_def, cmp_def := def_cmp_def }

/-- The diagnostics of `index_def_is_valid`:
`diag_set(ClientError, ER_MODIFY_INDEX, index name, space name, reason)`. -/
def index_def_error (index_def : Tarantool.index_def) (space_name : String)
    (reason : String) :
    ClientError :=
  { code := box_error_code.ER_MODIFY_INDEX, args := [index_def.name, space_name, reason] }

/-- The loop of `index_def_is_valid` over the key parts: `seen` holds the parts
before part `i`, in order, and the list the parts from part `i` on. -/
def index_def_is_valid_parts (index_def : Tarantool.index_def) (space_name : String) :
    List key_part → List key_part → Except ClientError Unit
  | _, [] => Except.ok ()
  | seen, part :: parts =>
    if part.fieldno > BOX_INDEX_FIELD_MAX then
      Except.error (index_def_error index_def space_name "field no is too big")
    else if seen.any fun earlier => part.fieldno == earlier.fieldno then
      Except.error (index_def_error index_def space_name "same key part is indexed twice")
    else index_def_is_valid_parts index_def space_name (seen ++ [part]) parts

/-- Embeds `index_def_is_valid`: `Except.ok` stands for the result true, and an
error for the result false with the diagnostic set. -/
def index_def_is_valid (index_def : Tarantool.index_def) (space_name : String) :
    Except ClientError Unit :=
  if index_def.iid ≥ BOX_INDEX_MAX then
    Except.error (index_def_error index_def space_name "index id too big")
  else if index_def.iid = 0 ∧ index_def.opts.is_unique = false then
    Except.error (index_def_error index_def space_name "primary key must be unique")
  else if index_def.key_def.part_count = 0 then
    Except.error (index_def_error index_def space_name "part count must be positive")
  else if index_def.key_def.part_count > BOX_INDEX_PART_MAX then
    Except.error (index_def_error index_def space_name "too many key parts")
  else index_def_is_valid_parts index_def space_name [] index_def.key_def.parts

/-- The value of an enumerator of `enum index_type`. -/
def index_type.toNat : index_type → Nat
  | HASH => 0
  | TREE => 1
  | BITSET => 2
  | RTREE => 3

/-- Mirrors `struct index_sample` as far as the layout of the statistics
block reads it: the size of the sample key in bytes. -/
structure index_sample where
  key_size : Nat
deriving DecidableEq, Repr

/-- Embeds `index_stat_sizeof`.  The sizes of `struct index_stat` and of
`struct index_sample` (index_def.h) are parameters; `sizeof(uint32_t)` is 4.
The sum is a `size_t`, taken as 64 bits wide, and `3 * field_count + 2` is
computed on 32 bits. -/
def index_stat_sizeof (sizeof_index_stat sizeof_index_sample : Nat)
    (samples : List index_sample) (sample_count field_count : Nat) : Nat :=
  let alloc_size := sizeof_index_stat % 2 ^ 64
  let alloc_size := (alloc_size + (3 * field_count + 2) % 2 ^ 32 * 4) % 2 ^ 64
  let alloc_size := (alloc_size + sizeof_index_sample * sample_count) % 2 ^ 64
  let alloc_size := (alloc_size + 3 * 4 * field_count * sample_count) % 2 ^ 64
  (samples.take sample_count).foldl
    (fun alloc_size sample => (alloc_size + sample.key_size) % 2 ^ 64) alloc_size

/-- The pointers `index_stat_dup` stores in one sample of the copy, as byte
offsets from the start of the copy. -/
structure index_sample_ptrs where
  eq : Nat
  lt : Nat
  dlt : Nat
  sample_key : Nat
deriving DecidableEq, Repr

/-- The pointers `index_stat_dup` stores in the copy, as byte offsets from
the start of the copy, and the offset `pos` has when the function returns. -/
structure index_stat_ptrs where
  tuple_stat1 : Nat
  tuple_log_est : Nat
  avg_eq : Nat
  samples : Nat
  sample_ptrs : List index_sample_ptrs
  pos : Nat
deriving DecidableEq, Repr

/-- The loop of `index_stat_dup` over the samples, from offset `pos` on. -/
def index_stat_dup_samples (array_size : Nat) :
    List index_sample → Nat → List index_sample_ptrs × Nat
  | [], pos => ([], pos)
  | sample :: samples, pos =>
    let eq := pos
    let pos := pos + array_size
    let lt := pos
    let pos := pos + array_size
    let dlt := pos
    let pos := pos + array_size
    let sample_key := pos
    let pos := pos + sample.key_size
    let rest := index_stat_dup_samples array_size samples pos
    ({ eq := eq, lt := lt, dlt := dlt, sample_key := sample_key } :: rest.1, rest.2)

/-- Embeds the pointer arithmetic of `index_stat_dup`: where the copy's
arrays are put in the block of `index_stat_sizeof` bytes.  The contents of the
block (the `memcpy`) are not modelled.  `array_size` and `stat1_offset` are
32-bit values; `src_samples` holds the samples of the source, of which the
first `sample_count` are laid out. -/
def index_stat_dup (sizeof_index_stat sizeof_index_sample : Nat)
    (src_samples : List index_sample) (sample_count sample_field_count : Nat) :
    index_stat_ptrs :=
  let array_size := sample_field_count * 4 % 2 ^ 32
  let stat1_offset := sizeof_index_stat % 2 ^ 32
  let pos := stat1_offset
  let tuple_stat1 := pos
  let pos := pos + (array_size + 4)
  let tuple_log_est := pos
  let pos := pos + (array_size + 4)
  let avg_eq := pos
  let pos := pos + array_size
  let samples := pos
  let pos := pos + sample_count * sizeof_index_sample
  let rest := index_stat_dup_samples array_size (src_samples.take sample_count) pos
  { tuple_stat1 := tuple_stat1, tuple_log_est := tuple_log_est, avg_eq := avg_eq,
    samples := samples, sample_ptrs := rest.1, pos := rest.2 }

/-- The regions of the copy as pairs of a byte offset and a size: the
structure itself, `tuple_stat1` and `tuple_log_est` (`field_count + 1` entries
of 4 bytes each), `avg_eq` (`field_count` entries), the sample structures,
and for each sample `eq`, `lt`, `dlt` (`field_count` entries each) and the key
bytes. -/
def index_stat_regions (sizeof_index_stat sizeof_index_sample : Nat)
    (samples : List index_sample) (sample_count field_count : Nat) (p : index_stat_ptrs) :
    List (Nat × Nat) :=
  [(0, sizeof_index_stat), (p.tuple_stat1, 4 * (field_count + 1)),
    (p.tuple_log_est, 4 * (field_count + 1)), (p.avg_eq, 4 * field_count),
    (p.samples, sizeof_index_sample * sample_count)] ++
  (List.zip p.sample_ptrs (samples.take sample_count)).flatMap fun qs =>
    [(qs.1.eq, 4 * field_count), (qs.1.lt, 4 * field_count), (qs.1.dlt, 4 * field_count),
      (qs.1.sample_key, qs.2.key_size)]

/-- The size of the block in unbounded arithmetic: the structure, the three
arrays of the header, the sample structures, and for every sample its three
arrays and its key. -/
def index_stat_bytes (sizeof_index_stat sizeof_index_sample : Nat)
    (samples : List index_sample) (field_count : Nat) : Nat :=
  sizeof_index_stat + (3 * field_count + 2) * 4 + sizeof_index_sample * samples.length +
    3 * 4 * field_count * samples.length + (samples.map index_sample.key_size).sum

/-- The regions follow one another from offset `a` on: each starts where the
one before it ends. -/
def regions_chain : Nat → List (Nat × Nat) → Prop
  | _, [] => True
  | a, r :: rs => r.1 = a ∧ regions_chain (a + r.2) rs

/-! ## The action programs, in the specification's words -/

/-- The action of a constraint for the direction of the statement: ON UPDATE
when a change list is given, ON DELETE otherwise. -/
def actionOf (fk_def : fkey_def) (pChanges : Option (List (String × Expr))) : fkey_action :=
  if pChanges.isSome then fk_def.on_update else fk_def.on_delete

/-- The memo slot of a constraint for the direction of the statement. -/
def slotOf (fkey : fkey) (pChanges : Option (List (String × Expr))) : Option sql_trigger :=
  if pChanges.isSome then fkey.on_update_trigger else fkey.on_delete_trigger

/-- The memo slots agree with the actions: a direction whose action is
NO ACTION has an empty slot.  True of a constraint with two empty slots, and
kept by `fkActionTrigger`. -/
def fkey_slots_consistent (fkey : fkey) : Prop :=
  (fkey.def_.on_delete = fkey_action.FKEY_NO_ACTION → fkey.on_delete_trigger = none) ∧
    (fkey.def_.on_update = fkey_action.FKEY_NO_ACTION → fkey.on_update_trigger = none)

instance (fkey : fkey) : Decidable (fkey_slots_consistent fkey) := by
  unfold fkey_slots_consistent; infer_instance

/-- The name of a column of a space definition, empty when out of range. -/
def columnName (def_ : space_def) (fieldno : Nat) : String :=
  (def_.fields[fieldno]?.bind field_def.name).getD ""

/-- The selection term of one link: `old.<parent column> = <child column>`. -/
def actionLinkEq (child_space : space) (pTab : Table) (l : field_link) : Expr :=
  Expr.TK_EQ (Expr.TK_DOT (Expr.TK_ID "old") (Expr.TK_ID (columnName pTab.def_ l.parent_field)))
    (Expr.TK_ID (columnName child_space.def_ l.child_field))

/-- The selection of an action program: the conjunction of the selection
terms of all links. -/
def actionSelection (child_space : space) (pTab : Table) (fk_def : fkey_def) : Option Expr :=
  exprConj (fk_def.links.map (actionLinkEq child_space pTab))

/-- The WHEN term of one link: `old.<parent column> = new.<parent column>`. -/
def actionWhenEq (pTab : Table) (l : field_link) : Expr :=
  Expr.TK_EQ (Expr.TK_DOT (Expr.TK_ID "old") (Expr.TK_ID (columnName pTab.def_ l.parent_field)))
    (Expr.TK_DOT (Expr.TK_ID "new") (Expr.TK_ID (columnName pTab.def_ l.parent_field)))

/-- The value an action program assigns to the child column of a link. -/
def actionValue (space_by_id : Nat → space) (pTab : Table) (fk_def : fkey_def)
    (action : fkey_action) (l : field_link) : Expr :=
  match action with
  | fkey_action.FKEY_ACTION_CASCADE =>
    Expr.TK_DOT (Expr.TK_ID "new") (Expr.TK_ID (columnName pTab.def_ l.parent_field))
  | fkey_action.FKEY_ACTION_SET_DEFAULT =>
    (space_column_default_expr space_by_id fk_def.child_id l.child_field).getD Expr.TK_NULL
  | _ => Expr.TK_NULL

/-- The assignment list of an action program: empty for RESTRICT and for
CASCADE on delete, otherwise one assignment per link, in link order, to the
child column of the link. -/
def actionAssignments (space_by_id : Nat → space) (pTab : Table) (fk_def : fkey_def)
    (action : fkey_action) (is_update : Bool) : List (String × Expr) :=
  match action, is_update with
  | fkey_action.FKEY_ACTION_RESTRICT, _ => []
  | fkey_action.FKEY_ACTION_CASCADE, false => []
  | _, _ =>
    fk_def.links.map fun l =>
      (columnName (space_by_id fk_def.child_id).def_ l.child_field,
        actionValue space_by_id pTab fk_def action l)

/-- The step kind of an action program: SELECT for RESTRICT, DELETE for
CASCADE on delete, UPDATE otherwise. -/
def actionStep (action : fkey_action) (is_update : Bool) : trigger_op :=
  match action, is_update with
  | fkey_action.FKEY_ACTION_RESTRICT, _ => trigger_op.TK_SELECT
  | fkey_action.FKEY_ACTION_CASCADE, false => trigger_op.TK_DELETE
  | _, _ => trigger_op.TK_UPDATE

/-- The WHEN clause of an action program: on update, the negated conjunction
of the WHEN terms of all links; none on delete. -/
def actionWhen (pTab : Table) (fk_def : fkey_def) (is_update : Bool) : Option Expr :=
  if is_update then (exprConj (fk_def.links.map (actionWhenEq pTab))).map Expr.TK_NOT else none

/-- The action program of a constraint for one direction, in the
specification's words: it targets the child space and selects the child rows
by `actionSelection`; RESTRICT is a SELECT of the RAISE expression over these
rows, the other actions are a DELETE or an UPDATE of these rows. -/
def actionProgram (space_by_id : Nat → space) (pTab : Table) (fk_def : fkey_def)
    (pChanges : Option (List (String × Expr))) : sql_trigger :=
  let action := actionOf fk_def pChanges
  let child_space := space_by_id fk_def.child_id
  { op := if pChanges.isSome then trigger_op.TK_UPDATE else trigger_op.TK_DELETE,
    zTarget := child_space.def_.name,
    step_op := actionStep action pChanges.isSome,
    pWhere :=
      if action = fkey_action.FKEY_ACTION_RESTRICT then none
      else actionSelection child_space pTab fk_def,
    pExprList := actionAssignments space_by_id pTab fk_def action pChanges.isSome,
    pSelect :=
      if action = fkey_action.FKEY_ACTION_RESTRICT then
        some ([Expr.TK_RAISE "FOREIGN KEY constraint failed" ON_CONFLICT_ACTION_ABORT],
          child_space.def_.name, actionSelection child_space pTab fk_def)
      else none,
    pWhen := actionWhen pTab fk_def pChanges.isSome }

/-- The constraint object with the memo slot of the direction set. -/
def fkey.withSlot (fkey : fkey) (pChanges : Option (List (String × Expr)))
    (trigger : sql_trigger) : Tarantool.fkey :=
  if pChanges.isSome then { fkey with on_update_trigger := some trigger }
  else { fkey with on_delete_trigger := some trigger }

/-- The containment among the field types other than ANY, in the
specification's words. -/
def containsTable (a b : field_type) : Bool :=
  decide (a = b) ||
    (a == field_type.FIELD_TYPE_INTEGER && b == field_type.FIELD_TYPE_UNSIGNED) ||
    (a == field_type.FIELD_TYPE_NUMBER &&
      (b == field_type.FIELD_TYPE_UNSIGNED || b == field_type.FIELD_TYPE_INTEGER)) ||
    (a == field_type.FIELD_TYPE_SCALAR &&
      (b == field_type.FIELD_TYPE_UNSIGNED || b == field_type.FIELD_TYPE_STRING ||
        b == field_type.FIELD_TYPE_NUMBER || b == field_type.FIELD_TYPE_INTEGER ||
        b == field_type.FIELD_TYPE_BOOLEAN))

/-- One call of `fkActionTrigger` on a constraint: the session of the caller,
the schema, whether an allocation fails, the table and the change list. -/
structure ActionCall where
  user_session : session
  space_by_id : Nat → space
  mallocFailed : Bool
  pTab : Table
  pChanges : Option (List (String × Expr))

/-- The constraint object after a sequence of calls of `fkActionTrigger` on it. -/
def fkActionTrigger_calls (calls : List ActionCall) (fkey : fkey) : Tarantool.fkey :=
  calls.foldl
    (fun fkey c =>
      (fkActionTrigger c.user_session c.space_by_id c.mallocFailed c.pTab fkey c.pChanges).2)
    fkey

/-! ## What the generated code reads of a row image -/

/-- The registers an instruction reads when `sqlite3VdbeStep` runs it. -/
def VdbeOp.reads (op : VdbeOp) : List Nat :=
  match op.opcode with
  | Opcode.OP_IsNull => [op.p1.toNat]
  | Opcode.OP_Copy => [op.p1.toNat]
  | Opcode.OP_Ne => [op.p1.toNat, op.p3.toNat]
  | Opcode.OP_MakeRecord => (List.range op.p2.toNat).map fun i => op.p1.toNat + i
  | Opcode.OP_Found => [op.p3.toNat]
  | _ => []

/-- The registers an expression names. -/
def Expr.registers : Expr → List Nat
  | Expr.TK_REGISTER iTable _ => [iTable]
  | Expr.TK_COLLATE e _ => e.registers
  | Expr.TK_EQ l r => l.registers ++ r.registers
  | Expr.TK_AND l r => l.registers ++ r.registers
  | Expr.TK_DOT l r => l.registers ++ r.registers
  | Expr.TK_NOT e => e.registers
  | _ => []

/-- The columns of the old row an expression names, as `old.<column>`. -/
def Expr.oldColumns : Expr → List String
  | Expr.TK_COLLATE e _ => e.oldColumns
  | Expr.TK_EQ l r => l.oldColumns ++ r.oldColumns
  | Expr.TK_AND l r => l.oldColumns ++ r.oldColumns
  | Expr.TK_DOT l r =>
    (match l, r with
      | Expr.TK_ID zTable, Expr.TK_ID zColumn => if zTable = "old" then [zColumn] else []
      | _, _ => []) ++ (l.oldColumns ++ r.oldColumns)
  | Expr.TK_NOT e => e.oldColumns
  | _ => []

/-- The columns of the old row a trigger program names: in the WHERE clause
and the assigned values of its step, in the select of its step and in its WHEN
clause. -/
def sql_trigger.oldColumns (t : sql_trigger) : List String :=
  (t.pWhere.toList.flatMap Expr.oldColumns) ++
    (t.pExprList.flatMap fun a => a.2.oldColumns) ++
    (t.pSelect.toList.flatMap fun s =>
      s.1.flatMap Expr.oldColumns ++ s.2.2.toList.flatMap Expr.oldColumns) ++
    (t.pWhen.toList.flatMap Expr.oldColumns)

/-! ## Sample data -/

/-- A session with foreign keys enabled and not deferred by default. -/
def sampleSession : session := { SQLITE_ForeignKeys := true, SQLITE_DeferFKs := false }

/-- A top-level, single-row statement with an empty program, one cursor
allocated and registers 1 to 3 in use. -/
def sampleParse : Parse :=
  { pVdbe := { aOp := [], aLabel := [] }, nTab := 1, nMem := 3, pToplevel := false,
    isMultiWrite := false, mayAbort := false, pTriggerPrg := none }

/-- The same statement compiled as a multi-row write. -/
def sampleParseMulti : Parse := { sampleParse with isMultiWrite := true }

/-- A space with two columns and no constraint lists filled in. -/
def sampleSpace (id : Nat) : space :=
  { def_ := { id := id, name := "t", fields := [{ field_def_default with name := some "a" },
      { field_def_default with name := some "b" }] },
    child_fkey := [], parent_fkey := [] }

/-- A one-link constraint: column 1 of space `child` references column 0 of
space `parent`. -/
def sampleFk (is_deferred : Bool) (child parent : Nat) : fkey_def :=
  { child_id := child, parent_id := parent, links := [{ parent_field := 0, child_field := 1 }],
    is_deferred := is_deferred, on_delete := fkey_action.FKEY_NO_ACTION,
    on_update := fkey_action.FKEY_NO_ACTION }

/-- A row image with two columns. -/
def sampleRow (a b : Value) : Nat → Value :=
  fun c => if c = 0 then a else if c = 1 then b else Value.Null

/-- A machine state at address 0 whose registers 1 and 2 hold the row
`(a, b)`, with the given immediate and deferred counters. -/
def sampleState (a b : Value) (nFk nDef : Int) : VdbeState :=
  { pc := 0, aMem := fun r => if r = 1 then Mem.val a else if r = 2 then Mem.val b
      else Mem.val Value.Null,
    apCsr := fun _ => none, nFkConstraint := nFk, nDeferredCons := nDef,
    status := VdbeStatus.running, sqlite3_found_count := 0 }

/-- A database whose every index holds exactly the keys `keys`. -/
def sampleDb (keys : List (List Value)) : Database := fun _ => keys

/-- A sample check: the deferred one-link constraint on the row `(7, b)`, as
an insert or a delete, against a parent index holding `keys`. -/
def sampleCheck (incr_count : Int) (b : Value) (keys : List (List Value)) : ChildCheck :=
  { parse_context := sampleParseMulti, parent := sampleSpace 1, fk_def := sampleFk true 2 1,
    referenced_idx := 0, reg_data := 0, incr_count := incr_count, is_ignore := false,
    db := sampleDb keys,
    aMem := fun r => if r = 1 then Mem.val (Value.Int 7) else if r = 2 then Mem.val b
      else Mem.val Value.Null,
    apCsr := fun _ => none, nFkConstraint := 0, row := sampleRow (Value.Int 7) b, nCol := 2 }

/-- A statement like `sampleParse` whose program already holds one instruction,
so that newly emitted code does not start at address 0. -/
def sampleParseBusy (isMultiWrite : Bool) : Parse :=
  { sampleParse with
    pVdbe := { aOp := [⟨Opcode.OP_Goto, 0, 1, 0, P4.P4_NOTUSED, 0⟩], aLabel := [] },
    isMultiWrite := isMultiWrite }

/-- A constraint object for `sampleFk` with the given actions and no trigger
built yet. -/
def sampleFkey (is_deferred : Bool) (child parent : Nat) (on_delete on_update : fkey_action) :
    fkey :=
  { def_ := { sampleFk is_deferred child parent with
      on_delete := on_delete, on_update := on_update },
    index_id := 0, on_delete_trigger := none, on_update_trigger := none }

/-- A schema in which every space has the two sample columns, and space
`parent` is referenced by the constraints `fks`. -/
def sampleSchema (parent : Nat) (fks : List fkey) : Nat → space :=
  fun id => if id = parent then { sampleSpace id with parent_fkey := fks } else sampleSpace id

/-- The table object of sample space `id`, without an integer primary key. -/
def sampleTable (id : Nat) : Table := { def_ := (sampleSpace id).def_, iPKey := -1 }

/-- A session with foreign keys enabled and deferred by default. -/
def sampleSessionDefer : session := { SQLITE_ForeignKeys := true, SQLITE_DeferFKs := true }

/-- A change list of an UPDATE that assigns column `a`. -/
def sampleChanges : Option (List (String × Expr)) := some [("a", Expr.TK_INTEGER 1)]

/-- The change array of an UPDATE that assigns column `c` only. -/
def sampleChange (c : Nat) : Nat → Int := fun i => if i = c then 0 else -1

/-- A two-link constraint: columns 1 and 0 of space `child` reference columns
0 and 1 of space `parent`. -/
def sampleFkey2 (child parent : Nat) (on_delete on_update : fkey_action) : fkey :=
  { def_ :=
      { child_id := child, parent_id := parent,
        links := [{ parent_field := 0, child_field := 1 }, { parent_field := 1, child_field := 0 }],
        is_deferred := false, on_delete := on_delete, on_update := on_update },
    index_id := 0, on_delete_trigger := none, on_update_trigger := none }

/-- A schema in which space 2 is the child and space 1 the parent of the
constraints `fks`. -/
def sampleSchema2 (fks : List fkey) : Nat → space :=
  fun id =>
    if id = 2 then { sampleSpace 2 with child_fkey := fks }
    else if id = 1 then { sampleSpace 1 with parent_fkey := fks }
    else sampleSpace id

/-- The one-link constraint with ON DELETE RESTRICT whose delete program has
already been built, in a session that does not defer foreign keys. -/
def sampleFkeyRestrict : fkey :=
  (fkActionTrigger sampleSession (sampleSchema 1 []) false (sampleTable 1)
    (sampleFkey false 2 1 fkey_action.FKEY_ACTION_RESTRICT fkey_action.FKEY_NO_ACTION) none).2

/-- An identifier check that rejects the empty name only. -/
def sampleIdentifierCheck : String → Option ClientError :=
  fun name =>
    if name.isEmpty then some { code := box_error_code.ER_CODE 0, args := [name] } else none

/-- A key over the given field numbers, all of type UNSIGNED. -/
def sampleKey (fields : List Nat) : key_def :=
  { parts := fields.map fun fieldno =>
      { fieldno := fieldno, type := field_type.FIELD_TYPE_UNSIGNED.toNat },
    unique_part_count := fields.length }

/-- A session with foreign keys switched off. -/
def sampleSessionOff : session := { SQLITE_ForeignKeys := false, SQLITE_DeferFKs := false }

/-- A schema of spaces with three columns in which space 2 references itself:
its column 1 refers to its column 0 by the immediate constraint of `sampleFk`,
which is in both lists of the space; column 2 takes no part in it. -/
def sampleSchemaSelf : Nat → space :=
  fun id =>
    { def_ :=
        { id := id, name := "t",
          fields := [{ field_def_default with name := some "a" },
            { field_def_default with name := some "b" },
            { field_def_default with name := some "c" }] },
      child_fkey :=
        if id = 2 then
          [sampleFkey false 2 2 fkey_action.FKEY_NO_ACTION fkey_action.FKEY_NO_ACTION]
        else [],
      parent_fkey :=
        if id = 2 then
          [sampleFkey false 2 2 fkey_action.FKEY_NO_ACTION fkey_action.FKEY_NO_ACTION]
        else [] }

theorem foldl_codeIsNull (links : List field_link) (reg_data : Nat) (ok : Int) (v : Vdbe) :
    links.foldl (fun v l => sqlite3VdbeAddOp2 v Opcode.OP_IsNull
        (l.child_field + reg_data + 1 : Nat) ok) v =
      { v with aOp := v.aOp ++ codeIsNull links reg_data ok } := by
  induction links generalizing v with
  | nil => simp [codeIsNull]
  | cons l ls ih =>
    simp only [List.foldl_cons, ih]
    simp [codeIsNull, sqlite3VdbeAddOp2, sqlite3VdbeAddOp3, sqlite3VdbeAddOp4]

theorem foldl_codeCopy (links : List field_link) (reg_data temp_regs j : Nat) (v : Vdbe) :
    (links.enumFrom j).foldl (fun v il => sqlite3VdbeAddOp2 v Opcode.OP_Copy
        (il.2.child_field + 1 + reg_data : Nat) (temp_regs + il.1 : Nat)) v =
      { v with aOp := v.aOp ++ codeCopy links reg_data temp_regs j } := by
  induction links generalizing v j with
  | nil => simp [codeCopy]
  | cons l ls ih =>
    simp only [List.enumFrom_cons, List.foldl_cons, ih]
    simp [codeCopy, sqlite3VdbeAddOp2, sqlite3VdbeAddOp3, sqlite3VdbeAddOp4]

theorem sqlite3VdbeChangeP5_addOp (v : Vdbe) (op : Opcode) (p1 p2 p3 : Int) (p4 : P4)
    (p5 : Nat) :
    sqlite3VdbeChangeP5 (sqlite3VdbeAddOp4 v op p1 p2 p3 p4) p5 =
      { v with aOp := v.aOp ++
        [{ opcode := op, p1 := p1, p2 := p2, p3 := p3, p4 := p4, p5 := p5 }] } := by
  simp [sqlite3VdbeChangeP5, sqlite3VdbeAddOp4]

theorem foldl_codeNe (links : List field_link) (reg_data jump : Nat) (v : Vdbe) :
    links.foldl (fun v l => sqlite3VdbeChangeP5
        (sqlite3VdbeAddOp3 v Opcode.OP_Ne (l.child_field + 1 + reg_data : Nat) (jump : Nat)
          (l.parent_field + 1 + reg_data : Nat)) SQLITE_JUMPIFNULL) v =
      { v with aOp := v.aOp ++ codeNe links reg_data jump } := by
  induction links generalizing v with
  | nil => simp [codeNe]
  | cons l ls ih =>
    rw [List.foldl_cons, ih]
    simp [codeNe, sqlite3VdbeAddOp3, sqlite3VdbeChangeP5_addOp]

theorem codeIsNull_length (links : List field_link) (reg_data : Nat) (ok : Int) :
    (codeIsNull links reg_data ok).length = links.length := by
  simp [codeIsNull]

theorem codeCopy_length (links : List field_link) (reg_data temp_regs j : Nat) :
    (codeCopy links reg_data temp_regs j).length = links.length := by
  simp [codeCopy]

theorem codeNe_length (links : List field_link) (reg_data jump : Nat) :
    (codeNe links reg_data jump).length = links.length := by
  simp [codeNe]

theorem sqlite3HaltConstraint_pVdbe (pParse : Parse) (errCode onError : Int) (p4 : P4)
    (p5Errmsg : Nat) :
    (sqlite3HaltConstraint pParse errCode onError p4 p5Errmsg).pVdbe =
      { pParse.pVdbe with aOp := pParse.pVdbe.aOp ++
        [{ opcode := Opcode.OP_Halt, p1 := errCode, p2 := onError, p3 := 0, p4 := p4,
           p5 := p5Errmsg }] } := by
  unfold sqlite3HaltConstraint
  by_cases h : onError = ON_CONFLICT_ACTION_ABORT <;>
    simp [h, sqlite3VdbeChangeP5_addOp, sqlite3MayAbort]

/-- The program `fkey_lookup_parent` leaves behind: the instructions present
before, the body, and the `OP_Close` that the exit label is bound to. -/
theorem fkey_lookup_parent_pVdbe (user_session : session) (parse_context : Parse)
    (parent : space) (fk_def : fkey_def) (referenced_idx reg_data : Nat) (incr_count : Int)
    (is_ignore : Bool) :
    (fkey_lookup_parent user_session parse_context parent fk_def referenced_idx reg_data
        incr_count is_ignore).pVdbe =
      { aOp := parse_context.pVdbe.aOp ++
          (codeBody user_session parse_context parent fk_def referenced_idx reg_data
            incr_count is_ignore ++ [codeClose parse_context]),
        aLabel := parse_context.pVdbe.aLabel ++
          [some (parse_context.pVdbe.aOp.length +
            (codeBody user_session parse_context parent fk_def referenced_idx reg_data
              incr_count is_ignore).length)] } := by
  unfold fkey_lookup_parent
  simp only [sqlite3VdbeMakeLabel, sqlite3GetTempRange, sqlite3GetTempReg, vdbe_emit_open_cursor,
    List.enum, foldl_codeIsNull, foldl_codeCopy, foldl_codeNe]
  simp only [apply_ite Parse.pVdbe, sqlite3HaltConstraint_pVdbe]
  have hset : ∀ (L : List (Option Nat)) (x : Option Nat),
      (L ++ [none]).set (-1 - (-1 - (L.length : Int))).toNat x = L ++ [x] := by
    intro L x
    have : (-1 - (-1 - (L.length : Int))).toNat = L.length := by
      have : (-1 - (-1 - (L.length : Int))) = (L.length : Int) := by ring
      rw [this]; exact Int.toNat_natCast _
    rw [this]; simp
  by_cases h1 : incr_count < 0 <;> by_cases h2 : is_ignore = false <;>
    by_cases h3 : (parent.def_.id = fk_def.child_id ∧ incr_count = 1) <;>
    by_cases h4 : (fk_def.is_deferred = false ∧ user_session.SQLITE_DeferFKs = false ∧
      parse_context.pToplevel = false ∧ parse_context.isMultiWrite = false) <;>
    first
    | (exfalso; omega)
    | simp [h1, h2, h3, h4, codeBody, codeProbe, codeSelf, codeTail, codeFkIfZero, codeFound,
      codeClose, okLabel, fkey_is_immediate, sqlite3VdbeAddOp1, sqlite3VdbeAddOp2,
      sqlite3VdbeAddOp3, sqlite3VdbeAddOp4Int, sqlite3HaltConstraint, sqlite3VdbeChangeP5_addOp,
      sqlite3VdbeAddOp4,
      sqlite3MayAbort, sqlite3VdbeResolveLabel, sqlite3VdbeGoto, sqlite3VdbeCurrentAddr,
      codeIsNull_length, codeCopy_length, codeNe_length, hset, fkey_def.field_count,
      ON_CONFLICT_ACTION_ABORT, add_assoc, add_comm, add_left_comm]

/-! ## Execution lemmas -/

theorem CodeAt_of_append (v : Vdbe) (pre code : List VdbeOp) (h : v.aOp = pre ++ code) :
    CodeAt v pre.length code := by
  intro i _
  rw [h, List.getElem?_append_right (Nat.le_add_right _ _)]
  simp

theorem CodeAt_left {v : Vdbe} {a : Nat} {x y : List VdbeOp} (h : CodeAt v a (x ++ y)) :
    CodeAt v a x := by
  intro i hi
  rw [h i (by simp; omega), List.getElem?_append_left hi]

theorem CodeAt_right {v : Vdbe} {a : Nat} {x y : List VdbeOp} (h : CodeAt v a (x ++ y)) :
    CodeAt v (a + x.length) y := by
  intro i hi
  have := h (x.length + i) (by simp; omega)
  rw [List.getElem?_append_right (Nat.le_add_right _ _)] at this
  simpa [Nat.add_assoc] using this

theorem CodeAt_head {v : Vdbe} {a : Nat} {op : VdbeOp} {rest : List VdbeOp}
    (h : CodeAt v a (op :: rest)) : v.aOp[a]? = some op := by
  have := h 0 (by simp)
  simpa using this

theorem CodeAt_tail {v : Vdbe} {a : Nat} {op : VdbeOp} {rest : List VdbeOp}
    (h : CodeAt v a (op :: rest)) : CodeAt v (a + 1) rest := by
  have := CodeAt_right (x := [op]) (y := rest) (by simpa using h)
  simpa using this

theorem sqlite3VdbeExec_add (v : Vdbe) (db : Database) (m n : Nat) (s : VdbeState) :
    sqlite3VdbeExec v db (m + n) s = sqlite3VdbeExec v db n (sqlite3VdbeExec v db m s) := by
  induction m generalizing s with
  | zero => simp [sqlite3VdbeExec]
  | succ m ih =>
    rw [Nat.add_right_comm]
    simp [sqlite3VdbeExec, ih]

theorem sqlite3VdbeExec_one (v : Vdbe) (db : Database) (s : VdbeState) :
    sqlite3VdbeExec v db 1 s = sqlite3VdbeStep v db s := by
  simp [sqlite3VdbeExec]

theorem sqlite3VdbeExec_fixed (v : Vdbe) (db : Database) (s : VdbeState)
    (h : sqlite3VdbeStep v db s = s) (n : Nat) : sqlite3VdbeExec v db n s = s := by
  induction n with
  | zero => rfl
  | succ n ih => simp [sqlite3VdbeExec, h, ih]

/-- Once a state that no instruction changes is reached within `k` steps, any
larger amount of fuel gives that state. -/
theorem sqlite3VdbeExec_of_reach (v : Vdbe) (db : Database) (s t : VdbeState) (k fuel : Nat)
    (hk : sqlite3VdbeExec v db k s = t) (hfix : sqlite3VdbeStep v db t = t) (hle : k ≤ fuel) :
    sqlite3VdbeExec v db fuel s = t := by
  obtain ⟨d, rfl⟩ := Nat.exists_eq_add_of_le hle
  rw [sqlite3VdbeExec_add, hk, sqlite3VdbeExec_fixed v db t hfix]

theorem sqlite3VdbeStep_halted (v : Vdbe) (db : Database) (s : VdbeState)
    (h : s.status ≠ VdbeStatus.running) : sqlite3VdbeStep v db s = s := by
  unfold sqlite3VdbeStep
  cases hs : s.status <;> simp_all

theorem sqlite3VdbeStep_end (v : Vdbe) (db : Database) (s : VdbeState)
    (h : v.aOp.length ≤ s.pc) : sqlite3VdbeStep v db s = s := by
  unfold sqlite3VdbeStep
  have : v.aOp[s.pc]? = none := List.getElem?_eq_none h
  cases hs : s.status <;> simp [this]

theorem resolveP2_nat (v : Vdbe) (a : Nat) : resolveP2 v (a : Int) = some a := by
  simp [resolveP2]

/-! ### One instruction at a time -/

theorem step_IsNull (v : Vdbe) (db : Database) (s : VdbeState) (r : Nat) (p2 p3 : Int) (p4 : P4)
    (p5 : Nat) (hrun : s.status = VdbeStatus.running)
    (h : v.aOp[s.pc]? = some ⟨Opcode.OP_IsNull, (r : Int), p2, p3, p4, p5⟩) :
    sqlite3VdbeStep v db s =
      if s.aMem r = Mem.val Value.Null then jumpToP2 v s p2 else { s with pc := s.pc + 1 } := by
  simp [sqlite3VdbeStep, hrun, h]

theorem step_FkIfZero (v : Vdbe) (db : Database) (s : VdbeState) (p1 p2 p3 : Int) (p4 : P4)
    (p5 : Nat) (hrun : s.status = VdbeStatus.running)
    (h : v.aOp[s.pc]? = some ⟨Opcode.OP_FkIfZero, p1, p2, p3, p4, p5⟩) :
    sqlite3VdbeStep v db s =
      if (if p1 ≠ 0 then s.nDeferredCons else s.nFkConstraint) = 0 then jumpToP2 v s p2
      else { s with pc := s.pc + 1 } := by
  simp [sqlite3VdbeStep, hrun, h]

theorem step_FkCounter (v : Vdbe) (db : Database) (s : VdbeState) (p1 p2 p3 : Int) (p4 : P4)
    (p5 : Nat) (hrun : s.status = VdbeStatus.running)
    (h : v.aOp[s.pc]? = some ⟨Opcode.OP_FkCounter, p1, p2, p3, p4, p5⟩) :
    sqlite3VdbeStep v db s =
      if p1 ≠ 0 then { s with pc := s.pc + 1, nDeferredCons := s.nDeferredCons + p2 }
      else { s with pc := s.pc + 1, nFkConstraint := s.nFkConstraint + p2 } := by
  simp [sqlite3VdbeStep, hrun, h]

theorem step_OpenWrite (v : Vdbe) (db : Database) (s : VdbeState) (c pg : Nat) (p3 : Int)
    (p4 : P4) (p5 : Nat) (hrun : s.status = VdbeStatus.running)
    (h : v.aOp[s.pc]? = some ⟨Opcode.OP_OpenWrite, (c : Int), (pg : Int), p3, p4, p5⟩) :
    sqlite3VdbeStep v db s =
      { s with pc := s.pc + 1, apCsr := Function.update s.apCsr c (some pg) } := by
  simp [sqlite3VdbeStep, hrun, h]

theorem step_Close (v : Vdbe) (db : Database) (s : VdbeState) (c : Nat) (p2 p3 : Int)
    (p4 : P4) (p5 : Nat) (hrun : s.status = VdbeStatus.running)
    (h : v.aOp[s.pc]? = some ⟨Opcode.OP_Close, (c : Int), p2, p3, p4, p5⟩) :
    sqlite3VdbeStep v db s =
      { s with pc := s.pc + 1, apCsr := Function.update s.apCsr c none } := by
  simp [sqlite3VdbeStep, hrun, h]

theorem step_Copy (v : Vdbe) (db : Database) (s : VdbeState) (src dst : Nat) (p3 : Int)
    (p4 : P4) (p5 : Nat) (hrun : s.status = VdbeStatus.running)
    (h : v.aOp[s.pc]? = some ⟨Opcode.OP_Copy, (src : Int), (dst : Int), p3, p4, p5⟩) :
    sqlite3VdbeStep v db s =
      { s with pc := s.pc + 1, aMem := Function.update s.aMem dst (s.aMem src) } := by
  simp [sqlite3VdbeStep, hrun, h]

theorem step_Ne (v : Vdbe) (db : Database) (s : VdbeState) (r1 r3 : Nat) (p2 : Int)
    (p4 : P4) (hrun : s.status = VdbeStatus.running)
    (h : v.aOp[s.pc]? = some ⟨Opcode.OP_Ne, (r1 : Int), p2, (r3 : Int), p4, SQLITE_JUMPIFNULL⟩) :
    sqlite3VdbeStep v db s =
      if s.aMem r1 = Mem.val Value.Null ∨ s.aMem r3 = Mem.val Value.Null then jumpToP2 v s p2
      else if s.aMem r3 ≠ s.aMem r1 then jumpToP2 v s p2
      else { s with pc := s.pc + 1 } := by
  have h16 : SQLITE_JUMPIFNULL ≠ 0 := by decide
  simp [sqlite3VdbeStep, hrun, h, h16]

theorem step_Goto (v : Vdbe) (db : Database) (s : VdbeState) (p1 p2 p3 : Int) (p4 : P4)
    (p5 : Nat) (hrun : s.status = VdbeStatus.running)
    (h : v.aOp[s.pc]? = some ⟨Opcode.OP_Goto, p1, p2, p3, p4, p5⟩) :
    sqlite3VdbeStep v db s = jumpToP2 v s p2 := by
  simp [sqlite3VdbeStep, hrun, h]

theorem step_MakeRecord (v : Vdbe) (db : Database) (s : VdbeState) (r n dst : Nat)
    (p4 : P4) (p5 : Nat) (key : List Value) (hrun : s.status = VdbeStatus.running)
    (h : v.aOp[s.pc]? = some ⟨Opcode.OP_MakeRecord, (r : Int), (n : Int), (dst : Int), p4, p5⟩)
    (hkey : readValues s.aMem r n = some key) :
    sqlite3VdbeStep v db s =
      { s with pc := s.pc + 1, aMem := Function.update s.aMem dst (Mem.record key) } := by
  simp [sqlite3VdbeStep, hrun, h, hkey]

theorem step_Found (v : Vdbe) (db : Database) (s : VdbeState) (c r pg : Nat) (p2 : Int)
    (p4 : P4) (p5 : Nat) (key : List Value) (hrun : s.status = VdbeStatus.running)
    (h : v.aOp[s.pc]? = some ⟨Opcode.OP_Found, (c : Int), p2, (r : Int), p4, p5⟩)
    (hcsr : s.apCsr c = some pg) (hrec : s.aMem r = Mem.record key) :
    sqlite3VdbeStep v db s =
      if key ∈ db pg then
        jumpToP2 v { s with sqlite3_found_count := s.sqlite3_found_count + 1 } p2
      else { s with pc := s.pc + 1, sqlite3_found_count := s.sqlite3_found_count + 1 } := by
  simp [sqlite3VdbeStep, hrun, h, hcsr, hrec]

theorem step_Halt (v : Vdbe) (db : Database) (s : VdbeState) (p1 p2 p3 : Int) (p4 : P4)
    (p5 : Nat) (hrun : s.status = VdbeStatus.running)
    (h : v.aOp[s.pc]? = some ⟨Opcode.OP_Halt, p1, p2, p3, p4, p5⟩) :
    sqlite3VdbeStep v db s = { s with status := VdbeStatus.halted p1 p2 p5 } := by
  simp [sqlite3VdbeStep, hrun, h]

/-! ### The loops -/

/-- The NULL tests fall through when every tested register is non-NULL. -/
theorem exec_codeIsNull_pass (v : Vdbe) (db : Database) (links : List field_link)
    (reg_data : Nat) (ok : Int) (a : Nat) (s : VdbeState)
    (hcode : CodeAt v a (codeIsNull links reg_data ok)) (hpc : s.pc = a)
    (hrun : s.status = VdbeStatus.running)
    (hnn : ∀ l ∈ links, s.aMem (l.child_field + reg_data + 1) ≠ Mem.val Value.Null) :
    sqlite3VdbeExec v db links.length s = { s with pc := a + links.length } := by
  induction links generalizing a s with
  | nil => subst hpc; rfl
  | cons l ls ih =>
    have hfetch : v.aOp[s.pc]? = some (⟨Opcode.OP_IsNull,
        ((l.child_field + reg_data + 1 : Nat) : Int), ok, 0, P4.P4_NOTUSED, 0⟩ : VdbeOp) :=
      hpc ▸ CodeAt_head hcode
    have htail : CodeAt v (a + 1) (codeIsNull ls reg_data ok) := CodeAt_tail hcode
    have hl := hnn l (by simp)
    have hstep : sqlite3VdbeStep v db s = { s with pc := a + 1 } := by
      rw [step_IsNull v db s _ _ _ _ _ hrun hfetch, if_neg hl, hpc]
    simp only [List.length_cons, sqlite3VdbeExec, hstep]
    rw [ih (a + 1) { s with pc := a + 1 } htail rfl hrun
      (fun l hl => hnn l (by simp [hl]))]
    simp only [VdbeState.mk.injEq, and_true, true_and]
    omega

/-- The NULL tests jump to the exit at the first NULL register. -/
theorem exec_codeIsNull_jump (v : Vdbe) (db : Database) (links : List field_link)
    (reg_data : Nat) (ok : Int) (a : Nat) (s : VdbeState) (tgt : Nat)
    (hcode : CodeAt v a (codeIsNull links reg_data ok)) (hpc : s.pc = a)
    (hrun : s.status = VdbeStatus.running) (hok : resolveP2 v ok = some tgt)
    (hnull : ∃ l ∈ links, s.aMem (l.child_field + reg_data + 1) = Mem.val Value.Null) :
    ∃ k, k ≤ links.length ∧ sqlite3VdbeExec v db k s = { s with pc := tgt } := by
  induction links generalizing a s with
  | nil => simp at hnull
  | cons l ls ih =>
    have hfetch : v.aOp[s.pc]? = some (⟨Opcode.OP_IsNull,
        ((l.child_field + reg_data + 1 : Nat) : Int), ok, 0, P4.P4_NOTUSED, 0⟩ : VdbeOp) :=
      hpc ▸ CodeAt_head hcode
    have htail : CodeAt v (a + 1) (codeIsNull ls reg_data ok) := CodeAt_tail hcode
    by_cases hl : s.aMem (l.child_field + reg_data + 1) = Mem.val Value.Null
    · refine ⟨1, by simp, ?_⟩
      rw [sqlite3VdbeExec_one, step_IsNull v db s _ _ _ _ _ hrun hfetch, if_pos hl]
      simp [jumpToP2, hok]
    · have hstep : sqlite3VdbeStep v db s = { s with pc := a + 1 } := by
        rw [step_IsNull v db s _ _ _ _ _ hrun hfetch, if_neg hl, hpc]
      have hnull2 : ∃ l ∈ ls, s.aMem (l.child_field + reg_data + 1) = Mem.val Value.Null := by
        obtain ⟨l2, hl2, h2⟩ := hnull
        rcases List.mem_cons.mp hl2 with rfl | hmem
        · exact absurd h2 hl
        · exact ⟨l2, hmem, h2⟩
      obtain ⟨k, hk, hexec⟩ := ih (a + 1) { s with pc := a + 1 } htail rfl hrun hnull2
      refine ⟨k + 1, by simp [hk], ?_⟩
      simp only [sqlite3VdbeExec, hstep, hexec]

/-- The key copies run through and leave the registers of `copiedMem`. -/
theorem exec_codeCopy (v : Vdbe) (db : Database) (links : List field_link)
    (reg_data temp_regs j : Nat) (a : Nat) (s : VdbeState)
    (hcode : CodeAt v a (codeCopy links reg_data temp_regs j)) (hpc : s.pc = a)
    (hrun : s.status = VdbeStatus.running) :
    sqlite3VdbeExec v db links.length s =
      { s with pc := a + links.length,
               aMem := copiedMem s.aMem reg_data temp_regs j links } := by
  induction links generalizing a s j with
  | nil => subst hpc; rfl
  | cons l ls ih =>
    have hfetch : v.aOp[s.pc]? = some (⟨Opcode.OP_Copy,
        ((l.child_field + 1 + reg_data : Nat) : Int), ((temp_regs + j : Nat) : Int), 0,
        P4.P4_NOTUSED, 0⟩ : VdbeOp) := hpc ▸ CodeAt_head hcode
    have htail : CodeAt v (a + 1) (codeCopy ls reg_data temp_regs (j + 1)) := CodeAt_tail hcode
    have hstep := step_Copy v db s _ _ _ _ _ hrun hfetch
    simp only [List.length_cons, sqlite3VdbeExec, hstep]
    rw [ih (j + 1) (a + 1)
      { s with pc := s.pc + 1,
               aMem := Function.update s.aMem (temp_regs + j)
                 (s.aMem (l.child_field + 1 + reg_data)) }
      htail (by simp [hpc]) hrun]
    simp only [copiedMem, VdbeState.mk.injEq, and_true, true_and]
    omega

theorem copiedMem_below (aMem : Nat → Mem) (reg_data temp_regs j : Nat)
    (links : List field_link) (r : Nat) (hr : r < temp_regs + j) :
    copiedMem aMem reg_data temp_regs j links r = aMem r := by
  induction links generalizing aMem j with
  | nil => rfl
  | cons l ls ih =>
    simp only [copiedMem]
    rw [ih _ (j + 1) (by omega), Function.update_noteq (by omega)]

/-- After the copies the temporary range holds the child-side key of the row. -/
theorem readValues_copiedMem (aMem : Nat → Mem) (reg_data temp_regs j : Nat)
    (links : List field_link) (row : Nat → Value)
    (hsrc : ∀ l ∈ links, l.child_field + 1 + reg_data < temp_regs)
    (hrow : ∀ l ∈ links, aMem (l.child_field + 1 + reg_data) = Mem.val (row l.child_field)) :
    readValues (copiedMem aMem reg_data temp_regs j links) (temp_regs + j) links.length =
      some (links.map fun l => row l.child_field) := by
  induction links generalizing aMem j with
  | nil => rfl
  | cons l ls ih =>
    have h1 := hsrc l (by simp)
    have h2 := hrow l (by simp)
    have hhead : copiedMem (Function.update aMem (temp_regs + j)
        (aMem (l.child_field + 1 + reg_data))) reg_data temp_regs (j + 1) ls (temp_regs + j) =
        Mem.val (row l.child_field) := by
      rw [copiedMem_below _ _ _ _ _ _ (by omega), Function.update_same, h2]
    have hrest := ih (Function.update aMem (temp_regs + j) (aMem (l.child_field + 1 + reg_data)))
      (j + 1) (fun l hl => hsrc l (by simp [hl]))
      (fun l2 hl2 => by
        have := hsrc l2 (by simp [hl2])
        rw [Function.update_noteq (by omega)]
        exact hrow l2 (by simp [hl2]))
    simp only [copiedMem, List.length_cons, readValues, List.map_cons, hhead]
    rw [show temp_regs + j + 1 = temp_regs + (j + 1) from rfl, hrest]

/-- The self-reference comparisons fall through when every child-side value
is non-NULL and equals the parent-side value of its link. -/
theorem exec_codeNe_pass (v : Vdbe) (db : Database) (links : List field_link)
    (reg_data jump : Nat) (a : Nat) (s : VdbeState)
    (hcode : CodeAt v a (codeNe links reg_data jump)) (hpc : s.pc = a)
    (hrun : s.status = VdbeStatus.running)
    (hnn : ∀ l ∈ links, s.aMem (l.child_field + 1 + reg_data) ≠ Mem.val Value.Null)
    (heq : ∀ l ∈ links, s.aMem (l.child_field + 1 + reg_data) =
      s.aMem (l.parent_field + 1 + reg_data)) :
    sqlite3VdbeExec v db links.length s = { s with pc := a + links.length } := by
  induction links generalizing a s with
  | nil => subst hpc; rfl
  | cons l ls ih =>
    have hfetch : v.aOp[s.pc]? = some (⟨Opcode.OP_Ne,
        ((l.child_field + 1 + reg_data : Nat) : Int), ((jump : Nat) : Int),
        ((l.parent_field + 1 + reg_data : Nat) : Int), P4.P4_NOTUSED, SQLITE_JUMPIFNULL⟩ :
        VdbeOp) := hpc ▸ CodeAt_head hcode
    have htail : CodeAt v (a + 1) (codeNe ls reg_data jump) := CodeAt_tail hcode
    have hl := hnn l (by simp)
    have he := heq l (by simp)
    have hstep : sqlite3VdbeStep v db s = { s with pc := a + 1 } := by
      rw [step_Ne v db s _ _ _ _ hrun hfetch, if_neg (by rw [← he]; simp [hl]),
        if_neg (by simp [he]), hpc]
    simp only [List.length_cons, sqlite3VdbeExec, hstep]
    rw [ih (a + 1) { s with pc := a + 1 } htail rfl hrun
      (fun l hl => hnn l (by simp [hl])) (fun l hl => heq l (by simp [hl]))]
    simp only [VdbeState.mk.injEq, and_true, true_and]
    omega

/-- The self-reference comparisons jump to `jump` at the first link whose
child-side and parent-side values differ. -/
theorem exec_codeNe_jump (v : Vdbe) (db : Database) (links : List field_link)
    (reg_data jump : Nat) (a : Nat) (s : VdbeState)
    (hcode : CodeAt v a (codeNe links reg_data jump)) (hpc : s.pc = a)
    (hrun : s.status = VdbeStatus.running)
    (hnn : ∀ l ∈ links, s.aMem (l.child_field + 1 + reg_data) ≠ Mem.val Value.Null)
    (hne : ∃ l ∈ links, s.aMem (l.child_field + 1 + reg_data) ≠
      s.aMem (l.parent_field + 1 + reg_data)) :
    ∃ k, k ≤ links.length ∧ sqlite3VdbeExec v db k s = { s with pc := jump } := by
  induction links generalizing a s with
  | nil => simp at hne
  | cons l ls ih =>
    have hfetch : v.aOp[s.pc]? = some (⟨Opcode.OP_Ne,
        ((l.child_field + 1 + reg_data : Nat) : Int), ((jump : Nat) : Int),
        ((l.parent_field + 1 + reg_data : Nat) : Int), P4.P4_NOTUSED, SQLITE_JUMPIFNULL⟩ :
        VdbeOp) := hpc ▸ CodeAt_head hcode
    have htail : CodeAt v (a + 1) (codeNe ls reg_data jump) := CodeAt_tail hcode
    have hl := hnn l (by simp)
    by_cases he : s.aMem (l.child_field + 1 + reg_data) = s.aMem (l.parent_field + 1 + reg_data)
    · have hstep : sqlite3VdbeStep v db s = { s with pc := a + 1 } := by
        rw [step_Ne v db s _ _ _ _ hrun hfetch, if_neg (by rw [← he]; simp [hl]),
          if_neg (by simp [he]), hpc]
      have hne2 : ∃ l ∈ ls, s.aMem (l.child_field + 1 + reg_data) ≠
          s.aMem (l.parent_field + 1 + reg_data) := by
        obtain ⟨l2, hl2, h2⟩ := hne
        rcases List.mem_cons.mp hl2 with rfl | hmem
        · exact absurd he h2
        · exact ⟨l2, hmem, h2⟩
      obtain ⟨k, hk, hexec⟩ := ih (a + 1) { s with pc := a + 1 } htail rfl hrun
        (fun l hl => hnn l (by simp [hl])) hne2
      refine ⟨k + 1, by simp [hk], ?_⟩
      simp only [sqlite3VdbeExec, hstep, hexec]
    · refine ⟨1, by simp, ?_⟩
      rw [sqlite3VdbeExec_one, step_Ne v db s _ _ _ _ hrun hfetch]
      by_cases hnull : s.aMem (l.child_field + 1 + reg_data) = Mem.val Value.Null ∨
          s.aMem (l.parent_field + 1 + reg_data) = Mem.val Value.Null
      · rw [if_pos hnull]; simp [jumpToP2, resolveP2_nat]
      · rw [if_neg hnull, if_pos (fun h => he h.symm)]; simp [jumpToP2, resolveP2_nat]

/-! ### The straight-line parts -/

/-- The exit label of `fkey_lookup_parent` stands for the address of its
`OP_Close`, and that instruction is the last one of the program. -/
theorem fkey_lookup_parent_layout (user_session : session) (parse_context : Parse)
    (parent : space) (fk_def : fkey_def) (referenced_idx reg_data : Nat) (incr_count : Int)
    (is_ignore : Bool) :
    let v := (fkey_lookup_parent user_session parse_context parent fk_def referenced_idx
      reg_data incr_count is_ignore).pVdbe
    let body := codeBody user_session parse_context parent fk_def referenced_idx reg_data
      incr_count is_ignore
    CodeAt v parse_context.pVdbe.aOp.length (body ++ [codeClose parse_context]) ∧
    resolveP2 v (okLabel parse_context.pVdbe) =
      some (parse_context.pVdbe.aOp.length + body.length) ∧
    v.aOp.length = parse_context.pVdbe.aOp.length + body.length + 1 := by
  intro v body
  have hv : v = { aOp := parse_context.pVdbe.aOp ++ (body ++ [codeClose parse_context]),
                  aLabel := parse_context.pVdbe.aLabel ++
                    [some (parse_context.pVdbe.aOp.length + body.length)] } :=
    fkey_lookup_parent_pVdbe user_session parse_context parent fk_def referenced_idx
      reg_data incr_count is_ignore
  have hneg : ¬ (0 ≤ okLabel parse_context.pVdbe) := by unfold okLabel; omega
  have hidx : (-1 - okLabel parse_context.pVdbe).toNat = parse_context.pVdbe.aLabel.length := by
    unfold okLabel; omega
  refine ⟨CodeAt_of_append v _ _ (by rw [hv]), ?_, ?_⟩
  · rw [hv]
    simp [resolveP2, hneg, hidx]
  · rw [hv]
    simp [Nat.add_assoc]

/-- From the exit label the run closes the cursor and stops at the end of the
program with status, counters and probe count as they were. -/
theorem exec_close (v : Vdbe) (db : Database) (parse_context : Parse) (a : Nat)
    (s : VdbeState) (hcode : CodeAt v a [codeClose parse_context])
    (hlen : v.aOp.length = a + 1) (hpc : s.pc = a) (hrun : s.status = VdbeStatus.running)
    (m : Nat) (hm : 1 ≤ m) :
    (sqlite3VdbeExec v db m s).obs = s.obs ∧ (sqlite3VdbeExec v db m s).pc = a + 1 := by
  have hfetch : v.aOp[s.pc]? = some (⟨Opcode.OP_Close,
      ((parse_context.nTab - 1 : Nat) : Int), 0, 0, P4.P4_NOTUSED, 0⟩ : VdbeOp) :=
    hpc ▸ CodeAt_head hcode
  have hstep := step_Close v db s _ _ _ _ _ hrun hfetch
  have hfix := sqlite3VdbeStep_end v db (sqlite3VdbeStep v db s) (by rw [hstep, hlen, hpc])
  have := sqlite3VdbeExec_of_reach v db s _ 1 m (sqlite3VdbeExec_one v db s) hfix hm
  rw [this, hstep]
  simp [VdbeState.obs, hpc]

/-- A halted run stays as it is. -/
theorem exec_halted (v : Vdbe) (db : Database) (s : VdbeState)
    (h : s.status ≠ VdbeStatus.running) (m : Nat) : sqlite3VdbeExec v db m s = s :=
  sqlite3VdbeExec_fixed v db s (sqlite3VdbeStep_halted v db s h) m

/-- The instruction reached on a probe miss halts or adjusts one counter. -/
theorem exec_codeTail (v : Vdbe) (db : Database) (user_session : session)
    (parse_context : Parse) (fk_def : fkey_def) (incr_count : Int) (a : Nat) (s : VdbeState)
    (hcode : CodeAt v a (codeTail user_session parse_context fk_def incr_count))
    (hpc : s.pc = a) (hrun : s.status = VdbeStatus.running) :
    (sqlite3VdbeExec v db 1 s).obs =
        tailOutcome user_session parse_context fk_def incr_count s.nFkConstraint
          s.nDeferredCons s.sqlite3_found_count ∧
      (¬ fkey_is_immediate user_session parse_context fk_def →
        (sqlite3VdbeExec v db 1 s).pc = a + 1 ∧
        (sqlite3VdbeExec v db 1 s).status = VdbeStatus.running) := by
  rw [sqlite3VdbeExec_one]
  by_cases himm : fkey_is_immediate user_session parse_context fk_def
  · have hfetch : v.aOp[s.pc]? = some (⟨Opcode.OP_Halt, SQLITE_CONSTRAINT_FOREIGNKEY,
        ON_CONFLICT_ACTION_ABORT, 0, P4.P4_STATIC none, P5_ConstraintFK⟩ : VdbeOp) := by
      have h := hcode
      simp only [codeTail, if_pos himm] at h
      exact hpc ▸ CodeAt_head h
    rw [step_Halt v db s _ _ _ _ _ hrun hfetch]
    simp [VdbeState.obs, tailOutcome, himm]
  · have hfetch : v.aOp[s.pc]? = some (⟨Opcode.OP_FkCounter,
        (if fk_def.is_deferred then 1 else 0), incr_count, 0, P4.P4_NOTUSED, 0⟩ : VdbeOp) := by
      have h := hcode
      simp only [codeTail, if_neg himm] at h
      exact hpc ▸ CodeAt_head h
    rw [step_FkCounter v db s _ _ _ _ _ hrun hfetch]
    cases hd : fk_def.is_deferred <;> simp [VdbeState.obs, tailOutcome, himm, hd, hpc, hrun]

/-- The counter test of a decrement request: a jump to the exit when the
counter chosen by `is_deferred` is zero, a fall-through otherwise; no
instruction at all for an increment request. -/
theorem exec_codeFkIfZero (v : Vdbe) (db : Database) (fk_def : fkey_def) (incr_count : Int)
    (ok : Int) (a tgt : Nat) (s : VdbeState)
    (hcode : CodeAt v a (codeFkIfZero fk_def incr_count ok))
    (hok : resolveP2 v ok = some tgt)
    (hpc : s.pc = a) (hrun : s.status = VdbeStatus.running) :
    sqlite3VdbeExec v db (codeFkIfZero fk_def incr_count ok).length s =
      if incr_count < 0 ∧
          (if fk_def.is_deferred then s.nDeferredCons else s.nFkConstraint) = 0 then
        { s with pc := tgt }
      else { s with pc := a + (codeFkIfZero fk_def incr_count ok).length } := by
  by_cases hneg : incr_count < 0
  · have hfetch : v.aOp[s.pc]? = some (⟨Opcode.OP_FkIfZero,
        (if fk_def.is_deferred then 1 else 0), ok, 0, P4.P4_NOTUSED, 0⟩ : VdbeOp) := by
      have h := hcode
      simp only [codeFkIfZero, if_pos hneg] at h
      exact hpc ▸ CodeAt_head h
    have hlen : (codeFkIfZero fk_def incr_count ok).length = 1 := by simp [codeFkIfZero, hneg]
    rw [hlen, sqlite3VdbeExec_one, step_FkIfZero v db s _ _ _ _ _ hrun hfetch]
    cases hd : fk_def.is_deferred <;> simp [hneg, jumpToP2, hok, hpc]
  · have hlen : (codeFkIfZero fk_def incr_count ok).length = 0 := by simp [codeFkIfZero, hneg]
    rw [hlen]
    simp [sqlite3VdbeExec, hneg, hpc.symm]

/-- The self-reference test, run on the registers left by the key copies:
a jump to the exit when the row matches itself, otherwise control reaches the
instruction after the test. -/
theorem exec_codeSelf (v : Vdbe) (db : Database) (parent : space) (fk_def : fkey_def)
    (reg_data : Nat) (incr_count : Int) (ok : Int) (a tgt : Nat) (s : VdbeState)
    (row : Nat → Value)
    (hcode : CodeAt v a (codeSelf parent fk_def reg_data incr_count ok
      (a + fk_def.field_count + 1)))
    (hok : resolveP2 v ok = some tgt)
    (hpc : s.pc = a) (hrun : s.status = VdbeStatus.running)
    (hchild : ∀ l ∈ fk_def.links,
      s.aMem (l.child_field + 1 + reg_data) = Mem.val (row l.child_field))
    (hparent : parent.def_.id = fk_def.child_id → ∀ l ∈ fk_def.links,
      s.aMem (l.parent_field + 1 + reg_data) = Mem.val (row l.parent_field))
    (hnn : ∀ l ∈ fk_def.links, row l.child_field ≠ Value.Null) :
    ∃ k, k ≤ (codeSelf parent fk_def reg_data incr_count ok
        (a + fk_def.field_count + 1)).length ∧
      sqlite3VdbeExec v db k s =
        if selfMatch parent fk_def incr_count row then { s with pc := tgt }
        else { s with pc := a + (codeSelf parent fk_def reg_data incr_count ok
          (a + fk_def.field_count + 1)).length } := by
  by_cases hself : parent.def_.id = fk_def.child_id ∧ incr_count = 1
  · have hlen : (codeSelf parent fk_def reg_data incr_count ok
        (a + fk_def.field_count + 1)).length = fk_def.field_count + 1 := by
      simp [codeSelf, hself, codeNe_length, fkey_def.field_count]
    have hc : CodeAt v a (codeNe fk_def.links reg_data (a + fk_def.field_count + 1) ++
        [(⟨Opcode.OP_Goto, 0, ok, 0, P4.P4_NOTUSED, 0⟩ : VdbeOp)]) := by
      have h := hcode
      simp only [codeSelf, if_pos hself] at h
      exact h
    have hNe := CodeAt_left hc
    have hGoto := CodeAt_right hc
    rw [codeNe_length] at hGoto
    have hnn2 : ∀ l ∈ fk_def.links, s.aMem (l.child_field + 1 + reg_data) ≠ Mem.val Value.Null := by
      intro l hl
      rw [hchild l hl]
      simpa using hnn l hl
    rw [hlen]
    by_cases hall : ∀ l ∈ fk_def.links, row l.child_field = row l.parent_field
    · have hm : selfMatch parent fk_def incr_count row := ⟨hself, hall⟩
      have hpass := exec_codeNe_pass v db fk_def.links reg_data _ a s hNe hpc hrun hnn2
        (fun l hl => by rw [hchild l hl, hparent hself.1 l hl, hall l hl])
      refine ⟨fk_def.links.length + 1, by simp [fkey_def.field_count], ?_⟩
      rw [sqlite3VdbeExec_add, hpass, sqlite3VdbeExec_one,
        step_Goto v db { s with pc := a + fk_def.links.length } 0 ok 0 P4.P4_NOTUSED 0 hrun
          (CodeAt_head hGoto), if_pos hm]
      simp [jumpToP2, hok]
    · have hm : ¬ selfMatch parent fk_def incr_count row := fun h => hall h.2
      have hne : ∃ l ∈ fk_def.links, s.aMem (l.child_field + 1 + reg_data) ≠
          s.aMem (l.parent_field + 1 + reg_data) := by
        by_contra hcon
        apply hall
        intro l hl
        have : s.aMem (l.child_field + 1 + reg_data) =
            s.aMem (l.parent_field + 1 + reg_data) := by
          by_contra h3
          exact hcon ⟨l, hl, h3⟩
        rw [hchild l hl, hparent hself.1 l hl] at this
        exact Mem.val.inj this
      obtain ⟨k, hk, hexec⟩ := exec_codeNe_jump v db fk_def.links reg_data _ a s hNe hpc hrun
        hnn2 hne
      refine ⟨k, by simp only [fkey_def.field_count]; omega, ?_⟩
      rw [hexec, if_neg hm, Nat.add_assoc]
  · have hlen : (codeSelf parent fk_def reg_data incr_count ok
        (a + fk_def.field_count + 1)).length = 0 := by
      simp [codeSelf, hself]
    have hm : ¬ selfMatch parent fk_def incr_count row := fun h => hself h.1
    refine ⟨0, by simp, ?_⟩
    rw [hlen, if_neg hm]
    simp [sqlite3VdbeExec, hpc.symm]

theorem codeProbe_length (parent : space) (fk_def : fkey_def) (referenced_idx reg_data : Nat)
    (incr_count : Int) (cursor temp_regs : Nat) (ok : Int) (a : Nat) :
    (codeProbe parent fk_def referenced_idx reg_data incr_count cursor temp_regs ok a).length =
      1 + fk_def.field_count +
        (codeSelf parent fk_def reg_data incr_count ok
          (a + 1 + fk_def.field_count + fk_def.field_count + 1)).length + 2 := by
  simp [codeProbe, codeCopy_length, codeFound, fkey_def.field_count]
  omega

/-- The probe part of the check, from its first instruction: the row that
matches itself goes to the exit without a probe; any other row is probed for,
going to the exit on a hit and to the next instruction on a miss. -/
theorem exec_codeProbe (v : Vdbe) (db : Database) (parent : space) (fk_def : fkey_def)
    (referenced_idx reg_data : Nat) (incr_count : Int) (cursor temp_regs : Nat) (ok : Int)
    (a tgt : Nat) (s : VdbeState) (row : Nat → Value)
    (hcode : CodeAt v a
      (codeProbe parent fk_def referenced_idx reg_data incr_count cursor temp_regs ok a))
    (hok : resolveP2 v ok = some tgt)
    (hpc : s.pc = a) (hrun : s.status = VdbeStatus.running)
    (hchild : ∀ l ∈ fk_def.links,
      s.aMem (l.child_field + 1 + reg_data) = Mem.val (row l.child_field))
    (hparent : parent.def_.id = fk_def.child_id → ∀ l ∈ fk_def.links,
      s.aMem (l.parent_field + 1 + reg_data) = Mem.val (row l.parent_field))
    (hfreshc : ∀ l ∈ fk_def.links, l.child_field + 1 + reg_data < temp_regs)
    (hfreshp : parent.def_.id = fk_def.child_id → ∀ l ∈ fk_def.links,
      l.parent_field + 1 + reg_data < temp_regs)
    (hnn : ∀ l ∈ fk_def.links, row l.child_field ≠ Value.Null) :
    ∃ k s1, k ≤ (codeProbe parent fk_def referenced_idx reg_data incr_count cursor temp_regs
        ok a).length ∧
      sqlite3VdbeExec v db k s = s1 ∧ s1.status = VdbeStatus.running ∧
      (if selfMatch parent fk_def incr_count row then s1.pc = tgt ∧ s1.obs = s.obs
       else if childKey fk_def row ∈
          db (SQLITE_PAGENO_FROM_SPACEID_AND_INDEXID fk_def.parent_id referenced_idx) then
        s1.pc = tgt ∧
          s1.obs = (s.status, s.nFkConstraint, s.nDeferredCons, s.sqlite3_found_count + 1)
       else
        s1.pc = a + (codeProbe parent fk_def referenced_idx reg_data incr_count cursor
            temp_regs ok a).length ∧
          s1.obs = (s.status, s.nFkConstraint, s.nDeferredCons, s.sqlite3_found_count + 1)) := by
  have hOpen : CodeAt v a [(⟨Opcode.OP_OpenWrite, ((cursor : Nat) : Int),
      ((SQLITE_PAGENO_FROM_SPACEID_AND_INDEXID fk_def.parent_id referenced_idx : Nat) : Int),
      0, P4.P4_NOTUSED, 0⟩ : VdbeOp)] := CodeAt_left hcode
  have h1 : CodeAt v (a + 1) (codeCopy fk_def.links reg_data temp_regs 0 ++
      (codeSelf parent fk_def reg_data incr_count ok
        (a + 1 + fk_def.field_count + fk_def.field_count + 1) ++
      codeFound parent fk_def referenced_idx cursor temp_regs ok)) := CodeAt_right hcode
  have hCopy := CodeAt_left h1
  have h2 : CodeAt v (a + 1 + fk_def.field_count)
      (codeSelf parent fk_def reg_data incr_count ok
        (a + 1 + fk_def.field_count + fk_def.field_count + 1) ++
      codeFound parent fk_def referenced_idx cursor temp_regs ok) := by
    have := CodeAt_right h1
    rwa [codeCopy_length] at this
  have hSelf := CodeAt_left h2
  have h3 := CodeAt_right h2
  have hlenC := codeProbe_length parent fk_def referenced_idx reg_data incr_count cursor
    temp_regs ok a
  generalize hL : (codeSelf parent fk_def reg_data incr_count ok
    (a + 1 + fk_def.field_count + fk_def.field_count + 1)).length = L at *
  -- open the cursor and copy the key
  have hs1 := step_OpenWrite v db s _ _ _ _ _ hrun (hpc ▸ CodeAt_head hOpen)
  have hs2 := exec_codeCopy v db fk_def.links reg_data temp_regs 0 (a + 1)
    { s with pc := s.pc + 1,
             apCsr := Function.update s.apCsr cursor
               (some (SQLITE_PAGENO_FROM_SPACEID_AND_INDEXID fk_def.parent_id referenced_idx)) }
    hCopy (by simp [hpc]) hrun
  obtain ⟨s2, hs12, h2pc, h2run, h2obs, h2mem, h2csr⟩ : ∃ s2 : VdbeState,
      sqlite3VdbeExec v db (1 + fk_def.links.length) s = s2 ∧
      s2.pc = a + 1 + fk_def.field_count ∧ s2.status = VdbeStatus.running ∧ s2.obs = s.obs ∧
      s2.aMem = copiedMem s.aMem reg_data temp_regs 0 fk_def.links ∧
      s2.apCsr cursor =
        some (SQLITE_PAGENO_FROM_SPACEID_AND_INDEXID fk_def.parent_id referenced_idx) := by
    refine ⟨{ s with pc := a + 1 + fk_def.links.length,
                     aMem := copiedMem s.aMem reg_data temp_regs 0 fk_def.links,
                     apCsr := Function.update s.apCsr cursor
                       (some (SQLITE_PAGENO_FROM_SPACEID_AND_INDEXID fk_def.parent_id
                         referenced_idx)) }, ?_, rfl, hrun, rfl, rfl, by simp⟩
    rw [sqlite3VdbeExec_add, sqlite3VdbeExec_one, hs1]; exact hs2
  have hM : ∀ r, r < temp_regs → s2.aMem r = s.aMem r := by
    intro r hr
    rw [h2mem]
    exact copiedMem_below _ _ _ _ _ _ (by omega)
  -- the self-reference test
  obtain ⟨k, hk, hs3⟩ := exec_codeSelf v db parent fk_def reg_data incr_count ok
    (a + 1 + fk_def.field_count) tgt s2 row hSelf hok h2pc h2run
    (fun l hl => by rw [hM _ (hfreshc l hl)]; exact hchild l hl)
    (fun hid l hl => by rw [hM _ (hfreshp hid l hl)]; exact hparent hid l hl)
    hnn
  rw [hL] at hk hs3
  have hreach : sqlite3VdbeExec v db (1 + fk_def.links.length + k) s =
      if selfMatch parent fk_def incr_count row then { s2 with pc := tgt }
      else { s2 with pc := a + 1 + fk_def.field_count + L } := by
    rw [sqlite3VdbeExec_add, hs12]; exact hs3
  by_cases hm : selfMatch parent fk_def incr_count row
  · rw [if_pos hm] at hreach
    refine ⟨1 + fk_def.links.length + k, _, ?_, hreach, h2run, ?_⟩
    · rw [hlenC]; simp only [fkey_def.field_count]; omega
    · rw [if_pos hm]; exact ⟨rfl, h2obs⟩
  · rw [if_neg hm] at hreach
    have hkey : readValues s2.aMem temp_regs fk_def.field_count = some (childKey fk_def row) := by
      rw [h2mem]
      exact readValues_copiedMem s.aMem reg_data temp_regs 0 fk_def.links row hfreshc hchild
    have hs4 := step_MakeRecord v db { s2 with pc := a + 1 + fk_def.field_count + L }
      temp_regs fk_def.field_count (temp_regs + fk_def.field_count) _ _ (childKey fk_def row)
      h2run (CodeAt_head h3) hkey
    have hs5 := step_Found v db
      { s2 with pc := a + 1 + fk_def.field_count + L + 1,
                aMem := Function.update s2.aMem (temp_regs + fk_def.field_count)
                  (Mem.record (childKey fk_def row)) }
      cursor (temp_regs + fk_def.field_count)
      (SQLITE_PAGENO_FROM_SPACEID_AND_INDEXID fk_def.parent_id referenced_idx) ok _ _
      (childKey fk_def row) h2run (CodeAt_head (CodeAt_tail h3)) h2csr (by simp)
    have hobs : s.obs = (s.status, s.nFkConstraint, s.nDeferredCons, s.sqlite3_found_count) := rfl
    rw [hobs] at h2obs
    simp only [VdbeState.obs, Prod.mk.injEq] at h2obs
    obtain ⟨ho1, ho2, ho3, ho4⟩ := h2obs
    refine ⟨1 + fk_def.links.length + k + 2,
      sqlite3VdbeStep v db (sqlite3VdbeStep v db
        { s2 with pc := a + 1 + fk_def.field_count + L }), ?_, ?_, ?_, ?_⟩
    · rw [hlenC]; simp only [fkey_def.field_count]; omega
    · rw [sqlite3VdbeExec_add, hreach]
      simp [sqlite3VdbeExec]
    · rw [hs4, hs5]
      by_cases hhit : childKey fk_def row ∈
          db (SQLITE_PAGENO_FROM_SPACEID_AND_INDEXID fk_def.parent_id referenced_idx)
      · simp [hhit, jumpToP2, hok, h2run]
      · simp [hhit, h2run]
    · rw [hs4, hs5, if_neg hm]
      by_cases hhit : childKey fk_def row ∈
          db (SQLITE_PAGENO_FROM_SPACEID_AND_INDEXID fk_def.parent_id referenced_idx)
      · simp [hhit, jumpToP2, hok, VdbeState.obs, ho1, ho2, ho3, ho4]
      · simp [hhit, VdbeState.obs, hlenC, ho1, ho2, ho3, ho4]
        omega

/-! ### The whole check -/

theorem exec_finish_close (v : Vdbe) (db : Database) (parse_context : Parse) (a : Nat)
    (s s1 : VdbeState) (k fuel : Nat) (hclose : CodeAt v a [codeClose parse_context])
    (hlen : v.aOp.length = a + 1) (hk : sqlite3VdbeExec v db k s = s1) (hpc1 : s1.pc = a)
    (hrun1 : s1.status = VdbeStatus.running) (hfuel : k + 1 ≤ fuel) :
    (sqlite3VdbeExec v db fuel s).obs = s1.obs ∧ (sqlite3VdbeExec v db fuel s).pc = a + 1 := by
  obtain ⟨m, rfl⟩ := Nat.exists_eq_add_of_le hfuel
  rw [Nat.add_assoc, sqlite3VdbeExec_add, hk]
  exact exec_close v db parse_context a s1 hclose hlen hpc1 hrun1 (1 + m) (by omega)

theorem exec_finish_tail (v : Vdbe) (db : Database) (user_session : session)
    (parse_context : Parse) (fk_def : fkey_def) (incr_count : Int) (a : Nat)
    (s s1 : VdbeState) (k fuel : Nat)
    (htail : CodeAt v a (codeTail user_session parse_context fk_def incr_count))
    (hclose : CodeAt v (a + 1) [codeClose parse_context])
    (hlen : v.aOp.length = a + 1 + 1) (hk : sqlite3VdbeExec v db k s = s1) (hpc1 : s1.pc = a)
    (hrun1 : s1.status = VdbeStatus.running) (hfuel : k + 2 ≤ fuel) :
    (sqlite3VdbeExec v db fuel s).obs =
        tailOutcome user_session parse_context fk_def incr_count s1.nFkConstraint
          s1.nDeferredCons s1.sqlite3_found_count ∧
      ((sqlite3VdbeExec v db fuel s).status = VdbeStatus.running →
        (sqlite3VdbeExec v db fuel s).pc = v.aOp.length) := by
  obtain ⟨ht1, ht2⟩ := exec_codeTail v db user_session parse_context fk_def incr_count a s1
    htail hpc1 hrun1
  have hk1 : sqlite3VdbeExec v db (k + 1) s = sqlite3VdbeExec v db 1 s1 := by
    rw [sqlite3VdbeExec_add, hk]
  by_cases himm : fkey_is_immediate user_session parse_context fk_def
  · have hst : (sqlite3VdbeExec v db 1 s1).status ≠ VdbeStatus.running := by
      have := congrArg Prod.fst ht1
      simp only [VdbeState.obs, tailOutcome, if_pos himm] at this
      rw [this]; simp
    have hfin := sqlite3VdbeExec_of_reach v db s _ (k + 1) fuel hk1
      (sqlite3VdbeStep_halted v db _ hst) (by omega)
    rw [hfin]
    exact ⟨ht1, fun h => absurd h hst⟩
  · obtain ⟨hpc2, hrun2⟩ := ht2 himm
    obtain ⟨h1, h2⟩ := exec_finish_close v db parse_context (a + 1) s _ (k + 1) fuel hclose hlen
      hk1 hpc2 hrun2 (by omega)
    rw [h1, h2, hlen]
    exact ⟨ht1, fun _ => rfl⟩

/-- What a run of the code of `fkey_lookup_parent` yields.  The run starts at
the first emitted instruction with the registers `reg_data + 1 ..` holding the
row image `row`, all allocated before the call; given fuel for at least as many
instructions as the program has, it ends with the status, counters and probe
count of `lookupOutcome`, and unless it halted it ends past the last
instruction. -/
theorem fkey_lookup_parent_run (user_session : session) (parse_context : Parse)
    (parent : space) (fk_def : fkey_def) (referenced_idx reg_data : Nat) (incr_count : Int)
    (is_ignore : Bool) (db : Database) (s : VdbeState) (row : Nat → Value) (nCol : Nat)
    (hpc : s.pc = parse_context.pVdbe.aOp.length) (hrun : s.status = VdbeStatus.running)
    (hrow : HoldsRow s reg_data row nCol)
    (hcols : ∀ l ∈ fk_def.links, l.child_field < nCol ∧
      (parent.def_.id = fk_def.child_id → l.parent_field < nCol))
    (hregs : reg_data + nCol ≤ parse_context.nMem)
    (fuel : Nat)
    (hfuel : (fkey_lookup_parent user_session parse_context parent fk_def referenced_idx
      reg_data incr_count is_ignore).pVdbe.aOp.length ≤ fuel) :
    (sqlite3VdbeExec (fkey_lookup_parent user_session parse_context parent fk_def
        referenced_idx reg_data incr_count is_ignore).pVdbe db fuel s).obs =
      lookupOutcome user_session parse_context parent fk_def referenced_idx incr_count
        is_ignore row db s ∧
    ((sqlite3VdbeExec (fkey_lookup_parent user_session parse_context parent fk_def
        referenced_idx reg_data incr_count is_ignore).pVdbe db fuel s).status =
        VdbeStatus.running →
      (sqlite3VdbeExec (fkey_lookup_parent user_session parse_context parent fk_def
        referenced_idx reg_data incr_count is_ignore).pVdbe db fuel s).pc =
      (fkey_lookup_parent user_session parse_context parent fk_def referenced_idx
        reg_data incr_count is_ignore).pVdbe.aOp.length) := by
  obtain ⟨hcode, hok, hlen⟩ := fkey_lookup_parent_layout user_session parse_context parent
    fk_def referenced_idx reg_data incr_count is_ignore
  generalize (fkey_lookup_parent user_session parse_context parent fk_def referenced_idx
    reg_data incr_count is_ignore).pVdbe = v at *
  have hBody := CodeAt_left hcode
  have hClose := CodeAt_right hcode
  unfold codeBody at hBody
  simp only [] at hBody
  have hblen : (codeBody user_session parse_context parent fk_def referenced_idx reg_data
      incr_count is_ignore).length =
      (codeFkIfZero fk_def incr_count (okLabel parse_context.pVdbe)).length +
      (fk_def.links.length +
      ((if is_ignore = false then
          codeProbe parent fk_def referenced_idx reg_data incr_count (parse_context.nTab - 1)
            (parse_context.nMem + 1) (okLabel parse_context.pVdbe)
            (parse_context.pVdbe.aOp.length +
              (codeFkIfZero fk_def incr_count (okLabel parse_context.pVdbe)).length +
              (codeIsNull fk_def.links reg_data (okLabel parse_context.pVdbe)).length)
        else []).length + 1)) := by
    unfold codeBody
    simp only [List.length_append, codeIsNull_length]
    congr 3
    unfold codeTail
    split <;> rfl
  generalize hBL : (codeBody user_session parse_context parent fk_def referenced_idx reg_data
    incr_count is_ignore).length = BL at *
  have hA := CodeAt_left hBody
  have hBCT := CodeAt_right hBody
  have hB := CodeAt_left hBCT
  have hCT := CodeAt_right hBCT
  have hC := CodeAt_left hCT
  have hT := CodeAt_right hCT
  rw [codeIsNull_length] at hCT hC hT hblen
  generalize hnA : (codeFkIfZero fk_def incr_count (okLabel parse_context.pVdbe)).length = nA
    at *
  -- the registers of the row
  have hchildreg : ∀ l ∈ fk_def.links,
      s.aMem (l.child_field + 1 + reg_data) = Mem.val (row l.child_field) := by
    intro l hl
    have := hrow l.child_field (hcols l hl).1
    rwa [show reg_data + 1 + l.child_field = l.child_field + 1 + reg_data by omega] at this
  have hparentreg : parent.def_.id = fk_def.child_id → ∀ l ∈ fk_def.links,
      s.aMem (l.parent_field + 1 + reg_data) = Mem.val (row l.parent_field) := by
    intro hid l hl
    have := hrow l.parent_field ((hcols l hl).2 hid)
    rwa [show reg_data + 1 + l.parent_field = l.parent_field + 1 + reg_data by omega] at this
  -- the counter test
  have hsA := exec_codeFkIfZero v db fk_def incr_count (okLabel parse_context.pVdbe)
    parse_context.pVdbe.aOp.length _ s hA hok hpc hrun
  rw [hnA] at hsA
  unfold lookupOutcome
  by_cases hzero : incr_count < 0 ∧
      (if fk_def.is_deferred then s.nDeferredCons else s.nFkConstraint) = 0
  · rw [if_pos hzero] at hsA ⊢
    obtain ⟨h1, h2⟩ := exec_finish_close v db parse_context _ s _ nA fuel hClose hlen hsA rfl
      hrun (by omega)
    rw [h1, h2, hlen]
    exact ⟨rfl, fun _ => rfl⟩
  rw [if_neg hzero] at hsA ⊢
  by_cases hnull : ∃ l ∈ fk_def.links, row l.child_field = Value.Null
  · rw [if_pos hnull]
    obtain ⟨k, hk, hjump⟩ := exec_codeIsNull_jump v db fk_def.links reg_data
      (okLabel parse_context.pVdbe) (parse_context.pVdbe.aOp.length + nA)
      { s with pc := parse_context.pVdbe.aOp.length + nA } _ hB rfl hrun hok
      (by
        obtain ⟨l, hl, hz⟩ := hnull
        refine ⟨l, hl, ?_⟩
        have := hchildreg l hl
        rw [hz] at this
        rwa [show l.child_field + 1 + reg_data = l.child_field + reg_data + 1 by omega] at this)
    have hreach : sqlite3VdbeExec v db (nA + k) s =
        { s with pc := parse_context.pVdbe.aOp.length + BL } := by
      rw [sqlite3VdbeExec_add, hsA]; exact hjump
    obtain ⟨h1, h2⟩ := exec_finish_close v db parse_context _ s _ (nA + k) fuel hClose hlen
      hreach rfl hrun (by omega)
    rw [h1, h2, hlen]
    exact ⟨rfl, fun _ => rfl⟩
  rw [if_neg hnull]
  have hnn : ∀ l ∈ fk_def.links, row l.child_field ≠ Value.Null :=
    fun l hl hz => hnull ⟨l, hl, hz⟩
  have hsB := exec_codeIsNull_pass v db fk_def.links reg_data (okLabel parse_context.pVdbe)
    (parse_context.pVdbe.aOp.length + nA)
    { s with pc := parse_context.pVdbe.aOp.length + nA } hB rfl hrun
    (by
      intro l hl
      have := hchildreg l hl
      rw [show l.child_field + 1 + reg_data = l.child_field + reg_data + 1 by omega] at this
      show s.aMem _ ≠ _
      rw [this]
      simpa using hnn l hl)
  have hreachB : sqlite3VdbeExec v db (nA + fk_def.links.length) s =
      { s with pc := parse_context.pVdbe.aOp.length + nA + fk_def.links.length } := by
    rw [sqlite3VdbeExec_add, hsA]; exact hsB
  cases hign : is_ignore
  · -- the probe is generated
    simp only [hign, if_true] at hC hT hblen
    rw [if_neg (by simp)]
    obtain ⟨k, s1, hk, hexec, hrun1, hcases⟩ := exec_codeProbe v db parent fk_def referenced_idx
      reg_data incr_count (parse_context.nTab - 1) (parse_context.nMem + 1)
      (okLabel parse_context.pVdbe)
      (parse_context.pVdbe.aOp.length + nA + fk_def.links.length) _
      { s with pc := parse_context.pVdbe.aOp.length + nA + fk_def.links.length } row hC hok rfl
      hrun hchildreg hparentreg
      (fun l hl => by have := (hcols l hl).1; omega)
      (fun hid l hl => by have := (hcols l hl).2 hid; omega) hnn
    have hreach : sqlite3VdbeExec v db (nA + fk_def.links.length + k) s = s1 := by
      rw [sqlite3VdbeExec_add, hreachB]; exact hexec
    generalize hnC : (codeProbe parent fk_def referenced_idx reg_data incr_count
      (parse_context.nTab - 1) (parse_context.nMem + 1) (okLabel parse_context.pVdbe)
      (parse_context.pVdbe.aOp.length + nA + fk_def.links.length)).length = nC at *
    have hobs0 : ({ s with pc := parse_context.pVdbe.aOp.length + nA + fk_def.links.length } :
        VdbeState).obs = s.obs := rfl
    by_cases hm : selfMatch parent fk_def incr_count row
    · rw [if_pos hm] at hcases ⊢
      obtain ⟨h1, h2⟩ := exec_finish_close v db parse_context _ s s1 _ fuel hClose hlen hreach
        hcases.1 hrun1 (by omega)
      rw [h1, h2, hlen, hcases.2]
      exact ⟨rfl, fun _ => rfl⟩
    rw [if_neg hm] at hcases ⊢
    by_cases hhit : childKey fk_def row ∈
        db (SQLITE_PAGENO_FROM_SPACEID_AND_INDEXID fk_def.parent_id referenced_idx)
    · rw [if_pos hhit] at hcases ⊢
      obtain ⟨h1, h2⟩ := exec_finish_close v db parse_context _ s s1 _ fuel hClose hlen hreach
        hcases.1 hrun1 (by omega)
      rw [h1, h2, hlen, hcases.2]
      exact ⟨rfl, fun _ => rfl⟩
    rw [if_neg hhit] at hcases ⊢
    obtain ⟨hpc1, hobs1⟩ := hcases
    simp only [VdbeState.obs, Prod.mk.injEq] at hobs1
    obtain ⟨-, ho2, ho3, ho4⟩ := hobs1
    have := exec_finish_tail v db user_session parse_context fk_def incr_count
      (parse_context.pVdbe.aOp.length + nA + fk_def.links.length + nC) s s1 _ fuel hT
      (by
        have := hClose
        rwa [show parse_context.pVdbe.aOp.length + BL =
          parse_context.pVdbe.aOp.length + nA + fk_def.links.length + nC + 1 by omega] at this)
      (by omega) hreach hpc1 hrun1 (by omega)
    rw [ho2, ho3, ho4] at this
    exact this
  · -- no probe is generated
    simp only [hign, Bool.true_eq_false, if_false, List.length_nil, Nat.add_zero] at hC hT hblen
    rw [if_pos rfl]
    have := exec_finish_tail v db user_session parse_context fk_def incr_count
      (parse_context.pVdbe.aOp.length + nA + fk_def.links.length) s _ _ fuel hT
      (by
        have := hClose
        rwa [show parse_context.pVdbe.aOp.length + BL =
          parse_context.pVdbe.aOp.length + nA + fk_def.links.length + 1 by omega] at this)
      (by omega) hreachB rfl hrun (by omega)
    exact this

/-! ## The child-side check: claims -/

/-- **C1.** In the check generated for a child-row insert (`incr_count = 1`), when
the constraint is not deferred, the session does not defer foreign keys and the
statement is top-level and not multi-write, a row whose child link fields are
all non-NULL, that does not match itself and whose key is not in the parent's
referenced index makes the run halt with `SQLITE_CONSTRAINT_FOREIGNKEY` and
action ABORT, both counters being left as they were. -/
theorem fkey_lookup_parent_insert_miss_halts (user_session : session) (parse_context : Parse)
    (parent : space) (fk_def : fkey_def) (referenced_idx reg_data : Nat) (is_ignore : Bool)
    (db : Database) (s : VdbeState) (row : Nat → Value) (nCol : Nat)
    (himm : fkey_is_immediate user_session parse_context fk_def)
    (hpc : s.pc = parse_context.pVdbe.aOp.length) (hrun : s.status = VdbeStatus.running)
    (hrow : HoldsRow s reg_data row nCol)
    (hcols : ∀ l ∈ fk_def.links, l.child_field < nCol ∧
      (parent.def_.id = fk_def.child_id → l.parent_field < nCol))
    (hregs : reg_data + nCol ≤ parse_context.nMem)
    (hnonnull : ∀ l ∈ fk_def.links, row l.child_field ≠ Value.Null)
    (hnoself : ¬ selfMatch parent fk_def 1 row)
    (hmiss : childKey fk_def row ∉
      db (SQLITE_PAGENO_FROM_SPACEID_AND_INDEXID fk_def.parent_id referenced_idx))
    (fuel : Nat)
    (hfuel : (fkey_lookup_parent user_session parse_context parent fk_def referenced_idx
      reg_data 1 is_ignore).pVdbe.aOp.length ≤ fuel) :
    (sqlite3VdbeExec (fkey_lookup_parent user_session parse_context parent fk_def
        referenced_idx reg_data 1 is_ignore).pVdbe db fuel s).status =
      VdbeStatus.halted SQLITE_CONSTRAINT_FOREIGNKEY ON_CONFLICT_ACTION_ABORT P5_ConstraintFK ∧
    (sqlite3VdbeExec (fkey_lookup_parent user_session parse_context parent fk_def
        referenced_idx reg_data 1 is_ignore).pVdbe db fuel s).nFkConstraint = s.nFkConstraint ∧
    (sqlite3VdbeExec (fkey_lookup_parent user_session parse_context parent fk_def
        referenced_idx reg_data 1 is_ignore).pVdbe db fuel s).nDeferredCons = s.nDeferredCons := by
  have h := (fkey_lookup_parent_run user_session parse_context parent fk_def referenced_idx
    reg_data 1 is_ignore db s row nCol hpc hrun hrow hcols hregs fuel hfuel).1
  have hnull : ¬ ∃ l ∈ fk_def.links, row l.child_field = Value.Null :=
    fun ⟨l, hl, hz⟩ => hnonnull l hl hz
  have hout : lookupOutcome user_session parse_context parent fk_def referenced_idx 1
      is_ignore row db s =
      (VdbeStatus.halted SQLITE_CONSTRAINT_FOREIGNKEY ON_CONFLICT_ACTION_ABORT P5_ConstraintFK,
        s.nFkConstraint, s.nDeferredCons,
        if is_ignore then s.sqlite3_found_count else s.sqlite3_found_count + 1) := by
    unfold lookupOutcome
    rw [if_neg (by omega), if_neg hnull]
    cases is_ignore
    · simp [hnoself, hmiss, tailOutcome, himm]
    · simp [tailOutcome, himm]
  rw [hout] at h
  simp only [VdbeState.obs, Prod.mk.injEq] at h
  exact ⟨h.1, h.2.1, h.2.2.1⟩

/-- Witness of **C1**: a one-link, non-deferred constraint, the row `(7, 5)` and an
empty parent index. -/
theorem fkey_lookup_parent_insert_miss_halts_witness :
    (sqlite3VdbeExec (fkey_lookup_parent sampleSession sampleParse (sampleSpace 1)
        (sampleFk false 2 1) 0 0 1 false).pVdbe (sampleDb []) 7
        (sampleState (Value.Int 7) (Value.Int 5) 0 0)).status =
      VdbeStatus.halted SQLITE_CONSTRAINT_FOREIGNKEY ON_CONFLICT_ACTION_ABORT P5_ConstraintFK ∧
    (sqlite3VdbeExec (fkey_lookup_parent sampleSession sampleParse (sampleSpace 1)
        (sampleFk false 2 1) 0 0 1 false).pVdbe (sampleDb []) 7
        (sampleState (Value.Int 7) (Value.Int 5) 0 0)).nFkConstraint = 0 ∧
    (sqlite3VdbeExec (fkey_lookup_parent sampleSession sampleParse (sampleSpace 1)
        (sampleFk false 2 1) 0 0 1 false).pVdbe (sampleDb []) 7
        (sampleState (Value.Int 7) (Value.Int 5) 0 0)).nDeferredCons = 0 :=
  fkey_lookup_parent_insert_miss_halts sampleSession sampleParse (sampleSpace 1)
    (sampleFk false 2 1) 0 0 false (sampleDb []) (sampleState (Value.Int 7) (Value.Int 5) 0 0)
    (sampleRow (Value.Int 7) (Value.Int 5)) 2 (by decide) (by decide) (by decide) (by decide)
    (by decide) (by decide) (by decide) (by decide) (by decide) 7 (by decide)

/-- **C2.** When the immediate-raise condition does not hold (the constraint is
deferred, or the session defers foreign keys, or the statement is nested or
multi-write), a probe miss does not halt the run: for a row whose child link
fields are all non-NULL, that does not match itself and whose key is not in the
parent's referenced index, and with the counter test of a decrement request
letting the check proceed, the run ends past the last instruction, still
running, with exactly one counter changed by exactly `incr_count`: the deferred
counter when the constraint is deferred, the immediate counter otherwise. -/
theorem fkey_lookup_parent_miss_counts (user_session : session) (parse_context : Parse)
    (parent : space) (fk_def : fkey_def) (referenced_idx reg_data : Nat) (incr_count : Int)
    (is_ignore : Bool) (db : Database) (s : VdbeState) (row : Nat → Value) (nCol : Nat)
    (himm : ¬ fkey_is_immediate user_session parse_context fk_def)
    (hpc : s.pc = parse_context.pVdbe.aOp.length) (hrun : s.status = VdbeStatus.running)
    (hrow : HoldsRow s reg_data row nCol)
    (hcols : ∀ l ∈ fk_def.links, l.child_field < nCol ∧
      (parent.def_.id = fk_def.child_id → l.parent_field < nCol))
    (hregs : reg_data + nCol ≤ parse_context.nMem)
    (hcounter : incr_count < 0 →
      (if fk_def.is_deferred then s.nDeferredCons else s.nFkConstraint) ≠ 0)
    (hnonnull : ∀ l ∈ fk_def.links, row l.child_field ≠ Value.Null)
    (hnoself : ¬ selfMatch parent fk_def incr_count row)
    (hmiss : childKey fk_def row ∉
      db (SQLITE_PAGENO_FROM_SPACEID_AND_INDEXID fk_def.parent_id referenced_idx))
    (fuel : Nat)
    (hfuel : (fkey_lookup_parent user_session parse_context parent fk_def referenced_idx
      reg_data incr_count is_ignore).pVdbe.aOp.length ≤ fuel) :
    (sqlite3VdbeExec (fkey_lookup_parent user_session parse_context parent fk_def
        referenced_idx reg_data incr_count is_ignore).pVdbe db fuel s).status =
      VdbeStatus.running ∧
    (sqlite3VdbeExec (fkey_lookup_parent user_session parse_context parent fk_def
        referenced_idx reg_data incr_count is_ignore).pVdbe db fuel s).pc =
      (fkey_lookup_parent user_session parse_context parent fk_def referenced_idx
        reg_data incr_count is_ignore).pVdbe.aOp.length ∧
    (sqlite3VdbeExec (fkey_lookup_parent user_session parse_context parent fk_def
        referenced_idx reg_data incr_count is_ignore).pVdbe db fuel s).nDeferredCons =
      (if fk_def.is_deferred then s.nDeferredCons + incr_count else s.nDeferredCons) ∧
    (sqlite3VdbeExec (fkey_lookup_parent user_session parse_context parent fk_def
        referenced_idx reg_data incr_count is_ignore).pVdbe db fuel s).nFkConstraint =
      (if fk_def.is_deferred then s.nFkConstraint else s.nFkConstraint + incr_count) := by
  obtain ⟨h, hend⟩ := fkey_lookup_parent_run user_session parse_context parent fk_def
    referenced_idx reg_data incr_count is_ignore db s row nCol hpc hrun hrow hcols hregs fuel hfuel
  have hnull : ¬ ∃ l ∈ fk_def.links, row l.child_field = Value.Null :=
    fun ⟨l, hl, hz⟩ => hnonnull l hl hz
  have hout : lookupOutcome user_session parse_context parent fk_def referenced_idx incr_count
      is_ignore row db s =
      (VdbeStatus.running,
        (if fk_def.is_deferred then s.nFkConstraint else s.nFkConstraint + incr_count),
        (if fk_def.is_deferred then s.nDeferredCons + incr_count else s.nDeferredCons),
        if is_ignore then s.sqlite3_found_count else s.sqlite3_found_count + 1) := by
    unfold lookupOutcome
    rw [if_neg (fun hz => hcounter hz.1 hz.2), if_neg hnull]
    cases is_ignore <;> cases hd : fk_def.is_deferred <;>
      simp [hnoself, hmiss, tailOutcome, himm, hd]
  rw [hout] at h
  simp only [VdbeState.obs, Prod.mk.injEq] at h
  exact ⟨h.1, hend h.1, h.2.2.1, h.2.1⟩

/-- Witness of **C2**: the deferred one-link constraint, the row `(7, 5)` and an empty
parent index; the insert is accepted and the deferred counter goes from 0 to 1. -/
theorem fkey_lookup_parent_miss_counts_witness :
    (sqlite3VdbeExec (fkey_lookup_parent sampleSession sampleParse (sampleSpace 1)
        (sampleFk true 2 1) 0 0 1 false).pVdbe (sampleDb []) 7
        (sampleState (Value.Int 7) (Value.Int 5) 0 0)).status = VdbeStatus.running ∧
    (sqlite3VdbeExec (fkey_lookup_parent sampleSession sampleParse (sampleSpace 1)
        (sampleFk true 2 1) 0 0 1 false).pVdbe (sampleDb []) 7
        (sampleState (Value.Int 7) (Value.Int 5) 0 0)).nDeferredCons = 1 ∧
    (sqlite3VdbeExec (fkey_lookup_parent sampleSession sampleParse (sampleSpace 1)
        (sampleFk true 2 1) 0 0 1 false).pVdbe (sampleDb []) 7
        (sampleState (Value.Int 7) (Value.Int 5) 0 0)).nFkConstraint = 0 :=
  have h := fkey_lookup_parent_miss_counts sampleSession sampleParse (sampleSpace 1)
    (sampleFk true 2 1) 0 0 1 false (sampleDb []) (sampleState (Value.Int 7) (Value.Int 5) 0 0)
    (sampleRow (Value.Int 7) (Value.Int 5)) 2 (by decide) (by decide) (by decide) (by decide)
    (by decide) (by decide) (by decide) (by decide) (by decide) (by decide) 7 (by decide)
  ⟨h.1, h.2.2.1, h.2.2.2⟩

/-- **C3.** When at least one child-side link field of the row image is NULL, the
check treats the constraint as satisfied, for every requested delta (so for
the insert request `+1` and the delete request `-1`), deferred or not: the
run ends past the last instruction, still running, with no index probe made
and both counters as they were. -/
theorem fkey_lookup_parent_null_satisfied (user_session : session) (parse_context : Parse)
    (parent : space) (fk_def : fkey_def) (referenced_idx reg_data : Nat) (incr_count : Int)
    (is_ignore : Bool) (db : Database) (s : VdbeState) (row : Nat → Value) (nCol : Nat)
    (hpc : s.pc = parse_context.pVdbe.aOp.length) (hrun : s.status = VdbeStatus.running)
    (hrow : HoldsRow s reg_data row nCol)
    (hcols : ∀ l ∈ fk_def.links, l.child_field < nCol ∧
      (parent.def_.id = fk_def.child_id → l.parent_field < nCol))
    (hregs : reg_data + nCol ≤ parse_context.nMem)
    (hnull : ∃ l ∈ fk_def.links, row l.child_field = Value.Null)
    (fuel : Nat)
    (hfuel : (fkey_lookup_parent user_session parse_context parent fk_def referenced_idx
      reg_data incr_count is_ignore).pVdbe.aOp.length ≤ fuel) :
    (sqlite3VdbeExec (fkey_lookup_parent user_session parse_context parent fk_def
        referenced_idx reg_data incr_count is_ignore).pVdbe db fuel s).status =
      VdbeStatus.running ∧
    (sqlite3VdbeExec (fkey_lookup_parent user_session parse_context parent fk_def
        referenced_idx reg_data incr_count is_ignore).pVdbe db fuel s).pc =
      (fkey_lookup_parent user_session parse_context parent fk_def referenced_idx
        reg_data incr_count is_ignore).pVdbe.aOp.length ∧
    (sqlite3VdbeExec (fkey_lookup_parent user_session parse_context parent fk_def
        referenced_idx reg_data incr_count is_ignore).pVdbe db fuel s).sqlite3_found_count =
      s.sqlite3_found_count ∧
    (sqlite3VdbeExec (fkey_lookup_parent user_session parse_context parent fk_def
        referenced_idx reg_data incr_count is_ignore).pVdbe db fuel s).nFkConstraint =
      s.nFkConstraint ∧
    (sqlite3VdbeExec (fkey_lookup_parent user_session parse_context parent fk_def
        referenced_idx reg_data incr_count is_ignore).pVdbe db fuel s).nDeferredCons =
      s.nDeferredCons := by
  obtain ⟨h, hend⟩ := fkey_lookup_parent_run user_session parse_context parent fk_def
    referenced_idx reg_data incr_count is_ignore db s row nCol hpc hrun hrow hcols hregs fuel hfuel
  have hout : lookupOutcome user_session parse_context parent fk_def referenced_idx incr_count
      is_ignore row db s = s.obs := by
    unfold lookupOutcome
    by_cases hz : incr_count < 0 ∧
        (if fk_def.is_deferred then s.nDeferredCons else s.nFkConstraint) = 0
    · rw [if_pos hz]
    · rw [if_neg hz, if_pos hnull]
  rw [hout] at h
  simp only [VdbeState.obs, Prod.mk.injEq] at h
  exact ⟨h.1.trans hrun, hend (h.1.trans hrun), h.2.2.2, h.2.1, h.2.2.1⟩

/-- Witness of **C3**: a delete request on the row `(7, NULL)` with the deferred
counter at 3 and the key-less parent index: nothing is probed or counted. -/
theorem fkey_lookup_parent_null_satisfied_witness :
    (sqlite3VdbeExec (fkey_lookup_parent sampleSession sampleParseMulti (sampleSpace 1)
        (sampleFk true 2 1) 0 0 (-1) false).pVdbe (sampleDb []) 8
        (sampleState (Value.Int 7) Value.Null 0 3)).sqlite3_found_count = 0 ∧
    (sqlite3VdbeExec (fkey_lookup_parent sampleSession sampleParseMulti (sampleSpace 1)
        (sampleFk true 2 1) 0 0 (-1) false).pVdbe (sampleDb []) 8
        (sampleState (Value.Int 7) Value.Null 0 3)).nDeferredCons = 3 :=
  have h := fkey_lookup_parent_null_satisfied sampleSession sampleParseMulti (sampleSpace 1)
    (sampleFk true 2 1) 0 0 (-1) false (sampleDb []) (sampleState (Value.Int 7) Value.Null 0 3)
    (sampleRow (Value.Int 7) Value.Null) 2 (by decide) (by decide) (by decide) (by decide)
    (by decide) (by decide) 8 (by decide)
  ⟨h.2.2.1, h.2.2.2.2⟩

theorem lookupOutcome_nDeferredCons_nonneg (user_session : session) (parse_context : Parse)
    (parent : space) (fk_def : fkey_def) (referenced_idx : Nat) (incr_count : Int)
    (is_ignore : Bool) (row : Nat → Value) (db : Database) (s : VdbeState)
    (hincr : incr_count = 1 ∨ incr_count = -1) (h0 : 0 ≤ s.nDeferredCons) :
    0 ≤ (lookupOutcome user_session parse_context parent fk_def referenced_idx incr_count
      is_ignore row db s).2.2.1 := by
  unfold lookupOutcome tailOutcome VdbeState.obs
  by_cases hd : fk_def.is_deferred = true
  · simp only [hd, if_true]
    split_ifs <;> simp only [] <;> omega
  · simp only [hd]
    split_ifs <;> simp only [] <;> omega

/-- A well-formed check leaves a non-negative deferred counter non-negative. -/
theorem ChildCheck.run_nonneg (user_session : session) (c : ChildCheck) (nDef : Int)
    (hwf : c.wellFormed) (h0 : 0 ≤ nDef) : 0 ≤ (c.run user_session nDef).nDeferredCons := by
  obtain ⟨hincr, hrow, hcols, hregs⟩ := hwf
  have h := (fkey_lookup_parent_run user_session c.parse_context c.parent c.fk_def
    c.referenced_idx c.reg_data c.incr_count c.is_ignore c.db (c.entry nDef) c.row c.nCol rfl rfl
    hrow hcols hregs _ (Nat.le_refl _)).1
  have h2 := lookupOutcome_nDeferredCons_nonneg user_session c.parse_context c.parent c.fk_def
    c.referenced_idx c.incr_count c.is_ignore c.row c.db (c.entry nDef) hincr h0
  rw [← h] at h2
  exact h2

/-- **C4.** Counter non-negativity for child-side checks.  A decrement request
entered with the counter chosen by `is_deferred` at zero is skipped as a whole
(no probe, no halt, no counter change), so the `-1` is only ever applied to a
positive counter; hence, from a deferred counter `>= 0`, no sequence of
well-formed insert and delete checks, whatever their constraints, rows,
database contents and immediate counters, leaves the deferred counter
negative. -/
theorem fkey_lookup_parent_counter_nonneg (user_session : session) :
    (∀ (c : ChildCheck) (nDef : Int), c.wellFormed → c.incr_count = -1 →
      (if c.fk_def.is_deferred then nDef else c.nFkConstraint) = 0 →
      (c.run user_session nDef).obs = (c.entry nDef).obs) ∧
    (∀ (cs : List ChildCheck) (nDef : Int), (∀ c ∈ cs, c.wellFormed) → 0 ≤ nDef →
      0 ≤ runChildChecks user_session cs nDef) := by
  constructor
  · intro c nDef hwf hincr hzero
    obtain ⟨-, hrow, hcols, hregs⟩ := hwf
    have h := (fkey_lookup_parent_run user_session c.parse_context c.parent c.fk_def
      c.referenced_idx c.reg_data c.incr_count c.is_ignore c.db (c.entry nDef) c.row c.nCol
      rfl rfl hrow hcols hregs _ (Nat.le_refl _)).1
    have hout : lookupOutcome user_session c.parse_context c.parent c.fk_def c.referenced_idx
        c.incr_count c.is_ignore c.row c.db (c.entry nDef) = (c.entry nDef).obs := by
      unfold lookupOutcome
      rw [if_pos ⟨by omega, hzero⟩]
    rw [hout] at h
    exact h
  · intro cs
    induction cs with
    | nil => intro nDef _ h0; exact h0
    | cons c cs ih =>
      intro nDef hwf h0
      exact ih _ (fun c2 h2 => hwf c2 (by simp [h2]))
        (ChildCheck.run_nonneg user_session c nDef (hwf c (by simp)) h0)

/-- Witness of **C4**: a violating insert, the delete that undoes it, and one more
delete of a row without parent: the deferred counter goes 0, 1, 0, 0. -/
theorem fkey_lookup_parent_counter_nonneg_witness :
    ((sampleCheck (-1) (Value.Int 5) []).run sampleSession 0).obs =
      ((sampleCheck (-1) (Value.Int 5) []).entry 0).obs ∧
    0 ≤ runChildChecks sampleSession
      [sampleCheck 1 (Value.Int 5) [], sampleCheck (-1) (Value.Int 5) [],
       sampleCheck (-1) (Value.Int 5) []] 0 ∧
    runChildChecks sampleSession
      [sampleCheck 1 (Value.Int 5) [], sampleCheck (-1) (Value.Int 5) [],
       sampleCheck (-1) (Value.Int 5) []] 0 = 0 ∧
    runChildChecks sampleSession [sampleCheck 1 (Value.Int 5) []] 0 = 1 :=
  ⟨(fkey_lookup_parent_counter_nonneg sampleSession).1 (sampleCheck (-1) (Value.Int 5) []) 0
     (by decide) (by decide) (by decide),
   (fkey_lookup_parent_counter_nonneg sampleSession).2 _ 0 (by decide) (by decide),
   by decide, by decide⟩

/-- **C5.** Self-reference rule of the child-side check (generated with
`is_ignore = 0`, as `sqlite3FkCheck` does).  When the parent space is the
constraint's child space and the request is an insert, a new row whose
child-side link values are all non-NULL and equal, link by link, to its own
parent-side values goes to the satisfied exit: no index probe, no halt, no
counter change.  If some link pair differs (a NULL parent-side value differs
from the non-NULL child-side one) the index is probed, exactly once. -/
theorem fkey_lookup_parent_self_reference (user_session : session) (parse_context : Parse)
    (parent : space) (fk_def : fkey_def) (referenced_idx reg_data : Nat)
    (db : Database) (s : VdbeState) (row : Nat → Value) (nCol : Nat)
    (hself : parent.def_.id = fk_def.child_id)
    (hpc : s.pc = parse_context.pVdbe.aOp.length) (hrun : s.status = VdbeStatus.running)
    (hrow : HoldsRow s reg_data row nCol)
    (hcols : ∀ l ∈ fk_def.links, l.child_field < nCol ∧
      (parent.def_.id = fk_def.child_id → l.parent_field < nCol))
    (hregs : reg_data + nCol ≤ parse_context.nMem)
    (hnonnull : ∀ l ∈ fk_def.links, row l.child_field ≠ Value.Null)
    (fuel : Nat)
    (hfuel : (fkey_lookup_parent user_session parse_context parent fk_def referenced_idx
      reg_data 1 false).pVdbe.aOp.length ≤ fuel) :
    ((∀ l ∈ fk_def.links, row l.child_field = row l.parent_field) →
      (sqlite3VdbeExec (fkey_lookup_parent user_session parse_context parent fk_def
          referenced_idx reg_data 1 false).pVdbe db fuel s).obs = s.obs ∧
      (sqlite3VdbeExec (fkey_lookup_parent user_session parse_context parent fk_def
          referenced_idx reg_data 1 false).pVdbe db fuel s).pc =
        (fkey_lookup_parent user_session parse_context parent fk_def referenced_idx
          reg_data 1 false).pVdbe.aOp.length) ∧
    ((∃ l ∈ fk_def.links, row l.child_field ≠ row l.parent_field) →
      (sqlite3VdbeExec (fkey_lookup_parent user_session parse_context parent fk_def
          referenced_idx reg_data 1 false).pVdbe db fuel s).sqlite3_found_count =
        s.sqlite3_found_count + 1) := by
  obtain ⟨h, hend⟩ := fkey_lookup_parent_run user_session parse_context parent fk_def
    referenced_idx reg_data 1 false db s row nCol hpc hrun hrow hcols hregs fuel hfuel
  have hnull : ¬ ∃ l ∈ fk_def.links, row l.child_field = Value.Null :=
    fun ⟨l, hl, hz⟩ => hnonnull l hl hz
  unfold lookupOutcome at h
  rw [if_neg (by omega), if_neg hnull, if_neg (by simp)] at h
  constructor
  · intro hall
    have hm : selfMatch parent fk_def 1 row := ⟨⟨hself, rfl⟩, hall⟩
    rw [if_pos hm] at h
    refine ⟨h, hend ?_⟩
    have := congrArg Prod.fst h
    simp only [VdbeState.obs] at this
    rw [this, hrun]
  · rintro ⟨l, hl, hne⟩
    have hm : ¬ selfMatch parent fk_def 1 row := fun hm => hne (hm.2 l hl)
    rw [if_neg hm] at h
    have h4 := congrArg (fun o => o.2.2.2) h
    simp only [VdbeState.obs] at h4
    rw [h4]
    unfold tailOutcome
    split_ifs <;> rfl

/-- Witness of **C5**: the self-referencing one-link constraint on space 2; the row
`(5, 5)` matches itself and is not probed for, the row `(7, 5)` is. -/
theorem fkey_lookup_parent_self_reference_witness :
    (sqlite3VdbeExec (fkey_lookup_parent sampleSession sampleParse (sampleSpace 2)
        (sampleFk false 2 2) 0 0 1 false).pVdbe (sampleDb []) 9
        (sampleState (Value.Int 5) (Value.Int 5) 0 0)).obs =
      (sampleState (Value.Int 5) (Value.Int 5) 0 0).obs ∧
    (sqlite3VdbeExec (fkey_lookup_parent sampleSession sampleParse (sampleSpace 2)
        (sampleFk false 2 2) 0 0 1 false).pVdbe (sampleDb []) 9
        (sampleState (Value.Int 7) (Value.Int 5) 0 0)).sqlite3_found_count = 1 :=
  ⟨((fkey_lookup_parent_self_reference sampleSession sampleParse (sampleSpace 2)
      (sampleFk false 2 2) 0 0 (sampleDb []) (sampleState (Value.Int 5) (Value.Int 5) 0 0)
      (sampleRow (Value.Int 5) (Value.Int 5)) 2 (by decide) (by decide) (by decide) (by decide)
      (by decide) (by decide) (by decide) 9 (by decide)).1 (by decide)).1,
   (fkey_lookup_parent_self_reference sampleSession sampleParse (sampleSpace 2)
      (sampleFk false 2 2) 0 0 (sampleDb []) (sampleState (Value.Int 7) (Value.Int 5) 0 0)
      (sampleRow (Value.Int 7) (Value.Int 5)) 2 (by decide) (by decide) (by decide) (by decide)
      (by decide) (by decide) (by decide) 9 (by decide)).2 (by decide)⟩

/-- Counterexample to **C6** as stated: in the self-referencing space 2, whose
referenced index holds no key at all, the insert check of the row `(5, 5)`
(link field equal to the row's own key) finds no parent row, does not halt and
leaves both counters at 0: the row is accepted by matching itself. -/
theorem fkey_lookup_parent_self_match_accepted :
    sampleDb [] (SQLITE_PAGENO_FROM_SPACEID_AND_INDEXID 2 0) = [] ∧
    (sqlite3VdbeExec (fkey_lookup_parent sampleSession sampleParse (sampleSpace 2)
        (sampleFk false 2 2) 0 0 1 false).pVdbe (sampleDb []) 9
        (sampleState (Value.Int 5) (Value.Int 5) 0 0)).status = VdbeStatus.running ∧
    (sqlite3VdbeExec (fkey_lookup_parent sampleSession sampleParse (sampleSpace 2)
        (sampleFk false 2 2) 0 0 1 false).pVdbe (sampleDb []) 9
        (sampleState (Value.Int 5) (Value.Int 5) 0 0)).nFkConstraint = 0 ∧
    (sqlite3VdbeExec (fkey_lookup_parent sampleSession sampleParse (sampleSpace 2)
        (sampleFk false 2 2) 0 0 1 false).pVdbe (sampleDb []) 9
        (sampleState (Value.Int 5) (Value.Int 5) 0 0)).nDeferredCons = 0 := by
  decide

/-- **C6**, amended.  Inserting into a self-referencing table a row whose link
fields are non-NULL and equal its own key is accepted by matching itself: the
child-side insert check makes no index probe, does not halt and changes no
counter, whatever keys the referenced index holds, so its outcome is the same
on any two databases. -/
theorem fkey_lookup_parent_self_match_any_db (user_session : session)
    (parse_context : Parse) (parent : space) (fk_def : fkey_def)
    (referenced_idx reg_data : Nat) (db1 db2 : Database) (s : VdbeState) (row : Nat → Value)
    (nCol : Nat)
    (hm : selfMatch parent fk_def 1 row)
    (hpc : s.pc = parse_context.pVdbe.aOp.length) (hrun : s.status = VdbeStatus.running)
    (hrow : HoldsRow s reg_data row nCol)
    (hcols : ∀ l ∈ fk_def.links, l.child_field < nCol ∧
      (parent.def_.id = fk_def.child_id → l.parent_field < nCol))
    (hregs : reg_data + nCol ≤ parse_context.nMem)
    (hnonnull : ∀ l ∈ fk_def.links, row l.child_field ≠ Value.Null)
    (fuel : Nat)
    (hfuel : (fkey_lookup_parent user_session parse_context parent fk_def referenced_idx
      reg_data 1 false).pVdbe.aOp.length ≤ fuel) :
    (sqlite3VdbeExec (fkey_lookup_parent user_session parse_context parent fk_def
        referenced_idx reg_data 1 false).pVdbe db1 fuel s).status = VdbeStatus.running ∧
    (sqlite3VdbeExec (fkey_lookup_parent user_session parse_context parent fk_def
        referenced_idx reg_data 1 false).pVdbe db1 fuel s).sqlite3_found_count =
      s.sqlite3_found_count ∧
    (sqlite3VdbeExec (fkey_lookup_parent user_session parse_context parent fk_def
        referenced_idx reg_data 1 false).pVdbe db1 fuel s).nFkConstraint = s.nFkConstraint ∧
    (sqlite3VdbeExec (fkey_lookup_parent user_session parse_context parent fk_def
        referenced_idx reg_data 1 false).pVdbe db1 fuel s).nDeferredCons = s.nDeferredCons ∧
    (sqlite3VdbeExec (fkey_lookup_parent user_session parse_context parent fk_def
        referenced_idx reg_data 1 false).pVdbe db1 fuel s).obs =
      (sqlite3VdbeExec (fkey_lookup_parent user_session parse_context parent fk_def
        referenced_idx reg_data 1 false).pVdbe db2 fuel s).obs := by
  have hnull : ¬ ∃ l ∈ fk_def.links, row l.child_field = Value.Null :=
    fun ⟨l, hl, hz⟩ => hnonnull l hl hz
  have hout : ∀ db, (sqlite3VdbeExec (fkey_lookup_parent user_session parse_context parent
      fk_def referenced_idx reg_data 1 false).pVdbe db fuel s).obs = s.obs := by
    intro db
    have h := (fkey_lookup_parent_run user_session parse_context parent fk_def
      referenced_idx reg_data 1 false db s row nCol hpc hrun hrow hcols hregs fuel hfuel).1
    unfold lookupOutcome at h
    rw [if_neg (by omega), if_neg hnull, if_neg (by simp), if_pos hm] at h
    exact h
  have h1 := hout db1
  have h2 := hout db2
  rw [h1, h2]
  simp only [VdbeState.obs, Prod.mk.injEq] at h1
  exact ⟨h1.1.trans hrun, h1.2.2.2, h1.2.1, h1.2.2.1, rfl⟩

/-- Witness of the amended **C6**: the row `(5, 5)` of the self-referencing space 2,
against an empty index and against an index that holds the key 5. -/
theorem fkey_lookup_parent_self_match_any_db_witness :
    (sqlite3VdbeExec (fkey_lookup_parent sampleSession sampleParse (sampleSpace 2)
        (sampleFk false 2 2) 0 0 1 false).pVdbe (sampleDb []) 9
        (sampleState (Value.Int 5) (Value.Int 5) 0 0)).obs =
      (sqlite3VdbeExec (fkey_lookup_parent sampleSession sampleParse (sampleSpace 2)
        (sampleFk false 2 2) 0 0 1 false).pVdbe (sampleDb [[Value.Int 5]]) 9
        (sampleState (Value.Int 5) (Value.Int 5) 0 0)).obs :=
  (fkey_lookup_parent_self_match_any_db sampleSession sampleParse (sampleSpace 2)
    (sampleFk false 2 2) 0 0 (sampleDb []) (sampleDb [[Value.Int 5]])
    (sampleState (Value.Int 5) (Value.Int 5) 0 0) (sampleRow (Value.Int 5) (Value.Int 5)) 2
    (by decide) (by decide) (by decide) (by decide) (by decide) (by decide) (by decide) 9
    (by decide)).2.2.2.2

/-! ## The parent-side scan: claims -/

theorem sqlite3FkCheck_parent_flags (user_session : session) (space_by_id : Nat → space)
    (pTab : Table) (regOld regNew : Nat) (aChange : Option (Nat → Int)) (pParse : Parse)
    (fk : fkey) :
    (sqlite3FkCheck_parent user_session space_by_id pTab regOld regNew aChange pParse
        fk).pToplevel = pParse.pToplevel ∧
    (sqlite3FkCheck_parent user_session space_by_id pTab regOld regNew aChange pParse
        fk).isMultiWrite = pParse.isMultiWrite := by
  unfold sqlite3FkCheck_parent
  simp only []
  split_ifs <;> simp [fkScanChildren, sqlite3MayAbort]

theorem foldl_sqlite3FkCheck_parent_flags (user_session : session) (space_by_id : Nat → space)
    (pTab : Table) (regOld regNew : Nat) (aChange : Option (Nat → Int)) (fks : List fkey)
    (pParse : Parse) :
    (fks.foldl (sqlite3FkCheck_parent user_session space_by_id pTab regOld regNew aChange)
        pParse).pToplevel = pParse.pToplevel ∧
    (fks.foldl (sqlite3FkCheck_parent user_session space_by_id pTab regOld regNew aChange)
        pParse).isMultiWrite = pParse.isMultiWrite := by
  induction fks generalizing pParse with
  | nil => exact ⟨rfl, rfl⟩
  | cons fk fks ih =>
    have h1 := sqlite3FkCheck_parent_flags user_session space_by_id pTab regOld regNew aChange
      pParse fk
    have h2 := ih (sqlite3FkCheck_parent user_session space_by_id pTab regOld regNew aChange
      pParse fk)
    simp only [List.foldl_cons]
    exact ⟨h2.1.trans h1.1, h2.2.trans h1.2⟩

theorem fkey_lookup_parent_flags (user_session : session) (parse_context : Parse)
    (parent : space) (fk_def : fkey_def) (referenced_idx reg_data : Nat) (incr_count : Int)
    (is_ignore : Bool) :
    (fkey_lookup_parent user_session parse_context parent fk_def referenced_idx reg_data
        incr_count is_ignore).pToplevel = parse_context.pToplevel ∧
    (fkey_lookup_parent user_session parse_context parent fk_def referenced_idx reg_data
        incr_count is_ignore).isMultiWrite = parse_context.isMultiWrite := by
  unfold fkey_lookup_parent
  simp only [sqlite3VdbeMakeLabel, sqlite3GetTempRange, sqlite3GetTempReg, vdbe_emit_open_cursor]
  split_ifs <;> simp [sqlite3HaltConstraint, sqlite3MayAbort, ON_CONFLICT_ACTION_ABORT]

theorem sqlite3FkCheck_child_flags (user_session : session) (space_by_id : Nat → space)
    (space : space) (regOld regNew : Nat) (aChange : Option (Nat → Int)) (pParse : Parse)
    (fk : fkey) :
    (sqlite3FkCheck_child user_session space_by_id space regOld regNew aChange pParse
        fk).pToplevel = pParse.pToplevel ∧
    (sqlite3FkCheck_child user_session space_by_id space regOld regNew aChange pParse
        fk).isMultiWrite = pParse.isMultiWrite := by
  unfold sqlite3FkCheck_child
  simp only []
  split_ifs <;> simp [fkey_lookup_parent_flags]

theorem foldl_sqlite3FkCheck_child_flags (user_session : session) (space_by_id : Nat → space)
    (space : space) (regOld regNew : Nat) (aChange : Option (Nat → Int)) (fks : List fkey)
    (pParse : Parse) :
    (fks.foldl (sqlite3FkCheck_child user_session space_by_id space regOld regNew aChange)
        pParse).pToplevel = pParse.pToplevel ∧
    (fks.foldl (sqlite3FkCheck_child user_session space_by_id space regOld regNew aChange)
        pParse).isMultiWrite = pParse.isMultiWrite := by
  induction fks generalizing pParse with
  | nil => exact ⟨rfl, rfl⟩
  | cons fk fks ih =>
    have h1 := sqlite3FkCheck_child_flags user_session space_by_id space regOld regNew aChange
      pParse fk
    have h2 := ih (sqlite3FkCheck_child user_session space_by_id space regOld regNew aChange
      pParse fk)
    simp only [List.foldl_cons]
    exact ⟨h2.1.trans h1.1, h2.2.trans h1.2⟩

theorem foldl_sqlite3FkCheck_parent_remove (user_session : session)
    (space_by_id : Nat → space) (pTab : Table) (regOld regNew : Nat)
    (aChange : Option (Nat → Int)) (pParse : Parse) (fk : fkey) (before after : List fkey)
    (himm : fkey_is_immediate user_session pParse fk.def_) :
    (before ++ fk :: after).foldl
        (sqlite3FkCheck_parent user_session space_by_id pTab regOld regNew aChange) pParse =
      (before ++ after).foldl
        (sqlite3FkCheck_parent user_session space_by_id pTab regOld regNew aChange) pParse := by
  have hbody : ∀ p : Parse, fkey_is_immediate user_session p fk.def_ →
      sqlite3FkCheck_parent user_session space_by_id pTab regOld regNew aChange p fk = p := by
    intro p hp
    unfold fkey_is_immediate at hp
    unfold sqlite3FkCheck_parent
    simp only []
    split_ifs <;> rfl
  simp only [List.foldl_append, List.foldl_cons]
  rw [hbody]
  obtain ⟨h1, h2⟩ := foldl_sqlite3FkCheck_parent_flags user_session space_by_id pTab regOld
    regNew aChange before pParse
  unfold fkey_is_immediate at himm ⊢
  rw [h1, h2]
  exact himm

/-- **C7.** In `sqlite3FkCheck`, a constraint that refers to the space (is in its
parent list), is not deferred, with the session defer flag off, in a
top-level, non-multi-write statement, gets no code at all: the body of the
second loop leaves the parse as it is (no scan of the child space, no cursor),
and `sqlite3FkCheck` gives what it gives with that constraint taken out of the
parent list. -/
theorem sqlite3FkCheck_parent_immediate_no_scan (user_session : session)
    (space_by_id : Nat → space) (pTab : Table) (regOld regNew : Nat)
    (aChange : Option (Nat → Int)) (pParse : Parse) (fk : fkey) (before after : List fkey)
    (himm : fkey_is_immediate user_session pParse fk.def_)
    (hlist : (space_by_id pTab.def_.id).parent_fkey = before ++ fk :: after) :
    sqlite3FkCheck_parent user_session space_by_id pTab regOld regNew aChange pParse fk =
      pParse ∧
    sqlite3FkCheck user_session space_by_id pParse pTab regOld regNew aChange =
      (if user_session.SQLITE_ForeignKeys = false then pParse
       else (before ++ after).foldl
        (sqlite3FkCheck_parent user_session space_by_id pTab regOld regNew aChange)
        ((space_by_id pTab.def_.id).child_fkey.foldl
          (sqlite3FkCheck_child user_session space_by_id (space_by_id pTab.def_.id) regOld regNew
            aChange) pParse)) := by
  constructor
  · have := foldl_sqlite3FkCheck_parent_remove user_session space_by_id pTab regOld regNew
      aChange pParse fk [] [] himm
    simpa using this
  · unfold sqlite3FkCheck
    split_ifs with hfk
    · rfl
    · simp only [hlist]
      apply foldl_sqlite3FkCheck_parent_remove
      obtain ⟨h1, h2⟩ := foldl_sqlite3FkCheck_child_flags user_session space_by_id
        (space_by_id pTab.def_.id) regOld regNew aChange (space_by_id pTab.def_.id).child_fkey
        pParse
      unfold fkey_is_immediate at himm ⊢
      rw [h1, h2]
      exact himm

/-- Witness of **C7**: a single-row insert into space 1, which a non-deferred
constraint of space 2 refers to: `sqlite3FkCheck` emits nothing. -/
theorem sqlite3FkCheck_parent_immediate_no_scan_witness :
    sqlite3FkCheck sampleSession
        (sampleSchema 1 [sampleFkey false 2 1 fkey_action.FKEY_NO_ACTION
          fkey_action.FKEY_NO_ACTION])
        (sampleParseBusy false) (sampleTable 1) 0 1 none = sampleParseBusy false :=
  (sqlite3FkCheck_parent_immediate_no_scan sampleSession
    (sampleSchema 1 [sampleFkey false 2 1 fkey_action.FKEY_NO_ACTION
      fkey_action.FKEY_NO_ACTION])
    (sampleTable 1) 0 1 none (sampleParseBusy false)
    (sampleFkey false 2 1 fkey_action.FKEY_NO_ACTION fkey_action.FKEY_NO_ACTION) [] []
    (by decide) (by decide)).2

theorem foldl_sqlite3ExprAnd_some (es : List Expr) (e : Expr) :
    es.foldl (fun acc x => sqlite3ExprAnd acc (some x)) (some e) =
      some (es.foldl Expr.TK_AND e) := by
  induction es generalizing e with
  | nil => rfl
  | cons x xs ih =>
    rw [List.foldl_cons, show sqlite3ExprAnd (some e) (some x) = some (Expr.TK_AND e x) from rfl,
      ih, List.foldl_cons]

theorem foldl_sqlite3ExprAnd_none (es : List Expr) :
    es.foldl (fun acc x => sqlite3ExprAnd acc (some x)) none = exprConj es := by
  cases es with
  | nil => rfl
  | cons x xs =>
    rw [List.foldl_cons, show sqlite3ExprAnd none (some x) = some x from rfl,
      foldl_sqlite3ExprAnd_some]
    rfl

/-- The first loop of `fkScanChildren` builds the conjunction of the link
equalities. -/
theorem fkScanChildren_pWhere_eq (child_space : space) (pTab : Table) (fkey : fkey_def)
    (regData : Nat) :
    fkScanChildren_pWhere child_space pTab fkey regData =
      scanPlain child_space pTab fkey regData := by
  unfold fkScanChildren_pWhere scanPlain
  rw [← foldl_sqlite3ExprAnd_none, List.foldl_map]
  rfl

/-- The second loop of `fkScanChildren` builds the conjunction of the self
equalities. -/
theorem fkScanChildren_pAll_eq (pSrc : SrcList_item) (pTab : Table) (fkey : fkey_def)
    (regData : Nat) :
    fkScanChildren_pAll pSrc pTab fkey regData =
      exprConj (fkey.links.map (scanSelfEq pSrc pTab regData)) := by
  unfold fkScanChildren_pAll
  rw [← foldl_sqlite3ExprAnd_none, List.foldl_map]
  rfl

theorem sqlite3VdbeJumpHere_append (pre : List VdbeOp) (op : VdbeOp) (rest : List VdbeOp)
    (L : List (Option Nat)) :
    sqlite3VdbeJumpHere { aOp := pre ++ op :: rest, aLabel := L } pre.length =
      { aOp := pre ++ { op with p2 := ((pre.length + (rest.length + 1) : Nat) : Int) } :: rest,
        aLabel := L } := by
  unfold sqlite3VdbeJumpHere
  have h : (pre ++ op :: rest)[pre.length]? = some op := by
    rw [List.getElem?_append_right (Nat.le_refl _)]
    simp
  simp only [h]
  simp

/-- The instructions `fkScanChildren` appends: the counter test of a resolving
pass, then the scan whose body is the counter adjustment. -/
theorem fkScanChildren_aOp (space_by_id : Nat → space) (pParse : Parse) (pSrc : SrcList_item)
    (pTab : Table) (fkey : fkey_def) (regData : Nat) (nIncr : Int) :
    (fkScanChildren space_by_id pParse pSrc pTab fkey regData nIncr).pVdbe.aOp =
      pParse.pVdbe.aOp ++
      ((if nIncr < 0 then
          [(⟨Opcode.OP_FkIfZero, if fkey.is_deferred then 1 else 0,
            if pParse.pVdbe.aOp.length ≠ 0 then ((pParse.pVdbe.aOp.length + 4 : Nat) : Int)
            else 0, 0, P4.P4_NOTUSED, 0⟩ : VdbeOp)]
        else []) ++
      [(⟨Opcode.OP_WhereBegin, 0, 0, 0,
          P4.P4_WHERE pSrc
            (if pTab.def_.id = fkey.child_id ∧ 0 < nIncr then
              scanExcluding (space_by_id fkey.child_id) pSrc pTab fkey regData
            else scanPlain (space_by_id fkey.child_id) pTab fkey regData), 0⟩ : VdbeOp),
       ⟨Opcode.OP_FkCounter, if fkey.is_deferred then 1 else 0, nIncr, 0, P4.P4_NOTUSED, 0⟩,
       ⟨Opcode.OP_WhereEnd, 0, 0, 0, P4.P4_NOTUSED, 0⟩]) := by
  unfold fkScanChildren
  simp only [fkScanChildren_pWhere_eq, fkScanChildren_pAll_eq, sqlite3PExprNot]
  have hpred : (if pTab.def_.id = fkey.child_id ∧ nIncr > 0 then
        sqlite3ExprAnd (scanPlain (space_by_id fkey.child_id) pTab fkey regData)
          (some (Expr.TK_NOT ((exprConj (fkey.links.map (scanSelfEq pSrc pTab regData))).getD
            Expr.TK_NULL)))
      else scanPlain (space_by_id fkey.child_id) pTab fkey regData) =
      (if pTab.def_.id = fkey.child_id ∧ 0 < nIncr then
        scanExcluding (space_by_id fkey.child_id) pSrc pTab fkey regData
      else scanPlain (space_by_id fkey.child_id) pTab fkey regData) := rfl
  rw [hpred]
  by_cases hneg : nIncr < 0
  · by_cases h0 : pParse.pVdbe.aOp.length = 0
    · simp [hneg, h0, sqlite3VdbeCurrentAddr, sqlite3WhereBegin, sqlite3WhereEnd,
        sqlite3VdbeAddOp2, sqlite3VdbeAddOp3, sqlite3VdbeAddOp4]
    · simp only [hneg, h0, sqlite3VdbeCurrentAddr, sqlite3WhereBegin, sqlite3WhereEnd,
        sqlite3VdbeAddOp2, sqlite3VdbeAddOp3, sqlite3VdbeAddOp4, if_true, ne_eq, not_false_eq_true,
        List.append_assoc, List.singleton_append, List.cons_append, List.nil_append]
      rw [sqlite3VdbeJumpHere_append]
      simp
  · simp [hneg, sqlite3VdbeCurrentAddr, sqlite3WhereBegin, sqlite3WhereEnd,
      sqlite3VdbeAddOp2, sqlite3VdbeAddOp3, sqlite3VdbeAddOp4]

/-- Counterexample to **C8** as stated: a plain insert into space 1 (old-row
register 0, new-row register 1, no change array), which a deferred constraint
of space 2 refers to, does get a parent-side scan of the child space: the
program grows by the counter test, the scan head on the child table, the
counter adjustment by -1 and the scan tail. -/
theorem sqlite3FkCheck_parent_insert_scans :
    (sqlite3FkCheck sampleSession
        (sampleSchema 1 [sampleFkey true 2 1 fkey_action.FKEY_NO_ACTION
          fkey_action.FKEY_NO_ACTION])
        (sampleParseBusy false) (sampleTable 1) 0 1 none).pVdbe.aOp =
      [⟨Opcode.OP_Goto, 0, 1, 0, P4.P4_NOTUSED, 0⟩,
       ⟨Opcode.OP_FkIfZero, 1, 5, 0, P4.P4_NOTUSED, 0⟩,
       ⟨Opcode.OP_WhereBegin, 0, 0, 0,
         P4.P4_WHERE ⟨"t", 1⟩
           (some (Expr.TK_EQ (Expr.TK_COLLATE (Expr.TK_REGISTER 2 0) "binary") (Expr.TK_ID "b"))),
         0⟩,
       ⟨Opcode.OP_FkCounter, 1, -1, 0, P4.P4_NOTUSED, 0⟩,
       ⟨Opcode.OP_WhereEnd, 0, 0, 0, P4.P4_NOTUSED, 0⟩] := by
  decide

/-- **C8**, amended.  For a plain insert into a parent table (old-row register 0,
new-row register non-zero, no change array), `sqlite3FkCheck` generates for a
constraint that refers to the table either nothing (the constraint is not
deferred, the defer flag is off and the statement is top-level and not
multi-write) or exactly the resolving scan of `fkScanChildren` on the new row
with delta -1, on a fresh cursor over the child table; the scan with delta +1
is not generated without an old row. -/
theorem sqlite3FkCheck_parent_plain_insert (user_session : session)
    (space_by_id : Nat → space) (pTab : Table) (regNew : Nat) (pParse : Parse) (fk : fkey)
    (hnew : regNew ≠ 0) :
    sqlite3FkCheck_parent user_session space_by_id pTab 0 regNew none pParse fk =
      (if fkey_is_immediate user_session pParse fk.def_ then pParse
       else fkScanChildren space_by_id { pParse with nTab := pParse.nTab + 1 }
          { zName := (space_by_id fk.def_.child_id).def_.name, iCursor := pParse.nTab }
          pTab fk.def_ regNew (-1)) ∧
    (∀ op ∈ (sqlite3FkCheck_parent user_session space_by_id pTab 0 regNew none pParse
        fk).pVdbe.aOp, op.opcode = Opcode.OP_FkCounter → op ∈ pParse.pVdbe.aOp ∨ op.p2 = -1) := by
  have heq : sqlite3FkCheck_parent user_session space_by_id pTab 0 regNew none pParse fk =
      (if fkey_is_immediate user_session pParse fk.def_ then pParse
       else fkScanChildren space_by_id { pParse with nTab := pParse.nTab + 1 }
          { zName := (space_by_id fk.def_.child_id).def_.name, iCursor := pParse.nTab }
          pTab fk.def_ regNew (-1)) := by
    unfold sqlite3FkCheck_parent fkey_is_immediate
    simp [hnew]
  refine ⟨heq, ?_⟩
  rw [heq]
  intro op hop hopc
  split_ifs at hop with himm
  · exact Or.inl hop
  · rw [fkScanChildren_aOp] at hop
    simp only [List.mem_append, List.mem_cons, List.mem_singleton, List.not_mem_nil, or_false,
      if_pos (show (-1 : Int) < 0 by decide)] at hop
    rcases hop with h | h | h | h | h
    · exact Or.inl h
    · subst h; simp at hopc
    · subst h; simp at hopc
    · subst h; exact Or.inr rfl
    · subst h; simp at hopc

/-- Witness of the amended **C8**: the insert of the counterexample, seen from the
loop body. -/
theorem sqlite3FkCheck_parent_plain_insert_witness :
    sqlite3FkCheck_parent sampleSession
        (sampleSchema 1 [sampleFkey true 2 1 fkey_action.FKEY_NO_ACTION
          fkey_action.FKEY_NO_ACTION])
        (sampleTable 1) 0 1 none (sampleParseBusy false)
        (sampleFkey true 2 1 fkey_action.FKEY_NO_ACTION fkey_action.FKEY_NO_ACTION) =
      fkScanChildren
        (sampleSchema 1 [sampleFkey true 2 1 fkey_action.FKEY_NO_ACTION
          fkey_action.FKEY_NO_ACTION])
        { sampleParseBusy false with nTab := 2 } { zName := "t", iCursor := 1 } (sampleTable 1)
        (sampleFk true 2 1) 1 (-1) :=
  (sqlite3FkCheck_parent_plain_insert sampleSession
    (sampleSchema 1 [sampleFkey true 2 1 fkey_action.FKEY_NO_ACTION
      fkey_action.FKEY_NO_ACTION])
    (sampleTable 1) 1 (sampleParseBusy false)
    (sampleFkey true 2 1 fkey_action.FKEY_NO_ACTION fkey_action.FKEY_NO_ACTION)
    (by decide)).1

/-- Counterexample to **C9** as stated: for the self-referencing constraint of
space 2, the pass on the new row image with delta -1 builds the predicate
without the exclusion term, and the pass with delta +1 builds it with the
exclusion term. -/
theorem fkScanChildren_exclusion_on_delete_pass :
    whereClauses (fkScanChildren (sampleSchema 2 []) (sampleParseBusy true) ⟨"t", 1⟩
        (sampleTable 2) (sampleFk false 2 2) 1 (-1)).pVdbe.aOp =
      [(⟨"t", 1⟩,
        some (Expr.TK_EQ (Expr.TK_COLLATE (Expr.TK_REGISTER 2 0) "binary") (Expr.TK_ID "b")))] ∧
    whereClauses (fkScanChildren (sampleSchema 2 []) (sampleParseBusy true) ⟨"t", 1⟩
        (sampleTable 2) (sampleFk false 2 2) 1 1).pVdbe.aOp =
      [(⟨"t", 1⟩,
        some (Expr.TK_AND
          (Expr.TK_EQ (Expr.TK_COLLATE (Expr.TK_REGISTER 2 0) "binary") (Expr.TK_ID "b"))
          (Expr.TK_NOT
            (Expr.TK_EQ (Expr.TK_COLLATE (Expr.TK_REGISTER 2 0) "binary")
              (Expr.TK_COLUMN 2 1 0)))))] := by
  decide

/-- **C9**, amended.  `fkScanChildren` adds exactly one scan to the program, over
the child table it is given.  Its predicate carries the self-reference
exclusion term `NOT(AND over links of current-row parent_field value = scanned
row's parent_field column)` exactly when the parent and child spaces are the
same and the delta is positive (the pass on the old row image with delta +1);
in every other case the predicate is only the conjunction of the link
equalities `child.field = parent value`. -/
theorem fkScanChildren_where_clause (space_by_id : Nat → space) (pParse : Parse)
    (pSrc : SrcList_item) (pTab : Table) (fkey : fkey_def) (regData : Nat) (nIncr : Int) :
    whereClauses (fkScanChildren space_by_id pParse pSrc pTab fkey regData nIncr).pVdbe.aOp =
      whereClauses pParse.pVdbe.aOp ++
        [(pSrc,
          if pTab.def_.id = fkey.child_id ∧ 0 < nIncr then
            scanExcluding (space_by_id fkey.child_id) pSrc pTab fkey regData
          else scanPlain (space_by_id fkey.child_id) pTab fkey regData)] := by
  rw [fkScanChildren_aOp]
  unfold whereClauses
  by_cases hneg : nIncr < 0 <;> simp [hneg, List.filterMap_append]

/-- Counterexample to **C10** as stated: deleting a row of space 1 (old-row
register 1, multi-write statement), which a constraint of space 2 with
`ON DELETE CASCADE` and `ON UPDATE CASCADE` refers to, generates the scan of
the child table whose body adds 1 to the immediate counter for each matching
child row. -/
theorem sqlite3FkCheck_cascade_counts :
    (sqlite3FkCheck sampleSession
        (sampleSchema 1 [sampleFkey false 2 1 fkey_action.FKEY_ACTION_CASCADE
          fkey_action.FKEY_ACTION_CASCADE])
        (sampleParseBusy true) (sampleTable 1) 1 0 none).pVdbe.aOp =
      [⟨Opcode.OP_Goto, 0, 1, 0, P4.P4_NOTUSED, 0⟩,
       ⟨Opcode.OP_WhereBegin, 0, 0, 0,
         P4.P4_WHERE ⟨"t", 1⟩
           (some (Expr.TK_EQ (Expr.TK_COLLATE (Expr.TK_REGISTER 2 0) "binary") (Expr.TK_ID "b"))),
         0⟩,
       ⟨Opcode.OP_FkCounter, 0, 1, 0, P4.P4_NOTUSED, 0⟩,
       ⟨Opcode.OP_WhereEnd, 0, 0, 0, P4.P4_NOTUSED, 0⟩] := by
  decide

/-- **C10**, amended.  For a parent-side delete or update of an old row that
`sqlite3FkCheck` does not skip, the code generated for the constraint is,
whatever its `on_delete` and `on_update` actions (CASCADE, SET NULL and
SET DEFAULT included), the scan of the child space whose body is the counter
adjustment `OP_FkCounter(is_deferred, +1)`: matching child rows are counted,
and the actions do not enter the generated instructions. -/
theorem sqlite3FkCheck_parent_old_row_counts (user_session : session)
    (space_by_id : Nat → space) (pTab : Table) (regOld : Nat) (aChange : Option (Nat → Int))
    (pParse : Parse) (fk : fkey)
    (hold : regOld ≠ 0)
    (hmod : ∀ changes, aChange = some changes → fkey_parent_is_modified fk.def_ changes = true)
    (himm : ¬ fkey_is_immediate user_session pParse fk.def_) :
    (sqlite3FkCheck_parent user_session space_by_id pTab regOld 0 aChange pParse fk).pVdbe.aOp =
      pParse.pVdbe.aOp ++
        [⟨Opcode.OP_WhereBegin, 0, 0, 0,
           P4.P4_WHERE ⟨(space_by_id fk.def_.child_id).def_.name, pParse.nTab⟩
             (if pTab.def_.id = fk.def_.child_id then
               scanExcluding (space_by_id fk.def_.child_id)
                 ⟨(space_by_id fk.def_.child_id).def_.name, pParse.nTab⟩ pTab fk.def_ regOld
             else scanPlain (space_by_id fk.def_.child_id) pTab fk.def_ regOld), 0⟩,
         ⟨Opcode.OP_FkCounter, if fk.def_.is_deferred then 1 else 0, 1, 0, P4.P4_NOTUSED, 0⟩,
         ⟨Opcode.OP_WhereEnd, 0, 0, 0, P4.P4_NOTUSED, 0⟩] := by
  unfold fkey_is_immediate at himm
  have h2 : ∀ (c : Prop) [Decidable c] (X : Parse),
      (if c then sqlite3MayAbort X else X).pVdbe = X.pVdbe := by
    intro c _ X
    split_ifs <;> rfl
  unfold sqlite3FkCheck_parent
  cases aChange with
  | none =>
    simp only [Bool.false_eq_true, if_false, if_neg himm, ne_eq, hold, not_false_eq_true,
      if_true, not_true_eq_false, h2]
    rw [fkScanChildren_aOp]
    simp
  | some changes =>
    simp only [hmod changes rfl, Bool.not_true, Bool.false_eq_true, if_false, if_neg himm, ne_eq,
      hold, not_false_eq_true, if_true, not_true_eq_false, h2]
    rw [fkScanChildren_aOp]
    simp

/-- Witness of the amended **C10**: the delete of the counterexample, with the
actions set to CASCADE. -/
theorem sqlite3FkCheck_parent_old_row_counts_witness :
    (sqlite3FkCheck_parent sampleSession
        (sampleSchema 1 [sampleFkey false 2 1 fkey_action.FKEY_ACTION_CASCADE
          fkey_action.FKEY_ACTION_CASCADE])
        (sampleTable 1) 1 0 none (sampleParseBusy true)
        (sampleFkey false 2 1 fkey_action.FKEY_ACTION_CASCADE
          fkey_action.FKEY_ACTION_CASCADE)).pVdbe.aOp =
      (sampleParseBusy true).pVdbe.aOp ++
        [⟨Opcode.OP_WhereBegin, 0, 0, 0,
           P4.P4_WHERE ⟨"t", 1⟩ (scanPlain (sampleSpace 2) (sampleTable 1) (sampleFk false 2 1) 1),
           0⟩,
         ⟨Opcode.OP_FkCounter, 0, 1, 0, P4.P4_NOTUSED, 0⟩,
         ⟨Opcode.OP_WhereEnd, 0, 0, 0, P4.P4_NOTUSED, 0⟩] :=
  sqlite3FkCheck_parent_old_row_counts sampleSession
    (sampleSchema 1 [sampleFkey false 2 1 fkey_action.FKEY_ACTION_CASCADE
      fkey_action.FKEY_ACTION_CASCADE])
    (sampleTable 1) 1 none (sampleParseBusy true)
    (sampleFkey false 2 1 fkey_action.FKEY_ACTION_CASCADE fkey_action.FKEY_ACTION_CASCADE)
    (by decide) (by intro changes h; exact absurd h (by simp)) (by decide)

/-! ## Field types: claims -/

/-- **C17.**  `field_type1_contains_type2 (ANY, X)` is true for each of the nine
field types `X`, and `field_type1_contains_type2 (X, ANY)` is true for `X = ANY`
only. -/
theorem field_type1_contains_type2_any (X : field_type) :
    field_type1_contains_type2 field_type.FIELD_TYPE_ANY X = true ∧
      field_type1_contains_type2 X field_type.FIELD_TYPE_ANY =
        decide (X = field_type.FIELD_TYPE_ANY) := by
  cases X <;> decide

/-- Counterexample to **C18** as stated: ANY as the first argument and UNSIGNED as the
second gives true, and the two arguments swapped give false. -/
theorem field_type1_contains_type2_any_unsigned :
    field_type1_contains_type2 field_type.FIELD_TYPE_ANY field_type.FIELD_TYPE_UNSIGNED = true ∧
      field_type1_contains_type2 field_type.FIELD_TYPE_UNSIGNED field_type.FIELD_TYPE_ANY =
        false := by
  decide

/-- **C18**, amended.  ANY contains ANY; with ANY as the first argument the result
is true for every second argument `X` other than ANY, and with ANY as the
second argument it is false for every first argument `X` other than ANY. -/
theorem field_type1_contains_type2_any_orientation (X : field_type)
    (hX : X ≠ field_type.FIELD_TYPE_ANY) :
    field_type1_contains_type2 field_type.FIELD_TYPE_ANY field_type.FIELD_TYPE_ANY = true ∧
      field_type1_contains_type2 field_type.FIELD_TYPE_ANY X = true ∧
      field_type1_contains_type2 X field_type.FIELD_TYPE_ANY = false := by
  cases X <;> first | exact absurd rfl hX | decide

theorem field_type1_contains_type2_any_orientation_witness :
    field_type1_contains_type2 field_type.FIELD_TYPE_ANY field_type.FIELD_TYPE_ANY = true ∧
      field_type1_contains_type2 field_type.FIELD_TYPE_ANY field_type.FIELD_TYPE_MAP = true ∧
      field_type1_contains_type2 field_type.FIELD_TYPE_MAP field_type.FIELD_TYPE_ANY = false :=
  field_type1_contains_type2_any_orientation field_type.FIELD_TYPE_MAP (by decide)

/-- **C19.**  Among the field types other than ANY, `field_type1_contains_type2`
is exactly the table of the specification: each type contains itself, INTEGER
contains UNSIGNED, NUMBER contains UNSIGNED and INTEGER, SCALAR contains
UNSIGNED, STRING, NUMBER, INTEGER and BOOLEAN, and every other pair is false. -/
theorem field_type1_contains_type2_table (a b : field_type)
    (ha : a ≠ field_type.FIELD_TYPE_ANY) (hb : b ≠ field_type.FIELD_TYPE_ANY) :
    field_type1_contains_type2 a b = containsTable a b := by
  cases a <;> cases b <;> first | exact absurd rfl ha | exact absurd rfl hb | rfl

theorem field_type1_contains_type2_table_witness :
    field_type1_contains_type2 field_type.FIELD_TYPE_INTEGER field_type.FIELD_TYPE_UNSIGNED =
        containsTable field_type.FIELD_TYPE_INTEGER field_type.FIELD_TYPE_UNSIGNED ∧
      containsTable field_type.FIELD_TYPE_INTEGER field_type.FIELD_TYPE_UNSIGNED = true ∧
      containsTable field_type.FIELD_TYPE_UNSIGNED field_type.FIELD_TYPE_INTEGER = false :=
  ⟨field_type1_contains_type2_table _ _ (by decide) (by decide), by decide, by decide⟩

/-- Counterexample to **C20** as stated: no three field types break transitivity. -/
theorem field_type1_contains_type2_no_broken_chain :
    ¬ ∃ a b c : field_type,
      field_type1_contains_type2 a b = true ∧ field_type1_contains_type2 b c = true ∧
        field_type1_contains_type2 a c = false := by
  rintro ⟨a, b, c, h1, h2, h3⟩
  revert h1 h2 h3
  cases a <;> cases b <;> cases c <;> decide

/-- **C20**, amended.  The containment is not symmetric (ANY contains UNSIGNED but
not the other way round), and it is reflexive and transitive. -/
theorem field_type1_contains_type2_order :
    (∃ a b : field_type,
        field_type1_contains_type2 a b = true ∧ field_type1_contains_type2 b a = false) ∧
      (∀ a : field_type, field_type1_contains_type2 a a = true) ∧
      ∀ a b c : field_type,
        (field_type1_contains_type2 a b && field_type1_contains_type2 b c &&
          !field_type1_contains_type2 a c) = false := by
  refine ⟨⟨field_type.FIELD_TYPE_ANY, field_type.FIELD_TYPE_UNSIGNED, by decide, by decide⟩,
    ?_, ?_⟩
  · intro a; cases a <;> decide
  · intro a b c; cases a <;> cases b <;> cases c <;> decide

/-! ## Column masks and the need for processing: claims -/

theorem foldl_or_testBit {α : Type} (g : α → Nat) (xs : List α) (m f : Nat) :
    (xs.foldl (fun mask x => mask ||| g x) m).testBit f = true ↔
      m.testBit f = true ∨ ∃ x ∈ xs, (g x).testBit f = true := by
  induction xs generalizing m with
  | nil => simp
  | cons x xs ih =>
    rw [List.foldl_cons, ih, Nat.testBit_or, Bool.or_eq_true]
    simp only [List.mem_cons, exists_eq_or_imp]
    tauto

theorem foldl_foldl_or_testBit {α β : Type} (links : α → List β) (g : β → Nat) (xs : List α)
    (m f : Nat) :
    (xs.foldl (fun mask x => (links x).foldl (fun mask l => mask ||| g l) mask) m).testBit f
        = true ↔
      m.testBit f = true ∨ ∃ x ∈ xs, ∃ l ∈ links x, (g l).testBit f = true := by
  induction xs generalizing m with
  | nil => simp
  | cons x xs ih =>
    rw [List.foldl_cons, ih, foldl_or_testBit]
    simp only [List.mem_cons, exists_eq_or_imp, or_assoc]

theorem COLUMN_MASK_testBit (x f : Nat) (hx : x < 32) :
    (COLUMN_MASK x).testBit f = true ↔ x = f := by
  unfold COLUMN_MASK
  rw [if_neg (by omega), Nat.one_shiftLeft,
    Nat.mod_eq_of_lt (Nat.pow_lt_pow_right (by decide) hx), Nat.testBit_two_pow]
  simp

/-- The mask of `fkey_old_mask` bit by bit, for any field positions. -/
theorem fkey_old_mask_testBit (user_session : session) (space_by_id : Nat → space)
    (space_id f : Nat) (hfk : user_session.SQLITE_ForeignKeys = true) :
    (fkey_old_mask user_session space_by_id space_id).testBit f = true ↔
      (∃ fk ∈ (space_by_id space_id).child_fkey, ∃ l ∈ fk.def_.links,
        (COLUMN_MASK l.child_field).testBit f = true) ∨
      (∃ fk ∈ (space_by_id space_id).parent_fkey, ∃ l ∈ fk.def_.links,
        (COLUMN_MASK l.parent_field).testBit f = true) := by
  unfold fkey_old_mask
  simp only [hfk, if_true]
  rw [foldl_foldl_or_testBit (fun fk : fkey => fk.def_.links) (fun l => COLUMN_MASK l.parent_field),
    foldl_foldl_or_testBit (fun fk : fkey => fk.def_.links) (fun l => COLUMN_MASK l.child_field)]
  simp

/-- **C14.**  With foreign keys enabled, `fkey_is_required` answers true for a
delete exactly when the space has a constraint in its child list or in its
parent list, and for an update exactly when a constraint of the child list has
a changed child field or a constraint of the parent list has a changed parent
field (a field `c` is changed when `changes[c] >= 0`). -/
theorem fkey_is_required_iff (user_session : session) (space_by_id : Nat → space)
    (space_id : Nat) (changes : Option (Nat → Int))
    (hfk : user_session.SQLITE_ForeignKeys = true) :
    fkey_is_required user_session space_by_id space_id changes = true ↔
      match changes with
      | none =>
        (space_by_id space_id).child_fkey ≠ [] ∨ (space_by_id space_id).parent_fkey ≠ []
      | some changes =>
        (∃ fk ∈ (space_by_id space_id).child_fkey, ∃ l ∈ fk.def_.links,
          0 ≤ changes l.child_field) ∨
        (∃ fk ∈ (space_by_id space_id).parent_fkey, ∃ l ∈ fk.def_.links,
          0 ≤ changes l.parent_field) := by
  unfold fkey_is_required
  cases changes with
  | none =>
    simp only [hfk, if_true]
    cases (space_by_id space_id).child_fkey <;> cases (space_by_id space_id).parent_fkey <;> simp
  | some ch =>
    simp only [hfk, if_true, fkey_child_is_modified, fkey_parent_is_modified]
    by_cases h1 : ((space_by_id space_id).child_fkey.any fun p =>
        p.def_.links.any fun l => decide (ch l.child_field ≥ 0)) = true
    · rw [if_pos h1]
      simp only [List.any_eq_true, decide_eq_true_eq] at h1
      simp only [true_iff]
      exact Or.inl h1
    · rw [if_neg h1]
      simp only [List.any_eq_true, decide_eq_true_eq] at h1
      by_cases h2 : ((space_by_id space_id).parent_fkey.any fun p =>
          p.def_.links.any fun l => decide (ch l.parent_field ≥ 0)) = true
      · rw [if_pos h2]
        simp only [List.any_eq_true, decide_eq_true_eq] at h2
        simp only [true_iff]
        exact Or.inr h2
      · rw [if_neg h2]
        simp only [List.any_eq_true, decide_eq_true_eq] at h2
        simp only [Bool.false_eq_true, false_iff]
        rintro (h | h)
        · exact h1 h
        · exact h2 h

theorem fkey_is_required_iff_witness :
    fkey_is_required sampleSession
        (sampleSchema2 [sampleFkey2 2 1 fkey_action.FKEY_NO_ACTION fkey_action.FKEY_NO_ACTION])
        1 (some (sampleChange 1)) = true ∧
      fkey_is_required sampleSession
        (sampleSchema2 [sampleFkey2 2 1 fkey_action.FKEY_NO_ACTION fkey_action.FKEY_NO_ACTION])
        1 (some (sampleChange 2)) = false ∧
      fkey_is_required sampleSession (sampleSchema2 []) 1 none = false := by
  refine ⟨(fkey_is_required_iff sampleSession
      (sampleSchema2 [sampleFkey2 2 1 fkey_action.FKEY_NO_ACTION fkey_action.FKEY_NO_ACTION])
      1 (some (sampleChange 1)) rfl).2 ?_, by decide, by decide⟩
  exact Or.inr ⟨_, List.mem_singleton.2 rfl, ⟨1, 0⟩, by decide, by decide⟩

/-- Counterexample to **C16** as stated: position 32 gives all 32 bits, not the top bit
alone. -/
theorem COLUMN_MASK_32_all_bits :
    COLUMN_MASK 32 = 0xffffffff ∧ COLUMN_MASK 32 ≠ 2 ^ 31 ∧
      (COLUMN_MASK 32).testBit 0 = true := by
  decide

/-- **C16**, amended.  Position 31 contributes the top bit alone (`2 ^ 31`); every
position from 32 on contributes all 32 bits (`0xffffffff`). -/
theorem COLUMN_MASK_saturates (x : Nat) (hx : 31 ≤ x) :
    COLUMN_MASK x = if x = 31 then 2 ^ 31 else 0xffffffff := by
  unfold COLUMN_MASK
  by_cases h : x = 31
  · subst h; decide
  · rw [if_pos (by omega), if_neg h]

theorem COLUMN_MASK_saturates_witness :
    COLUMN_MASK 31 = 2 ^ 31 ∧ COLUMN_MASK 40 = 0xffffffff :=
  ⟨COLUMN_MASK_saturates 31 (by decide), COLUMN_MASK_saturates 40 (by decide)⟩


/-! ## Action triggers: claims -/

theorem foldl_fkActionTrigger_link_pWhere (space_by_id : Nat → space) (pTab : Table)
    (fk_def : fkey_def) (action : fkey_action) (pChanges : Option (List (String × Expr)))
    (links : List field_link) (acc : ActionTerms) :
    (links.foldl (fkActionTrigger_link space_by_id pTab fk_def action pChanges) acc).pWhere =
      links.foldl
        (fun w l => sqlite3ExprAnd w (some (actionLinkEq (space_by_id fk_def.child_id) pTab l)))
        acc.pWhere := by
  induction links generalizing acc with
  | nil => rfl
  | cons l ls ih =>
    rw [List.foldl_cons, ih, List.foldl_cons]
    rfl

theorem foldl_fkActionTrigger_link_pWhen (space_by_id : Nat → space) (pTab : Table)
    (fk_def : fkey_def) (action : fkey_action) (pChanges : Option (List (String × Expr)))
    (links : List field_link) (acc : ActionTerms) :
    (links.foldl (fkActionTrigger_link space_by_id pTab fk_def action pChanges) acc).pWhen =
      if pChanges.isSome then
        links.foldl (fun w l => sqlite3ExprAnd w (some (actionWhenEq pTab l))) acc.pWhen
      else acc.pWhen := by
  induction links generalizing acc with
  | nil => simp
  | cons l ls ih =>
    rw [List.foldl_cons, ih, List.foldl_cons]
    cases pChanges <;> rfl

theorem fkActionTrigger_link_pList (space_by_id : Nat → space) (pTab : Table)
    (fk_def : fkey_def) (action : fkey_action) (pChanges : Option (List (String × Expr)))
    (acc : ActionTerms) (l : field_link) :
    (fkActionTrigger_link space_by_id pTab fk_def action pChanges acc l).pList =
      acc.pList ++
        if action ≠ fkey_action.FKEY_ACTION_RESTRICT ∧
            (action ≠ fkey_action.FKEY_ACTION_CASCADE ∨ pChanges.isSome) then
          [(columnName (space_by_id fk_def.child_id).def_ l.child_field,
            actionValue space_by_id pTab fk_def action l)]
        else [] := by
  cases action <;> cases pChanges <;>
    simp [fkActionTrigger_link, actionValue, columnName] <;>
    cases space_column_default_expr space_by_id fk_def.child_id l.child_field <;> rfl

theorem foldl_fkActionTrigger_link_pList (space_by_id : Nat → space) (pTab : Table)
    (fk_def : fkey_def) (action : fkey_action) (pChanges : Option (List (String × Expr)))
    (links : List field_link) (acc : ActionTerms) :
    (links.foldl (fkActionTrigger_link space_by_id pTab fk_def action pChanges) acc).pList =
      acc.pList ++
        if action ≠ fkey_action.FKEY_ACTION_RESTRICT ∧
            (action ≠ fkey_action.FKEY_ACTION_CASCADE ∨ pChanges.isSome) then
          links.map fun l =>
            (columnName (space_by_id fk_def.child_id).def_ l.child_field,
              actionValue space_by_id pTab fk_def action l)
        else [] := by
  induction links generalizing acc with
  | nil => simp
  | cons l ls ih =>
    rw [List.foldl_cons, ih, fkActionTrigger_link_pList]
    by_cases h : action ≠ fkey_action.FKEY_ACTION_RESTRICT ∧
        (action ≠ fkey_action.FKEY_ACTION_CASCADE ∨ pChanges.isSome)
    · simp only [if_pos h, List.append_assoc, List.singleton_append, List.map_cons]
    · simp only [if_neg h, List.append_nil]

theorem actionAssignments_eq (space_by_id : Nat → space) (pTab : Table) (fk_def : fkey_def)
    (action : fkey_action) (is_update : Bool) :
    actionAssignments space_by_id pTab fk_def action is_update =
      if action ≠ fkey_action.FKEY_ACTION_RESTRICT ∧
          (action ≠ fkey_action.FKEY_ACTION_CASCADE ∨ is_update) then
        fk_def.links.map fun l =>
          (columnName (space_by_id fk_def.child_id).def_ l.child_field,
            actionValue space_by_id pTab fk_def action l)
      else [] := by
  cases action <;> cases is_update <;> simp [actionAssignments]

/-- A call that builds: the result is the action program in the
specification's words, and the slot of the direction holds it. -/
theorem fkActionTrigger_build (user_session : session) (space_by_id : Nat → space)
    (pTab : Table) (fkey : fkey) (pChanges : Option (List (String × Expr)))
    (hslot : slotOf fkey pChanges = none)
    (hact : actionOf fkey.def_ pChanges ≠ fkey_action.FKEY_NO_ACTION)
    (hdefer : ¬ (actionOf fkey.def_ pChanges = fkey_action.FKEY_ACTION_RESTRICT ∧
      user_session.SQLITE_DeferFKs = true)) :
    fkActionTrigger user_session space_by_id false pTab fkey pChanges =
      (some (actionProgram space_by_id pTab fkey.def_ pChanges),
        fkey.withSlot pChanges (actionProgram space_by_id pTab fkey.def_ pChanges)) := by
  unfold fkActionTrigger
  simp only [actionOf, slotOf] at hslot hact hdefer
  simp only [if_neg hdefer, if_pos (And.intro hact hslot),
    foldl_fkActionTrigger_link_pWhere, foldl_fkActionTrigger_link_pWhen,
    foldl_fkActionTrigger_link_pList, List.nil_append]
  have hW : fkey.def_.links.foldl
      (fun w l => sqlite3ExprAnd w (some (actionLinkEq (space_by_id fkey.def_.child_id) pTab l)))
      none = actionSelection (space_by_id fkey.def_.child_id) pTab fkey.def_ := by
    unfold actionSelection
    rw [← foldl_sqlite3ExprAnd_none, List.foldl_map]
  have hN : fkey.def_.links.foldl
      (fun w l => sqlite3ExprAnd w (some (actionWhenEq pTab l))) none =
        exprConj (fkey.def_.links.map (actionWhenEq pTab)) := by
    rw [← foldl_sqlite3ExprAnd_none, List.foldl_map]
  rw [hW, hN]
  unfold actionProgram Tarantool.fkey.withSlot
  simp only [actionOf, actionWhen, actionAssignments_eq]
  cases pChanges with
  | none =>
    obtain ⟨a, ha⟩ : ∃ a, fkey.def_.on_delete = a := ⟨_, rfl⟩
    simp only [ha, Option.isSome_none, Option.isNone_none, Bool.false_eq_true, if_false]
      at hact hdefer ⊢
    cases a <;> simp_all [actionStep]
  | some c =>
    obtain ⟨a, ha⟩ : ∃ a, fkey.def_.on_update = a := ⟨_, rfl⟩
    simp only [ha, Option.isSome_some, Option.isNone_some, Bool.false_eq_true, if_false, if_true]
      at hact hdefer ⊢
    cases a <;> simp_all [actionStep]

/-- A call on a filled slot returns the cached program, or nothing for
RESTRICT while the session defers foreign keys, and writes nothing. -/
theorem fkActionTrigger_cached (user_session : session) (space_by_id : Nat → space)
    (mallocFailed : Bool) (pTab : Table) (fkey : fkey)
    (pChanges : Option (List (String × Expr))) (t : sql_trigger)
    (hslot : slotOf fkey pChanges = some t) :
    fkActionTrigger user_session space_by_id mallocFailed pTab fkey pChanges =
      (if actionOf fkey.def_ pChanges = fkey_action.FKEY_ACTION_RESTRICT ∧
          user_session.SQLITE_DeferFKs = true then none else some t, fkey) := by
  unfold fkActionTrigger
  simp only [actionOf, slotOf] at hslot ⊢
  by_cases hd : (if pChanges.isSome = true then fkey.def_.on_update else fkey.def_.on_delete) =
      fkey_action.FKEY_ACTION_RESTRICT ∧ user_session.SQLITE_DeferFKs = true
  · simp only [if_pos hd]
  · simp only [if_neg hd]
    rw [if_neg (by rw [hslot]; simp), hslot]

/-- What a call leaves behind: the definition, the index and the slot of the
other direction are untouched, and the slot of the direction holds the program
returned, if one is returned. -/
theorem fkActionTrigger_slots (user_session : session) (space_by_id : Nat → space)
    (mallocFailed : Bool) (pTab : Table) (fkey : fkey)
    (pChanges : Option (List (String × Expr))) :
    (fkActionTrigger user_session space_by_id mallocFailed pTab fkey pChanges).2.def_ =
        fkey.def_ ∧
      (fkActionTrigger user_session space_by_id mallocFailed pTab fkey pChanges).2.index_id =
        fkey.index_id ∧
      (if pChanges.isSome then
        (fkActionTrigger user_session space_by_id mallocFailed pTab fkey
          pChanges).2.on_delete_trigger = fkey.on_delete_trigger
      else
        (fkActionTrigger user_session space_by_id mallocFailed pTab fkey
          pChanges).2.on_update_trigger = fkey.on_update_trigger) ∧
      ∀ t, (fkActionTrigger user_session space_by_id mallocFailed pTab fkey pChanges).1 =
          some t →
        slotOf (fkActionTrigger user_session space_by_id mallocFailed pTab fkey pChanges).2
          pChanges = some t := by
  unfold fkActionTrigger
  simp only [slotOf]
  cases pChanges <;> cases mallocFailed <;>
    simp only [Option.isSome_none, Option.isSome_some, Bool.false_eq_true, if_false, if_true] <;>
    split_ifs <;> simp_all

/-- The slots stay consistent with the actions across a call. -/
theorem fkActionTrigger_slots_consistent (user_session : session) (space_by_id : Nat → space)
    (mallocFailed : Bool) (pTab : Table) (fkey : fkey)
    (pChanges : Option (List (String × Expr))) (h : fkey_slots_consistent fkey) :
    fkey_slots_consistent
      (fkActionTrigger user_session space_by_id mallocFailed pTab fkey pChanges).2 := by
  unfold fkActionTrigger
  unfold fkey_slots_consistent at h ⊢
  cases pChanges <;> cases mallocFailed <;>
    simp only [Option.isSome_none, Option.isSome_some, Bool.false_eq_true, if_false, if_true] <;>
    split_ifs <;> simp_all

/-- **C11.**  `fkActionTrigger` returns no program and leaves both memo slots as
they are when the action of the direction is NO ACTION (on a constraint whose
slots are consistent with its actions), and when it is RESTRICT while the
session defers foreign keys, whatever the slot holds; the loop body of
`sqlite3FkActions` then leaves the program under construction unchanged. -/
theorem fkActionTrigger_no_program (user_session : session) (space_by_id : Nat → space)
    (mallocFailed : Bool) (pParse : Parse) (pTab : Table) (fkey : fkey)
    (pChanges : Option (List (String × Expr))) (regOld : Nat) (aChange : Option (Nat → Int))
    (visited : List Tarantool.fkey)
    (hinv : fkey_slots_consistent fkey)
    (hact : actionOf fkey.def_ pChanges = fkey_action.FKEY_NO_ACTION ∨
      (actionOf fkey.def_ pChanges = fkey_action.FKEY_ACTION_RESTRICT ∧
        user_session.SQLITE_DeferFKs = true)) :
    fkActionTrigger user_session space_by_id mallocFailed pTab fkey pChanges = (none, fkey) ∧
      sqlite3FkActions_fkey user_session space_by_id mallocFailed pTab pChanges regOld aChange
        (pParse, visited) fkey = (pParse, visited ++ [fkey]) := by
  have h1 : fkActionTrigger user_session space_by_id mallocFailed pTab fkey pChanges =
      (none, fkey) := by
    unfold fkActionTrigger
    unfold fkey_slots_consistent at hinv
    simp only [actionOf] at hact
    cases pChanges <;>
      simp only [Option.isSome_none, Option.isSome_some, Bool.false_eq_true, if_false, if_true]
        at hact ⊢ <;>
      rcases hact with h | h <;> simp_all
  refine ⟨h1, ?_⟩
  unfold sqlite3FkActions_fkey
  rw [h1]
  split_ifs <;> rfl

theorem fkActionTrigger_no_program_witness :
    sampleFkeyRestrict.on_delete_trigger.isSome = true ∧
      (fkActionTrigger sampleSessionDefer (sampleSchema 1 []) false (sampleTable 1)
          sampleFkeyRestrict none = (none, sampleFkeyRestrict) ∧
        sqlite3FkActions_fkey sampleSessionDefer (sampleSchema 1 []) false (sampleTable 1) none 1
          none (sampleParse, []) sampleFkeyRestrict = (sampleParse, [] ++ [sampleFkeyRestrict])) :=
  ⟨by decide,
    fkActionTrigger_no_program sampleSessionDefer (sampleSchema 1 []) false sampleParse
      (sampleTable 1) sampleFkeyRestrict none 1 none [] (by decide) (Or.inr ⟨by decide, rfl⟩)⟩

/-- **C12.**  A program that `fkActionTrigger` builds targets the child space and
selects the child rows by the conjunction, over the links in order, of
`old.<parent field> = <child field>`.  RESTRICT gives a SELECT of
`RAISE(ABORT, 'FOREIGN KEY constraint failed')` over these rows; CASCADE on
delete gives a DELETE with an empty assignment list; CASCADE on update, SET NULL
and SET DEFAULT give an UPDATE whose assignment list has one entry per link, in
link order, assigning to the child field `new.<parent field>`, NULL, and the
default of the child column or NULL. -/
theorem fkActionTrigger_program (user_session : session) (space_by_id : Nat → space)
    (pTab : Table) (fkey : fkey) (pChanges : Option (List (String × Expr)))
    (hslot : slotOf fkey pChanges = none)
    (hact : actionOf fkey.def_ pChanges ≠ fkey_action.FKEY_NO_ACTION)
    (hdefer : ¬ (actionOf fkey.def_ pChanges = fkey_action.FKEY_ACTION_RESTRICT ∧
      user_session.SQLITE_DeferFKs = true)) :
    ∃ t, (fkActionTrigger user_session space_by_id false pTab fkey pChanges).1 = some t ∧
      t.zTarget = (space_by_id fkey.def_.child_id).def_.name ∧
      t.step_op = actionStep (actionOf fkey.def_ pChanges) pChanges.isSome ∧
      (t.step_op = trigger_op.TK_SELECT →
        t.pWhere = none ∧
        t.pSelect = some
          ([Expr.TK_RAISE "FOREIGN KEY constraint failed" ON_CONFLICT_ACTION_ABORT],
            (space_by_id fkey.def_.child_id).def_.name,
            actionSelection (space_by_id fkey.def_.child_id) pTab fkey.def_)) ∧
      (t.step_op ≠ trigger_op.TK_SELECT →
        t.pSelect = none ∧
        t.pWhere = actionSelection (space_by_id fkey.def_.child_id) pTab fkey.def_) ∧
      t.pExprList =
        actionAssignments space_by_id pTab fkey.def_ (actionOf fkey.def_ pChanges)
          pChanges.isSome ∧
      (t.step_op ≠ trigger_op.TK_UPDATE → t.pExprList = []) ∧
      (t.step_op = trigger_op.TK_UPDATE →
        t.pExprList.map Prod.fst =
          fkey.def_.links.map fun l =>
            columnName (space_by_id fkey.def_.child_id).def_ l.child_field) := by
  refine ⟨actionProgram space_by_id pTab fkey.def_ pChanges, ?_, rfl, rfl, ?_, ?_, rfl, ?_, ?_⟩
  · rw [fkActionTrigger_build user_session space_by_id pTab fkey pChanges hslot hact hdefer]
  · obtain ⟨a, ha⟩ : ∃ a, actionOf fkey.def_ pChanges = a := ⟨_, rfl⟩
    simp only [actionProgram, ha]
    cases a <;> cases pChanges.isSome <;> simp [actionStep]
  · obtain ⟨a, ha⟩ : ∃ a, actionOf fkey.def_ pChanges = a := ⟨_, rfl⟩
    simp only [actionProgram, ha]
    cases a <;> cases pChanges.isSome <;> simp [actionStep]
  · obtain ⟨a, ha⟩ : ∃ a, actionOf fkey.def_ pChanges = a := ⟨_, rfl⟩
    simp only [actionProgram, ha]
    cases a <;> cases pChanges.isSome <;> simp [actionStep, actionAssignments]
  · obtain ⟨a, ha⟩ : ∃ a, actionOf fkey.def_ pChanges = a := ⟨_, rfl⟩
    simp only [actionProgram, ha]
    cases a <;> cases pChanges.isSome <;> simp [actionStep, actionAssignments]

theorem fkActionTrigger_program_witness :
    ∃ t, (fkActionTrigger sampleSession (sampleSchema 1 []) false (sampleTable 1)
        (sampleFkey2 2 1 fkey_action.FKEY_ACTION_SET_NULL fkey_action.FKEY_ACTION_CASCADE)
        sampleChanges).1 = some t ∧
      t.zTarget = "t" ∧
      t.step_op = trigger_op.TK_UPDATE ∧
      t.pWhere = some (Expr.TK_AND
        (Expr.TK_EQ (Expr.TK_DOT (Expr.TK_ID "old") (Expr.TK_ID "a")) (Expr.TK_ID "b"))
        (Expr.TK_EQ (Expr.TK_DOT (Expr.TK_ID "old") (Expr.TK_ID "b")) (Expr.TK_ID "a"))) ∧
      t.pExprList =
        [("b", Expr.TK_DOT (Expr.TK_ID "new") (Expr.TK_ID "a")),
          ("a", Expr.TK_DOT (Expr.TK_ID "new") (Expr.TK_ID "b"))] := by
  obtain ⟨t, h1, h2, h3, _, h5, h6, _, _⟩ :=
    fkActionTrigger_program sampleSession (sampleSchema 1 []) (sampleTable 1)
      (sampleFkey2 2 1 fkey_action.FKEY_ACTION_SET_NULL fkey_action.FKEY_ACTION_CASCADE)
      sampleChanges rfl (by decide) (by decide)
  refine ⟨t, h1, h2, h3, ?_, h6⟩
  exact (h5 (by rw [h3]; decide)).2

/-- A filled slot survives every call, whatever its direction and session. -/
theorem fkActionTrigger_keeps_slot (user_session : session) (space_by_id : Nat → space)
    (mallocFailed : Bool) (pTab : Table) (fkey : fkey)
    (pChanges direction : Option (List (String × Expr))) (t : sql_trigger)
    (hslot : slotOf fkey direction = some t) :
    slotOf (fkActionTrigger user_session space_by_id mallocFailed pTab fkey pChanges).2
      direction = some t := by
  by_cases hdir : pChanges.isSome = direction.isSome
  · have hs : slotOf fkey pChanges = some t := by
      rw [← hslot]; unfold slotOf; rw [hdir]
    rw [fkActionTrigger_cached _ _ _ _ _ _ t hs]
    exact hslot
  · obtain ⟨_, _, hother, _⟩ :=
      fkActionTrigger_slots user_session space_by_id mallocFailed pTab fkey pChanges
    unfold slotOf at hslot ⊢
    cases h1 : pChanges.isSome <;> cases h2 : direction.isSome <;>
      simp only [h1, h2, Bool.false_eq_true, if_false, if_true, not_true_eq_false] at hdir hother hslot ⊢
    · rw [hother]; exact hslot
    · rw [hother]; exact hslot

/-- A sequence of calls keeps the definition and every filled slot. -/
theorem fkActionTrigger_calls_keep (calls : List ActionCall) (fkey : fkey)
    (direction : Option (List (String × Expr))) (t : sql_trigger)
    (hslot : slotOf fkey direction = some t) :
    (fkActionTrigger_calls calls fkey).def_ = fkey.def_ ∧
      slotOf (fkActionTrigger_calls calls fkey) direction = some t := by
  induction calls generalizing fkey with
  | nil => exact ⟨rfl, hslot⟩
  | cons c cs ih =>
    have h1 := ih (fkActionTrigger c.user_session c.space_by_id c.mallocFailed c.pTab fkey
      c.pChanges).2 (fkActionTrigger_keeps_slot _ _ _ _ _ _ _ t hslot)
    have h2 := (fkActionTrigger_slots c.user_session c.space_by_id c.mallocFailed c.pTab fkey
      c.pChanges).1
    exact ⟨h1.1.trans h2, h1.2⟩

/-- **C13.**  Once a call of `fkActionTrigger` has returned a program for a
constraint and a direction, the slot of that direction holds it and the slot of
the other direction is as it was before the call; and after any further calls
on the constraint, a call for the same direction in a session with the same
flags returns that very program, whatever the schema and the table, without
building (an allocation failure does not matter) and without writing to the
constraint. -/
theorem fkActionTrigger_memoized (user_session : session) (space_by_id : Nat → space)
    (mallocFailed : Bool) (pTab : Table) (fkey : fkey)
    (pChanges : Option (List (String × Expr))) (t : sql_trigger)
    (calls : List ActionCall) (later_space_by_id : Nat → space) (later_mallocFailed : Bool)
    (later_pTab : Table) (later_pChanges : Option (List (String × Expr)))
    (h : (fkActionTrigger user_session space_by_id mallocFailed pTab fkey pChanges).1 = some t)
    (hdir : later_pChanges.isSome = pChanges.isSome) :
    slotOf (fkActionTrigger user_session space_by_id mallocFailed pTab fkey pChanges).2
        pChanges = some t ∧
      (if pChanges.isSome then
        (fkActionTrigger user_session space_by_id mallocFailed pTab fkey
          pChanges).2.on_delete_trigger = fkey.on_delete_trigger
      else
        (fkActionTrigger user_session space_by_id mallocFailed pTab fkey
          pChanges).2.on_update_trigger = fkey.on_update_trigger) ∧
      fkActionTrigger user_session later_space_by_id later_mallocFailed later_pTab
          (fkActionTrigger_calls calls
            (fkActionTrigger user_session space_by_id mallocFailed pTab fkey pChanges).2)
          later_pChanges =
        (some t,
          fkActionTrigger_calls calls
            (fkActionTrigger user_session space_by_id mallocFailed pTab fkey pChanges).2) := by
  obtain ⟨hdef, _, hother, hs⟩ :=
    fkActionTrigger_slots user_session space_by_id mallocFailed pTab fkey pChanges
  have hs1 := hs t h
  refine ⟨hs1, hother, ?_⟩
  obtain ⟨hdefN, hsN⟩ := fkActionTrigger_calls_keep calls _ pChanges t hs1
  have hs2 : slotOf (fkActionTrigger_calls calls
      (fkActionTrigger user_session space_by_id mallocFailed pTab fkey pChanges).2)
      later_pChanges = some t := by
    rw [← hsN]; unfold slotOf; rw [hdir]
  rw [fkActionTrigger_cached _ _ _ _ _ _ t hs2]
  have ha : actionOf (fkActionTrigger_calls calls
      (fkActionTrigger user_session space_by_id mallocFailed pTab fkey pChanges).2).def_
      later_pChanges = actionOf fkey.def_ pChanges := by
    rw [hdefN, hdef]; unfold actionOf; rw [hdir]
  have hnd : ¬ (actionOf fkey.def_ pChanges = fkey_action.FKEY_ACTION_RESTRICT ∧
      user_session.SQLITE_DeferFKs = true) := by
    intro hd
    unfold fkActionTrigger at h
    simp only [actionOf] at hd
    simp only [if_pos hd] at h
    exact absurd h (by simp)
  rw [ha, if_neg hnd]

theorem fkActionTrigger_memoized_witness :
    fkActionTrigger sampleSession (sampleSchema 5 []) true (sampleTable 5)
        (fkActionTrigger_calls
          [⟨sampleSession, sampleSchema 1 [], false, sampleTable 1, sampleChanges⟩,
            ⟨sampleSessionDefer, sampleSchema 1 [], false, sampleTable 1, none⟩]
          (fkActionTrigger sampleSession (sampleSchema 1 []) false (sampleTable 1)
            (sampleFkey2 2 1 fkey_action.FKEY_ACTION_CASCADE fkey_action.FKEY_ACTION_SET_NULL)
            none).2) none =
      (some (actionProgram (sampleSchema 1 []) (sampleTable 1)
          (sampleFkey2 2 1 fkey_action.FKEY_ACTION_CASCADE fkey_action.FKEY_ACTION_SET_NULL).def_
          none),
        fkActionTrigger_calls
          [⟨sampleSession, sampleSchema 1 [], false, sampleTable 1, sampleChanges⟩,
            ⟨sampleSessionDefer, sampleSchema 1 [], false, sampleTable 1, none⟩]
          (fkActionTrigger sampleSession (sampleSchema 1 []) false (sampleTable 1)
            (sampleFkey2 2 1 fkey_action.FKEY_ACTION_CASCADE fkey_action.FKEY_ACTION_SET_NULL)
            none).2) ∧
      (fkActionTrigger sampleSession (sampleSchema 1 []) false (sampleTable 1)
          (sampleFkey2 2 1 fkey_action.FKEY_ACTION_CASCADE fkey_action.FKEY_ACTION_SET_NULL)
          none).2.on_update_trigger = none :=
  ⟨(fkActionTrigger_memoized sampleSession (sampleSchema 1 []) false (sampleTable 1)
      (sampleFkey2 2 1 fkey_action.FKEY_ACTION_CASCADE fkey_action.FKEY_ACTION_SET_NULL) none
      (actionProgram (sampleSchema 1 []) (sampleTable 1)
        (sampleFkey2 2 1 fkey_action.FKEY_ACTION_CASCADE fkey_action.FKEY_ACTION_SET_NULL).def_
        none)
      [⟨sampleSession, sampleSchema 1 [], false, sampleTable 1, sampleChanges⟩,
        ⟨sampleSessionDefer, sampleSchema 1 [], false, sampleTable 1, none⟩]
      (sampleSchema 5 []) true (sampleTable 5) none (by decide) rfl).2.2,
    by decide⟩

/-! ## What the generated code reads of the old row -/

/-- The code of a child-side check of an old row reads, of the registers in
use before the call, only the child-field registers of the links. -/
theorem fkey_lookup_parent_reads (user_session : session) (parse_context : Parse)
    (parent : space) (fk_def : fkey_def) (referenced_idx reg_data : Nat) (is_ignore : Bool)
    (op : VdbeOp)
    (hop : op ∈ (fkey_lookup_parent user_session parse_context parent fk_def referenced_idx
      reg_data (-1) is_ignore).pVdbe.aOp.drop parse_context.pVdbe.aOp.length)
    (r : Nat) (hr : r ∈ op.reads) (hle : r ≤ parse_context.nMem) :
    ∃ l ∈ fk_def.links, r = reg_data + 1 + l.child_field := by
  rw [fkey_lookup_parent_pVdbe] at hop
  simp only [List.drop_left] at hop
  unfold codeBody at hop
  simp only [List.mem_append, List.mem_singleton] at hop
  rcases hop with (h | h | h | h) | h
  · unfold codeFkIfZero at h
    simp only [show ((-1 : Int) < 0) from by decide, if_true, List.mem_singleton] at h
    subst h
    simp [VdbeOp.reads] at hr
  · unfold codeIsNull at h
    obtain ⟨l, hl, rfl⟩ := List.mem_map.1 h
    simp only [VdbeOp.reads, List.mem_singleton, Int.toNat_natCast] at hr
    exact ⟨l, hl, by omega⟩
  · by_cases hi : is_ignore = false
    · rw [if_pos hi] at h
      unfold codeProbe at h
      simp only [List.mem_append, List.mem_singleton] at h
      rcases h with h | h | h | h
      · subst h
        simp [VdbeOp.reads] at hr
      · unfold codeCopy at h
        obtain ⟨il, hil, rfl⟩ := List.mem_map.1 h
        simp only [VdbeOp.reads, List.mem_singleton, Int.toNat_natCast] at hr
        exact ⟨il.2, List.snd_mem_of_mem_enumFrom hil, by omega⟩
      · unfold codeSelf at h
        rw [if_neg (by rintro ⟨_, h1⟩; exact absurd h1 (by decide))] at h
        exact absurd h (List.not_mem_nil _)
      · unfold codeFound at h
        simp only [List.mem_cons, List.mem_singleton, List.not_mem_nil, or_false] at h
        rcases h with h | h
        · subst h
          simp only [VdbeOp.reads, List.mem_map, List.mem_range, Int.toNat_natCast] at hr
          obtain ⟨i, _, rfl⟩ := hr
          omega
        · subst h
          simp only [VdbeOp.reads, List.mem_singleton, Int.toNat_natCast] at hr
          omega
    · rw [if_neg hi] at h
      exact absurd h (List.not_mem_nil _)
  · unfold codeTail at h
    split_ifs at h <;> simp only [List.mem_singleton] at h <;> subst h <;>
      simp [VdbeOp.reads] at hr
  · subst h
    simp [VdbeOp.reads, codeClose] at hr

theorem foldl_TK_AND_mem {α : Type} (f : Expr → List α)
    (hf : ∀ l r, f (Expr.TK_AND l r) = f l ++ f r) (es : List Expr) (e : Expr) (x : α) :
    x ∈ f (es.foldl Expr.TK_AND e) ↔ x ∈ f e ∨ ∃ e1 ∈ es, x ∈ f e1 := by
  induction es generalizing e with
  | nil => simp
  | cons a as ih =>
    rw [List.foldl_cons, ih, hf, List.mem_append]
    simp only [List.mem_cons, exists_eq_or_imp, or_assoc]

theorem exprConj_mem {α : Type} (f : Expr → List α)
    (hf : ∀ l r, f (Expr.TK_AND l r) = f l ++ f r) (es : List Expr) (w : Expr)
    (h : exprConj es = some w) (x : α) :
    x ∈ f w ↔ ∃ e ∈ es, x ∈ f e := by
  cases es with
  | nil => exact absurd h (by simp [exprConj])
  | cons a as =>
    simp only [exprConj, Option.some.injEq] at h
    subst h
    rw [foldl_TK_AND_mem f hf]
    simp only [List.mem_cons, exists_eq_or_imp]

theorem exprTableRegister_registers (pTab : Table) (regBase col r : Nat)
    (h : r ∈ (exprTableRegister pTab regBase (col : Int)).registers) :
    r = regBase ∨ r = regBase + col + 1 := by
  unfold exprTableRegister at h
  split_ifs at h
  · simp only [Expr.registers, List.mem_singleton, Int.toNat_natCast] at h
    exact Or.inr h
  · simp only [Expr.registers, List.mem_singleton] at h
    exact Or.inl h

/-- The predicate of a parent-side scan names, of the registers, only those of
the parent fields of the links in the row image, or the key register of the
image. -/
theorem fkScanChildren_registers (space_by_id : Nat → space) (pParse : Parse)
    (pSrc : SrcList_item) (pTab : Table) (fkey : fkey_def) (regData : Nat) (nIncr : Int)
    (op : VdbeOp)
    (hop : op ∈ (fkScanChildren space_by_id pParse pSrc pTab fkey regData nIncr).pVdbe.aOp.drop
      pParse.pVdbe.aOp.length)
    (pSrc1 : SrcList_item) (w : Expr) (hw : op.p4 = P4.P4_WHERE pSrc1 (some w))
    (r : Nat) (hr : r ∈ w.registers) :
    r = regData ∨ ∃ l ∈ fkey.links, r = regData + l.parent_field + 1 := by
  have hplain : ∀ w1, scanPlain (space_by_id fkey.child_id) pTab fkey regData = some w1 →
      ∀ r1 ∈ w1.registers, r1 = regData ∨ ∃ l ∈ fkey.links, r1 = regData + l.parent_field + 1 := by
    intro w1 h1 r1 hr1
    obtain ⟨e, he, hre⟩ := (exprConj_mem Expr.registers (fun _ _ => rfl) _ w1 h1 r1).1 hr1
    obtain ⟨l, hl, rfl⟩ := List.mem_map.1 he
    simp only [scanLinkEq, Expr.registers, List.append_nil] at hre
    rcases exprTableRegister_registers _ _ _ _ hre with h | h
    · exact Or.inl h
    · exact Or.inr ⟨l, hl, h⟩
  have hself : ∀ r1 ∈ ((exprConj (fkey.links.map (scanSelfEq pSrc pTab regData))).getD
      Expr.TK_NULL).registers,
      r1 = regData ∨ ∃ l ∈ fkey.links, r1 = regData + l.parent_field + 1 := by
    intro r1 hr1
    cases hc : exprConj (fkey.links.map (scanSelfEq pSrc pTab regData)) with
    | none => rw [hc] at hr1; simp [Expr.registers] at hr1
    | some w1 =>
      rw [hc] at hr1
      obtain ⟨e, he, hre⟩ := (exprConj_mem Expr.registers (fun _ _ => rfl) _ w1 hc r1).1 hr1
      obtain ⟨l, hl, rfl⟩ := List.mem_map.1 he
      simp only [scanSelfEq, Expr.registers, List.append_nil] at hre
      rcases exprTableRegister_registers _ _ _ _ hre with h | h
      · exact Or.inl h
      · exact Or.inr ⟨l, hl, h⟩
  rw [fkScanChildren_aOp] at hop
  simp only [List.drop_left, List.mem_append, List.mem_cons, List.mem_singleton,
    List.not_mem_nil, or_false] at hop
  rcases hop with h | h | h | h
  · by_cases hneg : nIncr < 0
    · rw [if_pos hneg, List.mem_singleton] at h
      subst h; simp at hw
    · rw [if_neg hneg] at h
      exact absurd h (List.not_mem_nil _)
  · subst h
    simp only [P4.P4_WHERE.injEq] at hw
    obtain ⟨_, hw⟩ := hw
    by_cases hc : pTab.def_.id = fkey.child_id ∧ 0 < nIncr
    · rw [if_pos hc] at hw
      unfold scanExcluding at hw
      cases hp : scanPlain (space_by_id fkey.child_id) pTab fkey regData with
      | none =>
        rw [hp] at hw
        simp only [sqlite3ExprAnd, Option.some.injEq] at hw
        subst hw
        exact hself r hr
      | some w1 =>
        rw [hp] at hw
        simp only [sqlite3ExprAnd, Option.some.injEq] at hw
        subst hw
        simp only [Expr.registers, List.mem_append] at hr
        rcases hr with hr | hr
        · exact hplain w1 hp r hr
        · exact hself r hr
    · rw [if_neg hc] at hw
      exact hplain w hw r hr
  · subst h; simp at hw
  · subst h; simp at hw

/-- A call on an empty slot that returns a program has built the action
program in the specification's words. -/
theorem fkActionTrigger_built (user_session : session) (space_by_id : Nat → space)
    (mallocFailed : Bool) (pTab : Table) (fkey : fkey)
    (pChanges : Option (List (String × Expr))) (t : sql_trigger)
    (hslot : slotOf fkey pChanges = none)
    (h : (fkActionTrigger user_session space_by_id mallocFailed pTab fkey pChanges).1 = some t) :
    t = actionProgram space_by_id pTab fkey.def_ pChanges := by
  by_cases hd : actionOf fkey.def_ pChanges = fkey_action.FKEY_ACTION_RESTRICT ∧
      user_session.SQLITE_DeferFKs = true
  · exfalso
    unfold fkActionTrigger at h
    simp only [actionOf] at hd
    simp only [if_pos hd] at h
    exact absurd h (by simp)
  · by_cases ha : actionOf fkey.def_ pChanges = fkey_action.FKEY_NO_ACTION
    · exfalso
      unfold fkActionTrigger at h
      simp only [actionOf, slotOf] at hd ha hslot
      simp only [if_neg hd, ha, ne_eq, not_true_eq_false, false_and, if_false, hslot] at h
      exact absurd h (by simp)
    · cases mallocFailed with
      | false =>
        rw [fkActionTrigger_build _ _ _ _ _ hslot ha hd] at h
        exact (Option.some.inj h).symm
      | true =>
        exfalso
        unfold fkActionTrigger at h
        simp only [actionOf, slotOf] at hd ha hslot
        simp only [if_neg hd, if_pos (And.intro ha hslot), if_true] at h
        exact absurd h (by simp)

theorem actionValue_oldColumns (space_by_id : Nat → space) (pTab : Table) (fk_def : fkey_def)
    (action : fkey_action) (l : field_link) :
    (actionValue space_by_id pTab fk_def action l).oldColumns = [] := by
  cases action <;> simp [actionValue, Expr.oldColumns]
  unfold space_column_default_expr
  cases ((space_by_id fk_def.child_id).def_.fields[l.child_field]?.bind
    field_def.default_value_expr) <;> simp [Expr.oldColumns]

theorem actionSelection_oldColumns (child_space : space) (pTab : Table) (fk_def : fkey_def)
    (w : Expr) (hw : actionSelection child_space pTab fk_def = some w) (n : String)
    (hn : n ∈ w.oldColumns) :
    ∃ l ∈ fk_def.links, n = columnName pTab.def_ l.parent_field := by
  obtain ⟨e, he, hne⟩ := (exprConj_mem Expr.oldColumns (fun _ _ => rfl) _ w hw n).1 hn
  obtain ⟨l, hl, rfl⟩ := List.mem_map.1 he
  simp [actionLinkEq, Expr.oldColumns] at hne
  exact ⟨l, hl, hne⟩

theorem actionWhen_oldColumns (pTab : Table) (fk_def : fkey_def) (is_update : Bool)
    (w : Expr) (hw : actionWhen pTab fk_def is_update = some w) (n : String)
    (hn : n ∈ w.oldColumns) :
    ∃ l ∈ fk_def.links, n = columnName pTab.def_ l.parent_field := by
  unfold actionWhen at hw
  cases is_update with
  | false => simp at hw
  | true =>
    simp only [if_true, Option.map_eq_some'] at hw
    obtain ⟨w1, hw1, rfl⟩ := hw
    simp only [Expr.oldColumns] at hn
    obtain ⟨e, he, hne⟩ := (exprConj_mem Expr.oldColumns (fun _ _ => rfl) _ w1 hw1 n).1 hn
    obtain ⟨l, hl, rfl⟩ := List.mem_map.1 he
    simp [actionWhenEq, Expr.oldColumns] at hne
    exact ⟨l, hl, hne⟩

/-- The action program names, of the old row, only the parent fields of the
links. -/
theorem actionProgram_oldColumns (space_by_id : Nat → space) (pTab : Table) (fk_def : fkey_def)
    (pChanges : Option (List (String × Expr))) (n : String)
    (hn : n ∈ (actionProgram space_by_id pTab fk_def pChanges).oldColumns) :
    ∃ l ∈ fk_def.links, n = columnName pTab.def_ l.parent_field := by
  unfold sql_trigger.oldColumns at hn
  simp only [List.mem_append, List.mem_flatMap, Option.mem_toList, Option.mem_def] at hn
  rcases hn with ((⟨w, hw, hn⟩ | ⟨a, ha, hn⟩) | ⟨s, hs, hn⟩) | ⟨w, hw, hn⟩
  · simp only [actionProgram] at hw
    split_ifs at hw
    exact actionSelection_oldColumns _ _ _ w hw n hn
  · simp only [actionProgram, actionAssignments_eq] at ha
    split_ifs at ha
    · obtain ⟨l, _, rfl⟩ := List.mem_map.1 ha
      rw [actionValue_oldColumns] at hn
      exact absurd hn (List.not_mem_nil _)
    · exact absurd ha (List.not_mem_nil _)
  · simp only [actionProgram] at hs
    split_ifs at hs
    simp only [Option.some.injEq] at hs
    subst hs
    rcases hn with ⟨e, he, hn⟩ | ⟨w, hw, hn⟩
    · simp only [List.mem_singleton] at he
      subst he
      simp [Expr.oldColumns] at hn
    · exact actionSelection_oldColumns _ _ _ w hw n hn
  · simp only [actionProgram] at hw
    exact actionWhen_oldColumns _ _ _ w hw n hn

/-- **C15.**  With foreign keys enabled and every participating field position
below 32, bit `f` of `fkey_old_mask` is set exactly when `f` is the child field
of a link of a constraint in the child list of the space or the parent field
of a link of a constraint in its parent list.  So the mask covers what the
generated code reads of the old row at `regOld`: the check of a constraint of
the child list reads, of the registers in use before it, only column registers
`regOld + 1 + col` with bit `col` set; the predicate of the scan of a constraint
of the parent list names only the key register `regOld` and column registers
`regOld + col + 1` with bit `col` set; and an action program built for a
constraint of the parent list names, as `old.<column>`, only columns with
their bit set. -/
theorem fkey_old_mask_bits (user_session : session) (space_by_id : Nat → space)
    (space_id : Nat) (hfk : user_session.SQLITE_ForeignKeys = true)
    (hchild : ∀ fk ∈ (space_by_id space_id).child_fkey, ∀ l ∈ fk.def_.links,
      l.child_field < 32)
    (hparent : ∀ fk ∈ (space_by_id space_id).parent_fkey, ∀ l ∈ fk.def_.links,
      l.parent_field < 32) :
    (∀ f : Nat, (fkey_old_mask user_session space_by_id space_id).testBit f = true ↔
      ((∃ fk ∈ (space_by_id space_id).child_fkey, ∃ l ∈ fk.def_.links, l.child_field = f) ∨
        (∃ fk ∈ (space_by_id space_id).parent_fkey, ∃ l ∈ fk.def_.links,
          l.parent_field = f))) ∧
      (∀ fk ∈ (space_by_id space_id).child_fkey,
        ∀ (parse_context : Parse) (parent : space) (referenced_idx regOld : Nat)
          (is_ignore : Bool) (op : VdbeOp) (r : Nat),
          op ∈ (fkey_lookup_parent user_session parse_context parent fk.def_ referenced_idx
            regOld (-1) is_ignore).pVdbe.aOp.drop parse_context.pVdbe.aOp.length →
          r ∈ op.reads → r ≤ parse_context.nMem →
          ∃ col, r = regOld + 1 + col ∧
            (fkey_old_mask user_session space_by_id space_id).testBit col = true) ∧
      (∀ fk ∈ (space_by_id space_id).parent_fkey,
        ∀ (pParse : Parse) (pSrc : SrcList_item) (pTab : Table) (regOld : Nat) (nIncr : Int)
          (op : VdbeOp) (pSrc1 : SrcList_item) (w : Expr) (r : Nat),
          op ∈ (fkScanChildren space_by_id pParse pSrc pTab fk.def_ regOld nIncr).pVdbe.aOp.drop
            pParse.pVdbe.aOp.length →
          op.p4 = P4.P4_WHERE pSrc1 (some w) → r ∈ w.registers →
          r = regOld ∨ ∃ col, r = regOld + col + 1 ∧
            (fkey_old_mask user_session space_by_id space_id).testBit col = true) ∧
      (∀ fk ∈ (space_by_id space_id).parent_fkey,
        ∀ (mallocFailed : Bool) (pTab : Table) (pChanges : Option (List (String × Expr)))
          (t : sql_trigger) (n : String),
          slotOf fk pChanges = none →
          (fkActionTrigger user_session space_by_id mallocFailed pTab fk pChanges).1 = some t →
          n ∈ t.oldColumns →
          ∃ col, n = columnName pTab.def_ col ∧
            (fkey_old_mask user_session space_by_id space_id).testBit col = true) := by
  have key : ∀ f : Nat, (fkey_old_mask user_session space_by_id space_id).testBit f = true ↔
      ((∃ fk ∈ (space_by_id space_id).child_fkey, ∃ l ∈ fk.def_.links, l.child_field = f) ∨
        (∃ fk ∈ (space_by_id space_id).parent_fkey, ∃ l ∈ fk.def_.links,
          l.parent_field = f)) := by
    intro f
    rw [fkey_old_mask_testBit _ _ _ _ hfk]
    constructor
    · rintro (⟨fk, hfk1, l, hl, h⟩ | ⟨fk, hfk1, l, hl, h⟩)
      · exact Or.inl ⟨fk, hfk1, l, hl, (COLUMN_MASK_testBit _ _ (hchild fk hfk1 l hl)).1 h⟩
      · exact Or.inr ⟨fk, hfk1, l, hl, (COLUMN_MASK_testBit _ _ (hparent fk hfk1 l hl)).1 h⟩
    · rintro (⟨fk, hfk1, l, hl, h⟩ | ⟨fk, hfk1, l, hl, h⟩)
      · exact Or.inl ⟨fk, hfk1, l, hl, (COLUMN_MASK_testBit _ _ (hchild fk hfk1 l hl)).2 h⟩
      · exact Or.inr ⟨fk, hfk1, l, hl, (COLUMN_MASK_testBit _ _ (hparent fk hfk1 l hl)).2 h⟩
  refine ⟨key, ?_, ?_, ?_⟩
  · intro fk hfk1 parse_context parent referenced_idx regOld is_ignore op r hop hr hle
    obtain ⟨l, hl, rfl⟩ := fkey_lookup_parent_reads user_session parse_context parent fk.def_
      referenced_idx regOld is_ignore op hop r hr hle
    exact ⟨l.child_field, rfl, (key _).2 (Or.inl ⟨fk, hfk1, l, hl, rfl⟩)⟩
  · intro fk hfk1 pParse pSrc pTab regOld nIncr op pSrc1 w r hop hw hr
    rcases fkScanChildren_registers space_by_id pParse pSrc pTab fk.def_ regOld nIncr op hop
      pSrc1 w hw r hr with h | ⟨l, hl, h⟩
    · exact Or.inl h
    · exact Or.inr ⟨l.parent_field, h, (key _).2 (Or.inr ⟨fk, hfk1, l, hl, rfl⟩)⟩
  · intro fk hfk1 mallocFailed pTab pChanges t n hslot ht hn
    rw [fkActionTrigger_built user_session space_by_id mallocFailed pTab fk pChanges t hslot ht]
      at hn
    obtain ⟨l, hl, h⟩ := actionProgram_oldColumns space_by_id pTab fk.def_ pChanges n hn
    exact ⟨l.parent_field, h, (key _).2 (Or.inr ⟨fk, hfk1, l, hl, rfl⟩)⟩

theorem fkey_old_mask_bits_witness :
    fkey_old_mask sampleSession
        (sampleSchema2 [sampleFkey2 2 1 fkey_action.FKEY_NO_ACTION fkey_action.FKEY_NO_ACTION])
        1 = 3 ∧
      ((fkey_old_mask sampleSession
        (sampleSchema2 [sampleFkey2 2 1 fkey_action.FKEY_NO_ACTION fkey_action.FKEY_NO_ACTION])
        1).testBit 2 = true ↔
        ((∃ fk ∈ (sampleSchema2
            [sampleFkey2 2 1 fkey_action.FKEY_NO_ACTION fkey_action.FKEY_NO_ACTION] 1).child_fkey,
            ∃ l ∈ fk.def_.links, l.child_field = 2) ∨
          (∃ fk ∈ (sampleSchema2
            [sampleFkey2 2 1 fkey_action.FKEY_NO_ACTION fkey_action.FKEY_NO_ACTION] 1).parent_fkey,
            ∃ l ∈ fk.def_.links, l.parent_field = 2))) :=
  ⟨by decide,
    (fkey_old_mask_bits sampleSession
      (sampleSchema2 [sampleFkey2 2 1 fkey_action.FKEY_NO_ACTION fkey_action.FKEY_NO_ACTION])
      1 rfl (by decide) (by decide)).1 2⟩


/-! ## Field type names: claims -/

theorem tolower_eq_lower (c l : Nat) (h : tolower c = l) : c = l ∨ c + 32 = l := by
  unfold tolower at h
  split_ifs at h <;> omega

theorem tolower_of_map_eq3 (name : List Nat) (a b c : Nat)
    (h : name.map tolower = [a, b, c]) :
    ∃ x y z, name = [x, y, z] ∧ tolower x = a ∧ tolower y = b ∧ tolower z = c := by
  match name, h with
  | [x, y, z], h =>
    simp only [List.map_cons, List.map_nil, List.cons.injEq, and_true] at h
    exact ⟨x, y, z, rfl, h.1, h.2.1, h.2.2⟩

/-- **C21.**  `field_type_by_name` maps each of the nine canonical names, given
with its exact length, to its own type; it maps every name of three bytes that
is `num` up to letter case to UNSIGNED and every one that is `str` up to letter
case to STRING; and it maps the one-byte name `*` to ANY. -/
theorem field_type_by_name_names :
    (∀ t : field_type, field_type_by_name (cstr (field_type_strs.getD t.toNat "")) = t.toNat) ∧
      (∀ name : List Nat, name.map tolower = cstr "num" →
        field_type_by_name name = field_type.FIELD_TYPE_UNSIGNED.toNat) ∧
      (∀ name : List Nat, name.map tolower = cstr "str" →
        field_type_by_name name = field_type.FIELD_TYPE_STRING.toNat) ∧
      field_type_by_name (cstr "*") = field_type.FIELD_TYPE_ANY.toNat := by
  refine ⟨?_, ?_, ?_, by decide⟩
  · intro t
    cases t <;> decide
  · intro name h
    obtain ⟨x, y, z, rfl, hx, hy, hz⟩ := tolower_of_map_eq3 name 110 117 109 h
    have hx1 : x = 110 ∨ x = 78 := by
      rcases tolower_eq_lower x 110 hx with h | h <;> omega
    have hy1 : y = 117 ∨ y = 85 := by
      rcases tolower_eq_lower y 117 hy with h | h <;> omega
    have hz1 : z = 109 ∨ z = 77 := by
      rcases tolower_eq_lower z 109 hz with h | h <;> omega
    rcases hx1 with rfl | rfl <;> rcases hy1 with rfl | rfl <;> rcases hz1 with rfl | rfl <;>
      decide
  · intro name h
    obtain ⟨x, y, z, rfl, hx, hy, hz⟩ := tolower_of_map_eq3 name 115 116 114 h
    have hx1 : x = 115 ∨ x = 83 := by
      rcases tolower_eq_lower x 115 hx with h | h <;> omega
    have hy1 : y = 116 ∨ y = 84 := by
      rcases tolower_eq_lower y 116 hy with h | h <;> omega
    have hz1 : z = 114 ∨ z = 82 := by
      rcases tolower_eq_lower z 114 hz with h | h <;> omega
    rcases hx1 with rfl | rfl <;> rcases hy1 with rfl | rfl <;> rcases hz1 with rfl | rfl <;>
      decide

theorem tolower_eq_zero (c : Nat) : tolower c = 0 ↔ c = 0 := by
  constructor
  · intro h
    unfold tolower at h
    split_ifs at h
    omega
  · intro h
    subst h
    rfl

/-- On names without a NUL byte, `strncasecmp` over the whole length of the
first name finds no difference exactly when the first name is, up to letter
case, a beginning of the second. -/
theorem strncasecmp_eq_zero_iff (s1 s2 : List Nat) (h1 : ∀ c ∈ s1, c ≠ 0) :
    strncasecmp s1 s2 s1.length = 0 ↔ s1.map tolower <+: s2.map tolower := by
  induction s1 generalizing s2 with
  | nil => simp [strncasecmp]
  | cons a as ih =>
    have ha : tolower a ≠ 0 := fun h => h1 a (List.mem_cons_self _ _) ((tolower_eq_zero a).1 h)
    have has : ∀ c ∈ as, c ≠ 0 := fun c hc => h1 c (List.mem_cons_of_mem _ hc)
    cases s2 with
    | nil =>
      simp only [List.length_cons, strncasecmp, List.headD_cons, List.headD_nil, List.map_cons,
        List.map_nil, List.prefix_nil, show tolower 0 = 0 from rfl]
      rw [if_pos ha]
      constructor
      · intro h; exfalso; omega
      · intro h; exact absurd h (by simp)
    | cons b bs =>
      simp only [List.length_cons, strncasecmp, List.headD_cons, List.tail_cons, List.map_cons]
      by_cases hab : tolower a = tolower b
      · rw [if_neg (not_not.2 hab), if_neg ha, ih bs has, hab, List.cons_prefix_cons]
        simp
      · rw [if_pos hab, List.cons_prefix_cons]
        constructor
        · intro h; exfalso; omega
        · intro h; exact absurd h.1 hab

/-- Counterexample to **C22** as stated: the empty name and the names `n`,
`NU`, `s` and `St` are none of the canonical names, are not `num` or `str` up
to letter case and are not `*`, yet they are taken for UNSIGNED and STRING. -/
theorem field_type_by_name_short_names :
    field_type_by_name [] = field_type.FIELD_TYPE_UNSIGNED.toNat ∧
      field_type_by_name (cstr "n") = field_type.FIELD_TYPE_UNSIGNED.toNat ∧
      field_type_by_name (cstr "NU") = field_type.FIELD_TYPE_UNSIGNED.toNat ∧
      field_type_by_name (cstr "s") = field_type.FIELD_TYPE_STRING.toNat ∧
      field_type_by_name (cstr "St") = field_type.FIELD_TYPE_STRING.toNat ∧
      field_type.FIELD_TYPE_UNSIGNED.toNat ≠ field_type_MAX ∧
      field_type.FIELD_TYPE_STRING.toNat ≠ field_type_MAX := by
  decide

/-- The names `field_type_by_name` does not know, among the names without a
NUL byte: those that are none of the canonical names, are not up to letter
case a beginning of `num` or of `str` (the empty name is a beginning of both)
and are not `*`. -/
theorem field_type_by_name_unknown_iff (name : List Nat) (h0 : ∀ c ∈ name, c ≠ 0) :
    field_type_by_name name = field_type_MAX ↔
      (strnindex field_type_strs name field_type_MAX = field_type_MAX ∧
        ¬ name.map tolower <+: cstr "num" ∧ ¬ name.map tolower <+: cstr "str" ∧
        name ≠ cstr "*") := by
  have hnum := strncasecmp_eq_zero_iff name (cstr "num") h0
  have hstr := strncasecmp_eq_zero_iff name (cstr "str") h0
  have hl1 : (cstr "num").map tolower = cstr "num" := by decide
  have hl2 : (cstr "str").map tolower = cstr "str" := by decide
  rw [hl1] at hnum
  rw [hl2] at hstr
  have hstar : (name.length = 1 ∧ name.headD 0 = 42) ↔ name = cstr "*" := by
    constructor
    · rintro ⟨h1, h2⟩
      match name, h1, h2 with
      | [x], _, h2 => simp only [List.headD_cons] at h2; subst h2; rfl
    · intro h; subst h; decide
  unfold field_type_by_name
  simp only []
  by_cases hc : strnindex field_type_strs name field_type_MAX = field_type_MAX
  · rw [if_neg (not_not.2 hc)]
    by_cases h1 : strncasecmp name (cstr "num") name.length = 0
    · rw [if_pos h1]
      simp only [hc, true_and]
      constructor
      · intro h; exact absurd h (by decide)
      · intro h; exact absurd (hnum.1 h1) h.1
    · rw [if_neg h1]
      by_cases h2 : strncasecmp name (cstr "str") name.length = 0
      · rw [if_pos h2]
        simp only [hc, true_and]
        constructor
        · intro h; exact absurd h (by decide)
        · intro h; exact absurd (hstr.1 h2) h.2.1
      · rw [if_neg h2]
        by_cases h3 : name.length = 1 ∧ name.headD 0 = 42
        · rw [if_pos h3]
          simp only [hc, true_and]
          constructor
          · intro h; exact absurd h (by decide)
          · intro h; exact absurd (hstar.1 h3) h.2.2
        · rw [if_neg h3]
          simp only [hc, true_and, true_iff]
          exact ⟨fun h => h1 (hnum.2 h), fun h => h2 (hstr.2 h), fun h => h3 (hstar.2 h)⟩
  · rw [if_pos hc]
    constructor
    · intro h; exact absurd h hc
    · intro h; exact absurd h.1 hc


/-! ## The field-definition decoder: claims -/

theorem strnindex_from_le (needle : List Nat) (hmax : Nat) (haystack : List String)
    (index : Nat) (h : index ≤ hmax) : strnindex_from needle hmax haystack index ≤ hmax := by
  induction haystack generalizing index with
  | nil => exact Nat.le_refl _
  | cons entry rest ih =>
    unfold strnindex_from
    split_ifs with h1 h2
    · exact Nat.le_refl _
    · exact h
    · exact ih (index + 1) (by omega)

theorem field_type_by_name_le (name : List Nat) : field_type_by_name name ≤ field_type_MAX := by
  unfold field_type_by_name
  simp only []
  split_ifs
  · exact strnindex_from_le _ _ _ _ (Nat.zero_le _)
  · decide
  · decide
  · decide
  · exact Nat.le_refl _

/-- A successful `opts_parse_key` that skips unknown keys either leaves the
structure as it is, or has stored the value with the entry of that key. -/
theorem opts_parse_key_ok {α : Type} (opts opts1 : α) (reg : List (opt_def α)) (key : String)
    (val : mp_value) (errcode : box_error_code) (field_no : Nat)
    (h : opts_parse_key opts reg key val errcode field_no true = Except.ok opts1) :
    opts1 = opts ∨
      ∃ d ∈ reg, d.name = key ∧ opt_set opts d val errcode field_no = Except.ok opts1 := by
  unfold opts_parse_key at h
  cases hf : reg.find? fun def_ => def_.name == key with
  | none =>
    rw [hf] at h
    simp only [if_true, Except.ok.injEq] at h
    exact Or.inl h.symm
  | some d =>
    rw [hf] at h
    have hd := List.find?_some hf
    simp only [beq_iff_eq] at hd
    exact Or.inr ⟨d, List.mem_of_find?_eq_some hf, hd, h⟩

/-- What one option of `field_def_reg` changes: only the member of its key,
and it keeps the two enumerations within their sentinels. -/
theorem opts_parse_key_field_def (field field1 : field_def) (key : String) (val : mp_value)
    (errcode : box_error_code) (field_no : Nat)
    (h : opts_parse_key field field_def_reg key val errcode field_no true = Except.ok field1) :
    (key ≠ "type" → field1.type = field.type) ∧
      (key ≠ "name" → field1.name = field.name) ∧
      (key ≠ "is_nullable" → field1.is_nullable = field.is_nullable) ∧
      (key ≠ "nullable_action" → field1.nullable_action = field.nullable_action) ∧
      (key ≠ "collation" → field1.coll_id = field.coll_id) ∧
      (key ≠ "default" → field1.default_value = field.default_value) ∧
      (key ≠ "affinity" → field1.affinity = field.affinity) ∧
      field1.default_value_expr = field.default_value_expr ∧
      (field.type ≤ field_type_MAX → field1.type ≤ field_type_MAX) ∧
      (field.nullable_action ≤ on_conflict_action_MAX →
        field1.nullable_action ≤ on_conflict_action_MAX) := by
  rcases opts_parse_key_ok _ _ _ _ _ _ _ h with rfl | ⟨d, hd, hkey, hset⟩
  · simp
  · simp only [field_def_reg, List.mem_cons, List.mem_singleton, List.not_mem_nil, or_false]
      at hd
    rcases hd with rfl | rfl | rfl | rfl | rfl | rfl | rfl <;>
      simp only [opt_def.name] at hkey <;> subst hkey <;>
      cases val <;> simp only [opt_set] at hset <;> (try split_ifs at hset) <;>
      cases hset <;> simp
    · exact fun _ => field_type_by_name_le _
    · exact fun _ => strnindex_from_le _ _ _ _ (Nat.zero_le _)

/-- What the loop of `field_def_decode` does when it succeeds: every key is a
string; `is_action_missing` stays set exactly when no key is `nullable_action`;
a member whose key does not occur keeps its value; and the two enumerations
stay within their sentinels. -/
theorem field_def_decode_loop_spec (space_name : String) (errcode : box_error_code)
    (fieldno : Nat) (pairs : List (mp_value × mp_value)) (field : field_def) (miss : Bool)
    (field1 : field_def) (miss1 : Bool)
    (h : field_def_decode_loop space_name errcode fieldno pairs (field, miss) =
      Except.ok (field1, miss1)) :
    (∀ kv ∈ pairs, ∃ key, kv.1 = mp_value.str key) ∧
      (miss1 = true ↔ (miss = true ∧ ∀ kv ∈ pairs, kv.1 ≠ mp_value.str "nullable_action")) ∧
      ((∀ kv ∈ pairs, kv.1 ≠ mp_value.str "type") → field1.type = field.type) ∧
      ((∀ kv ∈ pairs, kv.1 ≠ mp_value.str "name") → field1.name = field.name) ∧
      ((∀ kv ∈ pairs, kv.1 ≠ mp_value.str "is_nullable") →
        field1.is_nullable = field.is_nullable) ∧
      ((∀ kv ∈ pairs, kv.1 ≠ mp_value.str "nullable_action") →
        field1.nullable_action = field.nullable_action) ∧
      ((∀ kv ∈ pairs, kv.1 ≠ mp_value.str "collation") → field1.coll_id = field.coll_id) ∧
      ((∀ kv ∈ pairs, kv.1 ≠ mp_value.str "default") →
        field1.default_value = field.default_value) ∧
      ((∀ kv ∈ pairs, kv.1 ≠ mp_value.str "affinity") → field1.affinity = field.affinity) ∧
      field1.default_value_expr = field.default_value_expr ∧
      (field.type ≤ field_type_MAX → field1.type ≤ field_type_MAX) ∧
      (field.nullable_action ≤ on_conflict_action_MAX →
        field1.nullable_action ≤ on_conflict_action_MAX) := by
  induction pairs generalizing field miss with
  | nil =>
    simp only [field_def_decode_loop, Except.ok.injEq, Prod.mk.injEq] at h
    obtain ⟨rfl, rfl⟩ := h
    simp
  | cons kv rest ih =>
    obtain ⟨k, v⟩ := kv
    cases k with
    | str key =>
      simp only [field_def_decode_loop] at h
      cases hp : opts_parse_key field field_def_reg key v box_error_code.ER_WRONG_SPACE_FORMAT
          ((fieldno + TUPLE_INDEX_BASE) % 2 ^ 32) true with
      | error e => rw [hp] at h; cases h
      | ok field2 =>
        rw [hp] at h
        simp only [] at h
        obtain ⟨s1, s2, s3, s4, s5, s6, s7, s8, s9, s10⟩ :=
          opts_parse_key_field_def _ _ _ _ _ _ hp
        obtain ⟨r0, r1, r2, r3, r4, r5, r6, r7, r8, r9, r10, r11⟩ := ih _ _ h
        have hne : ∀ name : String,
            (∀ kv ∈ (mp_value.str key, v) :: rest, kv.1 ≠ mp_value.str name) →
              key ≠ name ∧ ∀ kv ∈ rest, kv.1 ≠ mp_value.str name := by
          intro name hall
          refine ⟨?_, fun kv hkv => hall kv (List.mem_cons_of_mem _ hkv)⟩
          intro hk
          exact hall _ (List.mem_cons_self _ _) (by rw [hk])
        refine ⟨?_, ?_, ?_, ?_, ?_, ?_, ?_, ?_, ?_, ?_, ?_, ?_⟩
        · intro kv hkv
          rcases List.mem_cons.1 hkv with rfl | hkv
          · exact ⟨key, rfl⟩
          · exact r0 kv hkv
        · rw [r1]
          constructor
          · rintro ⟨hm, hrest⟩
            by_cases hk : miss = true ∧ key = "nullable_action"
            · rw [if_pos hk] at hm; exact absurd hm (by simp)
            · rw [if_neg hk] at hm
              refine ⟨hm, ?_⟩
              intro kv hkv
              rcases List.mem_cons.1 hkv with rfl | hkv
              · intro hkey
                simp only [mp_value.str.injEq] at hkey
                exact hk ⟨hm, hkey⟩
              · exact hrest kv hkv
          · rintro ⟨hm, hall⟩
            obtain ⟨hk, hrest⟩ := hne _ hall
            rw [if_neg (fun hc => hk hc.2)]
            exact ⟨hm, hrest⟩
        · intro hall; obtain ⟨hk, hrest⟩ := hne _ hall; rw [r2 hrest, s1 hk]
        · intro hall; obtain ⟨hk, hrest⟩ := hne _ hall; rw [r3 hrest, s2 hk]
        · intro hall; obtain ⟨hk, hrest⟩ := hne _ hall; rw [r4 hrest, s3 hk]
        · intro hall; obtain ⟨hk, hrest⟩ := hne _ hall; rw [r5 hrest, s4 hk]
        · intro hall; obtain ⟨hk, hrest⟩ := hne _ hall; rw [r6 hrest, s5 hk]
        · intro hall; obtain ⟨hk, hrest⟩ := hne _ hall; rw [r7 hrest, s6 hk]
        · intro hall; obtain ⟨hk, hrest⟩ := hne _ hall; rw [r8 hrest, s7 hk]
        · rw [r9, s8]
        · exact fun hle => r10 (s9 hle)
        · exact fun hle => r11 (s10 hle)
    | _ => simp [field_def_decode_loop] at h

/-- The checks of `field_def_decode` return the definition unchanged when they
pass. -/
theorem field_def_decode_check_ok (identifier_check : String → Option ClientError)
    (space_name : String) (errcode : box_error_code) (fieldno : Nat) (field f : field_def)
    (h : field_def_decode_check identifier_check space_name errcode fieldno field =
      Except.ok f) : f = field := by
  unfold field_def_decode_check at h
  cases hn : field.name with
  | none => rw [hn] at h; cases h
  | some name =>
    rw [hn] at h
    simp only [] at h
    by_cases h1 : name.length > BOX_NAME_MAX
    · rw [if_pos h1] at h; cases h
    · rw [if_neg h1] at h
      cases hi : identifier_check name with
      | some e => rw [hi] at h; cases h
      | none =>
        rw [hi] at h
        simp only [] at h
        split_ifs at h
        cases h
        rfl

/-- The checks of `field_def_decode` fail exactly on the rejected definitions. -/
theorem field_def_decode_check_error_iff (identifier_check : String → Option ClientError)
    (space_name : String) (errcode : box_error_code) (fieldno : Nat) (field : field_def) :
    (∃ e, field_def_decode_check identifier_check space_name errcode fieldno field =
        Except.error e) ↔ field_def_rejected identifier_check field := by
  unfold field_def_decode_check field_def_rejected
  cases hn : field.name with
  | none => simp
  | some name =>
    simp only [Option.some.injEq, exists_eq_left', false_or]
    by_cases h1 : name.length > BOX_NAME_MAX
    · simp [h1]
    · cases hi : identifier_check name with
      | some e => simp [h1]
      | none =>
        simp only [h1, if_false, Option.isSome_none, Bool.false_eq_true, false_or]
        by_cases h2 : field.type = field_type_MAX
        · simp [h2]
        · by_cases h3 : field.nullable_action = on_conflict_action_MAX
          · simp [h2, h3]
          · cases hb : field.is_nullable <;>
              by_cases h4 : field.nullable_action = ON_CONFLICT_ACTION_NONE <;>
              by_cases h5 : field.coll_id ≠ COLL_NONE ∧
                field.type ≠ field_type.FIELD_TYPE_STRING.toNat ∧
                field.type ≠ field_type.FIELD_TYPE_SCALAR.toNat ∧
                field.type ≠ field_type.FIELD_TYPE_ANY.toNat <;>
              simp [h2, h3, h4, h5,
                show ¬ ON_CONFLICT_ACTION_NONE = on_conflict_action_MAX from by decide]

/-- A successful `field_def_decode` has read a map, run the loop to its end and
passed the checks on the definition that the inference gives. -/
theorem field_def_decode_ok (identifier_check : String → Option ClientError) (data : mp_value)
    (space_name : String) (errcode : box_error_code) (fieldno : Nat) (f : field_def)
    (h : field_def_decode identifier_check data space_name errcode fieldno = Except.ok f) :
    ∃ pairs st, data = mp_value.map pairs ∧
      field_def_decode_loop space_name errcode fieldno pairs (field_def_default, true) =
        Except.ok st ∧
      f = field_def_decode_infer st ∧ ¬ field_def_rejected identifier_check f := by
  unfold field_def_decode at h
  cases data with
  | map pairs =>
    simp only [] at h
    cases hl : field_def_decode_loop space_name errcode fieldno pairs (field_def_default, true)
      with
    | error e => rw [hl] at h; cases h
    | ok st =>
      rw [hl] at h
      simp only [] at h
      have hf := field_def_decode_check_ok _ _ _ _ _ _ h
      refine ⟨pairs, st, rfl, hl, hf, ?_⟩
      intro hrej
      obtain ⟨e, he⟩ := (field_def_decode_check_error_iff identifier_check space_name errcode
        fieldno f).2 hrej
      rw [hf, h] at he
      cases he
  | _ => cases h

/-- **C23.**  When `field_def_decode` succeeds on a map without the key
`nullable_action`, the action of the result is NONE if the decoded
`is_nullable` is true and DEFAULT otherwise, `is_nullable` being false when its
key is absent too; when the key is present the result is the definition as the
option parser filled it, so the action is the one given and nothing is
inferred. -/
theorem field_def_decode_nullable_action (identifier_check : String → Option ClientError)
    (pairs : List (mp_value × mp_value)) (space_name : String) (errcode : box_error_code)
    (fieldno : Nat) (f : field_def)
    (h : field_def_decode identifier_check (mp_value.map pairs) space_name errcode fieldno =
      Except.ok f) :
    ((∀ kv ∈ pairs, kv.1 ≠ mp_value.str "nullable_action") →
        f.nullable_action =
          (if f.is_nullable then ON_CONFLICT_ACTION_NONE else ON_CONFLICT_ACTION_DEFAULT) ∧
        ((∀ kv ∈ pairs, kv.1 ≠ mp_value.str "is_nullable") →
          f.is_nullable = false ∧ f.nullable_action = ON_CONFLICT_ACTION_DEFAULT)) ∧
      ((∃ kv ∈ pairs, kv.1 = mp_value.str "nullable_action") →
        field_def_decode_loop space_name errcode fieldno pairs (field_def_default, true) =
          Except.ok (f, false)) := by
  obtain ⟨pairs1, ⟨field1, miss1⟩, hd, hl, hf, _⟩ := field_def_decode_ok _ _ _ _ _ _ h
  cases hd
  obtain ⟨_, hmiss, _, _, hnull, _⟩ := field_def_decode_loop_spec _ _ _ _ _ _ _ _ hl
  constructor
  · intro hno
    have hm : miss1 = true := hmiss.2 ⟨rfl, hno⟩
    subst hm
    subst hf
    refine ⟨by simp [field_def_decode_infer], ?_⟩
    intro hno2
    have h2 : field1.is_nullable = false := hnull hno2
    simp [field_def_decode_infer, h2]
  · rintro ⟨kv, hkv, hkey⟩
    have hm : miss1 = false := by
      cases hm1 : miss1 with
      | false => rfl
      | true => exact absurd hkey ((hmiss.1 hm1).2 kv hkv)
    subst hm
    subst hf
    exact hl

theorem field_def_decode_nullable_action_witness :
    field_def_decode sampleIdentifierCheck
        (mp_value.map [(mp_value.str "name", mp_value.str "a"),
          (mp_value.str "is_nullable", mp_value.bool true)])
        "t" (box_error_code.ER_CODE 1) 0 =
      Except.ok { field_def_default with
        name := some "a", is_nullable := true, nullable_action := ON_CONFLICT_ACTION_NONE } ∧
      ({ field_def_default with
        name := some "a", is_nullable := true,
        nullable_action := ON_CONFLICT_ACTION_NONE } : field_def).nullable_action =
        (if ({ field_def_default with
          name := some "a", is_nullable := true,
          nullable_action := ON_CONFLICT_ACTION_NONE } : field_def).is_nullable
        then ON_CONFLICT_ACTION_NONE else ON_CONFLICT_ACTION_DEFAULT) :=
  ⟨rfl,
    ((field_def_decode_nullable_action sampleIdentifierCheck
      [(mp_value.str "name", mp_value.str "a"), (mp_value.str "is_nullable", mp_value.bool true)]
      "t" (box_error_code.ER_CODE 1) 0 _ rfl).1 (by
        intro kv hkv
        simp only [List.mem_cons, List.mem_singleton, List.not_mem_nil, or_false] at hkv
        rcases hkv with rfl | rfl <;> simp)).1⟩

/-- Counterexample to **C24** as stated: the map `name = a, is_nullable = true`
has no key `nullable_action`, and the definition decoded from it carries the
action NONE, not the action DEFAULT of `field_def_default`. -/
theorem field_def_decode_absent_action_not_default :
    field_def_decode sampleIdentifierCheck
        (mp_value.map [(mp_value.str "name", mp_value.str "a"),
          (mp_value.str "is_nullable", mp_value.bool true)])
        "t" (box_error_code.ER_CODE 1) 0 =
      Except.ok { field_def_default with
        name := some "a", is_nullable := true, nullable_action := ON_CONFLICT_ACTION_NONE } ∧
      ON_CONFLICT_ACTION_NONE ≠ field_def_default.nullable_action :=
  ⟨rfl, by decide⟩

/-- **C24**, amended.  Every definition that `field_def_decode` returns
satisfies: it is nullable exactly when its action is NONE; a collation id
other than `COLL_NONE` comes only with the type STRING, SCALAR or ANY; the name
is present, at most `BOX_NAME_MAX` long and accepted by the identifier check;
the type is one of the nine field types and the action one of the seven
actions; every option other than `nullable_action` whose key is absent from
the input has its value from `field_def_default`, and so has the compiled
default expression; an absent `nullable_action` is NONE for a nullable field
and DEFAULT otherwise. -/
theorem field_def_decode_invariants (identifier_check : String → Option ClientError)
    (pairs : List (mp_value × mp_value)) (space_name : String) (errcode : box_error_code)
    (fieldno : Nat) (f : field_def)
    (h : field_def_decode identifier_check (mp_value.map pairs) space_name errcode fieldno =
      Except.ok f) :
    (f.is_nullable = true ↔ f.nullable_action = ON_CONFLICT_ACTION_NONE) ∧
      (f.coll_id ≠ COLL_NONE →
        f.type = field_type.FIELD_TYPE_STRING.toNat ∨
          f.type = field_type.FIELD_TYPE_SCALAR.toNat ∨
          f.type = field_type.FIELD_TYPE_ANY.toNat) ∧
      (∃ name, f.name = some name ∧ name.length ≤ BOX_NAME_MAX ∧
        identifier_check name = none) ∧
      f.type < field_type_MAX ∧
      f.nullable_action < on_conflict_action_MAX ∧
      ((∀ kv ∈ pairs, kv.1 ≠ mp_value.str "type") → f.type = field_def_default.type) ∧
      ((∀ kv ∈ pairs, kv.1 ≠ mp_value.str "is_nullable") →
        f.is_nullable = field_def_default.is_nullable) ∧
      ((∀ kv ∈ pairs, kv.1 ≠ mp_value.str "collation") →
        f.coll_id = field_def_default.coll_id) ∧
      ((∀ kv ∈ pairs, kv.1 ≠ mp_value.str "default") →
        f.default_value = field_def_default.default_value) ∧
      ((∀ kv ∈ pairs, kv.1 ≠ mp_value.str "affinity") →
        f.affinity = field_def_default.affinity) ∧
      f.default_value_expr = field_def_default.default_value_expr ∧
      ((∀ kv ∈ pairs, kv.1 ≠ mp_value.str "nullable_action") →
        f.nullable_action =
          (if f.is_nullable then ON_CONFLICT_ACTION_NONE else ON_CONFLICT_ACTION_DEFAULT)) := by
  obtain ⟨pairs1, ⟨field1, miss1⟩, hd, hl, hf, hrej⟩ := field_def_decode_ok _ _ _ _ _ _ h
  cases hd
  obtain ⟨_, hmiss, f1, _, f3, _, f5, f6, f7, f8, f9, f10⟩ :=
    field_def_decode_loop_spec _ _ _ _ _ _ _ _ hl
  have hinf : f.type = field1.type ∧ f.name = field1.name ∧
      f.is_nullable = field1.is_nullable ∧ f.coll_id = field1.coll_id ∧
      f.default_value = field1.default_value ∧ f.affinity = field1.affinity ∧
      f.default_value_expr = field1.default_value_expr ∧
      (miss1 = false → f.nullable_action = field1.nullable_action) ∧
      (miss1 = true → f.nullable_action =
        (if f.is_nullable then ON_CONFLICT_ACTION_NONE else ON_CONFLICT_ACTION_DEFAULT)) := by
    subst hf
    cases miss1 <;> simp [field_def_decode_infer]
  obtain ⟨i1, i2, i3, i4, i5, i6, i7, i8, i9⟩ := hinf
  unfold field_def_rejected at hrej
  simp only [not_or, not_and, not_exists] at hrej
  obtain ⟨r1, r2, r3, r4, r5, r6, r7, r8⟩ := hrej
  have hact : f.nullable_action ≤ on_conflict_action_MAX := by
    cases hm : miss1 with
    | false => rw [i8 hm]; exact f10 (by decide)
    | true =>
      rw [i9 hm]
      split_ifs <;> decide
  refine ⟨?_, ?_, ?_, ?_, ?_, ?_, ?_, ?_, ?_, ?_, ?_, ?_⟩
  · constructor
    · intro hn
      by_contra hc
      exact r6 hn hc
    · intro ha
      cases hb : f.is_nullable with
      | true => rfl
      | false => exact absurd ha (r7 hb)
  · intro hc
    by_contra hn
    simp only [not_or] at hn
    exact r8 hc hn.1 hn.2.1 hn.2.2
  · cases hn : f.name with
    | none => exact absurd hn r1
    | some name =>
      refine ⟨name, rfl, ?_, ?_⟩
      · have := r2 name hn
        omega
      · have := r3 name hn
        cases hi : identifier_check name with
        | none => rfl
        | some e => rw [hi] at this; exact absurd rfl this
  · have hle : f.type ≤ field_type_MAX := by rw [i1]; exact f9 (by decide)
    omega
  · omega
  · intro hno; rw [i1]; exact f1 hno
  · intro hno; rw [i3]; exact f3 hno
  · intro hno; rw [i4]; exact f5 hno
  · intro hno; rw [i5]; exact f6 hno
  · intro hno; rw [i6]; exact f7 hno
  · rw [i7]; exact f8
  · intro hno
    exact i9 (hmiss.2 ⟨rfl, hno⟩)

theorem field_def_decode_invariants_witness :
    (({ field_def_default with
        name := some "a", type := field_type.FIELD_TYPE_STRING.toNat, coll_id := 1 } :
        field_def).is_nullable = true ↔
      ({ field_def_default with
        name := some "a", type := field_type.FIELD_TYPE_STRING.toNat, coll_id := 1 } :
        field_def).nullable_action = ON_CONFLICT_ACTION_NONE) ∧
      field_def_decode sampleIdentifierCheck
        (mp_value.map [(mp_value.str "name", mp_value.str "a"),
          (mp_value.str "type", mp_value.str "string"),
          (mp_value.str "collation", mp_value.uint 1)])
        "t" (box_error_code.ER_CODE 1) 0 =
      Except.ok { field_def_default with
        name := some "a", type := field_type.FIELD_TYPE_STRING.toNat, coll_id := 1 } :=
  ⟨(field_def_decode_invariants sampleIdentifierCheck
      [(mp_value.str "name", mp_value.str "a"), (mp_value.str "type", mp_value.str "string"),
        (mp_value.str "collation", mp_value.uint 1)]
      "t" (box_error_code.ER_CODE 1) 0 _ rfl).1, rfl⟩

/-- **C25.**  On a map whose keys are strings and whose options parse,
`field_def_decode` fails exactly when the decoded definition is rejected: the
name is missing, longer than `BOX_NAME_MAX` or not a valid identifier, the type
or the action is the sentinel of its enumeration, nullability and action
conflict, or a collation is set on a type other than STRING, SCALAR and ANY.
A value that is not a map always fails, and so does a map with a key that is
not a string. -/
theorem field_def_decode_fails_iff (identifier_check : String → Option ClientError)
    (space_name : String) (errcode : box_error_code) (fieldno : Nat) :
    (∀ pairs st,
        field_def_decode_loop space_name errcode fieldno pairs (field_def_default, true) =
          Except.ok st →
        ((∃ e, field_def_decode identifier_check (mp_value.map pairs) space_name errcode
            fieldno = Except.error e) ↔
          field_def_rejected identifier_check (field_def_decode_infer st))) ∧
      (∀ data, mp_typeof data ≠ mp_type.MP_MAP →
        ∃ e, field_def_decode identifier_check data space_name errcode fieldno =
          Except.error e) ∧
      (∀ pairs, (∃ kv ∈ pairs, mp_typeof kv.1 ≠ mp_type.MP_STR) →
        ∃ e, field_def_decode identifier_check (mp_value.map pairs) space_name errcode
          fieldno = Except.error e) := by
  refine ⟨?_, ?_, ?_⟩
  · intro pairs st hl
    unfold field_def_decode
    simp only [hl]
    exact field_def_decode_check_error_iff _ _ _ _ _
  · intro data hd
    cases data <;> first
      | exact absurd rfl hd
      | exact ⟨_, rfl⟩
  · rintro pairs ⟨kv, hkv, hk⟩
    cases hr : field_def_decode identifier_check (mp_value.map pairs) space_name errcode
      fieldno with
    | error e => exact ⟨e, rfl⟩
    | ok f =>
      exfalso
      obtain ⟨pairs1, ⟨field1, miss1⟩, hd, hl, _, _⟩ := field_def_decode_ok _ _ _ _ _ _ hr
      cases hd
      obtain ⟨hkeys, _⟩ := field_def_decode_loop_spec _ _ _ _ _ _ _ _ hl
      obtain ⟨key, hkey⟩ := hkeys kv hkv
      rw [hkey] at hk
      exact hk rfl

theorem printf_d_small (x : Nat) (h : x < 2 ^ 31) : toString (printf_d x) = toString x := by
  unfold printf_d
  have h1 : x % 2 ^ 32 = x := Nat.mod_eq_of_lt (by omega)
  rw [h1, if_pos h]
  rfl

/-- A failure of the loop of `field_def_decode` is either a failure of the
option parser or the diagnostic for a key that is not a string. -/
theorem field_def_decode_loop_error (space_name : String) (errcode : box_error_code)
    (fieldno : Nat) (pairs : List (mp_value × mp_value)) (st : field_def × Bool)
    (e : ClientError)
    (h : field_def_decode_loop space_name errcode fieldno pairs st = Except.error e) :
    (∃ field key val,
        opts_parse_key field field_def_reg key val box_error_code.ER_WRONG_SPACE_FORMAT
          ((fieldno + TUPLE_INDEX_BASE) % 2 ^ 32) true = Except.error e) ∨
      e = field_def_error errcode space_name fieldno " format is not map with string keys" := by
  induction pairs generalizing st with
  | nil => cases h
  | cons kv rest ih =>
    obtain ⟨k, v⟩ := kv
    obtain ⟨field, miss⟩ := st
    cases k with
    | str key =>
      simp only [field_def_decode_loop] at h
      cases hp : opts_parse_key field field_def_reg key v box_error_code.ER_WRONG_SPACE_FORMAT
          ((fieldno + TUPLE_INDEX_BASE) % 2 ^ 32) true with
      | error e1 =>
        rw [hp] at h
        cases h
        exact Or.inl ⟨field, key, v, hp⟩
      | ok field2 =>
        rw [hp] at h
        exact ih _ h
    | _ =>
      simp only [field_def_decode_loop, Except.error.injEq] at h
      exact Or.inr h.symm

/-- Counterexample to **C27** as stated: a collation on an UNSIGNED field is
diagnosed by `field_def_decode` itself, with the caller's error code and the
space name, but the message is the same for field 0 and for field 5: it does
not name the field. -/
theorem field_def_decode_collation_message :
    field_def_decode sampleIdentifierCheck
        (mp_value.map [(mp_value.str "name", mp_value.str "a"),
          (mp_value.str "type", mp_value.str "unsigned"),
          (mp_value.str "collation", mp_value.uint 1)])
        "t" (box_error_code.ER_CODE 1) 0 =
      Except.error
        { code := box_error_code.ER_CODE 1,
          args := ["t", "collation is reasonable only for string, scalar and any fields"] } ∧
      field_def_decode sampleIdentifierCheck
        (mp_value.map [(mp_value.str "name", mp_value.str "a"),
          (mp_value.str "type", mp_value.str "unsigned"),
          (mp_value.str "collation", mp_value.uint 1)])
        "t" (box_error_code.ER_CODE 1) 5 =
      Except.error
        { code := box_error_code.ER_CODE 1,
          args := ["t", "collation is reasonable only for string, scalar and any fields"] } :=
  ⟨rfl, rfl⟩

/-- **C27**, amended.  For a field position that fits a signed 32-bit integer,
every failure of `field_def_decode` is one of: a failure of the option parser
on some option; a rejection by the identifier check; a diagnostic with the
caller's error code, the space name and a message that starts with
`field <fieldno + 1>` (not a map, key that is not a string, missing name, name
too long, unknown type, unknown action, nullability conflict); or the
diagnostic of a collation on an incompatible type, which carries the caller's
error code and the space name but no field position. -/
theorem field_def_decode_diagnostics (identifier_check : String → Option ClientError)
    (data : mp_value) (space_name : String) (errcode : box_error_code) (fieldno : Nat)
    (e : ClientError) (hpos : fieldno + TUPLE_INDEX_BASE < 2 ^ 31)
    (h : field_def_decode identifier_check data space_name errcode fieldno = Except.error e) :
    (∃ field key val,
        opts_parse_key field field_def_reg key val box_error_code.ER_WRONG_SPACE_FORMAT
          (fieldno + TUPLE_INDEX_BASE) true = Except.error e) ∨
      (∃ name, identifier_check name = some e) ∨
      (e.code = errcode ∧ ∃ rest ∈ field_def_messages,
        e.args = [space_name, "field " ++ toString (fieldno + 1) ++ rest]) ∨
      e = { code := errcode,
            args := [space_name,
              "collation is reasonable only for string, scalar and any fields"] } := by
  have hmod : (fieldno + TUPLE_INDEX_BASE) % 2 ^ 32 = fieldno + TUPLE_INDEX_BASE :=
    Nat.mod_eq_of_lt (by omega)
  have hown : ∀ rest ∈ field_def_messages,
      e = field_def_error errcode space_name fieldno rest →
        e.code = errcode ∧ ∃ rest ∈ field_def_messages,
          e.args = [space_name, "field " ++ toString (fieldno + 1) ++ rest] := by
    intro rest hrest he
    subst he
    refine ⟨rfl, rest, hrest, ?_⟩
    unfold field_def_error
    simp only []
    rw [printf_d_small _ hpos]
    rfl
  unfold field_def_decode at h
  cases data with
  | map pairs =>
    simp only [] at h
    cases hl : field_def_decode_loop space_name errcode fieldno pairs (field_def_default, true)
      with
    | error e1 =>
      rw [hl] at h
      cases h
      rcases field_def_decode_loop_error _ _ _ _ _ _ hl with ⟨field, key, val, hp⟩ | he
      · rw [hmod] at hp
        exact Or.inl ⟨field, key, val, hp⟩
      · exact Or.inr (Or.inr (Or.inl (hown _ (by decide) he)))
    | ok st =>
      rw [hl] at h
      simp only [] at h
      unfold field_def_decode_check at h
      cases hn : (field_def_decode_infer st).name with
      | none =>
        rw [hn] at h
        cases h
        exact Or.inr (Or.inr (Or.inl (hown _ (by decide) rfl)))
      | some name =>
        rw [hn] at h
        simp only [] at h
        by_cases h1 : name.length > BOX_NAME_MAX
        · rw [if_pos h1] at h
          cases h
          exact Or.inr (Or.inr (Or.inl (hown _ (by decide) rfl)))
        · rw [if_neg h1] at h
          cases hi : identifier_check name with
          | some e1 =>
            rw [hi] at h
            cases h
            exact Or.inr (Or.inl ⟨name, hi⟩)
          | none =>
            rw [hi] at h
            simp only [] at h
            by_cases h2 : (field_def_decode_infer st).type = field_type_MAX
            · rw [if_pos h2] at h
              cases h
              exact Or.inr (Or.inr (Or.inl (hown _ (by decide) rfl)))
            · rw [if_neg h2] at h
              by_cases h3 : (field_def_decode_infer st).nullable_action =
                  on_conflict_action_MAX
              · rw [if_pos h3] at h
                cases h
                exact Or.inr (Or.inr (Or.inl (hown _ (by decide) rfl)))
              · rw [if_neg h3] at h
                split_ifs at h
                · cases h
                  exact Or.inr (Or.inr (Or.inr rfl))
                · cases h
                  exact Or.inr (Or.inr (Or.inl (hown _ (by decide) rfl)))
  | _ =>
    cases h
    exact Or.inr (Or.inr (Or.inl (hown _ (by decide) rfl)))

theorem field_def_decode_diagnostics_witness :
    field_def_decode sampleIdentifierCheck (mp_value.uint 7) "t" (box_error_code.ER_CODE 1) 2 =
        Except.error { code := box_error_code.ER_CODE 1, args := ["t", "field 3 is not map"] } ∧
      ((∃ field key val,
          opts_parse_key field field_def_reg key val box_error_code.ER_WRONG_SPACE_FORMAT
            (2 + TUPLE_INDEX_BASE) true =
            Except.error
              { code := box_error_code.ER_CODE 1, args := ["t", "field 3 is not map"] }) ∨
        (∃ name, sampleIdentifierCheck name =
          some { code := box_error_code.ER_CODE 1, args := ["t", "field 3 is not map"] }) ∨
        (({ code := box_error_code.ER_CODE 1, args := ["t", "field 3 is not map"] } :
            ClientError).code = box_error_code.ER_CODE 1 ∧
          ∃ rest ∈ field_def_messages,
            ({ code := box_error_code.ER_CODE 1, args := ["t", "field 3 is not map"] } :
              ClientError).args = ["t", "field " ++ toString (2 + 1) ++ rest]) ∨
        ({ code := box_error_code.ER_CODE 1, args := ["t", "field 3 is not map"] } :
            ClientError) =
          { code := box_error_code.ER_CODE 1,
            args := ["t", "collation is reasonable only for string, scalar and any fields"] }) :=
  ⟨rfl,
    field_def_decode_diagnostics sampleIdentifierCheck (mp_value.uint 7) "t"
      (box_error_code.ER_CODE 1) 2 _ (by decide) rfl⟩


/-! ## Index definitions: claims -/

/-- **C28.**  An index definition built by `index_def_new` for a secondary
index (index id other than 0) declared unique has a `cmp_def` whose
`unique_part_count` is the number of parts of the own key, whatever the primary
key is; for the primary index (id 0) `cmp_def` is a copy of the own key, with
the same parts and the same part count. -/
theorem index_def_new_unique_part_count (identifier_check : String → Option ClientError)
    (space_id iid : Nat) (name : String) (type : index_type) (opts : index_opts)
    (key_def pk_def : Tarantool.key_def) (def_ : index_def)
    (h : index_def_new identifier_check space_id iid name type opts key_def pk_def =
      some def_) :
    (iid ≠ 0 → opts.is_unique = true →
        def_.cmp_def.unique_part_count = key_def.part_count) ∧
      (iid = 0 →
        def_.cmp_def = key_def ∧ def_.cmp_def.parts = key_def.parts ∧
          def_.cmp_def.part_count = key_def.part_count) ∧
      def_.key_def = key_def := by
  unfold index_def_new at h
  by_cases h1 : (identifier_check name).isSome = true
  · rw [if_pos h1] at h; cases h
  · rw [if_neg h1] at h
    simp only [Option.some.injEq] at h
    subst h
    refine ⟨?_, ?_, rfl⟩
    · intro hne hu
      simp only [if_pos hne, hu, not_true_eq_false, if_false]
      rfl
    · intro h0
      simp only [h0, ne_eq, not_true_eq_false, if_false]
      exact ⟨rfl, rfl, rfl⟩

theorem index_def_new_unique_part_count_witness :
    index_def_new sampleIdentifierCheck 512 1 "sk" index_type.TREE index_opts_default
        (sampleKey [3, 4]) (sampleKey [0]) =
      some
        { iid := 1, space_id := 512, name := "sk", type := index_type.TREE,
          opts := index_opts_default, key_def := sampleKey [3, 4],
          cmp_def := { sampleKey [3, 4, 0] with unique_part_count := 2 } } ∧
      ({ sampleKey [3, 4, 0] with unique_part_count := 2 } : key_def).unique_part_count =
        (sampleKey [3, 4]).part_count :=
  ⟨rfl,
    (index_def_new_unique_part_count sampleIdentifierCheck 512 1 "sk" index_type.TREE
      index_opts_default (sampleKey [3, 4]) (sampleKey [0]) _ rfl).1 (by decide) rfl⟩

/-- **C29.**  An index definition built by `index_def_new` for a secondary
index (index id other than 0) declared non-unique has a `cmp_def` whose
`unique_part_count` is the part count of the merged key, which is the number of
parts of the own key plus the number of parts of the primary key, also when
the two keys share field numbers. -/
theorem index_def_new_non_unique_part_count (identifier_check : String → Option ClientError)
    (space_id iid : Nat) (name : String) (type : index_type) (opts : index_opts)
    (key_def pk_def : Tarantool.key_def) (def_ : index_def)
    (h : index_def_new identifier_check space_id iid name type opts key_def pk_def =
      some def_)
    (hiid : iid ≠ 0) (hunique : opts.is_unique = false) :
    def_.cmp_def.unique_part_count = (key_def_merge key_def pk_def).part_count ∧
      (key_def_merge key_def pk_def).part_count = key_def.part_count + pk_def.part_count ∧
      def_.cmp_def.unique_part_count = key_def.part_count + pk_def.part_count := by
  have hm : (key_def_merge key_def pk_def).part_count =
      key_def.part_count + pk_def.part_count := by
    simp [key_def_merge, Tarantool.key_def.part_count]
  unfold index_def_new at h
  by_cases h1 : (identifier_check name).isSome = true
  · rw [if_pos h1] at h; cases h
  · rw [if_neg h1] at h
    simp only [Option.some.injEq] at h
    subst h
    refine ⟨?_, hm, ?_⟩
    · simp [hiid, hunique]
    · rw [← hm]
      simp [hiid, hunique]

theorem index_def_new_non_unique_part_count_witness :
    index_def_new sampleIdentifierCheck 512 1 "sk" index_type.TREE
        { index_opts_default with is_unique := false } (sampleKey [3, 0]) (sampleKey [0]) =
      some
        { iid := 1, space_id := 512, name := "sk", type := index_type.TREE,
          opts := { index_opts_default with is_unique := false },
          key_def := sampleKey [3, 0],
          cmp_def := sampleKey [3, 0, 0] } ∧
      (sampleKey [3, 0, 0]).unique_part_count =
        (sampleKey [3, 0]).part_count + (sampleKey [0]).part_count :=
  ⟨rfl,
    (index_def_new_non_unique_part_count sampleIdentifierCheck 512 1 "sk" index_type.TREE
      { index_opts_default with is_unique := false } (sampleKey [3, 0]) (sampleKey [0]) _
      rfl (by decide) rfl).2.2⟩

theorem index_def_is_valid_parts_ok_iff (index_def : Tarantool.index_def)
    (space_name : String) (seen parts : List key_part) :
    index_def_is_valid_parts index_def space_name seen parts = Except.ok () ↔
      (∀ p ∈ parts, p.fieldno ≤ BOX_INDEX_FIELD_MAX) ∧
        (∀ p ∈ parts, ∀ q ∈ seen, p.fieldno ≠ q.fieldno) ∧
        (parts.map key_part.fieldno).Nodup := by
  induction parts generalizing seen with
  | nil => simp [index_def_is_valid_parts]
  | cons part rest ih =>
    unfold index_def_is_valid_parts
    by_cases h1 : part.fieldno > BOX_INDEX_FIELD_MAX
    · rw [if_pos h1]
      constructor
      · intro h; cases h
      · intro h
        have := h.1 part (List.mem_cons_self _ _)
        omega
    · rw [if_neg h1]
      by_cases h2 : (seen.any fun earlier => part.fieldno == earlier.fieldno) = true
      · rw [if_pos h2]
        constructor
        · intro h; cases h
        · intro h
          simp only [List.any_eq_true, beq_iff_eq] at h2
          obtain ⟨q, hq, hpq⟩ := h2
          exact absurd hpq (h.2.1 part (List.mem_cons_self _ _) q hq)
      · rw [if_neg h2, ih]
        simp only [List.any_eq_true, beq_iff_eq, not_exists, not_and] at h2
        simp only [List.mem_cons, forall_eq_or_imp, List.mem_append, List.mem_singleton,
          List.map_cons, List.nodup_cons, List.mem_map, not_exists, not_and, List.not_mem_nil,
          or_false]
        constructor
        · rintro ⟨ha, hb, hc⟩
          refine ⟨⟨by omega, ha⟩, ⟨h2, fun p hp q hq => hb p hp q (Or.inl hq)⟩, ?_, hc⟩
          intro p hp hpp
          exact hb p hp part (Or.inr rfl) hpp
        · rintro ⟨⟨_, ha⟩, ⟨_, hb⟩, hn, hc⟩
          refine ⟨ha, ?_, hc⟩
          intro p hp q hq
          rcases hq with hq | rfl
          · exact hb p hp q hq
          · exact fun hpq => hn p hp hpq

theorem index_def_is_valid_parts_error (index_def : Tarantool.index_def)
    (space_name : String) (seen parts : List key_part) (e : ClientError)
    (h : index_def_is_valid_parts index_def space_name seen parts = Except.error e) :
    ∃ reason, e = index_def_error index_def space_name reason := by
  induction parts generalizing seen with
  | nil => cases h
  | cons part rest ih =>
    unfold index_def_is_valid_parts at h
    split_ifs at h
    · cases h; exact ⟨_, rfl⟩
    · cases h; exact ⟨_, rfl⟩
    · exact ih _ h

/-- **C30.**  `index_def_is_valid` returns true exactly when the index id is
below `BOX_INDEX_MAX`, the index is unique if its id is 0, the own key has at
least one and at most `BOX_INDEX_PART_MAX` parts, no part has a field number
above `BOX_INDEX_FIELD_MAX`, and no two parts have the same field number;
otherwise it returns false with a diagnostic of code `ER_MODIFY_INDEX` that
carries the index name, the space name and a reason. -/
theorem index_def_is_valid_iff (index_def : Tarantool.index_def) (space_name : String) :
    (index_def_is_valid index_def space_name = Except.ok () ↔
        (index_def.iid < BOX_INDEX_MAX ∧
          (index_def.iid = 0 → index_def.opts.is_unique = true) ∧
          0 < index_def.key_def.part_count ∧
          index_def.key_def.part_count ≤ BOX_INDEX_PART_MAX ∧
          (∀ p ∈ index_def.key_def.parts, p.fieldno ≤ BOX_INDEX_FIELD_MAX) ∧
          (index_def.key_def.parts.map key_part.fieldno).Nodup)) ∧
      (∀ e, index_def_is_valid index_def space_name = Except.error e →
        e.code = box_error_code.ER_MODIFY_INDEX ∧
          ∃ reason, e.args = [index_def.name, space_name, reason]) := by
  constructor
  · unfold index_def_is_valid
    by_cases h1 : index_def.iid ≥ BOX_INDEX_MAX
    · rw [if_pos h1]
      constructor
      · intro h; cases h
      · intro h; omega
    · rw [if_neg h1]
      by_cases h2 : index_def.iid = 0 ∧ index_def.opts.is_unique = false
      · rw [if_pos h2]
        constructor
        · intro h; cases h
        · intro h
          have := h.2.1 h2.1
          rw [h2.2] at this
          cases this
      · rw [if_neg h2]
        by_cases h3 : index_def.key_def.part_count = 0
        · rw [if_pos h3]
          constructor
          · intro h; cases h
          · intro h; omega
        · rw [if_neg h3]
          by_cases h4 : index_def.key_def.part_count > BOX_INDEX_PART_MAX
          · rw [if_pos h4]
            constructor
            · intro h; cases h
            · intro h; omega
          · rw [if_neg h4, index_def_is_valid_parts_ok_iff]
            constructor
            · rintro ⟨ha, _, hc⟩
              refine ⟨by omega, ?_, by omega, by omega, ha, hc⟩
              intro h0
              cases hu : index_def.opts.is_unique with
              | true => rfl
              | false => exact absurd ⟨h0, hu⟩ h2
            · rintro ⟨_, _, _, _, ha, hc⟩
              exact ⟨ha, fun p _ q hq => absurd hq (List.not_mem_nil _), hc⟩
  · intro e h
    unfold index_def_is_valid at h
    have hgen : ∀ reason, e = index_def_error index_def space_name reason →
        e.code = box_error_code.ER_MODIFY_INDEX ∧
          ∃ reason, e.args = [index_def.name, space_name, reason] := by
      intro reason he
      subst he
      exact ⟨rfl, reason, rfl⟩
    split_ifs at h
    · cases h; exact hgen _ rfl
    · cases h; exact hgen _ rfl
    · cases h; exact hgen _ rfl
    · cases h; exact hgen _ rfl
    · obtain ⟨reason, he⟩ := index_def_is_valid_parts_error _ _ _ _ _ h
      exact hgen _ he


/-! ## The engine with foreign keys switched off -/

/-- **C37.**  With the session's foreign-key flag off the engine is inert,
whatever constraints the schema holds: `fkey_old_mask` is 0,
`fkey_is_required` is false for a delete and for every change array,
`sqlite3FkCheck` returns the parse context as it got it (no instruction, no
cursor, no flag), and `sqlite3FkActions` returns the parse context and the
constraints that refer to the table as they were, so no action program is
called, built or stored in a slot. -/
theorem fkey_disabled_inert (user_session : session) (space_by_id : Nat → space)
    (hoff : user_session.SQLITE_ForeignKeys = false) :
    (∀ space_id, fkey_old_mask user_session space_by_id space_id = 0) ∧
    (∀ space_id changes, fkey_is_required user_session space_by_id space_id changes = false) ∧
    (∀ pParse pTab regOld regNew aChange,
      sqlite3FkCheck user_session space_by_id pParse pTab regOld regNew aChange = pParse) ∧
    (∀ mallocFailed pParse pTab pChanges regOld aChange,
      sqlite3FkActions user_session space_by_id mallocFailed pParse pTab pChanges regOld
        aChange = (pParse, (space_by_id pTab.def_.id).parent_fkey)) := by
  refine ⟨?_, ?_, ?_, ?_⟩
  · intro space_id
    simp [fkey_old_mask, hoff]
  · intro space_id changes
    simp [fkey_is_required, hoff]
  · intro pParse pTab regOld regNew aChange
    simp [sqlite3FkCheck, hoff]
  · intro mallocFailed pParse pTab pChanges regOld aChange
    simp [sqlite3FkActions, hoff]

/-- Witness of **C37**: a session with the flag off, over the schema in which
space 2 references space 1 by a two-link CASCADE constraint. -/
theorem fkey_disabled_inert_witness :
    fkey_old_mask sampleSessionOff
      (sampleSchema2 [sampleFkey2 2 1 fkey_action.FKEY_ACTION_CASCADE
        fkey_action.FKEY_ACTION_CASCADE]) 1 = 0 ∧
    fkey_is_required sampleSessionOff
      (sampleSchema2 [sampleFkey2 2 1 fkey_action.FKEY_ACTION_CASCADE
        fkey_action.FKEY_ACTION_CASCADE]) 1 none = false ∧
    sqlite3FkCheck sampleSessionOff
      (sampleSchema2 [sampleFkey2 2 1 fkey_action.FKEY_ACTION_CASCADE
        fkey_action.FKEY_ACTION_CASCADE]) sampleParseMulti (sampleTable 1) 1 0 none =
      sampleParseMulti ∧
    sqlite3FkActions sampleSessionOff
      (sampleSchema2 [sampleFkey2 2 1 fkey_action.FKEY_ACTION_CASCADE
        fkey_action.FKEY_ACTION_CASCADE]) false sampleParseMulti (sampleTable 1) none 1 none =
      (sampleParseMulti, [sampleFkey2 2 1 fkey_action.FKEY_ACTION_CASCADE
        fkey_action.FKEY_ACTION_CASCADE]) :=
  have h := fkey_disabled_inert sampleSessionOff
    (sampleSchema2 [sampleFkey2 2 1 fkey_action.FKEY_ACTION_CASCADE
      fkey_action.FKEY_ACTION_CASCADE]) rfl
  ⟨h.1 1, h.2.1 1 none, h.2.2.1 sampleParseMulti (sampleTable 1) 1 0 none,
    h.2.2.2 false sampleParseMulti (sampleTable 1) none 1 none⟩


/-! ## The may-abort flag of the parent-side old-row scan -/

/-- **C35**, the code at the failing inputs.  A DELETE of a row of parent
space 1 in a multi-row statement, the immediate one-link constraint of child
space 2 referring to it.  With ON DELETE CASCADE and ON UPDATE NO ACTION the
old-row scan is generated and the may-abort flag is set, although the action
that applies to the delete is CASCADE; with ON DELETE NO ACTION and ON UPDATE
CASCADE the flag stays clear, although no action repairs the delete.  The
flag follows `on_update` whatever the operation is. -/
theorem sqlite3FkCheck_delete_mayAbort_reads_on_update :
    sampleParseMulti.mayAbort = false ∧
    (sqlite3FkCheck sampleSession
        (sampleSchema 1 [sampleFkey false 2 1 fkey_action.FKEY_ACTION_CASCADE
          fkey_action.FKEY_NO_ACTION])
        sampleParseMulti (sampleTable 1) 1 0 none).mayAbort = true ∧
    (sqlite3FkCheck sampleSession
        (sampleSchema 1 [sampleFkey false 2 1 fkey_action.FKEY_NO_ACTION
          fkey_action.FKEY_ACTION_CASCADE])
        sampleParseMulti (sampleTable 1) 1 0 none).mayAbort = false ∧
    (sqlite3FkCheck sampleSession
        (sampleSchema 1 [sampleFkey false 2 1 fkey_action.FKEY_ACTION_CASCADE
          fkey_action.FKEY_NO_ACTION])
        sampleParseMulti (sampleTable 1) 1 0 none).pVdbe.aOp.length = 3 ∧
    (sqlite3FkCheck sampleSession
        (sampleSchema 1 [sampleFkey false 2 1 fkey_action.FKEY_NO_ACTION
          fkey_action.FKEY_ACTION_CASCADE])
        sampleParseMulti (sampleTable 1) 1 0 none).pVdbe.aOp.length = 3 := by
  refine ⟨by decide, by decide, by decide, by decide, by decide⟩


/-! ## `fkey_is_required` as a gate of `sqlite3FkCheck` -/

/-- A loop whose body leaves the state alone on the elements that fail `p`
runs as the loop over the elements that satisfy `p`. -/
theorem foldl_filter_skip {α β : Type} (f : β → α → β) (p : α → Bool) (l : List α)
    (h : ∀ b a, a ∈ l → p a = false → f b a = b) (b : β) :
    l.foldl f b = (l.filter p).foldl f b := by
  induction l generalizing b with
  | nil => rfl
  | cons a l ih =>
    have ih2 := ih (fun b x hx hp => h b x (List.mem_cons_of_mem a hx) hp)
    cases hp : p a with
    | true => simp only [List.foldl_cons, List.filter_cons, hp, if_true]; exact ih2 _
    | false =>
      simp only [List.foldl_cons, List.filter_cons, hp]
      rw [h b a (List.mem_cons_self a l) hp]
      simpa using ih2 b

/-- A loop whose body leaves the state alone on every element does nothing. -/
theorem foldl_skip_all {α β : Type} (f : β → α → β) (l : List α)
    (h : ∀ b a, a ∈ l → f b a = b) (b : β) : l.foldl f b = b := by
  induction l generalizing b with
  | nil => rfl
  | cons a l ih =>
    simp only [List.foldl_cons]
    rw [h b a (List.mem_cons_self a l)]
    exact ih (fun b x hx => h b x (List.mem_cons_of_mem a hx)) b

/-- Counterexample to **C36** as stated: space 2 references itself through
its columns 1 and 0, and an UPDATE changes column 2 only.  `fkey_is_required`
is false, yet `sqlite3FkCheck`, called for the new row image of the same
update, generates the child-side lookup of the constraint: nine instructions,
among them the `OP_Found` probe of the parent index. -/
theorem fkey_is_required_misses_self_reference :
    fkey_is_required sampleSession sampleSchemaSelf 2 (some (sampleChange 2)) = false ∧
    ((sqlite3FkCheck sampleSession sampleSchemaSelf sampleParseMulti
        { def_ := (sampleSchemaSelf 2).def_, iPKey := -1 } 0 4
        (some (sampleChange 2))).pVdbe.aOp.map VdbeOp.opcode) =
      [Opcode.OP_IsNull, Opcode.OP_OpenWrite, Opcode.OP_Copy, Opcode.OP_Ne, Opcode.OP_Goto,
        Opcode.OP_MakeRecord, Opcode.OP_Found, Opcode.OP_FkCounter, Opcode.OP_Close] ∧
    sampleParseMulti.pVdbe.aOp = [] := by
  refine ⟨by decide, by decide, rfl⟩

/-- **C36**, amended.  When `fkey_is_required` returns false for the space and
the change array (or for a delete), `sqlite3FkCheck` called for the same
space and change array generates no parent-side scan, and a child-side lookup
only for the constraints of the child list that refer to the space itself:
its result is the child loop run over those constraints alone.  So for a
delete, and for an update of a space without a self-referencing constraint,
the parse context comes back as it was. -/
theorem fkey_is_required_gate (user_session : session) (space_by_id : Nat → space)
    (pParse : Parse) (pTab : Table) (regOld regNew : Nat) (aChange : Option (Nat → Int))
    (hreq : fkey_is_required user_session space_by_id pTab.def_.id aChange = false) :
    sqlite3FkCheck user_session space_by_id pParse pTab regOld regNew aChange =
      (if user_session.SQLITE_ForeignKeys = false then pParse
       else
        (((space_by_id pTab.def_.id).child_fkey.filter fun fk =>
            decide (fk.def_.parent_id = (space_by_id pTab.def_.id).def_.id)).foldl
          (sqlite3FkCheck_child user_session space_by_id (space_by_id pTab.def_.id)
            regOld regNew aChange) pParse)) ∧
    ((aChange = none ∨ ∀ fk ∈ (space_by_id pTab.def_.id).child_fkey,
        fk.def_.parent_id ≠ (space_by_id pTab.def_.id).def_.id) →
      sqlite3FkCheck user_session space_by_id pParse pTab regOld regNew aChange = pParse) := by
  have hmain : sqlite3FkCheck user_session space_by_id pParse pTab regOld regNew aChange =
      (if user_session.SQLITE_ForeignKeys = false then pParse
       else
        (((space_by_id pTab.def_.id).child_fkey.filter fun fk =>
            decide (fk.def_.parent_id = (space_by_id pTab.def_.id).def_.id)).foldl
          (sqlite3FkCheck_child user_session space_by_id (space_by_id pTab.def_.id)
            regOld regNew aChange) pParse)) := by
    unfold sqlite3FkCheck
    by_cases hoff : user_session.SQLITE_ForeignKeys = false
    · simp only [hoff, if_true]
    · simp only [if_neg hoff]
      have hon : user_session.SQLITE_ForeignKeys = true := by simpa using hoff
      unfold fkey_is_required at hreq
      simp only [hon, if_true] at hreq
      cases aChange with
      | none =>
        simp only [Bool.or_eq_false_iff, Bool.not_eq_false', List.isEmpty_iff] at hreq
        simp [hreq.1, hreq.2]
      | some changes =>
        simp only at hreq
        have hchild : ((space_by_id pTab.def_.id).child_fkey.any fun p =>
            fkey_child_is_modified p.def_ changes) = false := by
          by_contra hc
          simp only [Bool.not_eq_false] at hc
          simp [hc] at hreq
        have hparent : ((space_by_id pTab.def_.id).parent_fkey.any fun p =>
            fkey_parent_is_modified p.def_ changes) = false := by
          by_contra hc
          simp only [Bool.not_eq_false] at hc
          simp [hc] at hreq
        rw [foldl_skip_all (sqlite3FkCheck_parent user_session space_by_id pTab regOld regNew
          (some changes)) (space_by_id pTab.def_.id).parent_fkey]
        · exact foldl_filter_skip _ _ _ (by
            intro b fk hfk hp
            have hnm : fkey_child_is_modified fk.def_ changes = false := by
              have := List.any_eq_false.mp hchild fk hfk
              simpa using this
            have hne : ¬ (space_by_id pTab.def_.id).def_.id = fk.def_.parent_id := by
              intro h
              simp [h] at hp
            simp [sqlite3FkCheck_child, hnm, hne]) pParse
        · intro b fk hfk
          have hnm : fkey_parent_is_modified fk.def_ changes = false := by
            have := List.any_eq_false.mp hparent fk hfk
            simpa using this
          simp [sqlite3FkCheck_parent, hnm]
  refine ⟨hmain, ?_⟩
  intro h
  rw [hmain]
  by_cases hoff : user_session.SQLITE_ForeignKeys = false
  · simp only [hoff, if_true]
  · simp only [if_neg hoff]
    have hon : user_session.SQLITE_ForeignKeys = true := by simpa using hoff
    rcases h with h | h
    · subst h
      unfold fkey_is_required at hreq
      simp only [hon, if_true, Bool.or_eq_false_iff, Bool.not_eq_false',
        List.isEmpty_iff] at hreq
      simp [hreq.2]
    · have : ((space_by_id pTab.def_.id).child_fkey.filter fun fk =>
          decide (fk.def_.parent_id = (space_by_id pTab.def_.id).def_.id)) = [] := by
        rw [List.filter_eq_nil_iff]
        intro fk hfk
        simpa using h fk hfk
      rw [this]
      rfl

/-- Witness of **C36**, amended: space 1 is referenced by space 2 through
columns 0 and 1, and an UPDATE of space 1 changes column 2 only. -/
theorem fkey_is_required_gate_witness :
    fkey_is_required sampleSession
      (sampleSchema2 [sampleFkey2 2 1 fkey_action.FKEY_ACTION_CASCADE
        fkey_action.FKEY_ACTION_CASCADE]) (sampleTable 1).def_.id
      (some (sampleChange 2)) = false ∧
    sqlite3FkCheck sampleSession
      (sampleSchema2 [sampleFkey2 2 1 fkey_action.FKEY_ACTION_CASCADE
        fkey_action.FKEY_ACTION_CASCADE]) sampleParseMulti (sampleTable 1) 1 0
      (some (sampleChange 2)) = sampleParseMulti :=
  ⟨by decide,
   (fkey_is_required_gate sampleSession
      (sampleSchema2 [sampleFkey2 2 1 fkey_action.FKEY_ACTION_CASCADE
        fkey_action.FKEY_ACTION_CASCADE]) sampleParseMulti (sampleTable 1) 1 0
      (some (sampleChange 2)) (by decide)).2 (Or.inr (by decide))⟩


/-! ## The jump target of the self-reference test -/

/-- The self-reference comparisons jump to `jump` at the first link whose
child-side or parent-side value is NULL or whose two values differ. -/
theorem exec_codeNe_mismatch (v : Vdbe) (db : Database) (links : List field_link)
    (reg_data jump : Nat) (a : Nat) (s : VdbeState)
    (hcode : CodeAt v a (codeNe links reg_data jump)) (hpc : s.pc = a)
    (hrun : s.status = VdbeStatus.running)
    (hne : ∃ l ∈ links, s.aMem (l.child_field + 1 + reg_data) = Mem.val Value.Null ∨
      s.aMem (l.child_field + 1 + reg_data) ≠ s.aMem (l.parent_field + 1 + reg_data)) :
    ∃ k, 0 < k ∧ k ≤ links.length ∧ sqlite3VdbeExec v db k s = { s with pc := jump } := by
  induction links generalizing a s with
  | nil => simp at hne
  | cons l ls ih =>
    have hfetch : v.aOp[s.pc]? = some (⟨Opcode.OP_Ne,
        ((l.child_field + 1 + reg_data : Nat) : Int), ((jump : Nat) : Int),
        ((l.parent_field + 1 + reg_data : Nat) : Int), P4.P4_NOTUSED, SQLITE_JUMPIFNULL⟩ :
        VdbeOp) := hpc ▸ CodeAt_head hcode
    have htail : CodeAt v (a + 1) (codeNe ls reg_data jump) := CodeAt_tail hcode
    by_cases hP : s.aMem (l.child_field + 1 + reg_data) = Mem.val Value.Null ∨
        s.aMem (l.child_field + 1 + reg_data) ≠ s.aMem (l.parent_field + 1 + reg_data)
    · refine ⟨1, by omega, by simp, ?_⟩
      rw [sqlite3VdbeExec_one, step_Ne v db s _ _ _ _ hrun hfetch]
      by_cases hnull : s.aMem (l.child_field + 1 + reg_data) = Mem.val Value.Null ∨
          s.aMem (l.parent_field + 1 + reg_data) = Mem.val Value.Null
      · rw [if_pos hnull]; simp [jumpToP2, resolveP2_nat]
      · have hd : s.aMem (l.parent_field + 1 + reg_data) ≠
            s.aMem (l.child_field + 1 + reg_data) := by
          rcases hP with h | h
          · exact absurd (Or.inl h) hnull
          · exact fun e => h e.symm
        rw [if_neg hnull, if_pos hd]; simp [jumpToP2, resolveP2_nat]
    · have hl : s.aMem (l.child_field + 1 + reg_data) ≠ Mem.val Value.Null :=
        fun h => hP (Or.inl h)
      have he : s.aMem (l.child_field + 1 + reg_data) =
          s.aMem (l.parent_field + 1 + reg_data) := by
        by_contra h
        exact hP (Or.inr h)
      have hstep : sqlite3VdbeStep v db s = { s with pc := a + 1 } := by
        rw [step_Ne v db s _ _ _ _ hrun hfetch, if_neg (by rw [← he]; simp [hl]),
          if_neg (by simp [he]), hpc]
      have hne2 : ∃ l ∈ ls, s.aMem (l.child_field + 1 + reg_data) = Mem.val Value.Null ∨
          s.aMem (l.child_field + 1 + reg_data) ≠ s.aMem (l.parent_field + 1 + reg_data) := by
        obtain ⟨l2, hl2, h2⟩ := hne
        rcases List.mem_cons.mp hl2 with rfl | hmem
        · exact absurd h2 hP
        · exact ⟨l2, hmem, h2⟩
      obtain ⟨k, _, hk, hexec⟩ := ih (a + 1) { s with pc := a + 1 } htail rfl hrun hne2
      refine ⟨k + 1, by omega, by simp [hk], ?_⟩
      simp only [sqlite3VdbeExec, hstep, hexec]

/-- **C40.**  The self-reference test that `fkey_lookup_parent` emits for an
insert into a space that is its own parent.  Let `n` be the number of links
and `cur` the address of the next instruction when the test is reached (after
the `n` NULL tests, the cursor opening and the `n` key copies).  The `n`
`OP_Ne` comparisons sit at `cur .. cur + n - 1`, in link order, each with the
jump operand `cur + n + 1`; the `OP_Goto` to the satisfied label sits at
`cur + n`; and `cur + n + 1` is the address of the `OP_MakeRecord` that starts
the probe of the parent index.  Run from `cur`: when every link has a non-NULL
child-side value equal to the parent-side one, the `n` comparisons fall
through to the `OP_Goto`; when some link has a NULL or a different value, a
comparison jumps and the run is at the `OP_MakeRecord`. -/
theorem fkey_lookup_parent_self_test_jump (user_session : session) (parse_context : Parse)
    (parent : space) (fk_def : fkey_def) (referenced_idx reg_data : Nat)
    (hself : parent.def_.id = fk_def.child_id) :
    (∀ i l, fk_def.links[i]? = some l →
      (fkey_lookup_parent user_session parse_context parent fk_def referenced_idx reg_data
          1 false).pVdbe.aOp[parse_context.pVdbe.aOp.length + fk_def.field_count + 1 +
            fk_def.field_count + i]? =
        some ⟨Opcode.OP_Ne, ((l.child_field + 1 + reg_data : Nat) : Int),
          ((parse_context.pVdbe.aOp.length + fk_def.field_count + 1 + fk_def.field_count +
            fk_def.field_count + 1 : Nat) : Int),
          ((l.parent_field + 1 + reg_data : Nat) : Int), P4.P4_NOTUSED, SQLITE_JUMPIFNULL⟩) ∧
    (fkey_lookup_parent user_session parse_context parent fk_def referenced_idx reg_data
        1 false).pVdbe.aOp[parse_context.pVdbe.aOp.length + fk_def.field_count + 1 +
          fk_def.field_count + fk_def.field_count]? =
      some ⟨Opcode.OP_Goto, 0, okLabel parse_context.pVdbe, 0, P4.P4_NOTUSED, 0⟩ ∧
    ((fkey_lookup_parent user_session parse_context parent fk_def referenced_idx reg_data
        1 false).pVdbe.aOp[parse_context.pVdbe.aOp.length + fk_def.field_count + 1 +
          fk_def.field_count + fk_def.field_count + 1]?).map VdbeOp.opcode =
      some Opcode.OP_MakeRecord ∧
    ∀ (db : Database) (s : VdbeState),
      s.pc = parse_context.pVdbe.aOp.length + fk_def.field_count + 1 + fk_def.field_count →
      s.status = VdbeStatus.running →
      ((∀ l ∈ fk_def.links,
          s.aMem (l.child_field + 1 + reg_data) ≠ Mem.val Value.Null ∧
          s.aMem (l.child_field + 1 + reg_data) = s.aMem (l.parent_field + 1 + reg_data)) →
        sqlite3VdbeExec (fkey_lookup_parent user_session parse_context parent fk_def
            referenced_idx reg_data 1 false).pVdbe db fk_def.field_count s =
          { s with pc := parse_context.pVdbe.aOp.length + fk_def.field_count + 1 +
              fk_def.field_count + fk_def.field_count }) ∧
      ((∃ l ∈ fk_def.links,
          s.aMem (l.child_field + 1 + reg_data) = Mem.val Value.Null ∨
          s.aMem (l.child_field + 1 + reg_data) ≠ s.aMem (l.parent_field + 1 + reg_data)) →
        ∃ k, 0 < k ∧ k ≤ fk_def.field_count ∧
          sqlite3VdbeExec (fkey_lookup_parent user_session parse_context parent fk_def
              referenced_idx reg_data 1 false).pVdbe db k s =
            { s with pc := parse_context.pVdbe.aOp.length + fk_def.field_count + 1 +
                fk_def.field_count + fk_def.field_count + 1 }) := by
  obtain ⟨hcode, -, -⟩ := fkey_lookup_parent_layout user_session parse_context parent fk_def
    referenced_idx reg_data 1 false
  have hbody := CodeAt_left hcode
  unfold codeBody at hbody
  simp only [codeFkIfZero, show ¬ ((1 : Int) < 0) from by decide, if_false, List.nil_append,
    List.length_nil, Nat.add_zero, if_true, codeIsNull_length] at hbody
  have hC := CodeAt_left (CodeAt_right hbody)
  rw [codeIsNull_length] at hC
  unfold codeProbe at hC
  have hrest := CodeAt_right (CodeAt_right hC)
  simp only [List.length_singleton, codeCopy_length] at hrest
  have hselfcode := CodeAt_left hrest
  have hfound := CodeAt_right hrest
  simp only [codeSelf, hself, and_self, and_true, if_true] at hselfcode hfound
  have hNe := CodeAt_left hselfcode
  have hGoto := CodeAt_right hselfcode
  simp only [List.length_append, codeNe_length, List.length_singleton] at hfound hGoto
  have hfc : fk_def.field_count = fk_def.links.length := rfl
  refine ⟨?_, ?_, ?_, ?_⟩
  · intro i l hl
    have hi : i < fk_def.links.length := by
      rcases Nat.lt_or_ge i fk_def.links.length with h | h
      · exact h
      · rw [List.getElem?_eq_none h] at hl; cases hl
    have := hNe i (by rw [codeNe_length]; exact hi)
    rw [hfc]
    rw [this]
    simp [codeNe, hl, hfc, Nat.add_assoc]
  · have := CodeAt_head hGoto
    rw [hfc]
    rw [this]
  · have := CodeAt_head (by simpa [codeFound] using hfound)
    rw [hfc]
    simp only [Nat.add_assoc] at this ⊢
    rw [this]
    rfl
  · intro db s hpc hrun
    rw [hfc] at hpc ⊢
    constructor
    · intro hall
      exact exec_codeNe_pass _ db fk_def.links reg_data _ _ s hNe hpc hrun
        (fun l hl => (hall l hl).1) (fun l hl => (hall l hl).2)
    · intro hne
      obtain ⟨k, hk0, hk, hexec⟩ := exec_codeNe_mismatch _ db fk_def.links reg_data _ _ s hNe
        hpc hrun hne
      refine ⟨k, hk0, hk, ?_⟩
      rw [hexec]
      simp [hfc, Nat.add_assoc]

/-- Witness of **C40**: the one-link constraint of space 2 on itself, in an
empty program.  The comparison is at address 3 with jump operand 5, the
`OP_Goto` at address 4 and the `OP_MakeRecord` at address 5. -/
theorem fkey_lookup_parent_self_test_jump_witness :
    (sampleSpace 2).def_.id = (sampleFk false 2 2).child_id ∧
    (fkey_lookup_parent sampleSession sampleParse (sampleSpace 2) (sampleFk false 2 2) 0 0
        1 false).pVdbe.aOp[3]? =
      some ⟨Opcode.OP_Ne, 2, 5, 1, P4.P4_NOTUSED, SQLITE_JUMPIFNULL⟩ ∧
    (fkey_lookup_parent sampleSession sampleParse (sampleSpace 2) (sampleFk false 2 2) 0 0
        1 false).pVdbe.aOp[4]? =
      some ⟨Opcode.OP_Goto, 0, okLabel sampleParse.pVdbe, 0, P4.P4_NOTUSED, 0⟩ ∧
    ((fkey_lookup_parent sampleSession sampleParse (sampleSpace 2) (sampleFk false 2 2) 0 0
        1 false).pVdbe.aOp[5]?).map VdbeOp.opcode = some Opcode.OP_MakeRecord :=
  ⟨by decide,
   (fkey_lookup_parent_self_test_jump sampleSession sampleParse (sampleSpace 2)
      (sampleFk false 2 2) 0 0 (by decide)).1 0 { parent_field := 0, child_field := 1 } rfl,
   (fkey_lookup_parent_self_test_jump sampleSession sampleParse (sampleSpace 2)
      (sampleFk false 2 2) 0 0 (by decide)).2.1,
   (fkey_lookup_parent_self_test_jump sampleSession sampleParse (sampleSpace 2)
      (sampleFk false 2 2) 0 0 (by decide)).2.2.1⟩


/-! ## The reason reported for a repeated key part -/

/-- The loop over the key parts ends with success or with one of its two
reasons; with every field number within the bound, only with the second. -/
theorem index_def_is_valid_parts_cases (index_def : Tarantool.index_def)
    (space_name : String) (seen parts : List key_part) :
    (index_def_is_valid_parts index_def space_name seen parts = Except.ok () ∨
      index_def_is_valid_parts index_def space_name seen parts =
        Except.error (index_def_error index_def space_name "same key part is indexed twice") ∨
      index_def_is_valid_parts index_def space_name seen parts =
        Except.error (index_def_error index_def space_name "field no is too big")) ∧
    ((∀ p ∈ parts, p.fieldno ≤ BOX_INDEX_FIELD_MAX) →
      index_def_is_valid_parts index_def space_name seen parts = Except.ok () ∨
      index_def_is_valid_parts index_def space_name seen parts =
        Except.error (index_def_error index_def space_name "same key part is indexed twice")) := by
  induction parts generalizing seen with
  | nil => simp [index_def_is_valid_parts]
  | cons part rest ih =>
    unfold index_def_is_valid_parts
    by_cases h1 : part.fieldno > BOX_INDEX_FIELD_MAX
    · rw [if_pos h1]
      refine ⟨Or.inr (Or.inr rfl), ?_⟩
      intro h
      have := h part (List.mem_cons_self _ _)
      omega
    · rw [if_neg h1]
      by_cases h2 : (seen.any fun earlier => part.fieldno == earlier.fieldno) = true
      · rw [if_pos h2]
        exact ⟨Or.inr (Or.inl rfl), fun _ => Or.inr rfl⟩
      · rw [if_neg h2]
        exact ⟨(ih (seen ++ [part])).1,
          fun h => (ih (seen ++ [part])).2 fun p hp => h p (List.mem_cons_of_mem _ hp)⟩

/-- Counterexample to **C31** as stated: the unique index 1 over the parts
with field numbers 0, 2^31 and 0 passes the id, primary-uniqueness and
part-count checks and names field 0 twice, but the reason reported is
"field no is too big": the second part fails the bound test before the third
part is compared with the first. -/
theorem index_def_is_valid_duplicate_after_big :
    ({ iid := 1, space_id := 512, name := "i", type := index_type.TREE,
       opts := index_opts_default, key_def := sampleKey [0, 2 ^ 31, 0],
       cmp_def := sampleKey [0, 2 ^ 31, 0] } : index_def).iid < BOX_INDEX_MAX ∧
    0 < (sampleKey [0, 2 ^ 31, 0]).part_count ∧
    (sampleKey [0, 2 ^ 31, 0]).part_count ≤ BOX_INDEX_PART_MAX ∧
    ¬ ((sampleKey [0, 2 ^ 31, 0]).parts.map key_part.fieldno).Nodup ∧
    index_def_is_valid
        { iid := 1, space_id := 512, name := "i", type := index_type.TREE,
          opts := index_opts_default, key_def := sampleKey [0, 2 ^ 31, 0],
          cmp_def := sampleKey [0, 2 ^ 31, 0] } "t" =
      Except.error
        { code := box_error_code.ER_MODIFY_INDEX, args := ["i", "t", "field no is too big"] } := by
  refine ⟨by decide, by decide, by decide, by decide, rfl⟩

/-- **C31**, amended.  An index definition that passes the id,
primary-uniqueness and part-count checks and in which two parts have the same
field number is rejected by `index_def_is_valid`.  The reason reported is
"same key part is indexed twice" when every part has its field number within
`BOX_INDEX_FIELD_MAX`; in general it is that reason or "field no is too big",
the bound of a part being tested before the part is compared with the earlier
ones. -/
theorem index_def_is_valid_duplicate (index_def : Tarantool.index_def) (space_name : String)
    (hid : index_def.iid < BOX_INDEX_MAX)
    (hpk : index_def.iid = 0 → index_def.opts.is_unique = true)
    (hpos : 0 < index_def.key_def.part_count)
    (hmax : index_def.key_def.part_count ≤ BOX_INDEX_PART_MAX)
    (hdup : ¬ (index_def.key_def.parts.map key_part.fieldno).Nodup) :
    (index_def_is_valid index_def space_name =
        Except.error (index_def_error index_def space_name "same key part is indexed twice") ∨
      index_def_is_valid index_def space_name =
        Except.error (index_def_error index_def space_name "field no is too big")) ∧
    ((∀ p ∈ index_def.key_def.parts, p.fieldno ≤ BOX_INDEX_FIELD_MAX) →
      index_def_is_valid index_def space_name =
        Except.error (index_def_error index_def space_name "same key part is indexed twice")) := by
  have hval : index_def_is_valid index_def space_name =
      index_def_is_valid_parts index_def space_name [] index_def.key_def.parts := by
    unfold index_def_is_valid
    rw [if_neg (by omega), if_neg (by
      rintro ⟨h0, hu⟩
      rw [hpk h0] at hu
      cases hu), if_neg (by omega), if_neg (by omega)]
  have hnot : index_def_is_valid_parts index_def space_name [] index_def.key_def.parts ≠
      Except.ok () := by
    intro h
    exact hdup ((index_def_is_valid_parts_ok_iff index_def space_name [] _).mp h).2.2
  obtain ⟨hall, hbound⟩ := index_def_is_valid_parts_cases index_def space_name []
    index_def.key_def.parts
  rw [hval]
  constructor
  · rcases hall with h | h | h
    · exact absurd h hnot
    · exact Or.inl h
    · exact Or.inr h
  · intro hb
    rcases hbound hb with h | h
    · exact absurd h hnot
    · exact h

/-- Witness of **C31**, amended: the unique index 1 over the parts with field
numbers 3, 0 and 3. -/
theorem index_def_is_valid_duplicate_witness :
    index_def_is_valid
        { iid := 1, space_id := 512, name := "i", type := index_type.TREE,
          opts := index_opts_default, key_def := sampleKey [3, 0, 3],
          cmp_def := sampleKey [3, 0, 3] } "t" =
      Except.error
        { code := box_error_code.ER_MODIFY_INDEX,
          args := ["i", "t", "same key part is indexed twice"] } :=
  (index_def_is_valid_duplicate
    { iid := 1, space_id := 512, name := "i", type := index_type.TREE,
      opts := index_opts_default, key_def := sampleKey [3, 0, 3],
      cmp_def := sampleKey [3, 0, 3] } "t" (by decide) (by decide) (by decide) (by decide)
    (by decide)).2 (by decide)


/-! ## Index options: claims -/

/-- **C33.**  The default index options are unique = true, dimension = 2,
distance = EUCLID, range_size = 2^30 = 1073741824, page_size = 8192,
run_count_per_level = 2, run_size_ratio = 3.5 and bloom_fpr = 0.05; they pass
every range check of `index_opts_decode`, and decoding the empty option map
succeeds with exactly these options. -/
theorem index_opts_decode_empty :
    index_opts_default.is_unique = true ∧
    index_opts_default.dimension = 2 ∧
    index_opts_default.distance =
      rtree_index_distance_type.RTREE_INDEX_DISTANCE_TYPE_EUCLID ∧
    index_opts_default.range_size = 2 ^ 30 ∧
    index_opts_default.range_size = 1073741824 ∧
    index_opts_default.page_size = 8192 ∧
    index_opts_default.run_count_per_level = 2 ∧
    index_opts_default.run_size_ratio = double.finite (7 / 2) ∧
    index_opts_default.bloom_fpr = double.finite (1 / 20) ∧
    index_opts_decode_check index_opts_default = Except.ok index_opts_default ∧
    index_opts_decode [] = Except.ok index_opts_default := by
  have h35 : (3.5 : Rat) = 7 / 2 := by norm_num
  have h005 : (0.05 : Rat) = 1 / 20 := by norm_num
  have hle1 : double.le (double.finite 3.5) (double.finite 1) = false := by
    simp only [double.le, decide_eq_false_iff_not, not_le]; norm_num
  have hle2 : double.le (double.finite 0.05) (double.finite 0) = false := by
    simp only [double.le, decide_eq_false_iff_not, not_le]; norm_num
  have hlt : double.lt (double.finite 1) (double.finite 0.05) = false := by
    simp only [double.lt, decide_eq_false_iff_not, not_lt]; norm_num
  have hcheck : index_opts_decode_check index_opts_default = Except.ok index_opts_default := by
    simp [index_opts_decode_check, index_opts_default, hle1, hle2, hlt]
  refine ⟨rfl, rfl, rfl, by decide, rfl, rfl, rfl, ?_, ?_, hcheck, ?_⟩
  · simp [index_opts_default, h35]
  · simp [index_opts_default, h005]
  · simpa [index_opts_decode, opts_decode, index_opts_create] using hcheck

/-- The range checks of `index_opts_decode` accept the decoded options, and
return them as decoded, exactly when none of the six source conditions
fires. -/
theorem index_opts_decode_check_ok_iff (opts : index_opts) :
    index_opts_decode_check opts = Except.ok opts ↔
      opts.distance ≠ rtree_index_distance_type.rtree_index_distance_type_MAX ∧
      0 < opts.range_size ∧
      (0 < opts.page_size ∧ opts.page_size ≤ opts.range_size) ∧
      0 < opts.run_count_per_level ∧
      double.le opts.run_size_ratio (double.finite 1) = false ∧
      (double.le opts.bloom_fpr (double.finite 0) = false ∧
        double.lt (double.finite 1) opts.bloom_fpr = false) := by
  unfold index_opts_decode_check
  by_cases h1 : opts.distance = rtree_index_distance_type.rtree_index_distance_type_MAX
  · simp [h1]
  rw [if_neg h1]
  simp only
  by_cases h2 : opts.range_size ≤ 0
  · rw [if_pos h2]
    constructor
    · intro h; cases h
    · intro h; omega
  rw [if_neg h2]
  by_cases h3 : opts.page_size ≤ 0 ∨ opts.page_size > opts.range_size
  · rw [if_pos h3]
    constructor
    · intro h; cases h
    · intro h; omega
  rw [if_neg h3]
  by_cases h4 : opts.run_count_per_level ≤ 0
  · rw [if_pos h4]
    constructor
    · intro h; cases h
    · intro h; omega
  rw [if_neg h4]
  by_cases h5 : double.le opts.run_size_ratio (double.finite 1) = true
  · rw [if_pos h5]
    constructor
    · intro h; cases h
    · intro h; rw [h.2.2.2.2.1] at h5; cases h5
  rw [if_neg h5]
  by_cases h6 : double.le opts.bloom_fpr (double.finite 0) = true ∨
      double.lt (double.finite 1) opts.bloom_fpr = true
  · rw [if_pos h6]
    constructor
    · intro h; cases h
    · intro h
      rcases h6 with h6 | h6
      · rw [h.2.2.2.2.2.1] at h6; cases h6
      · rw [h.2.2.2.2.2.2] at h6; cases h6
  rw [if_neg h6]
  simp only [true_iff]
  refine ⟨h1, by omega, by omega, by omega, by simpa using h5, ?_, ?_⟩
  · by_contra h; exact h6 (Or.inl (by simpa using h))
  · by_contra h; exact h6 (Or.inr (by simpa using h))

/-- On doubles that are not NaN the negated source comparisons are the
comparisons of the specification: not `r <= 1` is `r > 1`, and neither
`b <= 0` nor `b > 1` is `0 < b` and `b <= 1`. -/
theorem double_checks_of_not_nan (r b : double) (hr : r ≠ double.nan) (hb : b ≠ double.nan) :
    (double.le r (double.finite 1) = false ↔ double.lt (double.finite 1) r = true) ∧
    ((double.le b (double.finite 0) = false ∧ double.lt (double.finite 1) b = false) ↔
      (double.lt (double.finite 0) b = true ∧ double.le b (double.finite 1) = true)) := by
  constructor
  · cases r with
    | finite q => simp [double.le, double.lt]
    | inf negative => cases negative <;> simp [double.le, double.lt]
    | nan => exact absurd rfl hr
  · cases b with
    | finite q => simp only [double.le, double.lt, decide_eq_false_iff_not, decide_eq_true_eq,
        not_le, not_lt]
    | inf negative => cases negative <;> simp [double.le, double.lt]
    | nan => exact absurd rfl hb

/-- Every option the range checks reject is reported under
`ER_WRONG_INDEX_OPTIONS`, with the message of the first check that fails in
the order distance, range_size, page_size, run_count_per_level,
run_size_ratio, bloom_fpr. -/
theorem index_opts_decode_check_error (opts : index_opts) :
    index_opts_decode_check opts =
      if opts.distance = rtree_index_distance_type.rtree_index_distance_type_MAX then
        Except.error
          { code := box_error_code.ER_WRONG_INDEX_OPTIONS,
            args := ["4", "distance must be either 'euclid' or 'manhattan'"] }
      else if ¬ 0 < opts.range_size then
        Except.error
          { code := box_error_code.ER_WRONG_INDEX_OPTIONS,
            args := ["4", "range_size must be greater than 0"] }
      else if ¬ (0 < opts.page_size ∧ opts.page_size ≤ opts.range_size) then
        Except.error
          { code := box_error_code.ER_WRONG_INDEX_OPTIONS,
            args := ["4",
              "page_size must be greater than 0 and less than or equal to range_size"] }
      else if ¬ 0 < opts.run_count_per_level then
        Except.error
          { code := box_error_code.ER_WRONG_INDEX_OPTIONS,
            args := ["4", "run_count_per_level must be greater than 0"] }
      else if double.le opts.run_size_ratio (double.finite 1) = true then
        Except.error
          { code := box_error_code.ER_WRONG_INDEX_OPTIONS,
            args := ["4", "run_size_ratio must be greater than 1"] }
      else if double.le opts.bloom_fpr (double.finite 0) = true ∨
          double.lt (double.finite 1) opts.bloom_fpr = true then
        Except.error
          { code := box_error_code.ER_WRONG_INDEX_OPTIONS,
            args := ["4", "bloom_fpr must be greater than 0 and less than or equal to 1"] }
      else Except.ok opts := by
  unfold index_opts_decode_check
  by_cases h1 : opts.distance = rtree_index_distance_type.rtree_index_distance_type_MAX
  · rw [if_pos h1, if_pos h1]; rfl
  rw [if_neg h1, if_neg h1]
  simp only
  by_cases h2 : opts.range_size ≤ 0
  · rw [if_pos h2, if_pos (show ¬ 0 < opts.range_size from by omega)]; rfl
  rw [if_neg h2, if_neg (show ¬ ¬ 0 < opts.range_size from by omega)]
  by_cases h3 : opts.page_size ≤ 0 ∨ opts.page_size > opts.range_size
  · rw [if_pos h3,
      if_pos (show ¬ (0 < opts.page_size ∧ opts.page_size ≤ opts.range_size) from by omega)]
    rfl
  rw [if_neg h3,
    if_neg (show ¬ ¬ (0 < opts.page_size ∧ opts.page_size ≤ opts.range_size) from by omega)]
  by_cases h4 : opts.run_count_per_level ≤ 0
  · rw [if_pos h4, if_pos (show ¬ 0 < opts.run_count_per_level from by omega)]; rfl
  rw [if_neg h4, if_neg (show ¬ ¬ 0 < opts.run_count_per_level from by omega)]
  rfl

/-- **C32**, the code at the failing inputs.  The option map that gives
`run_size_ratio` (or `bloom_fpr`) as a double NaN and nothing else decodes,
and `index_opts_decode` accepts the options with the NaN stored, although a
NaN is neither greater than 1 nor greater than 0: the tests
`run_size_ratio <= 1`, `bloom_fpr <= 0` and `bloom_fpr > 1` are all false on
a NaN. -/
theorem index_opts_decode_accepts_nan :
    index_opts_decode [(mp_value.str "run_size_ratio", mp_value.double double.nan)] =
      Except.ok { index_opts_default with run_size_ratio := double.nan } ∧
    double.lt (double.finite 1) double.nan = false ∧
    index_opts_decode [(mp_value.str "bloom_fpr", mp_value.double double.nan)] =
      Except.ok { index_opts_default with bloom_fpr := double.nan } ∧
    double.lt (double.finite 0) double.nan = false ∧
    double.le double.nan (double.finite 1) = false := by
  have hle1 : double.le (double.finite 3.5) (double.finite 1) = false := by
    simp only [double.le, decide_eq_false_iff_not, not_le]; norm_num
  have hle2 : double.le (double.finite 0.05) (double.finite 0) = false := by
    simp only [double.le, decide_eq_false_iff_not, not_le]; norm_num
  have hlt : double.lt (double.finite 1) (double.finite 0.05) = false := by
    simp only [double.lt, decide_eq_false_iff_not, not_lt]; norm_num
  refine ⟨?_, rfl, ?_, rfl, rfl⟩
  · have hc : index_opts_decode_check { index_opts_default with run_size_ratio := double.nan } =
        Except.ok { index_opts_default with run_size_ratio := double.nan } := by
      rw [index_opts_decode_check_ok_iff]
      refine ⟨by decide, by decide, by decide, by decide, rfl, ?_, ?_⟩
      · exact hle2
      · exact hlt
    have hd : opts_decode index_opts_reg box_error_code.ER_WRONG_INDEX_OPTIONS
        BOX_INDEX_FIELD_OPTS [(mp_value.str "run_size_ratio", mp_value.double double.nan)]
        index_opts_create =
        Except.ok { index_opts_default with run_size_ratio := double.nan } := rfl
    unfold index_opts_decode
    simp only [hd, hc]
  · have hc : index_opts_decode_check { index_opts_default with bloom_fpr := double.nan } =
        Except.ok { index_opts_default with bloom_fpr := double.nan } := by
      rw [index_opts_decode_check_ok_iff]
      refine ⟨by decide, by decide, by decide, by decide, ?_, rfl, rfl⟩
      exact hle1
    have hd : opts_decode index_opts_reg box_error_code.ER_WRONG_INDEX_OPTIONS
        BOX_INDEX_FIELD_OPTS [(mp_value.str "bloom_fpr", mp_value.double double.nan)]
        index_opts_create =
        Except.ok { index_opts_default with bloom_fpr := double.nan } := rfl
    unfold index_opts_decode
    simp only [hd, hc]


/-! ## The order of index definitions -/

theorem foldl_key_size_mod (M : Nat) (l : List index_sample) (a : Nat) :
    l.foldl (fun alloc_size sample => (alloc_size + sample.key_size) % M) (a % M) =
      (a + (l.map index_sample.key_size).sum) % M := by
  induction l generalizing a with
  | nil => simp
  | cons s l ih =>
    simp only [List.foldl_cons, List.map_cons, List.sum_cons]
    rw [Nat.mod_add_mod, ih, Nat.add_assoc]

theorem index_stat_dup_samples_pos (array_size : Nat) (l : List index_sample) (pos : Nat) :
    (index_stat_dup_samples array_size l pos).2 =
      pos + 3 * array_size * l.length + (l.map index_sample.key_size).sum := by
  induction l generalizing pos with
  | nil => simp [index_stat_dup_samples]
  | cons s l ih =>
    simp only [index_stat_dup_samples, ih, List.length_cons, List.map_cons, List.sum_cons]
    ring

theorem regions_chain_append (a : Nat) (xs ys : List (Nat × Nat)) :
    regions_chain a (xs ++ ys) ↔
      regions_chain a xs ∧ regions_chain (a + (xs.map Prod.snd).sum) ys := by
  induction xs generalizing a with
  | nil => simp [regions_chain]
  | cons r rs ih =>
    show (r.1 = a ∧ regions_chain (a + r.2) (rs ++ ys)) ↔
      (r.1 = a ∧ regions_chain (a + r.2) rs) ∧
        regions_chain (a + ((r :: rs).map Prod.snd).sum) ys
    rw [ih, List.map_cons, List.sum_cons, Nat.add_assoc, and_assoc]

theorem regions_chain_bounds (a : Nat) (rs : List (Nat × Nat)) (h : regions_chain a rs) :
    (∀ r ∈ rs, a ≤ r.1 ∧ r.1 + r.2 ≤ a + (rs.map Prod.snd).sum) ∧
      rs.Pairwise fun r1 r2 => r1.1 + r1.2 ≤ r2.1 := by
  induction rs generalizing a with
  | nil => simp
  | cons r rs ih =>
    obtain ⟨hr, hrest⟩ := h
    obtain ⟨hb, hp⟩ := ih (a + r.2) hrest
    constructor
    · intro x hx
      rcases List.mem_cons.mp hx with rfl | hx
      · simp only [List.map_cons, List.sum_cons]
        omega
      · have := hb x hx
        simp only [List.map_cons, List.sum_cons]
        omega
    · rw [List.pairwise_cons]
      refine ⟨?_, hp⟩
      intro x hx
      have := hb x hx
      omega

theorem index_stat_dup_samples_chain (field_count : Nat) (l : List index_sample) (pos : Nat) :
    regions_chain pos
      ((List.zip (index_stat_dup_samples (4 * field_count) l pos).1 l).flatMap fun qs =>
        [(qs.1.eq, 4 * field_count), (qs.1.lt, 4 * field_count), (qs.1.dlt, 4 * field_count),
          (qs.1.sample_key, qs.2.key_size)]) ∧
    (List.map Prod.snd
        ((List.zip (index_stat_dup_samples (4 * field_count) l pos).1 l).flatMap fun qs =>
          [(qs.1.eq, 4 * field_count), (qs.1.lt, 4 * field_count), (qs.1.dlt, 4 * field_count),
            (qs.1.sample_key, qs.2.key_size)])).sum =
      3 * (4 * field_count) * l.length + (l.map index_sample.key_size).sum := by
  induction l generalizing pos with
  | nil => simp [index_stat_dup_samples, regions_chain]
  | cons s l ih =>
    obtain ⟨hc, hs⟩ := ih (pos + 4 * field_count + 4 * field_count + 4 * field_count + s.key_size)
    simp only [index_stat_dup_samples, List.zip_cons_cons, List.flatMap_cons, List.cons_append,
      List.nil_append, regions_chain, List.map_cons, List.sum_cons, List.length_cons, true_and]
    refine ⟨hc, ?_⟩
    rw [hs]
    ring

/-- **C38.**  Layout of the statistics block, for a field count with
`4 * field_count < 2^32` and any list of samples (the structure size, a
constant, fits 32 bits).  The offset `index_stat_dup` reaches after the
header, `tuple_stat1` and `tuple_log_est` (`field_count + 1` entries each),
`avg_eq` (`field_count` entries), the sample structures and, per sample,
`eq`, `lt`, `dlt` and the key bytes, is `index_stat_sizeof` of the same
samples and field count: as 64-bit values always, and as numbers when the
size of the block does not exceed 64 bits.  In that case the regions follow
one another from offset 0 up to that size, so each lies within the allocated
size and no two overlap. -/
theorem index_stat_dup_layout (sizeof_index_stat sizeof_index_sample field_count : Nat)
    (samples : List index_sample) (h4 : 4 * field_count < 2 ^ 32)
    (hstat : sizeof_index_stat < 2 ^ 32) :
    (index_stat_dup sizeof_index_stat sizeof_index_sample samples samples.length
        field_count).pos % 2 ^ 64 =
      index_stat_sizeof sizeof_index_stat sizeof_index_sample samples samples.length
        field_count ∧
    (index_stat_bytes sizeof_index_stat sizeof_index_sample samples field_count < 2 ^ 64 →
      (index_stat_dup sizeof_index_stat sizeof_index_sample samples samples.length
          field_count).pos =
        index_stat_sizeof sizeof_index_stat sizeof_index_sample samples samples.length
          field_count ∧
      regions_chain 0
        (index_stat_regions sizeof_index_stat sizeof_index_sample samples samples.length
          field_count
          (index_stat_dup sizeof_index_stat sizeof_index_sample samples samples.length
            field_count)) ∧
      (∀ r ∈ index_stat_regions sizeof_index_stat sizeof_index_sample samples samples.length
          field_count
          (index_stat_dup sizeof_index_stat sizeof_index_sample samples samples.length
            field_count),
        r.1 + r.2 ≤ index_stat_sizeof sizeof_index_stat sizeof_index_sample samples
          samples.length field_count) ∧
      (index_stat_regions sizeof_index_stat sizeof_index_sample samples samples.length
          field_count
          (index_stat_dup sizeof_index_stat sizeof_index_sample samples samples.length
            field_count)).Pairwise fun r1 r2 => r1.1 + r1.2 ≤ r2.1) := by
  have harr : field_count * 4 % 2 ^ 32 = 4 * field_count := by
    rw [Nat.mod_eq_of_lt (by omega)]; omega
  have h3 : (3 * field_count + 2) % 2 ^ 32 = 3 * field_count + 2 :=
    Nat.mod_eq_of_lt (by omega)
  have hH : sizeof_index_stat % 2 ^ 32 = sizeof_index_stat := Nat.mod_eq_of_lt hstat
  have hpos : (index_stat_dup sizeof_index_stat sizeof_index_sample samples samples.length
      field_count).pos =
      index_stat_bytes sizeof_index_stat sizeof_index_sample samples field_count := by
    simp only [index_stat_dup, List.take_length, index_stat_dup_samples_pos, harr, hH,
      index_stat_bytes]
    ring
  have hsize : index_stat_sizeof sizeof_index_stat sizeof_index_sample samples samples.length
      field_count =
      index_stat_bytes sizeof_index_stat sizeof_index_sample samples field_count % 2 ^ 64 := by
    simp only [index_stat_sizeof, List.take_length, h3, foldl_key_size_mod, Nat.mod_add_mod,
      index_stat_bytes]
  refine ⟨by rw [hpos, hsize], ?_⟩
  intro hfit
  have hsize2 : index_stat_sizeof sizeof_index_stat sizeof_index_sample samples samples.length
      field_count =
      index_stat_bytes sizeof_index_stat sizeof_index_sample samples field_count := by
    rw [hsize, Nat.mod_eq_of_lt hfit]
  obtain ⟨hc, hs⟩ := index_stat_dup_samples_chain field_count samples
    (sizeof_index_stat + (4 * field_count + 4) + (4 * field_count + 4) + 4 * field_count +
      samples.length * sizeof_index_sample)
  have hchain : regions_chain 0
      (index_stat_regions sizeof_index_stat sizeof_index_sample samples samples.length
        field_count
        (index_stat_dup sizeof_index_stat sizeof_index_sample samples samples.length
          field_count)) := by
    simp only [index_stat_regions, index_stat_dup, List.take_length, harr, hH]
    rw [regions_chain_append]
    refine ⟨?_, ?_⟩
    · simp only [regions_chain, Nat.zero_add, and_true, true_and]
      refine ⟨by ring, by ring, by ring⟩
    · simp only [List.map_cons, List.map_nil, List.sum_cons, List.sum_nil, Nat.zero_add,
        Nat.add_zero]
      have he : sizeof_index_stat + (4 * (field_count + 1) + (4 * (field_count + 1) +
          (4 * field_count + sizeof_index_sample * samples.length))) =
          sizeof_index_stat + (4 * field_count + 4) + (4 * field_count + 4) +
            4 * field_count + samples.length * sizeof_index_sample := by ring
      rw [he]
      exact hc
  have hsum : ((index_stat_regions sizeof_index_stat sizeof_index_sample samples
      samples.length field_count
      (index_stat_dup sizeof_index_stat sizeof_index_sample samples samples.length
        field_count)).map Prod.snd).sum =
      index_stat_bytes sizeof_index_stat sizeof_index_sample samples field_count := by
    simp only [index_stat_regions, index_stat_dup, List.take_length, harr, hH, List.map_append,
      List.sum_append, hs, List.map_cons, List.map_nil, List.sum_cons, List.sum_nil,
      index_stat_bytes]
    ring
  obtain ⟨hb, hp⟩ := regions_chain_bounds 0 _ hchain
  refine ⟨by rw [hpos, hsize2], hchain, ?_, hp⟩
  intro r hr
  have := (hb r hr).2
  rw [hsum, Nat.zero_add] at this
  rw [hsize2]
  exact this

/-- Witness of **C38**: two fields, samples with keys of 5 and 7 bytes,
structures of 48 and 40 bytes.  The block has 48 + 32 + 80 + 48 + 12 = 220
bytes. -/
theorem index_stat_dup_layout_witness :
    (index_stat_dup 48 40 [{ key_size := 5 }, { key_size := 7 }] 2 2).pos = 220 ∧
    index_stat_sizeof 48 40 [{ key_size := 5 }, { key_size := 7 }] 2 2 = 220 ∧
    (index_stat_regions 48 40 [{ key_size := 5 }, { key_size := 7 }] 2 2
        (index_stat_dup 48 40 [{ key_size := 5 }, { key_size := 7 }] 2 2)).Pairwise
      (fun r1 r2 => r1.1 + r1.2 ≤ r2.1) :=
  ⟨((index_stat_dup_layout 48 40 2 [{ key_size := 5 }, { key_size := 7 }] (by decide)
      (by decide)).2 (by decide)).1.trans (by decide),
   by decide,
   ((index_stat_dup_layout 48 40 2 [{ key_size := 5 }, { key_size := 7 }] (by decide)
      (by decide)).2 (by decide)).2.2.2⟩

end Tarantool
